import Mathlib

/-!
# Automatic Bridging Module (ABM): the L2 flow tracking engine

A shallow embedding of `pkgs/auto-bridge/auto_bridge.c` and its two headers.

* Records (`struct l2flowTable`) live in a heap `Ptr → Option l2flowTable`
  (the `l2flow_cache` slab): an address is allocated by `abm_l2flow_add` and
  released by `abm_l2flow_del`.
* The kernel's intrusive `struct list_head` lists are lists of addresses, first
  element first: `list_add(new, head)` links `new` right after the head, so it
  is a cons; `list_del(entry)` unlinks one linkage of `entry`; `list_for_each`
  walks from `head->next` on. Such a list stands for a kernel list as long as
  every node is linked once and no linked node is freed (`list_linked`). The
  module can leave that domain: `__abm_go_dying` and the SEEN case of the hook
  do `list_add` on a node that may be linked already, and the node then points
  to itself (`list_head.of_adds` replays the pointer writes).
* The module is compiled without `VLAN_FILTER` and without `LS104X`.
* Everything the kernel decides (slab allocation, what a netlink send does,
  when a timer fires, the value of `jiffies`) is an input of the operation that
  consults it.
* The spin lock makes every operation atomic; the operations are interleaved
  one at a time. `jiffies` does not wrap.
* The flag `oops` of the state is raised where the module leaves the domain of
  the model: when the port-down walk (a plain `list_for_each`) frees the record
  it stands on and then reads its `next` pointer, and when the retransmit sweep
  walks a pending-acknowledgement list that no longer stands for a kernel list.
  The kernel can fault or spin there; what the model says of the state from
  then on describes no run of the module.
* In the other loops, where the C code would dereference an address that holds
  no record (only a list that links a freed record can offer one), the model
  leaves the state as it is.
-/

namespace ABM

/-! ## Constants of `auto_bridge_private.h` and `include/auto_bridge.h` -/

abbrev Ptr := Nat

def L2FLOW_HASH_TABLE_SIZE : Nat := 1024
def L2FLOW_HASH_BY_MAC_TABLE_SIZE : Nat := 128
def ABM_DEFAULT_MAX_ENTRIES : Nat := 5000

def L2FLOW_FL_NEEDS_UPDATE : Nat := 0x1
def L2FLOW_FL_DEAD : Nat := 0x2
def L2FLOW_FL_WAIT_ACK : Nat := 0x4
def L2FLOW_FL_PENDING_MSG : Nat := 0x8

/-- The `enum l2flow_state` (without its end marker `L2FLOW_STATE_MAX`); the first
constructor is the value 0, which is what `memset` leaves in a new record. -/
inductive l2flow_state where
  | L2FLOW_STATE_SEEN
  | L2FLOW_STATE_CONFIRMED
  | L2FLOW_STATE_LINUX
  | L2FLOW_STATE_FF
  | L2FLOW_STATE_DYING
  deriving DecidableEq, Repr

export l2flow_state (L2FLOW_STATE_SEEN L2FLOW_STATE_CONFIRMED L2FLOW_STATE_LINUX
  L2FLOW_STATE_FF L2FLOW_STATE_DYING)

def L2FLOW_MSG_BASE : Nat := 16
def L2FLOW_MSG_ENTRY : Nat := 17
def L2FLOW_MSG_RESET : Nat := 18
def L2FLOW_MSG_MAX : Nat := 19

def L2FLOW_OFFLOADED : Nat := 0x1
def L2FLOW_DENIED : Nat := 0x2
def L2FLOW_ACK : Nat := 0x4

def L2FLOW_ENTRY_NEW : Nat := 0
def L2FLOW_ENTRY_UPDATE : Nat := 1
def L2FLOW_ENTRY_DEL : Nat := 2
def L2FLOW_ENTRY_MAX : Nat := 3

def L2FLOWA_UNSPEC : Nat := 0
def L2FLOWA_SVLAN_TAG : Nat := 1
def L2FLOWA_CVLAN_TAG : Nat := 2
def L2FLOWA_PPP_S_ID : Nat := 3
def L2FLOWA_IIF_IDX : Nat := 4
def L2FLOWA_OIF_IDX : Nat := 5
def L2FLOWA_IP_SRC : Nat := 6
def L2FLOWA_IP_DST : Nat := 7
def L2FLOWA_IP_PROTO : Nat := 8
def L2FLOWA_SPORT : Nat := 9
def L2FLOWA_DPORT : Nat := 10
def L2FLOWA_MARK : Nat := 11
def L2FLOWA_MAX : Nat := 11

/-! ## Constants of the kernel headers the module uses -/

def ENOENT : Int := 2
def EINVAL : Int := 22
def EAGAIN : Int := 11
def ENOMEM : Int := 12
def ENOMSG : Int := 42
def EMSGSIZE : Int := 90
def ENOTCONN : Int := 107

def NF_ACCEPT : Nat := 1
def NF_BR_FORWARD : Nat := 2
def NF_BR_POST_ROUTING : Nat := 4
def NOTIFY_DONE : Nat := 0

def ETH_P_IP : Nat := 0x0800
def ETH_P_8021Q : Nat := 0x8100
def ETH_P_PPP_SES : Nat := 0x8864
def ETH_P_IPV6 : Nat := 0x86DD
def IPPROTO_TCP : Nat := 6
def IPPROTO_UDP : Nat := 17

/-- Host to network byte order of a 16-bit value, on a little-endian host. -/
def htons (x : Nat) : Nat := (x % 256) * 256 + (x / 256) % 256

/-- The complement `~m` of a flag mask in an `unsigned int`. -/
def bit_not32 (m : Nat) : Nat := 2 ^ 32 - 1 - m

/-! ## Data model -/

/-- A MAC address, `u8 [ETH_ALEN]`. -/
structure eth_addr where
  b0 : Nat
  b1 : Nat
  b2 : Nat
  b3 : Nat
  b4 : Nat
  b5 : Nat
  deriving DecidableEq, Repr

/-- The union `{ u32 all[4]; u32 ip; u32 ip6[4]; }`: four words, `ip` being the first. -/
structure l3_addr where
  w0 : Nat
  w1 : Nat
  w2 : Nat
  w3 : Nat
  deriving DecidableEq, Repr

/-- The flow key, `struct l2flow`. Every key the module handles is built in a buffer cleared
by `memset`, so its padding bytes are zero and two keys have the same bytes exactly when they
have the same fields. -/
structure l2flow where
  saddr : eth_addr
  daddr : eth_addr
  ethertype : Nat
  session_id : Nat
  svlan_tag : Nat
  cvlan_tag : Nat
  l3_saddr : l3_addr
  l3_daddr : l3_addr
  l3_proto : Nat
  l4_sport : Nat
  l4_dport : Nat
  deriving DecidableEq, Repr

/-- The record, `struct l2flowTable`, without its five `list_head` members (the list
memberships are the lists of the state). `timeout_pending` and `timeout_expires` are the
`struct timer_list timeout`: whether the timer is armed, and for when. -/
structure l2flowTable where
  state : l2flow_state
  time_sent : Nat
  flags : Nat
  timeout_pending : Bool
  timeout_expires : Nat
  idev_ifi : Nat
  odev_ifi : Nat
  packet_mark : Nat
  l2flow : l2flow
  deriving DecidableEq, Repr

/-- The fixed part of an `L2FLOW_MSG_ENTRY` message, `struct l2flow_msg`. -/
structure l2flow_msg where
  action : Nat
  flags : Nat
  saddr : eth_addr
  daddr : eth_addr
  ethertype : Nat
  deriving DecidableEq, Repr

/-- The payload of one netlink attribute. -/
inductive nla_data where
  | u8 (v : Nat)
  | u16 (v : Nat)
  | u32 (v : Nat)
  | words (a : l3_addr)
  deriving DecidableEq, Repr

/-- A netlink message of the module: its type, its fixed part (absent in a RESET) and
its attributes in the order they were put. -/
structure nlmsg where
  nlmsg_type : Nat
  hdr : Option l2flow_msg
  attrs : List (Nat × nla_data)
  deriving DecidableEq, Repr

/-- What the kernel does with one attempt to send: the first point at which
`abm_nl_send_l2flow_msg` (or `abm_nl_send_rst_msg`) leaves its straight path. -/
inductive NlOutcome where
  | skb_oom
  | hdr_oom
  | attr_overflow
  | no_listener
  | broadcast (rc : Int)
  deriving DecidableEq, Repr

/-- The kernel functions the module calls and the repository does not contain:
`jhash` over the bytes of a flow key and over the six bytes of a MAC address (each with its
initial value), and the tick rate `HZ`. -/
structure Kernel where
  jhash_l2flow : l2flow → Nat → Nat
  jhash_mac : eth_addr → Nat → Nat
  HZ : Nat

/-- The file-scope variables of `auto_bridge.c`, the slab of records, the clock, a log of
what was handed to the kernel (netlink broadcasts, link-state replays), and `oops`: whether
the module has read a freed node or walked a list that no longer stands for a kernel list (the
kernel can fault or spin there, and what the model says of the state from then on describes
no run of the module). -/
structure State where
  l2flow_table : Nat → List Ptr
  l2flow_table_by_src_mac : Nat → List Ptr
  l2flow_table_by_dst_mac : Nat → List Ptr
  l2flow_list_wait_for_ack : List Ptr
  l2flow_list_msg_to_send : List Ptr
  bridge_list_rtevent : List Nat
  heap : Ptr → Option l2flowTable
  abm_l3_filtering : Nat
  abm_max_entries : Nat
  abm_nb_entries : Nat
  abm_retransmit_time : Nat
  l2flow_timeouts : l2flow_state → Nat
  jiffies : Nat
  nl_out : List (nlmsg × Int)
  rtmsg_out : List Nat
  work_send_msg_queued : Bool
  work_retransmit_delay : Option Nat
  oops : Bool

/-! ## Lists, heap and timers -/

def list_add (p : Ptr) (l : List Ptr) : List Ptr := p :: l

def list_del (p : Ptr) (l : List Ptr) : List Ptr := l.erase p

/-- What a `struct list_head *` of one kernel list can point to: the head of the list, or the
`list_head` member of the record at an address. -/
inductive list_node where
  | head
  | entry (p : Ptr)
  deriving DecidableEq, Repr

/-- The `next` and `prev` pointers of the nodes of one kernel list. -/
structure list_head where
  next : list_node → list_node
  prev : list_node → list_node

/-- The kernel's `INIT_LIST_HEAD`: the head points to itself. (The pointers of a member that
was never linked are not initialised; nothing reads them before a `list_add` has written
them.) -/
def INIT_LIST_HEAD : list_head :=
  { next := fun _ => list_node.head, prev := fun _ => list_node.head }

/-- The kernel's `__list_add(new, prev, next)`, without `CONFIG_DEBUG_LIST`: four pointer
writes, in the order of `include/linux/list.h`. -/
def __list_add (new prev next : list_node) (l : list_head) : list_head :=
  let l1 : list_head := { l with prev := Function.update l.prev next new }
  let l2 : list_head := { l1 with next := Function.update l1.next new next }
  let l3 : list_head := { l2 with prev := Function.update l2.prev new prev }
  { l3 with next := Function.update l3.next prev new }

/-- The kernel's `list_add(new, head)`: `__list_add(new, head, head->next)`. -/
def list_head.list_add (l : list_head) (p : Ptr) : list_head :=
  __list_add (list_node.entry p) list_node.head (l.next list_node.head) l

/-- The pointers that the calls `list_add(p, head)` leave behind when they start from an
empty list and take the addresses of `l` from the last to the first: the kernel list behind a
model list that grew by `list_add` alone. -/
def list_head.of_adds : List Ptr → list_head
  | [] => INIT_LIST_HEAD
  | p :: l => (list_head.of_adds l).list_add p

/-- The node on which `list_for_each(pos, head)` stands in its turn `n`, when no earlier turn
has left the loop: `pos = head->next` at first, `pos = pos->next` after each turn. The loop
ends at the first turn that finds `pos` to be the head. -/
def list_head.pos (l : list_head) : Nat → list_node
  | 0 => l.next list_node.head
  | n + 1 => l.next (l.pos n)

/-- Whether the model list `l` stands for a kernel list: no address is linked twice, and every
linked address holds a record that carries `flag`, the flag that the module sets when it links
a record on that list and clears when it unlinks it. A second `list_add` of a linked node
leaves a node that points to itself; a `list_del` that follows leaves the head pointing to a
node whose pointers are poisoned; a record that is freed while linked leaves a freed node on
the list. -/
def list_linked (flag : Nat) (heap : Ptr → Option l2flowTable) (l : List Ptr) : Bool :=
  decide l.Nodup
    && l.all (fun q =>
      match heap q with
      | some e => decide (e.flags &&& flag ≠ 0)
      | none => false)

/-- Link `p` at the front of bucket `i` of a table of lists. -/
def bucket_add (t : Nat → List Ptr) (i : Nat) (p : Ptr) : Nat → List Ptr :=
  fun j => if j = i then list_add p (t j) else t j

/-- Unlink `p` from the bucket it is in (`list_del` does not name the list head). -/
def bucket_del (t : Nat → List Ptr) (p : Ptr) : Nat → List Ptr :=
  fun j => list_del p (t j)

/-- Store a record at address `p`. -/
def State.put (s : State) (p : Ptr) (e : l2flowTable) : State :=
  { s with heap := fun q => if q = p then some e else s.heap q }

/-- Hand a message to `netlink_broadcast` (nothing when the send stopped before). -/
def State.emit (s : State) (o : Option (nlmsg × Int)) : State :=
  { s with nl_out := s.nl_out ++ o.toList }

def mod_timer (e : l2flowTable) (expires : Nat) : l2flowTable :=
  { e with timeout_pending := true, timeout_expires := expires }

def mod_timer_pending (e : l2flowTable) (expires : Nat) : l2flowTable :=
  if e.timeout_pending then { e with timeout_expires := expires } else e

/-- The record after `del_timer`; its return value is the old `timeout_pending`. -/
def del_timer (e : l2flowTable) : l2flowTable :=
  { e with timeout_pending := false }

def add_timer (e : l2flowTable) : l2flowTable :=
  { e with timeout_pending := true }

/-! ## Hashing and comparison -/

def abm_l2flow_hash (K : Kernel) (l2flowtmp : l2flow) : Nat :=
  (K.jhash_l2flow l2flowtmp 0x12345678 % 2 ^ 32) &&& (L2FLOW_HASH_TABLE_SIZE - 1)

def abm_l2flow_hash_mac (K : Kernel) (src_mac : eth_addr) : Nat :=
  (K.jhash_mac src_mac 0x12345678 % 2 ^ 32) &&& (L2FLOW_HASH_BY_MAC_TABLE_SIZE - 1)

/-- The `memcmp` of two keys: zero exactly when they are equal. Callers only test the
result against zero, so the sign of a non-zero result is not modelled. -/
def abm_l2flow_cmp (flow_a flow_b : l2flow) : Int :=
  if flow_a = flow_b then 0 else 1

def ether_addr_equal (a b : eth_addr) : Bool := decide (a = b)

/-! ## The netlink channel -/

/-- The attributes `abm_nl_send_l2flow_msg` puts after the fixed part, in order. -/
def l2flow_msg_attrs (l3_filtering : Nat) (e : l2flowTable) : List (Nat × nla_data) :=
  [(L2FLOWA_IIF_IDX, nla_data.u32 e.idev_ifi),
   (L2FLOWA_OIF_IDX, nla_data.u32 e.odev_ifi),
   (L2FLOWA_MARK, nla_data.u16 e.packet_mark),
   (L2FLOWA_SVLAN_TAG, nla_data.u16 e.l2flow.svlan_tag),
   (L2FLOWA_CVLAN_TAG, nla_data.u16 e.l2flow.cvlan_tag)]
  ++ (if e.l2flow.ethertype = htons ETH_P_PPP_SES then
        [(L2FLOWA_PPP_S_ID, nla_data.u16 e.l2flow.session_id)] else [])
  ++ (if l3_filtering ≠ 0 then
        (if e.l2flow.ethertype ≠ htons ETH_P_PPP_SES then
          [(L2FLOWA_IP_PROTO, nla_data.u8 e.l2flow.l3_proto)] else [])
        ++ (if e.l2flow.ethertype = htons ETH_P_IP then
              [(L2FLOWA_IP_SRC, nla_data.u32 e.l2flow.l3_saddr.w0),
               (L2FLOWA_IP_DST, nla_data.u32 e.l2flow.l3_daddr.w0)]
            else if e.l2flow.ethertype = htons ETH_P_IPV6 then
              [(L2FLOWA_IP_SRC, nla_data.words e.l2flow.l3_saddr),
               (L2FLOWA_IP_DST, nla_data.words e.l2flow.l3_daddr)]
            else [])
        ++ (if e.l2flow.l3_proto = IPPROTO_UDP ∨ e.l2flow.l3_proto = IPPROTO_TCP then
              [(L2FLOWA_SPORT, nla_data.u16 e.l2flow.l4_sport),
               (L2FLOWA_DPORT, nla_data.u16 e.l2flow.l4_dport)]
            else [])
      else [])

/-- The function `abm_nl_send_l2flow_msg`: its return value, and the message handed to
`netlink_broadcast` together with what the broadcast returned, when it gets that far. -/
def abm_nl_send_l2flow_msg (env : NlOutcome) (l3_filtering : Nat) (action : Nat) (flags : Nat)
    (table_entry : l2flowTable) : Int × Option (nlmsg × Int) :=
  match env with
  | NlOutcome.skb_oom => (-ENOMEM, none)
  | NlOutcome.hdr_oom => (-ENOMEM, none)
  | NlOutcome.attr_overflow => (-EMSGSIZE, none)
  | NlOutcome.no_listener => (-ENOTCONN, none)
  | NlOutcome.broadcast rc =>
    (rc, some ({ nlmsg_type := L2FLOW_MSG_ENTRY,
                 hdr := some { action := action, flags := flags,
                               saddr := table_entry.l2flow.saddr,
                               daddr := table_entry.l2flow.daddr,
                               ethertype := table_entry.l2flow.ethertype },
                 attrs := l2flow_msg_attrs l3_filtering table_entry }, rc))

/-- The function `abm_nl_send_rst_msg`. A RESET has no attribute, so the outcome
`attr_overflow` does not arise for it; it is read as a failed allocation. -/
def abm_nl_send_rst_msg (env : NlOutcome) : Int × Option (nlmsg × Int) :=
  match env with
  | NlOutcome.skb_oom => (-ENOMEM, none)
  | NlOutcome.hdr_oom => (-ENOMEM, none)
  | NlOutcome.attr_overflow => (-ENOMEM, none)
  | NlOutcome.no_listener => (-ENOTCONN, none)
  | NlOutcome.broadcast rc =>
    (rc, some ({ nlmsg_type := L2FLOW_MSG_RESET, hdr := none, attrs := [] }, rc))

/-! ## The indexed table -/

/-- The loop of `abm_l2flow_find` over one bucket. An address without a record cannot be
dereferenced; the walk passes it by. -/
def abm_l2flow_find_in (heap : Ptr → Option l2flowTable) (l2flowtmp : l2flow) :
    List Ptr → Option Ptr
  | [] => none
  | p :: rest =>
    match heap p with
    | some table_entry =>
      if abm_l2flow_cmp table_entry.l2flow l2flowtmp = 0 then some p
      else abm_l2flow_find_in heap l2flowtmp rest
    | none => abm_l2flow_find_in heap l2flowtmp rest

def abm_l2flow_find (K : Kernel) (s : State) (l2flowtmp : l2flow) : Option Ptr :=
  abm_l2flow_find_in s.heap l2flowtmp (s.l2flow_table (abm_l2flow_hash K l2flowtmp))

/-- A record as `memset` and `timer_setup` leave it, holding a copy of the key. -/
def l2flow_entry_zeroed (l2flowtmp : l2flow) : l2flowTable :=
  { state := L2FLOW_STATE_SEEN, time_sent := 0, flags := 0, timeout_pending := false,
    timeout_expires := 0, idev_ifi := 0, odev_ifi := 0, packet_mark := 0, l2flow := l2flowtmp }

/-- The second half of `abm_l2flow_add`: the record at the allocated address `p` is cleared,
given the key, and linked at the front of its three buckets; the counter goes up. -/
def abm_l2flow_add_link (K : Kernel) (p : Ptr) (l2flowtmp : l2flow) (s : State) : State :=
  { s with
    heap := fun q => if q = p then some (l2flow_entry_zeroed l2flowtmp) else s.heap q
    l2flow_table := bucket_add s.l2flow_table (abm_l2flow_hash K l2flowtmp) p
    l2flow_table_by_src_mac :=
      bucket_add s.l2flow_table_by_src_mac (abm_l2flow_hash_mac K l2flowtmp.saddr) p
    l2flow_table_by_dst_mac :=
      bucket_add s.l2flow_table_by_dst_mac (abm_l2flow_hash_mac K l2flowtmp.daddr) p
    abm_nb_entries := (s.abm_nb_entries + 1) % 2 ^ 32 }

/-- The function `abm_l2flow_add`. `alloc` is what `kmem_cache_alloc` returns: an address
not in use, or nothing. -/
def abm_l2flow_add (K : Kernel) (alloc : Option Ptr) (l2flowtmp : l2flow) (s : State) :
    Option Ptr × State :=
  if s.abm_nb_entries ≥ s.abm_max_entries then (none, s)
  else
    match alloc with
    | none => (none, s)
    | some p => (some p, abm_l2flow_add_link K p l2flowtmp s)

/-- The function `abm_l2flow_del`. -/
def abm_l2flow_del (p : Ptr) (s : State) : State :=
  match s.heap p with
  | none => s
  | some table_entry =>
    { s with
      l2flow_table := bucket_del s.l2flow_table p
      l2flow_table_by_src_mac := bucket_del s.l2flow_table_by_src_mac p
      l2flow_table_by_dst_mac := bucket_del s.l2flow_table_by_dst_mac p
      l2flow_list_msg_to_send :=
        if table_entry.flags &&& L2FLOW_FL_PENDING_MSG ≠ 0 then
          list_del p s.l2flow_list_msg_to_send
        else s.l2flow_list_msg_to_send
      l2flow_list_wait_for_ack :=
        if table_entry.flags &&& L2FLOW_FL_WAIT_ACK ≠ 0 then
          list_del p s.l2flow_list_wait_for_ack
        else s.l2flow_list_wait_for_ack
      heap := fun q => if q = p then none else s.heap q
      abm_nb_entries := (s.abm_nb_entries + 2 ^ 32 - 1) % 2 ^ 32 }

/-! ## The state machine -/

/-- The function `__abm_go_dying`. -/
def __abm_go_dying (env : NlOutcome) (p : Ptr) (s : State) : State :=
  match s.heap p with
  | none => s
  | some e =>
    if e.flags &&& L2FLOW_FL_DEAD = 0 then
      if e.flags &&& L2FLOW_FL_PENDING_MSG = 0 ∨ e.state ≠ L2FLOW_STATE_DYING then
        let r := abm_nl_send_l2flow_msg env s.abm_l3_filtering L2FLOW_ENTRY_DEL 0 e
        if r.1 ≠ -ENOTCONN then
          { (s.emit r.2).put p
              (add_timer
                { e with
                  flags := (e.flags ||| L2FLOW_FL_WAIT_ACK) ||| L2FLOW_FL_DEAD
                  state := L2FLOW_STATE_DYING
                  timeout_expires := s.jiffies + s.l2flow_timeouts L2FLOW_STATE_DYING }) with
            l2flow_list_wait_for_ack := list_add p s.l2flow_list_wait_for_ack }
        else
          (s.emit r.2).put p
            (add_timer
              { e with
                flags := e.flags ||| L2FLOW_FL_DEAD
                state := L2FLOW_STATE_DYING
                timeout_expires := s.jiffies + s.l2flow_timeouts L2FLOW_STATE_DYING })
      else
        s.put p
          (add_timer
            { e with
              flags := e.flags ||| L2FLOW_FL_DEAD
              state := L2FLOW_STATE_DYING
              timeout_expires := s.jiffies + s.l2flow_timeouts L2FLOW_STATE_DYING })
    else
      abm_l2flow_del p s

/-- The timer callback `abm_death_by_timeout`. The kernel detaches a timer before it runs
its callback, so the timer is no longer pending when `__abm_go_dying` looks at the record. -/
def abm_death_by_timeout (env : NlOutcome) (p : Ptr) (s : State) : State :=
  match s.heap p with
  | none => s
  | some e => __abm_go_dying env p (s.put p (del_timer e))

/-- The function `abm_l2flow_update`. -/
def abm_l2flow_update (flags : Nat) (p : Ptr) (s : State) : State :=
  match s.heap p with
  | none => s
  | some e =>
    let e1 :=
      if flags &&& L2FLOW_OFFLOADED ≠ 0 then
        del_timer { e with state := L2FLOW_STATE_FF }
      else if flags &&& L2FLOW_DENIED ≠ 0 then
        mod_timer { e with state := L2FLOW_STATE_LINUX }
          (s.jiffies + s.l2flow_timeouts L2FLOW_STATE_LINUX)
      else e
    if e1.flags &&& L2FLOW_FL_WAIT_ACK ≠ 0 then
      { s.put p { e1 with flags := e1.flags &&& bit_not32 L2FLOW_FL_WAIT_ACK } with
        l2flow_list_wait_for_ack := list_del p s.l2flow_list_wait_for_ack }
    else
      s.put p e1

/-- The function `abm_l2flow_msg_handle`: its return value and the new state. -/
def abm_l2flow_msg_handle (K : Kernel) (env : NlOutcome) (action : Nat) (flags : Nat)
    (l2flowtmp : l2flow) (s : State) : Int × State :=
  match abm_l2flow_find K s l2flowtmp with
  | none => (-ENOENT, s)
  | some p =>
    if action = L2FLOW_ENTRY_UPDATE then
      (0, abm_l2flow_update flags p s)
    else if action = L2FLOW_ENTRY_DEL then
      match s.heap p with
      | none => (0, s)
      | some e =>
        let s1 :=
          if (e.flags ||| L2FLOW_FL_DEAD) &&& L2FLOW_FL_WAIT_ACK ≠ 0 then
            { s.put p
                (del_timer
                  { e with
                    flags := (e.flags ||| L2FLOW_FL_DEAD) &&& bit_not32 L2FLOW_FL_WAIT_ACK }) with
              l2flow_list_wait_for_ack := list_del p s.l2flow_list_wait_for_ack }
          else
            s.put p (del_timer { e with flags := e.flags ||| L2FLOW_FL_DEAD })
        if e.timeout_pending = true ∨ e.state = L2FLOW_STATE_FF then
          (0, __abm_go_dying env p s1)
        else (0, s1)
    else (-ENOMSG, s)

/-- What the hook reads of a packet. `l2flow_built` is the key `abm_build_l2flow` leaves in
`l2flow_temp`, or nothing when it returns a negative value (header parsing is outside the
engine). -/
structure sk_buff where
  abm_ff : Bool
  vlan_tag_present : Bool
  h_proto : Nat
  mark : Nat
  l2flow_built : Option l2flow
  deriving DecidableEq, Repr

/-- The post-routing branch of `abm_ebt_hook` for the record found at `p`. -/
def abm_ebt_hook_post_routing (env : NlOutcome) (out_ifindex : Nat) (mark : Nat) (p : Ptr)
    (s : State) : State :=
  match s.heap p with
  | none => s
  | some e0 =>
    let e1 :=
      if out_ifindex ≠ e0.odev_ifi then
        { e0 with flags := e0.flags ||| L2FLOW_FL_NEEDS_UPDATE, odev_ifi := out_ifindex }
      else e0
    let e := { e1 with packet_mark := mark &&& 0xFFFF }
    match e.state with
    | L2FLOW_STATE_SEEN =>
      let r := abm_nl_send_l2flow_msg env s.abm_l3_filtering L2FLOW_ENTRY_NEW 0 e
      if r.1 ≠ -ENOTCONN then
        { (s.emit r.2).put p
            (mod_timer_pending
              { e with
                flags := (e.flags &&& bit_not32 L2FLOW_FL_NEEDS_UPDATE) ||| L2FLOW_FL_WAIT_ACK
                time_sent := s.jiffies
                state := L2FLOW_STATE_CONFIRMED }
              (s.jiffies + s.l2flow_timeouts L2FLOW_STATE_CONFIRMED)) with
          l2flow_list_wait_for_ack := list_add p s.l2flow_list_wait_for_ack }
      else
        (s.emit r.2).put p
          (mod_timer_pending { e with state := L2FLOW_STATE_CONFIRMED }
            (s.jiffies + s.l2flow_timeouts L2FLOW_STATE_CONFIRMED))
    | L2FLOW_STATE_FF =>
      if e.flags &&& L2FLOW_FL_PENDING_MSG = 0 ∧ e.flags &&& L2FLOW_FL_NEEDS_UPDATE ≠ 0 then
        let r := abm_nl_send_l2flow_msg env s.abm_l3_filtering L2FLOW_ENTRY_UPDATE 0 e
        if r.1 ≠ -ENOTCONN then
          if e.flags &&& bit_not32 L2FLOW_FL_NEEDS_UPDATE &&& L2FLOW_FL_WAIT_ACK = 0 then
            { (s.emit r.2).put p
                { e with
                  flags := (e.flags &&& bit_not32 L2FLOW_FL_NEEDS_UPDATE) ||| L2FLOW_FL_WAIT_ACK
                  time_sent := s.jiffies } with
              l2flow_list_wait_for_ack := list_add p s.l2flow_list_wait_for_ack }
          else
            (s.emit r.2).put p
              { e with
                flags := e.flags &&& bit_not32 L2FLOW_FL_NEEDS_UPDATE
                time_sent := s.jiffies }
        else (s.emit r.2).put p e
      else s.put p e
    | L2FLOW_STATE_LINUX =>
      if e.flags &&& L2FLOW_FL_PENDING_MSG = 0 ∧ e.flags &&& L2FLOW_FL_NEEDS_UPDATE ≠ 0 then
        let r := abm_nl_send_l2flow_msg env s.abm_l3_filtering L2FLOW_ENTRY_UPDATE 0 e
        if r.1 ≠ -ENOTCONN then
          if e.flags &&& bit_not32 L2FLOW_FL_NEEDS_UPDATE &&& L2FLOW_FL_WAIT_ACK = 0 then
            { (s.emit r.2).put p
                (mod_timer_pending
                  { e with
                    flags :=
                      (e.flags &&& bit_not32 L2FLOW_FL_NEEDS_UPDATE) ||| L2FLOW_FL_WAIT_ACK
                    time_sent := s.jiffies }
                  (s.jiffies + s.l2flow_timeouts L2FLOW_STATE_LINUX)) with
              l2flow_list_wait_for_ack := list_add p s.l2flow_list_wait_for_ack }
          else
            (s.emit r.2).put p
              (mod_timer_pending
                { e with
                  flags := e.flags &&& bit_not32 L2FLOW_FL_NEEDS_UPDATE
                  time_sent := s.jiffies }
                (s.jiffies + s.l2flow_timeouts L2FLOW_STATE_LINUX))
        else
          (s.emit r.2).put p
            (mod_timer_pending e (s.jiffies + s.l2flow_timeouts L2FLOW_STATE_LINUX))
      else
        s.put p (mod_timer_pending e (s.jiffies + s.l2flow_timeouts L2FLOW_STATE_LINUX))
    | L2FLOW_STATE_CONFIRMED =>
      s.put p (mod_timer_pending e (s.jiffies + s.l2flow_timeouts L2FLOW_STATE_CONFIRMED))
    | L2FLOW_STATE_DYING => s.put p e

/-- The forward branch of `abm_ebt_hook` for the key built from the packet. -/
def abm_ebt_hook_forward (K : Kernel) (in_ifindex : Nat) (alloc : Option Ptr)
    (l2flow_temp : l2flow) (s : State) : State :=
  match abm_l2flow_find K s l2flow_temp with
  | none =>
    match abm_l2flow_add K alloc l2flow_temp s with
    | (none, s1) => s1
    | (some p, s1) =>
      match s1.heap p with
      | none => s1
      | some e =>
        s1.put p
          (mod_timer { e with state := L2FLOW_STATE_SEEN, idev_ifi := in_ifindex }
            (s1.jiffies + s1.l2flow_timeouts L2FLOW_STATE_SEEN))
  | some p =>
    match s.heap p with
    | none => s
    | some e =>
      if in_ifindex ≠ e.idev_ifi then
        s.put p { e with flags := e.flags ||| L2FLOW_FL_NEEDS_UPDATE, idev_ifi := in_ifindex }
      else s

/-- The function `abm_ebt_hook`: the verdict it returns and the new state. -/
def abm_ebt_hook (K : Kernel) (hooknum : Nat) (skb : sk_buff) (in_ifindex out_ifindex : Nat)
    (alloc : Option Ptr) (env : NlOutcome) (s : State) : Nat × State :=
  let ethertype := if skb.vlan_tag_present then htons ETH_P_8021Q else skb.h_proto
  if skb.abm_ff = false then (NF_ACCEPT, s)
  else if ethertype ≠ htons ETH_P_IP ∧ ethertype ≠ htons ETH_P_IPV6
      ∧ ethertype ≠ htons ETH_P_PPP_SES ∧ ethertype ≠ htons ETH_P_8021Q then (NF_ACCEPT, s)
  else
    match skb.l2flow_built with
    | none => (NF_ACCEPT, s)
    | some l2flow_temp =>
      if hooknum = NF_BR_FORWARD then
        (NF_ACCEPT, abm_ebt_hook_forward K in_ifindex alloc l2flow_temp s)
      else if hooknum = NF_BR_POST_ROUTING then
        match abm_l2flow_find K s l2flow_temp with
        | none => (NF_ACCEPT, s)
        | some p => (NF_ACCEPT, abm_ebt_hook_post_routing env out_ifindex skb.mark p s)
      else (NF_ACCEPT, s)

/-! ## Topology events -/

/-- The events of the bridge notifier chain that `abm_br_event` looks at: a port going
down (with the `ifindex` of the device), a forwarding-database update (MAC address, `ifindex`
of the reporting device, bridge device handle or 0), and any other event. -/
inductive brevent where
  | BREVENT_PORT_DOWN (ifindex : Nat)
  | BREVENT_FDB_UPDATE (mac_addr : eth_addr) (ifindex : Nat) (brdev : Nat)
  | BREVENT_OTHER
  deriving DecidableEq, Repr

/-- The body of the port-down loop of `abm_br_event` for one linked record. The local
`work_to_do` is read once, after the loops, to call `queue_work`; the queued mark is set
where `work_to_do = 1` is written. -/
def abm_br_event_port_down_entry (env : NlOutcome) (ifindex : Nat) (p : Ptr) (s : State) :
    State :=
  match s.heap p with
  | none => s
  | some e =>
    if e.state ≠ L2FLOW_STATE_DYING ∧ (e.idev_ifi = ifindex ∨ e.odev_ifi = ifindex) then
      let s1 :=
        if e.flags &&& L2FLOW_FL_PENDING_MSG = 0 then
          { s.put p
              (del_timer
                { e with
                  state := L2FLOW_STATE_DYING
                  flags := e.flags ||| L2FLOW_FL_PENDING_MSG }) with
            l2flow_list_msg_to_send := list_add p s.l2flow_list_msg_to_send
            work_send_msg_queued := true }
        else
          s.put p (del_timer { e with state := L2FLOW_STATE_DYING })
      if e.timeout_pending = true ∨ e.state = L2FLOW_STATE_FF then
        __abm_go_dying env p s1
      else s1
    else s

/-- One turn of the `list_for_each` of the port-down branch of `abm_br_event`. The loop is
not the `_safe` one: when the body has freed the record it stands on (`__abm_go_dying` on a
record that carries DEAD), `entry = entry->next` reads the freed node. The walk has no
continuation then: the model stops it there and raises `oops`, and no later turn of the
event does anything. -/
def abm_br_event_port_down_step (env : NlOutcome) (ifindex : Nat) (p : Ptr) (s : State) :
    State :=
  if s.oops = true then s
  else
    if (s.heap p).isSome = true
        ∧ ((abm_br_event_port_down_entry env ifindex p s).heap p).isNone = true then
      { abm_br_event_port_down_entry env ifindex p s with oops := true }
    else abm_br_event_port_down_entry env ifindex p s

/-- The body of the forwarding-database loop of `abm_br_event` for one record of the
destination-MAC bucket. -/
def abm_br_event_fdb_update_entry (mac_addr : eth_addr) (ifindex : Nat) (p : Ptr) (s : State) :
    State :=
  match s.heap p with
  | none => s
  | some e =>
    if ether_addr_equal mac_addr e.l2flow.daddr = true ∧ ifindex ≠ e.odev_ifi
        ∧ e.state ≠ L2FLOW_STATE_DYING then
      if e.flags &&& L2FLOW_FL_PENDING_MSG = 0 then
        { s.put p { e with odev_ifi := ifindex, flags := e.flags ||| L2FLOW_FL_PENDING_MSG } with
          l2flow_list_msg_to_send := list_add p s.l2flow_list_msg_to_send
          work_send_msg_queued := true }
      else
        s.put p { e with odev_ifi := ifindex }
    else s

/-- The function `add_brevent`; `alloc_ok` tells whether `kmem_cache_alloc` succeeds. -/
def add_brevent (alloc_ok : Bool) (brdev : Nat) (s : State) : State :=
  if alloc_ok then { s with bridge_list_rtevent := brdev :: s.bridge_list_rtevent } else s

/-- The function `abm_br_event`. `env` tells, for each record, what a send for it would meet.
The port-down branch walks each primary bucket with `list_for_each`; its body links nothing in
the bucket, and a body that unlinks the record it stands on ends the walk
(`abm_br_event_port_down_step`), so the bucket is as it was when its walk started for as long
as the walk goes on. The forwarding-database branch changes no bucket. -/
def abm_br_event (K : Kernel) (env : Ptr → NlOutcome) (alloc_ok : Bool) (event : brevent)
    (s : State) : State :=
  match event with
  | brevent.BREVENT_PORT_DOWN ifindex =>
    (List.range L2FLOW_HASH_TABLE_SIZE).foldl
      (fun s i =>
        (s.l2flow_table i).foldl (fun s p => abm_br_event_port_down_step (env p) ifindex p s) s)
      s
  | brevent.BREVENT_FDB_UPDATE mac_addr ifindex brdev =>
    let s1 :=
      (s.l2flow_table_by_dst_mac (abm_l2flow_hash_mac K mac_addr)).foldl
        (fun s p => abm_br_event_fdb_update_entry mac_addr ifindex p s) s
    if brdev ≠ 0 then
      { add_brevent alloc_ok brdev s1 with work_send_msg_queued := true }
    else s1
  | brevent.BREVENT_OTHER => s

/-- The function `abm_fdb_can_expire`. -/
def abm_fdb_can_expire (K : Kernel) (s : State) (mac_addr : eth_addr) (ifindex : Nat) : Nat :=
  if (s.l2flow_table_by_src_mac (abm_l2flow_hash_mac K mac_addr)).any
      (fun p =>
        match s.heap p with
        | none => false
        | some e =>
          ether_addr_equal mac_addr e.l2flow.saddr && decide (ifindex = e.idev_ifi)
            && decide (e.state = L2FLOW_STATE_FF)) then 0
  else 1

/-! ## The deferred work -/

/-- The action code the two workers derive from the state of a record. -/
def action_of_state (st : l2flow_state) : Nat :=
  match st with
  | L2FLOW_STATE_SEEN => L2FLOW_ENTRY_NEW
  | L2FLOW_STATE_CONFIRMED => L2FLOW_ENTRY_NEW
  | L2FLOW_STATE_LINUX => L2FLOW_ENTRY_UPDATE
  | L2FLOW_STATE_FF => L2FLOW_ENTRY_UPDATE
  | L2FLOW_STATE_DYING => L2FLOW_ENTRY_DEL

/-- The body of the first loop of `abm_do_work_send_msg` for one record. -/
def abm_do_work_send_msg_entry (env : NlOutcome) (p : Ptr) (s : State) : State :=
  match s.heap p with
  | none => s
  | some e =>
    let r := abm_nl_send_l2flow_msg env s.abm_l3_filtering (action_of_state e.state) 0 e
    if r.1 ≠ -ENOTCONN then
      if e.flags &&& bit_not32 L2FLOW_FL_PENDING_MSG &&& bit_not32 L2FLOW_FL_NEEDS_UPDATE
          &&& L2FLOW_FL_WAIT_ACK = 0 then
        { (s.emit r.2).put p
            { e with
              flags :=
                (e.flags &&& bit_not32 L2FLOW_FL_PENDING_MSG &&& bit_not32 L2FLOW_FL_NEEDS_UPDATE)
                  ||| L2FLOW_FL_WAIT_ACK
              time_sent := s.jiffies } with
          l2flow_list_msg_to_send := list_del p s.l2flow_list_msg_to_send
          l2flow_list_wait_for_ack := list_add p s.l2flow_list_wait_for_ack }
      else
        { (s.emit r.2).put p
            { e with
              flags :=
                e.flags &&& bit_not32 L2FLOW_FL_PENDING_MSG &&& bit_not32 L2FLOW_FL_NEEDS_UPDATE
              time_sent := s.jiffies } with
          l2flow_list_msg_to_send := list_del p s.l2flow_list_msg_to_send }
    else s.emit r.2

/-- The first loop of `abm_do_work_send_msg` (`list_for_each_safe`): the record at position
`i` of the list meets `env i`. -/
def abm_do_work_send_msg_loop (env : Nat → NlOutcome) : List Ptr → State → State
  | [], s => s
  | p :: rest, s =>
    abm_do_work_send_msg_loop (fun n => env (n + 1)) rest
      (abm_do_work_send_msg_entry (env 0) p s)

/-- The function `abm_do_work_send_msg`; `has_listeners` is what the first
`netlink_has_listeners` returns. The work is no longer queued once it runs. The second loop
replays every queued link-state event and empties `bridge_list_rtevent`. -/
def abm_do_work_send_msg (has_listeners : Bool) (env : Nat → NlOutcome) (s : State) : State :=
  let s0 := { s with work_send_msg_queued := false }
  if has_listeners = false then s0
  else
    let s1 := abm_do_work_send_msg_loop env s0.l2flow_list_msg_to_send s0
    { s1 with
      rtmsg_out := s1.rtmsg_out ++ s1.bridge_list_rtevent.filter (fun brdev => brdev ≠ 0)
      bridge_list_rtevent := [] }

/-- The body of the loop of `abm_do_work_retransmit` for the record at `p`: the state after
the turn, and whether the loop goes on to `pos->next` (`false` is the `goto resched`). -/
def abm_do_work_retransmit_entry (env : NlOutcome) (p : Ptr) (s : State) : State × Bool :=
  match s.heap p with
  | none => (s, true)
  | some e =>
    if e.time_sent + s.abm_retransmit_time < s.jiffies then
      let r := abm_nl_send_l2flow_msg env s.abm_l3_filtering (action_of_state e.state) 0 e
      if r.1 = 0 then ((s.emit r.2).put p { e with time_sent := s.jiffies }, true)
      else (s.emit r.2, false)
    else (s, true)

/-- The loop of `abm_do_work_retransmit` (`list_for_each`) over a list that stands for a kernel
list (`list_linked`; `abm_do_work_retransmit` runs it on no other): the record at position `i`
of the list meets `env i`; a failed send ends the sweep. Each turn is
`abm_do_work_retransmit_entry`, written out. -/
def abm_do_work_retransmit_loop (env : Nat → NlOutcome) : List Ptr → State → State
  | [], s => s
  | p :: rest, s =>
    match s.heap p with
    | none => abm_do_work_retransmit_loop (fun n => env (n + 1)) rest s
    | some e =>
      if e.time_sent + s.abm_retransmit_time < s.jiffies then
        let r := abm_nl_send_l2flow_msg (env 0) s.abm_l3_filtering (action_of_state e.state) 0 e
        if r.1 = 0 then
          abm_do_work_retransmit_loop (fun n => env (n + 1)) rest
            ((s.emit r.2).put p { e with time_sent := s.jiffies })
        else s.emit r.2
      else abm_do_work_retransmit_loop (fun n => env (n + 1)) rest s

/-- The function `abm_do_work_retransmit`. When the walk takes place over a list that no
longer stands for a kernel list (`list_linked`), what `list_for_each` does depends on pointers
that the model list does not hold (a node that points to itself, a poisoned or a freed node):
the model raises `oops` and says nothing more of that sweep. -/
def abm_do_work_retransmit (has_listeners : Bool) (env : Nat → NlOutcome) (s : State) : State :=
  if s.l2flow_list_wait_for_ack ≠ [] ∧ has_listeners = true
      ∧ list_linked L2FLOW_FL_WAIT_ACK s.heap s.l2flow_list_wait_for_ack = false then
    { s with oops := true }
  else
    let s1 :=
      if s.l2flow_list_wait_for_ack = [] then s
      else if has_listeners = false then s
      else abm_do_work_retransmit_loop env s.l2flow_list_wait_for_ack s
    { s1 with work_retransmit_delay := some s1.abm_retransmit_time }

/-! ## Flush and tunables -/

/-- The body of the loop of `abm_l2flow_table_flush` for one linked record. -/
def abm_l2flow_table_flush_entry (env : NlOutcome) (p : Ptr) (s : State) : State :=
  match s.heap p with
  | none => s
  | some e =>
    let s1 := s.put p (del_timer { e with flags := e.flags ||| L2FLOW_FL_DEAD })
    if e.timeout_pending = true ∨ e.state = L2FLOW_STATE_FF then
      __abm_go_dying env p s1
    else s1

/-- The function `abm_l2flow_table_flush`. The loop over a bucket (`list_for_each_safe`)
walks the bucket as it is when the loop starts. -/
def abm_l2flow_table_flush (env : Ptr → NlOutcome) (s : State) : State :=
  (List.range L2FLOW_HASH_TABLE_SIZE).foldl
    (fun s i =>
      (s.l2flow_table i).foldl (fun s p => abm_l2flow_table_flush_entry (env p) p s) s)
    s

/-- The handler `abm_sysctl_l3_filtering`: `write` and `val` are the access and the value
`proc_dointvec` stores; `env` serves the flush, `env_rst` the RESET. -/
def abm_sysctl_l3_filtering (write : Bool) (val : Nat) (env : Ptr → NlOutcome)
    (env_rst : NlOutcome) (s : State) : State :=
  if write = true ∧ val ≠ s.abm_l3_filtering then
    let s1 :=
      if (s.abm_l3_filtering = 0 ∧ val ≠ 0) ∨ (s.abm_l3_filtering ≠ 0 ∧ val = 0) then
        (abm_l2flow_table_flush env s).emit (abm_nl_send_rst_msg env_rst).2
      else s
    { s1 with abm_l3_filtering := if val ≠ 0 then 1 else 0 }
  else s

/-- The state `abm_init` leaves: empty lists, default tunables, the retransmit work
scheduled; `jiffies0` is the time of loading. -/
def abm_init (K : Kernel) (jiffies0 : Nat) : State :=
  { l2flow_table := fun _ => []
    l2flow_table_by_src_mac := fun _ => []
    l2flow_table_by_dst_mac := fun _ => []
    l2flow_list_wait_for_ack := []
    l2flow_list_msg_to_send := []
    bridge_list_rtevent := []
    heap := fun _ => none
    abm_l3_filtering := 0
    abm_max_entries := ABM_DEFAULT_MAX_ENTRIES
    abm_nb_entries := 0
    abm_retransmit_time := 2 * K.HZ
    l2flow_timeouts := fun st =>
      match st with
      | L2FLOW_STATE_SEEN => 10 * K.HZ
      | L2FLOW_STATE_CONFIRMED => 2 * 60 * K.HZ
      | L2FLOW_STATE_LINUX => 10 * K.HZ
      | L2FLOW_STATE_FF => 0
      | L2FLOW_STATE_DYING => 2 * 60 * K.HZ
    jiffies := jiffies0
    nl_out := []
    rtmsg_out := []
    work_send_msg_queued := false
    work_retransmit_delay := some (2 * K.HZ)
    oops := false }

/-! ## The engine as a transition system -/

/-- One operation of the engine, with everything the kernel contributes to it. -/
inductive Op where
  | ebt_hook (hooknum : Nat) (skb : sk_buff) (in_ifindex out_ifindex : Nat)
      (alloc : Option Ptr) (env : NlOutcome)
  | msg_handle (env : NlOutcome) (action : Nat) (flags : Nat) (l2flowtmp : l2flow)
  | death_by_timeout (env : NlOutcome) (p : Ptr)
  | br_event (env : Ptr → NlOutcome) (alloc_ok : Bool) (event : brevent)
  | do_work_send_msg (has_listeners : Bool) (env : Nat → NlOutcome)
  | do_work_retransmit (has_listeners : Bool) (env : Nat → NlOutcome)
  | table_flush (env : Ptr → NlOutcome)
  | sysctl_l3_filtering (write : Bool) (val : Nat) (env : Ptr → NlOutcome) (env_rst : NlOutcome)
  | sysctl_max_entries (val : Nat)
  | sysctl_timeout (st : l2flow_state) (val : Nat)
  | sysctl_retransmit_delay (val : Nat)
  | tick (n : Nat)

/-- The state after an operation. -/
def Op.apply (K : Kernel) (op : Op) (s : State) : State :=
  match op with
  | Op.ebt_hook hooknum skb in_ifindex out_ifindex alloc env =>
    (abm_ebt_hook K hooknum skb in_ifindex out_ifindex alloc env s).2
  | Op.msg_handle env action flags l2flowtmp =>
    (abm_l2flow_msg_handle K env action flags l2flowtmp s).2
  | Op.death_by_timeout env p => abm_death_by_timeout env p s
  | Op.br_event env alloc_ok event => abm_br_event K env alloc_ok event s
  | Op.do_work_send_msg has_listeners env => abm_do_work_send_msg has_listeners env s
  | Op.do_work_retransmit has_listeners env => abm_do_work_retransmit has_listeners env s
  | Op.table_flush env => abm_l2flow_table_flush env s
  | Op.sysctl_l3_filtering write val env env_rst =>
    abm_sysctl_l3_filtering write val env env_rst s
  | Op.sysctl_max_entries val => { s with abm_max_entries := val % 2 ^ 32 }
  | Op.sysctl_timeout st val =>
    if st = L2FLOW_STATE_FF then s
    else { s with l2flow_timeouts := fun x => if x = st then val else s.l2flow_timeouts x }
  | Op.sysctl_retransmit_delay val => { s with abm_retransmit_time := val }
  | Op.tick n => { s with jiffies := s.jiffies + n }

/-- What the kernel guarantees about the inputs of an operation: the slab hands out an
address that is not in use, and a timer callback runs only for the armed timer of a live
record, not before its expiry time. -/
def Op.valid (op : Op) (s : State) : Prop :=
  match op with
  | Op.ebt_hook _ _ _ _ (some p) _ => s.heap p = none
  | Op.death_by_timeout _ p =>
    ∃ e, s.heap p = some e ∧ e.timeout_pending = true ∧ e.timeout_expires ≤ s.jiffies
  | _ => True

/-- The states the engine can be in: what `abm_init` leaves, and what an operation makes
of such a state. -/
inductive Reachable (K : Kernel) : State → Prop where
  | init (jiffies0 : Nat) : Reachable K (abm_init K jiffies0)
  | step (op : Op) (s : State) : Reachable K s → op.valid s → Reachable K (op.apply K s)

/-! ## Invariants of the indexed table -/

/-- The number of records linked in the primary table. -/
def resident_count (s : State) : Nat :=
  Finset.sum (Finset.range L2FLOW_HASH_TABLE_SIZE) (fun i => (s.l2flow_table i).length)

/-- A table of lists `t` indexes the live records by `h` of their key: what is linked in
bucket `i` is a live record with `h key = i`, every live record is linked in the bucket of its
key, and no bucket links an address twice. -/
def Indexed (heap : Ptr → Option l2flowTable) (t : Nat → List Ptr) (h : l2flow → Nat) : Prop :=
  (∀ i p, p ∈ t i → ∃ e, heap p = some e ∧ h e.l2flow = i)
  ∧ (∀ p e, heap p = some e → p ∈ t (h e.l2flow))
  ∧ ∀ i, (t i).Nodup

/-- The invariant of the three indices, the keys and the counter. -/
structure IndexInv (K : Kernel) (s : State) : Prop where
  prim : Indexed s.heap s.l2flow_table (abm_l2flow_hash K)
  src : Indexed s.heap s.l2flow_table_by_src_mac (fun k => abm_l2flow_hash_mac K k.saddr)
  dst : Indexed s.heap s.l2flow_table_by_dst_mac (fun k => abm_l2flow_hash_mac K k.daddr)
  key_unique : ∀ p q e e', s.heap p = some e → s.heap q = some e' → e.l2flow = e'.l2flow → p = q
  nb_eq : s.abm_nb_entries = resident_count s
  nb_lt : s.abm_nb_entries < 2 ^ 32
  max_lt : s.abm_max_entries < 2 ^ 32

/-- The state `s'` has the indices, the counter, the capacity and the keys of `s`. -/
structure SameIdx (s s' : State) : Prop where
  prim : s'.l2flow_table = s.l2flow_table
  src : s'.l2flow_table_by_src_mac = s.l2flow_table_by_src_mac
  dst : s'.l2flow_table_by_dst_mac = s.l2flow_table_by_dst_mac
  keys : ∀ q, (s'.heap q).map (fun e => e.l2flow) = (s.heap q).map (fun e => e.l2flow)
  nb : s'.abm_nb_entries = s.abm_nb_entries
  max : s'.abm_max_entries = s.abm_max_entries

/-- Every record of `s'` is a record of `s` with the same key, every bucket of the primary
table of `s'` is a sublist of the one of `s`, and the capacity is the same: nothing was
created between `s` and `s'`. -/
structure Shrinks (s s' : State) : Prop where
  keys : ∀ p e', s'.heap p = some e' → ∃ e, s.heap p = some e ∧ e'.l2flow = e.l2flow
  prim : ∀ i, (s'.l2flow_table i).Sublist (s.l2flow_table i)
  max : s'.abm_max_entries = s.abm_max_entries

/-- The step from `s` to `s'` keeps the invariant of the indices and creates nothing. -/
structure Good (K : Kernel) (s s' : State) : Prop where
  inv : IndexInv K s → IndexInv K s'
  shr : Shrinks s s'

/-- The step from `s` to `s'` creates one record, at the unused address `p`, with the key `k`
that no record of `s` has, below capacity, and links it at the front of its three buckets;
nothing else of the indices changes. -/
structure AddsOne (K : Kernel) (s s' : State) (p : Ptr) (k : l2flow) (e0 : l2flowTable) :
    Prop where
  free : s.heap p = none
  room : s.abm_nb_entries < s.abm_max_entries
  absent : abm_l2flow_find K s k = none
  key : e0.l2flow = k
  heap : s'.heap = fun q => if q = p then some e0 else s.heap q
  prim : s'.l2flow_table = bucket_add s.l2flow_table (abm_l2flow_hash K k) p
  src : s'.l2flow_table_by_src_mac
    = bucket_add s.l2flow_table_by_src_mac (abm_l2flow_hash_mac K k.saddr) p
  dst : s'.l2flow_table_by_dst_mac
    = bucket_add s.l2flow_table_by_dst_mac (abm_l2flow_hash_mac K k.daddr) p
  nb : s'.abm_nb_entries = (s.abm_nb_entries + 1) % 2 ^ 32
  max : s'.abm_max_entries = s.abm_max_entries

/-! ## Concrete data for the worked examples -/

/-- A kernel with a simple hash, the tick rate 100. -/
def ex_K : Kernel :=
  { jhash_l2flow := fun k _ => k.saddr.b5 + 7 * k.daddr.b5 + k.ethertype
    jhash_mac := fun m _ => m.b5
    HZ := 100 }

def ex_mac (n : Nat) : eth_addr := { b0 := 0, b1 := 0, b2 := 0, b3 := 0, b4 := 0, b5 := n }

def ex_l3_zero : l3_addr := { w0 := 0, w1 := 0, w2 := 0, w3 := 0 }

/-- An IPv4 flow from MAC `src` to MAC `dst`, Layer-3 filtering off. -/
def ex_key (src dst : Nat) : l2flow :=
  { saddr := ex_mac src, daddr := ex_mac dst, ethertype := htons ETH_P_IP, session_id := 0,
    svlan_tag := 0, cvlan_tag := 0, l3_saddr := ex_l3_zero, l3_daddr := ex_l3_zero,
    l3_proto := 0, l4_sport := 0, l4_dport := 0 }

/-- An untagged IPv4 packet of the flow `ex_key src dst`, a fast-forward candidate. -/
def ex_skb (src dst : Nat) : sk_buff :=
  { abm_ff := true, vlan_tag_present := false, h_proto := htons ETH_P_IP, mark := 0,
    l2flow_built := some (ex_key src dst) }

/-- A send that reaches a listener. -/
def ex_sent : NlOutcome := NlOutcome.broadcast 0

/-- The forward hook sees a packet of flow 1 → 2 entering by interface 3. -/
def ex_op_forward : Op := Op.ebt_hook NF_BR_FORWARD (ex_skb 1 2) 3 0 (some 0) ex_sent

/-- The forward hook sees a packet of flow 5 → 6 entering by interface 3. -/
def ex_op_forward2 : Op := Op.ebt_hook NF_BR_FORWARD (ex_skb 5 6) 3 0 (some 1) ex_sent

/-- The post-routing hook sees a packet of flow 1 → 2 leaving by interface 4, a listener
being there. -/
def ex_op_post : Op := Op.ebt_hook NF_BR_POST_ROUTING (ex_skb 1 2) 3 4 none ex_sent

/-- The state after loading at time 1000. -/
def ex_s0 : State := abm_init ex_K 1000

/-- One flow seen on the forward path. -/
def ex_s1 : State := ex_op_forward.apply ex_K ex_s0

/-- Two flows seen on the forward path. -/
def ex_s2 : State := ex_op_forward2.apply ex_K ex_s1

/-! ## Vocabulary of the claims -/

/-- The ethertype the hook works with. -/
def skb_ethertype (skb : sk_buff) : Nat :=
  if skb.vlan_tag_present then htons ETH_P_8021Q else skb.h_proto

/-- The packet passes the gates of `abm_ebt_hook` and yields the key `k`: it is a
fast-forward candidate, its ethertype is one of the four tracked ones, and
`abm_build_l2flow` succeeds with `k`. -/
def trackable (skb : sk_buff) (k : l2flow) : Prop :=
  skb.abm_ff = true
  ∧ (skb_ethertype skb = htons ETH_P_IP ∨ skb_ethertype skb = htons ETH_P_IPV6
      ∨ skb_ethertype skb = htons ETH_P_PPP_SES ∨ skb_ethertype skb = htons ETH_P_8021Q)
  ∧ skb.l2flow_built = some k

instance (skb : sk_buff) (k : l2flow) : Decidable (trackable skb k) := by
  unfold trackable
  exact inferInstance

/-- One observation on the forward path: the packet, the key it yields, the interface it
came in by, and the address the slab would hand out for it. -/
structure fwd_obs where
  skb : sk_buff
  key : l2flow
  in_ifindex : Nat
  alloc : Ptr

/-- The forward hook run on a list of observations, in order. -/
def forward_all (K : Kernel) (obs : List fwd_obs) (s : State) : State :=
  obs.foldl
    (fun s x =>
      (abm_ebt_hook K NF_BR_FORWARD x.skb x.in_ifindex 0 (some x.alloc) NlOutcome.no_listener s).2)
    s

/-- The states reached from a reachable state with an empty table by operations none of
which lowers the capacity. -/
inductive ReachableCap (K : Kernel) : State → Prop where
  | start (s : State) : Reachable K s → (∀ p, s.heap p = none) → ReachableCap K s
  | step (op : Op) (s : State) : ReachableCap K s → op.valid s →
      s.abm_max_entries ≤ (op.apply K s).abm_max_entries → ReachableCap K (op.apply K s)

/-- The three observations 1 → 2, 3 → 4, 5 → 6 of the capacity example. -/
def ex_obs : List fwd_obs :=
  [{ skb := ex_skb 1 2, key := ex_key 1 2, in_ifindex := 3, alloc := 0 },
   { skb := ex_skb 3 4, key := ex_key 3 4, in_ifindex := 3, alloc := 1 },
   { skb := ex_skb 5 6, key := ex_key 5 6, in_ifindex := 3, alloc := 2 }]

/-- The empty table with capacity 2. -/
def ex_s0_cap2 : State := (Op.sysctl_max_entries 2).apply ex_K ex_s0

/-- The timer discipline of one record: its timer is armed unless it is in state FF, and it
carries DEAD only in state DYING, FF or LINUX. -/
def RecOK (e : l2flowTable) : Prop :=
  (e.timeout_pending = true ∨ e.state = L2FLOW_STATE_FF)
  ∧ (e.flags &&& L2FLOW_FL_DEAD ≠ 0 →
      e.state = L2FLOW_STATE_DYING ∨ e.state = L2FLOW_STATE_FF ∨ e.state = L2FLOW_STATE_LINUX)

/-- Every resident record keeps the timer discipline. -/
def TimerInv (s : State) : Prop := ∀ p e, s.heap p = some e → RecOK e

/-- The record `e'` is a later version of `e` that keeps the timer discipline; when `e` is
DEAD, `e'` is DEAD in the same state; when `e` is not DEAD and `e'` is, `e'` is DYING. -/
def RecEv (e e' : l2flowTable) : Prop :=
  (RecOK e → RecOK e')
  ∧ (RecOK e → e.flags &&& L2FLOW_FL_DEAD ≠ 0 →
      e'.flags &&& L2FLOW_FL_DEAD ≠ 0 ∧ e'.state = e.state)
  ∧ (RecOK e → e.flags &&& L2FLOW_FL_DEAD = 0 → e'.flags &&& L2FLOW_FL_DEAD ≠ 0 →
      e'.state = L2FLOW_STATE_DYING)

/-- Between `s` and `s'` the heap changed at most at `p`, where it now holds `r`. -/
def HeapAt (s s' : State) (p : Ptr) (r : Option l2flowTable) : Prop :=
  s'.heap = fun q => if q = p then r else s.heap q

/-- Every record of `s'` is a later version, in the sense of `RecEv`, of the record of `s` at
the same address: nothing was created. -/
def Evolves (s s' : State) : Prop :=
  ∀ p e', s'.heap p = some e' → ∃ e, s.heap p = some e ∧ RecEv e e'

/-- The state a control UPDATE with feedback `flags` moves a record to: FF when OFFLOADED is
set, LINUX when DENIED is set and OFFLOADED is not. -/
def UpdatesTo (flags : Nat) (st : l2flow_state) : Prop :=
  (flags &&& L2FLOW_OFFLOADED ≠ 0 ∧ st = L2FLOW_STATE_FF)
  ∨ (flags &&& L2FLOW_OFFLOADED = 0 ∧ flags &&& L2FLOW_DENIED ≠ 0 ∧ st = L2FLOW_STATE_LINUX)

/-- Flow 1 → 2 seen on the forward path, then on the post-routing path with a listener:
CONFIRMED, waiting for the acknowledgement. -/
def ex_s_confirmed : State := ex_op_post.apply ex_K ex_s1

/-- Much later the timer of the CONFIRMED record fires, a listener being there: the record
goes dying and its DEL is sent. -/
def ex_s_confirmed_dying : State :=
  (Op.death_by_timeout ex_sent 0).apply ex_K ((Op.tick 200000).apply ex_K ex_s_confirmed)

/-- The agent then answers with an UPDATE carrying no feedback flag. -/
def ex_s_acked : State :=
  (Op.msg_handle ex_sent L2FLOW_ENTRY_UPDATE 0 (ex_key 1 2)).apply ex_K ex_s_confirmed_dying

/-- Instead of an answer, the timer of the dying record fires again: the record is
deleted. -/
def ex_s_deleted : State :=
  (Op.death_by_timeout ex_sent 0).apply ex_K
    ((Op.tick 200000).apply ex_K ex_s_confirmed_dying)

/-- The timer of the SEEN record of flow 1 → 2 fires, a listener being there. -/
def ex_s_seen_dying : State :=
  (Op.death_by_timeout ex_sent 0).apply ex_K ((Op.tick 200000).apply ex_K ex_s1)

/-- The agent answers the DEL of the dying record with UPDATE and OFFLOADED. -/
def ex_op_offloaded : Op :=
  Op.msg_handle ex_sent L2FLOW_ENTRY_UPDATE L2FLOW_OFFLOADED (ex_key 1 2)

def ex_s_dead_ff : State := ex_op_offloaded.apply ex_K ex_s_seen_dying

/-- The record a first forward observation of key `k` by interface `in_ifindex` creates at
time `jiffies` with SEEN timeout `t`. -/
def l2flow_entry_seen (k : l2flow) (in_ifindex jiffies t : Nat) : l2flowTable :=
  { state := L2FLOW_STATE_SEEN, time_sent := 0, flags := 0, timeout_pending := true,
    timeout_expires := jiffies + t, idev_ifi := in_ifindex, odev_ifi := 0, packet_mark := 0,
    l2flow := k }

/-- The post-routing hook sees a packet of flow 1 → 2 leaving by interface 4, nobody
listening. -/
def ex_op_post_unheard : Op :=
  Op.ebt_hook NF_BR_POST_ROUTING (ex_skb 1 2) 3 4 none NlOutcome.no_listener

/-- Flow 1 → 2 seen on the forward path, then on the post-routing path with no listener. -/
def ex_s_unheard : State := ex_op_post_unheard.apply ex_K ex_s1

/-- And seen again on the post-routing path, a listener being there now. -/
def ex_s_unheard_again : State := ex_op_post.apply ex_K ex_s_unheard

/-- A record of flow 1 → 2 with mark 0 and the given state, time of the last send, flags,
timer and interfaces. -/
def ex_rec (st : l2flow_state) (time_sent flags : Nat) (pending : Bool)
    (expires idev odev : Nat) : l2flowTable :=
  { state := st, time_sent := time_sent, flags := flags, timeout_pending := pending,
    timeout_expires := expires, idev_ifi := idev, odev_ifi := odev, packet_mark := 0,
    l2flow := ex_key 1 2 }

/-- The record as the post-routing hook has it when it reaches its `switch`: the output
interface and the mark of the packet are stored, and NEEDS_UPDATE is set when the output
interface differs from the recorded one. -/
def post_routing_entry (e : l2flowTable) (out_ifindex mark : Nat) : l2flowTable :=
  { e with
    flags := if out_ifindex ≠ e.odev_ifi then e.flags ||| L2FLOW_FL_NEEDS_UPDATE else e.flags
    odev_ifi := out_ifindex
    packet_mark := mark &&& 0xFFFF }

/-- The forward hook sees a packet of flow 1 → 2 entering by interface 7 instead of 3. -/
def ex_op_forward_moved : Op := Op.ebt_hook NF_BR_FORWARD (ex_skb 1 2) 7 0 none ex_sent

/-- The CONFIRMED record of flow 1 → 2 after its input interface changed. -/
def ex_s_confirmed_moved : State := ex_op_forward_moved.apply ex_K ex_s_confirmed

/-- The agent answers the NEW of the CONFIRMED record with UPDATE and DENIED. -/
def ex_op_denied : Op := Op.msg_handle ex_sent L2FLOW_ENTRY_UPDATE L2FLOW_DENIED (ex_key 1 2)

/-- Flow 1 → 2 in state LINUX, acknowledged. -/
def ex_s_linux : State := ex_op_denied.apply ex_K ex_s_confirmed

/-- The post-routing hook sees a packet of flow 1 → 2 leaving by interface 9 instead of 4, a
listener being there. -/
def ex_op_post_moved : Op := Op.ebt_hook NF_BR_POST_ROUTING (ex_skb 1 2) 3 9 none ex_sent

/-- The actions and send results of the messages handed to netlink so far. -/
def sent_actions (s : State) : List (Option Nat × Int) :=
  s.nl_out.map (fun m => (m.1.hdr.map (fun h => h.action), m.2))

/-- A forwarding-database update reports the destination MAC of flow 1 → 2 behind
interface 5. -/
def ex_op_fdb : Op :=
  Op.br_event (fun _ => ex_sent) true (brevent.BREVENT_FDB_UPDATE (ex_mac 2) 5 0)

/-- The worker drains the pending-send list, a listener being there. -/
def ex_op_drain : Op := Op.do_work_send_msg true (fun _ => ex_sent)

/-- Flow 1 → 2 is seen on the forward path only; a forwarding-database update moves its
destination, and the worker sends the pending message: the record is SEEN and waits for an
acknowledgement. -/
def ex_s_seen_sent : State := ex_op_drain.apply ex_K (ex_op_fdb.apply ex_K ex_s1)

/-- The flow is then seen on the post-routing path, a listener being there: CONFIRMED. -/
def ex_s_confirmed_twice : State := ex_op_post.apply ex_K ex_s_seen_sent

/-- The SEEN record of flow 1 → 2, already waiting for an acknowledgement, when its timer has
run out. -/
def ex_s_seen_sent_late : State := (Op.tick 200000).apply ex_K ex_s_seen_sent

/-- The timer of that record fires, a listener being there: first pass through
`__abm_go_dying`. -/
def ex_s_seen_sent_dying : State :=
  (Op.death_by_timeout ex_sent 0).apply ex_K ex_s_seen_sent_late

/-- The timer of the dying record fires in its turn: second pass through
`__abm_go_dying`. -/
def ex_s_seen_sent_deleted : State :=
  (Op.death_by_timeout ex_sent 0).apply ex_K ((Op.tick 200000).apply ex_K ex_s_seen_sent_dying)

/-- The forward hook sees a packet of flow 3 → 2 entering by interface 3; the allocator hands
out address 1. -/
def ex_op_forward_b : Op := Op.ebt_hook NF_BR_FORWARD (ex_skb 3 2) 3 0 (some 1) ex_sent

/-- The post-routing hook sees a packet of flow 3 → 2 leaving by interface 6, a listener
being there. -/
def ex_op_post_b : Op := Op.ebt_hook NF_BR_POST_ROUTING (ex_skb 3 2) 3 6 none ex_sent

/-- Flows 1 → 2 and 3 → 2, both CONFIRMED, the first leaving by interface 4 and the second by
interface 6. -/
def ex_s_two : State := ex_op_post_b.apply ex_K (ex_op_forward_b.apply ex_K ex_s_confirmed)

/-- The destination, state, flags and egress interface of the record at `p`. -/
def egress_view (s : State) (p : Ptr) : Option (eth_addr × l2flow_state × Nat × Nat) :=
  (s.heap p).map (fun e => (e.l2flow.daddr, e.state, e.flags, e.odev_ifi))

/-- Between `s` and `s'` the record at `p` was left alone: the heap holds the same at `p`, the
record is still on the pending-send list when it was, and the time, the timeouts and the
messages handed to netlink are the same. -/
def LeftAlone (p : Ptr) (s s' : State) : Prop :=
  s'.heap p = s.heap p
  ∧ (p ∈ s.l2flow_list_msg_to_send → p ∈ s'.l2flow_list_msg_to_send)
  ∧ s'.nl_out = s.nl_out
  ∧ s'.jiffies = s.jiffies
  ∧ s'.l2flow_timeouts = s.l2flow_timeouts

/-- The record a port-down event leaves of an FF record `e` that was not DEAD: DYING, with
PENDING_MSG and DEAD set and the timer armed for `expires`. -/
def port_down_entry (e : l2flowTable) (expires : Nat) : l2flowTable :=
  { e with
    state := L2FLOW_STATE_DYING
    flags := (e.flags ||| L2FLOW_FL_PENDING_MSG) ||| L2FLOW_FL_DEAD
    timeout_pending := true
    timeout_expires := expires }

/-- Flow 1 → 2 offloaded: the agent answered the NEW with UPDATE and OFFLOADED. -/
def ex_s_ff : State := ex_op_offloaded.apply ex_K ex_s_confirmed

/-- Interface 4 goes down; a listener is there. -/
def ex_op_port_down : Op :=
  Op.br_event (fun _ => ex_sent) true (brevent.BREVENT_PORT_DOWN 4)

/-- The offloaded flow 1 → 2 after its egress interface went down. -/
def ex_s_port_down : State := ex_op_port_down.apply ex_K ex_s_ff

/-- The Layer-3-filtering switch is written to 1, a listener being there. -/
def ex_op_l3_on : Op := Op.sysctl_l3_filtering true 1 (fun _ => ex_sent) ex_sent

/-- The RESET message. -/
def nlmsg_reset : nlmsg := { nlmsg_type := L2FLOW_MSG_RESET, hdr := none, attrs := [] }

/-- A record in state FF has no timer pending. -/
def RecQuiet (e : l2flowTable) : Prop :=
  e.state = L2FLOW_STATE_FF → e.timeout_pending = false

/-- No resident record in state FF has its timer pending. -/
def QuietInv (s : State) : Prop := ∀ p e, s.heap p = some e → RecQuiet e

/-- What the module itself holds of a state: everything but the log of what was handed to
netlink. -/
def State.engine (s : State) : State := { s with nl_out := [] }

/-- The post-routing hook sees a packet of flow 1 → 2 leaving by interface 4 while the
message buffer cannot be allocated. -/
def ex_op_post_oom : Op :=
  Op.ebt_hook NF_BR_POST_ROUTING (ex_skb 1 2) 3 4 none NlOutcome.skb_oom

/-- What one retransmit sweep over the list `l` may do to the state `s`: the clock, the
tunables and the list stay; a record is left as it is or, when it is on `l` and overdue, gets
its last-sent time set to now; the messages handed to netlink are resends of overdue records
of `l`, each with the action of the state of the record. -/
structure Resends (env : Nat → NlOutcome) (l : List Ptr) (s s' : State) : Prop where
  clock : s'.jiffies = s.jiffies
  period : s'.abm_retransmit_time = s.abm_retransmit_time
  filtering : s'.abm_l3_filtering = s.abm_l3_filtering
  wait : s'.l2flow_list_wait_for_ack = s.l2flow_list_wait_for_ack
  heap : ∀ q, s'.heap q = s.heap q ∨
    ∃ e, s.heap q = some e ∧ q ∈ l ∧ e.time_sent + s.abm_retransmit_time < s.jiffies
      ∧ s'.heap q = some { e with time_sent := s.jiffies }
  out : ∃ new, s'.nl_out = s.nl_out ++ new ∧
    ∀ m ∈ new, ∃ i q e, l[i]? = some q ∧ s.heap q = some e
      ∧ e.time_sent + s.abm_retransmit_time < s.jiffies
      ∧ (abm_nl_send_l2flow_msg (env i) s.abm_l3_filtering (action_of_state e.state) 0 e).2
          = some m

/-- The messages of a sweep that takes the records of the list `l` one after the other from
the head of the list, the record at position `i` meeting `env i`: the message of the record
at the head comes first. -/
def messages_in_list_order (env : Nat → NlOutcome) (l3_filtering : Nat)
    (heap : Ptr → Option l2flowTable) : List Ptr → List (nlmsg × Int)
  | [] => []
  | p :: rest =>
    (match heap p with
      | none => []
      | some e =>
        (abm_nl_send_l2flow_msg (env 0) l3_filtering (action_of_state e.state) 0 e).2.toList)
    ++ messages_in_list_order (fun n => env (n + 1)) l3_filtering heap rest

/-- A forwarding-database update reports the destination MAC of flow 5 → 6 behind
interface 5. -/
def ex_op_fdb6 : Op :=
  Op.br_event (fun _ => ex_sent) true (brevent.BREVENT_FDB_UPDATE (ex_mac 6) 5 0)

/-- Two SEEN records, of flow 1 → 2 at address 0 and of flow 5 → 6 at address 1; a
forwarding-database update puts the first on the pending-send list, a second update then
puts the second on it. -/
def ex_s_queued : State := ex_op_fdb6.apply ex_K (ex_op_fdb.apply ex_K ex_s2)

/-- The pending-send list is then drained, a listener being there. -/
def ex_s_drained : State := ex_op_drain.apply ex_K ex_s_queued

/-- The source and destination MAC of the messages handed to netlink, oldest first. -/
def sent_flows (s : State) : List (Option (eth_addr × eth_addr)) :=
  s.nl_out.map (fun m => m.1.hdr.map (fun h => (h.saddr, h.daddr)))

/-! ## Messages from the agent -/

/-- The entry `tb[attrtype]` that `nlmsg_parse` (called without a policy) leaves for the
attributes `attrs`: the attributes are walked in order and each one whose type is neither 0
nor above `L2FLOWA_MAX` is stored at its type, so that the last one of a type stays. -/
def nla_tb (attrs : List (Nat × nla_data)) (attrtype : Nat) : Option nla_data :=
  attrs.foldl
    (fun tb nla =>
      if nla.1 = attrtype ∧ 0 < nla.1 ∧ nla.1 ≤ L2FLOWA_MAX then some nla.2 else tb)
    none

/-- The kernel's `nla_get_u16`: the first two bytes of the payload, on a little-endian host
(the padding after a one-byte payload is zero). -/
def nla_get_u16 : nla_data → Nat
  | nla_data.u8 v => v
  | nla_data.u16 v => v
  | nla_data.u32 v => v % 2 ^ 16
  | nla_data.words a => a.w0 % 2 ^ 16

/-- The kernel's `nla_get_u8`: the first byte of the payload, on a little-endian host. -/
def nla_get_u8 : nla_data → Nat
  | nla_data.u8 v => v
  | nla_data.u16 v => v % 2 ^ 8
  | nla_data.u32 v => v % 2 ^ 8
  | nla_data.words a => a.w0 % 2 ^ 8

/-- The call `memcpy(&l2flow_temp.l3.saddr.all, nla_data(nla), nla_len(nla))` on the address
cleared by `memset`, on a little-endian host: as many bytes as the attribute carries. -/
def nla_memcpy_all : nla_data → l3_addr
  | nla_data.u8 v => { w0 := v, w1 := 0, w2 := 0, w3 := 0 }
  | nla_data.u16 v => { w0 := v, w1 := 0, w2 := 0, w3 := 0 }
  | nla_data.u32 v => { w0 := v, w1 := 0, w2 := 0, w3 := 0 }
  | nla_data.words a => a

/-- The key `abm_nl_rcv_msg` builds in `l2flow_temp`, cleared by `memset`, from the fixed part
and the attributes of an `L2FLOW_MSG_ENTRY` message. -/
def abm_nl_rcv_msg_l2flow_temp (l2flow_msg : l2flow_msg) (attrs : List (Nat × nla_data)) :
    l2flow :=
  { saddr := l2flow_msg.saddr
    daddr := l2flow_msg.daddr
    ethertype := l2flow_msg.ethertype
    svlan_tag :=
      match nla_tb attrs L2FLOWA_SVLAN_TAG with
      | some nla => nla_get_u16 nla
      | none => 0
    cvlan_tag :=
      match nla_tb attrs L2FLOWA_CVLAN_TAG with
      | some nla => nla_get_u16 nla
      | none => 0
    session_id :=
      match nla_tb attrs L2FLOWA_PPP_S_ID with
      | some nla => nla_get_u16 nla
      | none => 0
    l3_saddr :=
      match nla_tb attrs L2FLOWA_IP_SRC with
      | some nla => nla_memcpy_all nla
      | none => { w0 := 0, w1 := 0, w2 := 0, w3 := 0 }
    l3_daddr :=
      match nla_tb attrs L2FLOWA_IP_DST with
      | some nla => nla_memcpy_all nla
      | none => { w0 := 0, w1 := 0, w2 := 0, w3 := 0 }
    l3_proto :=
      match nla_tb attrs L2FLOWA_IP_PROTO with
      | some nla => nla_get_u8 nla
      | none => 0
    l4_sport :=
      match nla_tb attrs L2FLOWA_SPORT with
      | some nla => nla_get_u16 nla
      | none => 0
    l4_dport :=
      match nla_tb attrs L2FLOWA_DPORT with
      | some nla => nla_get_u16 nla
      | none => 0 }

/-- The function `abm_nl_rcv_msg`: its return value and the new state. A message without the
fixed part is shorter than `nlmsg_parse` accepts (`-EINVAL`); the attributes of the model are
well delimited, so `nlmsg_parse` does not fail otherwise. -/
def abm_nl_rcv_msg (K : Kernel) (env : NlOutcome) (nlh : nlmsg) (s : State) : Int × State :=
  if nlh.nlmsg_type ≥ L2FLOW_MSG_MAX then (-EAGAIN, s)
  else
    match nlh.hdr with
    | none => (-EINVAL, s)
    | some l2flow_msg =>
      if nlh.nlmsg_type = L2FLOW_MSG_ENTRY then
        abm_l2flow_msg_handle K env l2flow_msg.action l2flow_msg.flags
          (abm_nl_rcv_msg_l2flow_temp l2flow_msg nlh.attrs) s
      else (0, s)

/-- A flow key that is well formed for a Layer-3-filtering mode: the session id is zero
unless the ethertype is PPPoE-session; with filtering off every L3 and L4 field is zero; with
filtering on the protocol is zero for PPPoE-session, the addresses are zero unless the
ethertype is IPv4 or IPv6, only the first address word is used for IPv4, and the ports are
zero unless the protocol is TCP or UDP. -/
def key_well_formed (l3_filtering : Nat) (k : l2flow) : Prop :=
  (k.ethertype ≠ htons ETH_P_PPP_SES → k.session_id = 0)
  ∧ (l3_filtering = 0 →
      k.l3_saddr = { w0 := 0, w1 := 0, w2 := 0, w3 := 0 }
      ∧ k.l3_daddr = { w0 := 0, w1 := 0, w2 := 0, w3 := 0 }
      ∧ k.l3_proto = 0 ∧ k.l4_sport = 0 ∧ k.l4_dport = 0)
  ∧ (l3_filtering ≠ 0 →
      (k.ethertype = htons ETH_P_PPP_SES → k.l3_proto = 0)
      ∧ (k.ethertype ≠ htons ETH_P_IP → k.ethertype ≠ htons ETH_P_IPV6 →
          k.l3_saddr = { w0 := 0, w1 := 0, w2 := 0, w3 := 0 }
          ∧ k.l3_daddr = { w0 := 0, w1 := 0, w2 := 0, w3 := 0 })
      ∧ (k.ethertype = htons ETH_P_IP →
          k.l3_saddr = { w0 := k.l3_saddr.w0, w1 := 0, w2 := 0, w3 := 0 }
          ∧ k.l3_daddr = { w0 := k.l3_daddr.w0, w1 := 0, w2 := 0, w3 := 0 })
      ∧ (k.l3_proto ≠ IPPROTO_TCP → k.l3_proto ≠ IPPROTO_UDP →
          k.l4_sport = 0 ∧ k.l4_dport = 0))

instance (l3_filtering : Nat) (k : l2flow) : Decidable (key_well_formed l3_filtering k) := by
  unfold key_well_formed
  exact @instDecidableAnd _ _ inferInstance (@instDecidableAnd _ _ inferInstance inferInstance)

/-- A TCP flow over IPv4 from MAC 1 to MAC 2, as the hook keys it with Layer-3 filtering
on. -/
def ex_key_tcp : l2flow :=
  { saddr := ex_mac 1, daddr := ex_mac 2, ethertype := htons ETH_P_IP, session_id := 0,
    svlan_tag := 0, cvlan_tag := 7,
    l3_saddr := { w0 := 167772161, w1 := 0, w2 := 0, w3 := 0 },
    l3_daddr := { w0 := 167772162, w1 := 0, w2 := 0, w3 := 0 },
    l3_proto := IPPROTO_TCP, l4_sport := 4660, l4_dport := 80 }

/-- No record of `s` on the interface `ifindex` (ingress or egress) carries DEAD without being
DYING. (A port-down event frees such a record inside its `list_for_each`.) -/
def NoDeadOn (ifindex : Nat) (s : State) : Prop :=
  ∀ q e, s.heap q = some e → e.idev_ifi = ifindex ∨ e.odev_ifi = ifindex →
    e.flags &&& L2FLOW_FL_DEAD ≠ 0 → e.state = L2FLOW_STATE_DYING

/-- The two CONFIRMED records of `ex_s_two`, 200000 ticks later, after the timer of the record
of flow 3 → 2 (address 1, at the head of the pending-acknowledgement list) has expired with a
listener. -/
def ex_s_two_dying : State :=
  (Op.death_by_timeout ex_sent 1).apply ex_K ((Op.tick 200000).apply ex_K ex_s_two)

/-- The dying record of `ex_s_confirmed_dying`, 300 ticks later. -/
def ex_s_confirmed_dying_late : State := (Op.tick 300).apply ex_K ex_s_confirmed_dying

/-! ## Basic facts -/

@[simp] theorem mod_timer_l2flow (e : l2flowTable) (x : Nat) : (mod_timer e x).l2flow = e.l2flow :=
  rfl

@[simp] theorem mod_timer_pending_l2flow (e : l2flowTable) (x : Nat) :
    (mod_timer_pending e x).l2flow = e.l2flow := by
  unfold mod_timer_pending; split <;> rfl

@[simp] theorem del_timer_l2flow (e : l2flowTable) : (del_timer e).l2flow = e.l2flow := rfl

@[simp] theorem add_timer_l2flow (e : l2flowTable) : (add_timer e).l2flow = e.l2flow := rfl

theorem SameIdx.same_refl (s : State) : SameIdx s s :=
  ⟨rfl, rfl, rfl, fun _ => rfl, rfl, rfl⟩

theorem SameIdx.same_trans {s s' s'' : State} (h : SameIdx s s') (h' : SameIdx s' s'') :
    SameIdx s s'' :=
  ⟨h'.prim.trans h.prim, h'.src.trans h.src, h'.dst.trans h.dst,
   fun q => (h'.keys q).trans (h.keys q), h'.nb.trans h.nb, h'.max.trans h.max⟩

theorem keys_put {s : State} {p : Ptr} {e e' : l2flowTable} (h : s.heap p = some e)
    (hk : e'.l2flow = e.l2flow) (q : Ptr) :
    ((if q = p then some e' else s.heap q).map (fun e => e.l2flow))
      = (s.heap q).map (fun e => e.l2flow) := by
  by_cases hq : q = p
  · subst hq; simp [h, hk]
  · simp [hq]

theorem Indexed.congr {heap heap' : Ptr → Option l2flowTable} {t : Nat → List Ptr}
    {h : l2flow → Nat} (hi : Indexed heap t h)
    (hk : ∀ q, (heap' q).map (fun e => e.l2flow) = (heap q).map (fun e => e.l2flow)) :
    Indexed heap' t h := by
  obtain ⟨h1, h2, h3⟩ := hi
  refine ⟨?_, ?_, h3⟩
  · intro i p hp
    obtain ⟨e, he, hh⟩ := h1 i p hp
    have := hk p
    rw [he] at this
    cases h' : heap' p with
    | none => rw [h'] at this; simp at this
    | some e' =>
      rw [h'] at this
      simp at this
      exact ⟨e', rfl, by rw [this]; exact hh⟩
  · intro p e' he'
    have := hk p
    rw [he'] at this
    cases h' : heap p with
    | none => rw [h'] at this; simp at this
    | some e =>
      rw [h'] at this
      simp at this
      rw [this]
      exact h2 p e h'

theorem resident_count_congr {s s' : State} (h : s'.l2flow_table = s.l2flow_table) :
    resident_count s' = resident_count s := by
  unfold resident_count; rw [h]

theorem IndexInv.of_sameIdx {K : Kernel} {s s' : State} (hi : IndexInv K s)
    (h : SameIdx s s') : IndexInv K s' := by
  refine ⟨?_, ?_, ?_, ?_, ?_, ?_, ?_⟩
  · rw [h.prim]; exact hi.prim.congr h.keys
  · rw [h.src]; exact hi.src.congr h.keys
  · rw [h.dst]; exact hi.dst.congr h.keys
  · intro p q e e' hp hq hk
    have h1 := h.keys p
    have h2 := h.keys q
    rw [hp] at h1
    rw [hq] at h2
    cases hp' : s.heap p with
    | none => rw [hp'] at h1; simp at h1
    | some a =>
      cases hq' : s.heap q with
      | none => rw [hq'] at h2; simp at h2
      | some b =>
        rw [hp'] at h1
        rw [hq'] at h2
        simp at h1 h2
        exact hi.key_unique p q a b hp' hq' (by rw [← h1, ← h2]; exact hk)
  · rw [h.nb, resident_count_congr h.prim]; exact hi.nb_eq
  · rw [h.nb]; exact hi.nb_lt
  · rw [h.max]; exact hi.max_lt

theorem abm_ebt_hook_post_routing_sameIdx (env : NlOutcome) (out_ifindex mark : Nat) (p : Ptr)
    (s : State) : SameIdx s (abm_ebt_hook_post_routing env out_ifindex mark p s) := by
  unfold abm_ebt_hook_post_routing
  cases he0 : s.heap p with
  | none => exact SameIdx.same_refl s
  | some e0 =>
    simp only []
    repeat' split
    all_goals
      first
      | exact SameIdx.same_refl s
      | exact ⟨rfl, rfl, rfl, keys_put he0 (by first | rfl | simp), rfl, rfl⟩

theorem abm_l2flow_hash_lt (K : Kernel) (k : l2flow) :
    abm_l2flow_hash K k < L2FLOW_HASH_TABLE_SIZE := by
  unfold abm_l2flow_hash L2FLOW_HASH_TABLE_SIZE
  have := @Nat.and_le_right (K.jhash_l2flow k 0x12345678 % 2 ^ 32) (1024 - 1)
  omega

theorem abm_l2flow_hash_mac_lt (K : Kernel) (m : eth_addr) :
    abm_l2flow_hash_mac K m < L2FLOW_HASH_BY_MAC_TABLE_SIZE := by
  unfold abm_l2flow_hash_mac L2FLOW_HASH_BY_MAC_TABLE_SIZE
  have := @Nat.and_le_right (K.jhash_mac m 0x12345678 % 2 ^ 32) (128 - 1)
  omega

theorem Indexed.not_mem_of_free {heap : Ptr → Option l2flowTable} {t : Nat → List Ptr}
    {h : l2flow → Nat} (hi : Indexed heap t h) {p : Ptr} (hp : heap p = none) (i : Nat) :
    p ∉ t i := by
  intro hmem
  obtain ⟨e, he, _⟩ := hi.1 i p hmem
  rw [hp] at he
  cases he

theorem Indexed.unlink {heap : Ptr → Option l2flowTable} {t : Nat → List Ptr} {h : l2flow → Nat}
    (hi : Indexed heap t h) (p : Ptr) :
    Indexed (fun q => if q = p then none else heap q) (bucket_del t p) h := by
  obtain ⟨h1, h2, h3⟩ := hi
  refine ⟨?_, ?_, ?_⟩
  · intro i q hq
    have hq' : q ≠ p ∧ q ∈ t i := by
      have := (List.Nodup.mem_erase_iff (h3 i)).1 hq
      exact this
    obtain ⟨e, he, hh⟩ := h1 i q hq'.2
    exact ⟨e, by simp [hq'.1, he], hh⟩
  · intro q e hq
    by_cases hqp : q = p
    · simp [hqp] at hq
    · simp [hqp] at hq
      exact (List.mem_erase_of_ne hqp).2 (h2 q e hq)
  · intro i
    exact (h3 i).erase p

theorem Indexed.add {heap : Ptr → Option l2flowTable} {t : Nat → List Ptr} {h : l2flow → Nat}
    (hi : Indexed heap t h) {p : Ptr} (hp : heap p = none) (e0 : l2flowTable) :
    Indexed (fun q => if q = p then some e0 else heap q) (bucket_add t (h e0.l2flow) p) h := by
  have hfree := fun i => hi.not_mem_of_free hp i
  obtain ⟨h1, h2, h3⟩ := hi
  refine ⟨?_, ?_, ?_⟩
  · intro i q hq
    unfold bucket_add list_add at hq
    by_cases hqp : q = p
    · subst hqp
      by_cases hi' : i = h e0.l2flow
      · exact ⟨e0, by simp, hi'.symm⟩
      · simp [hi'] at hq
        exact absurd hq (hfree i)
    · have hq' : q ∈ t i := by
        by_cases hi' : i = h e0.l2flow
        · simp [hi', hqp] at hq
          rw [hi']; exact hq
        · simpa [hi'] using hq
      obtain ⟨e, he, hh⟩ := h1 i q hq'
      exact ⟨e, by simp [hqp, he], hh⟩
  · intro q e hq
    unfold bucket_add list_add
    by_cases hqp : q = p
    · subst hqp
      simp at hq
      subst hq
      simp
    · simp [hqp] at hq
      have := h2 q e hq
      by_cases hi' : h e.l2flow = h e0.l2flow
      · simp [hi']
        right
        rw [← hi']; exact this
      · simpa [hi'] using this
  · intro i
    unfold bucket_add list_add
    by_cases hi' : i = h e0.l2flow
    · simp only [hi', if_true]
      exact List.nodup_cons.2 ⟨hfree _, h3 _⟩
    · simp only [hi', if_false]
      exact h3 i

theorem sum_length_step (f g : Nat → Nat) (n a : Nat) (ha : a < n) (hga : g a = f a + 1)
    (hne : ∀ i, i ≠ a → g i = f i) :
    Finset.sum (Finset.range n) g = Finset.sum (Finset.range n) f + 1 := by
  have hm : a ∈ Finset.range n := Finset.mem_range.2 ha
  have hrest :
      Finset.sum ((Finset.range n).erase a) g = Finset.sum ((Finset.range n).erase a) f := by
    apply Finset.sum_congr rfl
    intro i hi
    exact hne i (Finset.ne_of_mem_erase hi)
  rw [← Finset.add_sum_erase _ g hm, ← Finset.add_sum_erase _ f hm, hga, hrest]
  ring

theorem find_in_none {heap : Ptr → Option l2flowTable} {k : l2flow} {l : List Ptr}
    (h : abm_l2flow_find_in heap k l = none) :
    ∀ p ∈ l, ∀ e, heap p = some e → e.l2flow ≠ k := by
  induction l with
  | nil => intro p hp; cases hp
  | cons a rest ih =>
    intro p hp e he
    unfold abm_l2flow_find_in at h
    cases ha : heap a with
    | none =>
      simp only [ha] at h
      rcases List.mem_cons.1 hp with hpa | hpr
      · subst hpa; rw [ha] at he; cases he
      · exact ih h p hpr e he
    | some ea =>
      simp only [ha, abm_l2flow_cmp] at h
      by_cases hk : ea.l2flow = k
      · simp [hk] at h
      · simp [hk] at h
        rcases List.mem_cons.1 hp with hpa | hpr
        · subst hpa; rw [ha] at he; cases he; exact hk
        · exact ih h p hpr e he

theorem find_in_some {heap : Ptr → Option l2flowTable} {k : l2flow} {l : List Ptr} {p : Ptr}
    (h : abm_l2flow_find_in heap k l = some p) :
    p ∈ l ∧ ∃ e, heap p = some e ∧ e.l2flow = k := by
  induction l with
  | nil => unfold abm_l2flow_find_in at h; cases h
  | cons a rest ih =>
    unfold abm_l2flow_find_in at h
    cases ha : heap a with
    | none =>
      simp only [ha] at h
      obtain ⟨h1, h2⟩ := ih h
      exact ⟨List.mem_cons_of_mem _ h1, h2⟩
    | some ea =>
      simp only [ha, abm_l2flow_cmp] at h
      by_cases hk : ea.l2flow = k
      · simp [hk] at h
        subst h
        exact ⟨List.mem_cons_self _ _, ea, ha, hk⟩
      · simp [hk] at h
        obtain ⟨h1, h2⟩ := ih h
        exact ⟨List.mem_cons_of_mem _ h1, h2⟩

theorem find_some {K : Kernel} {s : State} {k : l2flow} {p : Ptr}
    (h : abm_l2flow_find K s k = some p) : ∃ e, s.heap p = some e ∧ e.l2flow = k :=
  (find_in_some h).2

theorem IndexInv.find_none {K : Kernel} {s : State} (hi : IndexInv K s) {k : l2flow}
    (h : abm_l2flow_find K s k = none) : ∀ p e, s.heap p = some e → e.l2flow ≠ k := by
  intro p e he hk
  have hmem := hi.prim.2.1 p e he
  rw [hk] at hmem
  exact find_in_none h p hmem e he hk

theorem IndexInv.find_of_resident {K : Kernel} {s : State} (hi : IndexInv K s) {p : Ptr}
    {e : l2flowTable} (he : s.heap p = some e) : abm_l2flow_find K s e.l2flow = some p := by
  cases hf : abm_l2flow_find K s e.l2flow with
  | none => exact absurd rfl (hi.find_none hf p e he)
  | some q =>
    obtain ⟨e', he', hk⟩ := find_some hf
    rw [hi.key_unique q p e' e he' he hk]

theorem IndexInv.inv_unlink {K : Kernel} {s : State} (hi : IndexInv K s) (p : Ptr) :
    IndexInv K (abm_l2flow_del p s) := by
  unfold abm_l2flow_del
  cases he : s.heap p with
  | none => exact hi
  | some e =>
    simp only []
    have hmem : p ∈ s.l2flow_table (abm_l2flow_hash K e.l2flow) := hi.prim.2.1 p e he
    have hcount : resident_count s
        = Finset.sum (Finset.range L2FLOW_HASH_TABLE_SIZE)
            (fun i => ((bucket_del s.l2flow_table p) i).length) + 1 := by
      unfold resident_count
      apply sum_length_step _ _ _ (abm_l2flow_hash K e.l2flow) (abm_l2flow_hash_lt K e.l2flow)
      · show (s.l2flow_table _).length = ((s.l2flow_table _).erase p).length + 1
        rw [List.length_erase_of_mem hmem]
        have := List.length_pos_of_mem hmem
        omega
      · intro i hne
        show (s.l2flow_table i).length = ((s.l2flow_table i).erase p).length
        have : p ∉ s.l2flow_table i := by
          intro hp
          obtain ⟨e', he', hh⟩ := hi.prim.1 i p hp
          rw [he] at he'
          cases he'
          exact hne hh.symm
        rw [List.erase_of_not_mem this]
    have hnb := hi.nb_eq
    have hlt := hi.nb_lt
    refine ⟨hi.prim.unlink p, hi.src.unlink p, hi.dst.unlink p, ?_, ?_, ?_, hi.max_lt⟩
    · intro a b ea eb ha hb hk
      by_cases hap : a = p
      · simp [hap] at ha
      · by_cases hbp : b = p
        · simp [hbp] at hb
        · simp [hap] at ha
          simp [hbp] at hb
          exact hi.key_unique a b ea eb ha hb hk
    · show (s.abm_nb_entries + 2 ^ 32 - 1) % 2 ^ 32
        = Finset.sum (Finset.range L2FLOW_HASH_TABLE_SIZE)
            (fun i => ((bucket_del s.l2flow_table p) i).length)
      omega
    · show (s.abm_nb_entries + 2 ^ 32 - 1) % 2 ^ 32 < 2 ^ 32
      omega

theorem SameIdx.shrinks {s s' : State} (h : SameIdx s s') : Shrinks s s' := by
  refine ⟨?_, ?_, h.max⟩
  · intro p e' he'
    have := h.keys p
    rw [he'] at this
    cases hp : s.heap p with
    | none => rw [hp] at this; simp at this
    | some e =>
      rw [hp] at this
      simp at this
      exact ⟨e, rfl, this⟩
  · intro i
    rw [h.prim]

theorem Shrinks.shr_refl (s : State) : Shrinks s s :=
  ⟨fun _ e' he' => ⟨e', he', rfl⟩, fun _ => List.Sublist.refl _, rfl⟩

theorem Shrinks.shr_trans {s s' s'' : State} (h : Shrinks s s') (h' : Shrinks s' s'') :
    Shrinks s s'' := by
  refine ⟨?_, fun i => (h'.prim i).trans (h.prim i), h'.max.trans h.max⟩
  intro p e'' he''
  obtain ⟨e', he', hk'⟩ := h'.keys p e'' he''
  obtain ⟨e, he, hk⟩ := h.keys p e' he'
  exact ⟨e, he, hk'.trans hk⟩

theorem abm_l2flow_del_shrinks (p : Ptr) (s : State) : Shrinks s (abm_l2flow_del p s) := by
  unfold abm_l2flow_del
  cases he : s.heap p with
  | none => exact Shrinks.shr_refl s
  | some e =>
    refine ⟨?_, ?_, rfl⟩
    · intro q e' hq
      by_cases hqp : q = p
      · simp [hqp] at hq
      · simp [hqp] at hq
        exact ⟨e', hq, rfl⟩
    · intro i
      exact List.erase_sublist p _

theorem Good.good_refl (K : Kernel) (s : State) : Good K s s := ⟨id, Shrinks.shr_refl s⟩

theorem Good.good_trans {K : Kernel} {s s' s'' : State} (h : Good K s s') (h' : Good K s' s'') :
    Good K s s'' :=
  ⟨fun hi => h'.inv (h.inv hi), h.shr.shr_trans h'.shr⟩

theorem SameIdx.good {K : Kernel} {s s' : State} (h : SameIdx s s') : Good K s s' :=
  ⟨fun hi => hi.of_sameIdx h, h.shrinks⟩

theorem abm_l2flow_del_good (K : Kernel) (p : Ptr) (s : State) : Good K s (abm_l2flow_del p s) :=
  ⟨fun hi => hi.inv_unlink p, abm_l2flow_del_shrinks p s⟩

theorem foldl_good {K : Kernel} {α : Type} (f : State → α → State)
    (h : ∀ s a, Good K s (f s a)) : ∀ (l : List α) (s : State), Good K s (l.foldl f s) := by
  intro l
  induction l with
  | nil => intro s; exact Good.good_refl K s
  | cons a rest ih => intro s; exact (h s a).good_trans (ih (f s a))

theorem __abm_go_dying_good (K : Kernel) (env : NlOutcome) (p : Ptr) (s : State) :
    Good K s (__abm_go_dying env p s) := by
  unfold __abm_go_dying
  cases he : s.heap p with
  | none => exact Good.good_refl K s
  | some e =>
    simp only []
    repeat' split
    all_goals
      first
      | exact abm_l2flow_del_good K p s
      | exact SameIdx.good ⟨rfl, rfl, rfl, keys_put he rfl, rfl, rfl⟩

theorem put_sameIdx {s : State} {p : Ptr} {e e' : l2flowTable} (h : s.heap p = some e)
    (hk : e'.l2flow = e.l2flow) : SameIdx s (s.put p e') :=
  ⟨rfl, rfl, rfl, keys_put h hk, rfl, rfl⟩

theorem abm_death_by_timeout_good (K : Kernel) (env : NlOutcome) (p : Ptr) (s : State) :
    Good K s (abm_death_by_timeout env p s) := by
  unfold abm_death_by_timeout
  cases he : s.heap p with
  | none => exact Good.good_refl K s
  | some e =>
    exact (SameIdx.good (@put_sameIdx s p e (del_timer e) he rfl)).good_trans
      (__abm_go_dying_good K env p _)

theorem abm_l2flow_update_sameIdx (flags : Nat) (p : Ptr) (s : State) :
    SameIdx s (abm_l2flow_update flags p s) := by
  unfold abm_l2flow_update
  cases he : s.heap p with
  | none => exact SameIdx.same_refl s
  | some e =>
    simp only []
    repeat' split
    all_goals
      exact ⟨rfl, rfl, rfl, keys_put he rfl, rfl, rfl⟩

theorem abm_l2flow_msg_handle_good (K : Kernel) (env : NlOutcome) (action flags : Nat)
    (k : l2flow) (s : State) : Good K s (abm_l2flow_msg_handle K env action flags k s).2 := by
  unfold abm_l2flow_msg_handle
  cases hf : abm_l2flow_find K s k with
  | none => exact Good.good_refl K s
  | some p =>
    simp only []
    split
    · exact (abm_l2flow_update_sameIdx flags p s).good
    · split
      · cases he : s.heap p with
        | none => exact Good.good_refl K s
        | some e =>
          simp only []
          have h1 : ∀ s1 : State, SameIdx s s1 →
              Good K s (if e.timeout_pending = true ∨ e.state = L2FLOW_STATE_FF then
                (0, __abm_go_dying env p s1) else ((0 : Int), s1)).2 := by
            intro s1 hs1
            split
            · exact hs1.good.good_trans (__abm_go_dying_good K env p s1)
            · exact hs1.good
          apply h1
          split
          · exact ⟨rfl, rfl, rfl, keys_put he rfl, rfl, rfl⟩
          · exact put_sameIdx he rfl
      · exact Good.good_refl K s

theorem abm_br_event_port_down_entry_good (K : Kernel) (env : NlOutcome) (ifindex : Nat)
    (p : Ptr) (s : State) : Good K s (abm_br_event_port_down_entry env ifindex p s) := by
  unfold abm_br_event_port_down_entry
  cases he : s.heap p with
  | none => exact Good.good_refl K s
  | some e =>
    simp only []
    split
    · have h1 : ∀ s1 : State, SameIdx s s1 →
          Good K s (if e.timeout_pending = true ∨ e.state = L2FLOW_STATE_FF then
            __abm_go_dying env p s1 else s1) := by
        intro s1 hs1
        split
        · exact hs1.good.good_trans (__abm_go_dying_good K env p s1)
        · exact hs1.good
      apply h1
      split
      · exact ⟨rfl, rfl, rfl, keys_put he rfl, rfl, rfl⟩
      · exact put_sameIdx he rfl
    · exact Good.good_refl K s

theorem abm_br_event_port_down_step_cases (env : NlOutcome) (ifindex : Nat) (p : Ptr)
    (s : State) :
    abm_br_event_port_down_step env ifindex p s = s
    ∨ abm_br_event_port_down_step env ifindex p s
        = abm_br_event_port_down_entry env ifindex p s
    ∨ abm_br_event_port_down_step env ifindex p s
        = { abm_br_event_port_down_entry env ifindex p s with oops := true } := by
  unfold abm_br_event_port_down_step
  split
  · exact Or.inl rfl
  · split
    · exact Or.inr (Or.inr rfl)
    · exact Or.inr (Or.inl rfl)

theorem abm_br_event_port_down_step_good (K : Kernel) (env : NlOutcome) (ifindex : Nat)
    (p : Ptr) (s : State) : Good K s (abm_br_event_port_down_step env ifindex p s) := by
  rcases abm_br_event_port_down_step_cases env ifindex p s with h | h | h
  · rw [h]; exact Good.good_refl K s
  · rw [h]; exact abm_br_event_port_down_entry_good K env ifindex p s
  · rw [h]
    exact (abm_br_event_port_down_entry_good K env ifindex p s).good_trans
      (SameIdx.good ⟨rfl, rfl, rfl, fun _ => rfl, rfl, rfl⟩)

theorem abm_l2flow_table_flush_entry_good (K : Kernel) (env : NlOutcome) (p : Ptr) (s : State) :
    Good K s (abm_l2flow_table_flush_entry env p s) := by
  unfold abm_l2flow_table_flush_entry
  cases he : s.heap p with
  | none => exact Good.good_refl K s
  | some e =>
    simp only []
    have hs1 : SameIdx s (s.put p (del_timer { e with flags := e.flags ||| L2FLOW_FL_DEAD })) :=
      put_sameIdx he rfl
    split
    · exact hs1.good.good_trans (__abm_go_dying_good K env p _)
    · exact hs1.good

theorem abm_l2flow_table_flush_good (K : Kernel) (env : Ptr → NlOutcome) (s : State) :
    Good K s (abm_l2flow_table_flush env s) := by
  unfold abm_l2flow_table_flush
  apply foldl_good
  intro s i
  apply foldl_good
  intro s p
  exact abm_l2flow_table_flush_entry_good K (env p) p s

theorem abm_br_event_fdb_update_entry_sameIdx (mac_addr : eth_addr) (ifindex : Nat) (p : Ptr)
    (s : State) : SameIdx s (abm_br_event_fdb_update_entry mac_addr ifindex p s) := by
  unfold abm_br_event_fdb_update_entry
  cases he : s.heap p with
  | none => exact SameIdx.same_refl s
  | some e =>
    simp only []
    repeat' split
    all_goals
      first
      | exact SameIdx.same_refl s
      | exact ⟨rfl, rfl, rfl, keys_put he rfl, rfl, rfl⟩

theorem abm_br_event_good (K : Kernel) (env : Ptr → NlOutcome) (alloc_ok : Bool)
    (event : brevent) (s : State) : Good K s (abm_br_event K env alloc_ok event s) := by
  unfold abm_br_event
  cases event with
  | BREVENT_PORT_DOWN ifindex =>
    simp only []
    apply foldl_good
    intro s i
    apply foldl_good
    intro s p
    exact abm_br_event_port_down_step_good K (env p) ifindex p s
  | BREVENT_FDB_UPDATE mac_addr ifindex brdev =>
    simp only []
    have h1 : Good K s
        ((s.l2flow_table_by_dst_mac (abm_l2flow_hash_mac K mac_addr)).foldl
          (fun s p => abm_br_event_fdb_update_entry mac_addr ifindex p s) s) := by
      apply foldl_good
      intro s p
      exact (abm_br_event_fdb_update_entry_sameIdx mac_addr ifindex p s).good
    split
    · refine h1.good_trans (SameIdx.good ?_)
      unfold add_brevent
      split <;> exact ⟨rfl, rfl, rfl, fun _ => rfl, rfl, rfl⟩
    · exact h1
  | BREVENT_OTHER => exact Good.good_refl K s

theorem abm_do_work_send_msg_entry_sameIdx (env : NlOutcome) (p : Ptr) (s : State) :
    SameIdx s (abm_do_work_send_msg_entry env p s) := by
  unfold abm_do_work_send_msg_entry
  cases he : s.heap p with
  | none => exact SameIdx.same_refl s
  | some e =>
    simp only []
    repeat' split
    all_goals
      first
      | exact ⟨rfl, rfl, rfl, fun _ => rfl, rfl, rfl⟩
      | exact ⟨rfl, rfl, rfl, keys_put he rfl, rfl, rfl⟩

theorem abm_do_work_send_msg_loop_sameIdx (l : List Ptr) :
    ∀ (env : Nat → NlOutcome) (s : State), SameIdx s (abm_do_work_send_msg_loop env l s) := by
  induction l with
  | nil => intro env s; exact SameIdx.same_refl s
  | cons p rest ih =>
    intro env s
    unfold abm_do_work_send_msg_loop
    exact (abm_do_work_send_msg_entry_sameIdx (env 0) p s).same_trans (ih _ _)

theorem abm_do_work_send_msg_sameIdx (has_listeners : Bool) (env : Nat → NlOutcome)
    (s : State) : SameIdx s (abm_do_work_send_msg has_listeners env s) := by
  unfold abm_do_work_send_msg
  simp only []
  split
  · exact ⟨rfl, rfl, rfl, fun _ => rfl, rfl, rfl⟩
  · have h0 : SameIdx s { s with work_send_msg_queued := false } :=
      ⟨rfl, rfl, rfl, fun _ => rfl, rfl, rfl⟩
    have h1 := abm_do_work_send_msg_loop_sameIdx s.l2flow_list_msg_to_send env
      { s with work_send_msg_queued := false }
    exact (h0.same_trans h1).same_trans ⟨rfl, rfl, rfl, fun _ => rfl, rfl, rfl⟩

theorem abm_do_work_retransmit_loop_sameIdx (l : List Ptr) :
    ∀ (env : Nat → NlOutcome) (s : State), SameIdx s (abm_do_work_retransmit_loop env l s) := by
  induction l with
  | nil => intro env s; exact SameIdx.same_refl s
  | cons p rest ih =>
    intro env s
    unfold abm_do_work_retransmit_loop
    cases he : s.heap p with
    | none => exact ih _ _
    | some e =>
      simp only []
      split
      · split
        · refine SameIdx.same_trans ?_ (ih _ _)
          exact ⟨rfl, rfl, rfl, keys_put he rfl, rfl, rfl⟩
        · exact ⟨rfl, rfl, rfl, fun _ => rfl, rfl, rfl⟩
      · exact ih _ _

theorem abm_do_work_retransmit_sameIdx (has_listeners : Bool) (env : Nat → NlOutcome)
    (s : State) : SameIdx s (abm_do_work_retransmit has_listeners env s) := by
  have key : ∀ s1 : State, SameIdx s s1 →
      SameIdx s { s1 with work_retransmit_delay := some s1.abm_retransmit_time } :=
    fun s1 h => h.same_trans ⟨rfl, rfl, rfl, fun _ => rfl, rfl, rfl⟩
  unfold abm_do_work_retransmit
  split
  · exact ⟨rfl, rfl, rfl, fun _ => rfl, rfl, rfl⟩
  · apply key
    split
    · exact SameIdx.same_refl s
    · split
      · exact SameIdx.same_refl s
      · exact abm_do_work_retransmit_loop_sameIdx _ env s

theorem emit_sameIdx (s : State) (o : Option (nlmsg × Int)) : SameIdx s (s.emit o) :=
  ⟨rfl, rfl, rfl, fun _ => rfl, rfl, rfl⟩

theorem abm_sysctl_l3_filtering_good (K : Kernel) (write : Bool) (val : Nat)
    (env : Ptr → NlOutcome) (env_rst : NlOutcome) (s : State) :
    Good K s (abm_sysctl_l3_filtering write val env env_rst s) := by
  have key : ∀ s1 : State, Good K s s1 →
      Good K s { s1 with abm_l3_filtering := if val ≠ 0 then 1 else 0 } :=
    fun s1 h => h.good_trans (SameIdx.good ⟨rfl, rfl, rfl, fun _ => rfl, rfl, rfl⟩)
  unfold abm_sysctl_l3_filtering
  split
  · apply key
    split
    · exact (abm_l2flow_table_flush_good K env s).good_trans (emit_sameIdx _ _).good
    · exact Good.good_refl K s
  · exact Good.good_refl K s

theorem AddsOne.count_succ {K : Kernel} {s s' : State} {p : Ptr} {k : l2flow} {e0 : l2flowTable}
    (h : AddsOne K s s' p k e0) : resident_count s' = resident_count s + 1 := by
  unfold resident_count
  rw [h.prim]
  apply sum_length_step _ _ _ (abm_l2flow_hash K k) (abm_l2flow_hash_lt K k)
  · simp [bucket_add, list_add]
  · intro i hne
    simp [bucket_add, hne]

theorem IndexInv.adds {K : Kernel} {s s' : State} {p : Ptr} {k : l2flow} {e0 : l2flowTable}
    (hi : IndexInv K s) (h : AddsOne K s s' p k e0) : IndexInv K s' := by
  have hk := h.key
  subst hk
  have hnb := hi.nb_eq
  have hmax := hi.max_lt
  have hroom := h.room
  refine ⟨?_, ?_, ?_, ?_, ?_, ?_, ?_⟩
  · rw [h.heap, h.prim]; exact hi.prim.add h.free e0
  · rw [h.heap, h.src]; exact hi.src.add h.free e0
  · rw [h.heap, h.dst]; exact hi.dst.add h.free e0
  · intro a b ea eb ha hb hab
    rw [h.heap] at ha hb
    by_cases hap : a = p
    · by_cases hbp : b = p
      · rw [hap, hbp]
      · simp [hap] at ha
        simp [hbp] at hb
        subst ha
        exact absurd hab.symm (hi.find_none h.absent b eb hb)
    · by_cases hbp : b = p
      · simp [hap] at ha
        simp [hbp] at hb
        subst hb
        exact absurd hab (hi.find_none h.absent a ea ha)
      · simp [hap] at ha
        simp [hbp] at hb
        exact hi.key_unique a b ea eb ha hb hab
  · rw [h.nb, h.count_succ]; omega
  · rw [h.nb]; omega
  · rw [h.max]; exact hmax

theorem abm_ebt_hook_cases (K : Kernel) (hooknum : Nat) (skb : sk_buff)
    (in_ifindex out_ifindex : Nat) (alloc : Option Ptr) (env : NlOutcome) (s : State) :
    abm_ebt_hook K hooknum skb in_ifindex out_ifindex alloc env s = (NF_ACCEPT, s)
    ∨ (∃ k, skb.l2flow_built = some k ∧ hooknum = NF_BR_FORWARD
        ∧ abm_ebt_hook K hooknum skb in_ifindex out_ifindex alloc env s
          = (NF_ACCEPT, abm_ebt_hook_forward K in_ifindex alloc k s))
    ∨ (∃ k p, skb.l2flow_built = some k ∧ hooknum = NF_BR_POST_ROUTING
        ∧ abm_l2flow_find K s k = some p
        ∧ abm_ebt_hook K hooknum skb in_ifindex out_ifindex alloc env s
          = (NF_ACCEPT, abm_ebt_hook_post_routing env out_ifindex skb.mark p s)) := by
  unfold abm_ebt_hook
  simp only []
  repeat' split
  all_goals
    first
    | exact Or.inl rfl
    | exact Or.inr (Or.inl ⟨_, ‹_›, ‹_›, rfl⟩)
    | exact Or.inr (Or.inr ⟨_, _, ‹_›, ‹_›, ‹_›, rfl⟩)

theorem abm_l2flow_add_cases (K : Kernel) (alloc : Option Ptr) (k : l2flow) (s : State) :
    (abm_l2flow_add K alloc k s = (none, s)
      ∧ (s.abm_max_entries ≤ s.abm_nb_entries ∨ alloc = none))
    ∨ ∃ p, alloc = some p ∧ s.abm_nb_entries < s.abm_max_entries
        ∧ abm_l2flow_add K alloc k s = (some p, abm_l2flow_add_link K p k s) := by
  unfold abm_l2flow_add
  by_cases hroom : s.abm_nb_entries ≥ s.abm_max_entries
  · exact Or.inl ⟨by simp [hroom], Or.inl hroom⟩
  · cases alloc with
    | none => exact Or.inl ⟨by simp [hroom], Or.inr rfl⟩
    | some p => exact Or.inr ⟨p, rfl, by omega, by simp [hroom]⟩

theorem abm_ebt_hook_forward_add (K : Kernel) (in_ifindex : Nat) (p : Ptr) (k : l2flow)
    (s : State) (hf : abm_l2flow_find K s k = none)
    (hroom : s.abm_nb_entries < s.abm_max_entries) :
    abm_ebt_hook_forward K in_ifindex (some p) k s
      = (abm_l2flow_add_link K p k s).put p
          (mod_timer
            { l2flow_entry_zeroed k with state := L2FLOW_STATE_SEEN, idev_ifi := in_ifindex }
            (s.jiffies + s.l2flow_timeouts L2FLOW_STATE_SEEN)) := by
  unfold abm_ebt_hook_forward
  rw [hf]
  rcases abm_l2flow_add_cases K (some p) k s with ⟨_, h | h⟩ | ⟨q, hq, _, h⟩
  · omega
  · cases h
  · cases hq
    rw [h]
    have : (abm_l2flow_add_link K p k s).heap p = some (l2flow_entry_zeroed k) := by
      simp [abm_l2flow_add_link]
    simp only [this]
    rfl

theorem abm_ebt_hook_forward_step (K : Kernel) (in_ifindex : Nat) (alloc : Option Ptr)
    (k : l2flow) (s : State) (hv : ∀ p, alloc = some p → s.heap p = none) :
    Good K s (abm_ebt_hook_forward K in_ifindex alloc k s)
    ∨ ∃ p e0, alloc = some p
        ∧ AddsOne K s (abm_ebt_hook_forward K in_ifindex alloc k s) p k e0 := by
  cases hf : abm_l2flow_find K s k with
  | none =>
    rcases abm_l2flow_add_cases K alloc k s with ⟨h, _⟩ | ⟨p, hp, hroom, _⟩
    · left
      unfold abm_ebt_hook_forward
      rw [hf, h]
      exact Good.good_refl K s
    · right
      subst hp
      rw [abm_ebt_hook_forward_add K in_ifindex p k s hf hroom]
      refine ⟨p, mod_timer
          { l2flow_entry_zeroed k with state := L2FLOW_STATE_SEEN, idev_ifi := in_ifindex }
          (s.jiffies + s.l2flow_timeouts L2FLOW_STATE_SEEN), rfl,
        hv p rfl, hroom, hf, rfl, ?_, rfl, rfl, rfl, rfl, rfl⟩
      funext q
      by_cases hq : q = p <;> simp [State.put, abm_l2flow_add_link, hq]
  | some p =>
    left
    unfold abm_ebt_hook_forward
    rw [hf]
    simp only []
    cases he : s.heap p with
    | none => exact Good.good_refl K s
    | some e =>
      simp only []
      split
      · exact SameIdx.good ⟨rfl, rfl, rfl, keys_put he rfl, rfl, rfl⟩
      · exact Good.good_refl K s

theorem abm_ebt_hook_step (K : Kernel) (hooknum : Nat) (skb : sk_buff)
    (in_ifindex out_ifindex : Nat) (alloc : Option Ptr) (env : NlOutcome) (s : State)
    (hv : (Op.ebt_hook hooknum skb in_ifindex out_ifindex alloc env).valid s) :
    Good K s (abm_ebt_hook K hooknum skb in_ifindex out_ifindex alloc env s).2
    ∨ ∃ p k e0,
        AddsOne K s (abm_ebt_hook K hooknum skb in_ifindex out_ifindex alloc env s).2 p k e0 := by
  rcases abm_ebt_hook_cases K hooknum skb in_ifindex out_ifindex alloc env s with
    h | ⟨k, _, _, h⟩ | ⟨k, p, _, _, _, h⟩
  · rw [h]; exact Or.inl (Good.good_refl K s)
  · rw [h]
    have hv' : ∀ p, alloc = some p → s.heap p = none := by
      intro p hp; subst hp; exact hv
    rcases abm_ebt_hook_forward_step K in_ifindex alloc k s hv' with hg | ⟨p, e0, _, ha⟩
    · exact Or.inl hg
    · exact Or.inr ⟨p, k, e0, ha⟩
  · rw [h]
    exact Or.inl (abm_ebt_hook_post_routing_sameIdx env out_ifindex _ p s).good

theorem Op.apply_step (K : Kernel) (op : Op) (s : State) (hv : op.valid s) :
    Good K s (op.apply K s) ∨ (∃ p k e0, AddsOne K s (op.apply K s) p k e0)
    ∨ ∃ v, op = Op.sysctl_max_entries v := by
  cases op with
  | ebt_hook hooknum skb in_ifindex out_ifindex alloc env =>
    rcases abm_ebt_hook_step K hooknum skb in_ifindex out_ifindex alloc env s hv with h | h
    · exact Or.inl h
    · exact Or.inr (Or.inl h)
  | msg_handle env action flags k => exact Or.inl (abm_l2flow_msg_handle_good K env action flags k s)
  | death_by_timeout env p => exact Or.inl (abm_death_by_timeout_good K env p s)
  | br_event env alloc_ok event => exact Or.inl (abm_br_event_good K env alloc_ok event s)
  | do_work_send_msg has_listeners env =>
    exact Or.inl (abm_do_work_send_msg_sameIdx has_listeners env s).good
  | do_work_retransmit has_listeners env =>
    exact Or.inl (abm_do_work_retransmit_sameIdx has_listeners env s).good
  | table_flush env => exact Or.inl (abm_l2flow_table_flush_good K env s)
  | sysctl_l3_filtering write val env env_rst =>
    exact Or.inl (abm_sysctl_l3_filtering_good K write val env env_rst s)
  | sysctl_max_entries val => exact Or.inr (Or.inr ⟨val, rfl⟩)
  | sysctl_timeout st val =>
    left
    show Good K s (if st = L2FLOW_STATE_FF then s else _)
    split
    · exact Good.good_refl K s
    · exact SameIdx.good ⟨rfl, rfl, rfl, fun _ => rfl, rfl, rfl⟩
  | sysctl_retransmit_delay val => exact Or.inl (SameIdx.good ⟨rfl, rfl, rfl, fun _ => rfl, rfl, rfl⟩)
  | tick n => exact Or.inl (SameIdx.good ⟨rfl, rfl, rfl, fun _ => rfl, rfl, rfl⟩)

theorem IndexInv.abm_init (K : Kernel) (jiffies0 : Nat) : IndexInv K (abm_init K jiffies0) := by
  have hx : ∀ h : l2flow → Nat, Indexed (fun _ => none) (fun _ => []) h :=
    fun h => ⟨fun i p hp => (by cases hp), fun p e he => (by cases he), fun i => List.nodup_nil⟩
  refine ⟨hx _, hx _, hx _, ?_, ?_, ?_, ?_⟩
  · intro p q e e' he; cases he
  · simp [resident_count, ABM.abm_init]
  · simp [ABM.abm_init]
  · show ABM_DEFAULT_MAX_ENTRIES < 2 ^ 32
    unfold ABM_DEFAULT_MAX_ENTRIES
    norm_num

theorem IndexInv.step {K : Kernel} {s : State} (hi : IndexInv K s) (op : Op)
    (hv : op.valid s) : IndexInv K (op.apply K s) := by
  rcases Op.apply_step K op s hv with h | ⟨p, k, e0, h⟩ | ⟨v, h⟩
  · exact h.inv hi
  · exact hi.adds h
  · subst h
    exact ⟨hi.prim, hi.src, hi.dst, hi.key_unique, hi.nb_eq, hi.nb_lt,
      Nat.mod_lt _ (by norm_num)⟩

theorem Reachable.indexInv {K : Kernel} {s : State} (h : Reachable K s) : IndexInv K s := by
  induction h with
  | init j => exact IndexInv.abm_init K j
  | step op s _ hv ih => exact ih.step op hv

theorem Indexed.count_eq {heap : Ptr → Option l2flowTable} {t : Nat → List Ptr} {h : l2flow → Nat}
    (hi : Indexed heap t h) {p : Ptr} {e : l2flowTable} (he : heap p = some e) (i : Nat) :
    (t i).count p = if i = h e.l2flow then 1 else 0 := by
  by_cases hih : i = h e.l2flow
  · rw [if_pos hih, hih]
    exact List.count_eq_one_of_mem (hi.2.2 _) (hi.2.1 p e he)
  · rw [if_neg hih]
    apply List.count_eq_zero_of_not_mem
    intro hmem
    obtain ⟨e', he', hh⟩ := hi.1 i p hmem
    rw [he] at he'
    cases he'
    exact hih hh.symm

theorem Shrinks.key_stable {s s' : State} (h : Shrinks s s') {p : Ptr} {e e' : l2flowTable}
    (he : s.heap p = some e) (he' : s'.heap p = some e') : e'.l2flow = e.l2flow := by
  obtain ⟨e0, he0, hk⟩ := h.keys p e' he'
  rw [he] at he0
  cases he0
  exact hk

theorem Op.apply_key_stable (K : Kernel) (op : Op) (s : State) (hv : op.valid s) {p : Ptr}
    {e e' : l2flowTable} (he : s.heap p = some e) (he' : (op.apply K s).heap p = some e') :
    e'.l2flow = e.l2flow := by
  rcases Op.apply_step K op s hv with h | ⟨q, k, e0, h⟩ | ⟨v, h⟩
  · exact h.shr.key_stable he he'
  · rw [h.heap] at he'
    have hqp : p ≠ q := by
      intro hpq
      rw [hpq, h.free] at he
      cases he
    simp [hqp] at he'
    rw [he] at he'
    cases he'
    rfl
  · subst h
    have : (Op.apply K (Op.sysctl_max_entries v) s).heap p = s.heap p := rfl
    rw [this, he] at he'
    cases he'
    rfl

theorem ex_s1_reachable : Reachable ex_K ex_s1 :=
  Reachable.step ex_op_forward ex_s0 (Reachable.init 1000) rfl

theorem ex_s2_reachable : Reachable ex_K ex_s2 :=
  Reachable.step ex_op_forward2 ex_s1 ex_s1_reachable rfl

/-! ## The claims -/

/-- C1. Key uniqueness: in every state reachable from the empty table by engine operations,
two resident records compare equal by `abm_l2flow_cmp` exactly when they are the same
record. -/
theorem key_uniqueness (K : Kernel) (s : State) (h : Reachable K s) (p q : Ptr)
    (e e' : l2flowTable) (hp : s.heap p = some e) (hq : s.heap q = some e') :
    abm_l2flow_cmp e.l2flow e'.l2flow = 0 ↔ p = q := by
  constructor
  · intro hc
    unfold abm_l2flow_cmp at hc
    by_cases hk : e.l2flow = e'.l2flow
    · exact h.indexInv.key_unique p q e e' hp hq hk
    · simp [hk] at hc
  · intro hpq
    subst hpq
    rw [hp] at hq
    cases hq
    simp [abm_l2flow_cmp]

/-- C1, worked example: after two different flows were seen, the two records do not compare
equal. -/
theorem key_uniqueness_witness :
    Reachable ex_K ex_s2
    ∧ ex_s2.heap 0 = some
        (mod_timer { l2flow_entry_zeroed (ex_key 1 2) with idev_ifi := 3 } 2000)
    ∧ ex_s2.heap 1 = some
        (mod_timer { l2flow_entry_zeroed (ex_key 5 6) with idev_ifi := 3 } 2000)
    ∧ (abm_l2flow_cmp (ex_key 1 2) (ex_key 5 6) = 0 ↔ (0 : Ptr) = 1) :=
  ⟨ex_s2_reachable, by decide, by decide,
   key_uniqueness ex_K ex_s2 ex_s2_reachable 0 1
     (mod_timer { l2flow_entry_zeroed (ex_key 1 2) with idev_ifi := 3 } 2000)
     (mod_timer { l2flow_entry_zeroed (ex_key 5 6) with idev_ifi := 3 } 2000)
     (by decide) (by decide)⟩

theorem find_none_of_absent {K : Kernel} {s : State} {k : l2flow}
    (h : ∀ p e, s.heap p = some e → e.l2flow ≠ k) : abm_l2flow_find K s k = none := by
  cases hf : abm_l2flow_find K s k with
  | none => rfl
  | some q =>
    obtain ⟨e, he, hk⟩ := find_some hf
    exact absurd hk (h q e he)

theorem abm_l2flow_find_add_link (K : Kernel) (p : Ptr) (k : l2flow) (s : State) :
    abm_l2flow_find K (abm_l2flow_add_link K p k s) k = some p := by
  unfold abm_l2flow_find abm_l2flow_add_link
  simp [bucket_add, list_add, abm_l2flow_find_in, abm_l2flow_cmp, l2flow_entry_zeroed]

/-- C3. Lookup correctness: in every reachable state `abm_l2flow_find` returns a resident
record whose key equals the key looked up when there is one, and nothing otherwise; a key is
found at the record just added for it, and is not found after that record was deleted. -/
theorem lookup_correct (K : Kernel) (s : State) (h : Reachable K s) (k : l2flow) :
    ((∃ p e, s.heap p = some e ∧ e.l2flow = k) →
      ∃ p e, abm_l2flow_find K s k = some p ∧ s.heap p = some e ∧ e.l2flow = k)
    ∧ ((¬ ∃ p e, s.heap p = some e ∧ e.l2flow = k) → abm_l2flow_find K s k = none)
    ∧ (∀ alloc p, (abm_l2flow_add K alloc k s).1 = some p →
        abm_l2flow_find K (abm_l2flow_add K alloc k s).2 k = some p)
    ∧ (∀ p e, s.heap p = some e → e.l2flow = k →
        abm_l2flow_find K (abm_l2flow_del p s) k = none) := by
  have hi := h.indexInv
  refine ⟨?_, ?_, ?_, ?_⟩
  · rintro ⟨p, e, he, hk⟩
    subst hk
    exact ⟨p, e, hi.find_of_resident he, he, rfl⟩
  · intro hno
    apply find_none_of_absent
    intro p e he hk
    exact hno ⟨p, e, he, hk⟩
  · intro alloc p hadd
    rcases abm_l2flow_add_cases K alloc k s with ⟨h0, _⟩ | ⟨q, _, _, h1⟩
    · rw [h0] at hadd; cases hadd
    · rw [h1] at hadd ⊢
      cases hadd
      exact abm_l2flow_find_add_link K _ k s
  · intro p e he hk
    apply find_none_of_absent
    intro q e' hq hk'
    unfold abm_l2flow_del at hq
    rw [he] at hq
    by_cases hqp : q = p
    · simp [hqp] at hq
    · simp [hqp] at hq
      exact hqp (hi.key_unique q p e' e hq he (hk'.trans hk.symm))

/-- C3, worked example: with flows 1 → 2 and 5 → 6 tracked, the first is found at its
record, an unknown flow is not found, and the first is no longer found once deleted. -/
theorem lookup_correct_witness :
    Reachable ex_K ex_s2
    ∧ abm_l2flow_find ex_K ex_s2 (ex_key 1 2) = some 0
    ∧ abm_l2flow_find ex_K ex_s2 (ex_key 8 9) = none
    ∧ abm_l2flow_find ex_K (abm_l2flow_del 0 ex_s2) (ex_key 1 2) = none :=
  ⟨ex_s2_reachable, by decide, by decide,
   (lookup_correct ex_K ex_s2 ex_s2_reachable (ex_key 1 2)).2.2.2 0
     (mod_timer { l2flow_entry_zeroed (ex_key 1 2) with idev_ifi := 3 } 2000)
     (by decide) (by decide)⟩

/-- C4. Index coherence: in every reachable state a resident record is linked exactly once
in the primary table, in the bucket `abm_l2flow_hash` of its key (below 1024), exactly once in
the source-MAC table, in the bucket `abm_l2flow_hash_mac` of its source address (below 128),
and exactly once in the destination-MAC table, in the bucket of its destination address
(below 128); and an operation that leaves the record resident changes neither its key nor
the bucket it is linked in. -/
theorem index_coherence (K : Kernel) (s : State) (h : Reachable K s) (p : Ptr)
    (e : l2flowTable) (hp : s.heap p = some e) :
    (abm_l2flow_hash K e.l2flow < 1024
      ∧ ∀ i, (s.l2flow_table i).count p = if i = abm_l2flow_hash K e.l2flow then 1 else 0)
    ∧ (abm_l2flow_hash_mac K e.l2flow.saddr < 128
      ∧ ∀ i, (s.l2flow_table_by_src_mac i).count p
          = if i = abm_l2flow_hash_mac K e.l2flow.saddr then 1 else 0)
    ∧ (abm_l2flow_hash_mac K e.l2flow.daddr < 128
      ∧ ∀ i, (s.l2flow_table_by_dst_mac i).count p
          = if i = abm_l2flow_hash_mac K e.l2flow.daddr then 1 else 0)
    ∧ ∀ op : Op, op.valid s → ∀ e', (op.apply K s).heap p = some e' →
        e'.l2flow = e.l2flow
        ∧ (∀ i, ((op.apply K s).l2flow_table i).count p = (s.l2flow_table i).count p)
        ∧ (∀ i, ((op.apply K s).l2flow_table_by_src_mac i).count p
            = (s.l2flow_table_by_src_mac i).count p)
        ∧ (∀ i, ((op.apply K s).l2flow_table_by_dst_mac i).count p
            = (s.l2flow_table_by_dst_mac i).count p) := by
  have hi := h.indexInv
  refine ⟨⟨abm_l2flow_hash_lt K _, hi.prim.count_eq hp⟩,
    ⟨abm_l2flow_hash_mac_lt K _, hi.src.count_eq hp⟩,
    ⟨abm_l2flow_hash_mac_lt K _, hi.dst.count_eq hp⟩, ?_⟩
  intro op hv e' he'
  have hk := Op.apply_key_stable K op s hv hp he'
  have hi' := hi.step op hv
  refine ⟨hk, ?_, ?_, ?_⟩
  · intro i; rw [hi'.prim.count_eq he' i, hi.prim.count_eq hp i, hk]
  · intro i; rw [hi'.src.count_eq he' i, hi.src.count_eq hp i, hk]
  · intro i; rw [hi'.dst.count_eq he' i, hi.dst.count_eq hp i, hk]

/-- C4, worked example: the record of flow 1 → 2 sits in primary bucket 23, and only there. -/
theorem index_coherence_witness :
    Reachable ex_K ex_s2
    ∧ abm_l2flow_hash ex_K (ex_key 1 2) = 23
    ∧ ∀ i, (ex_s2.l2flow_table i).count 0 = if i = 23 then 1 else 0 :=
  ⟨ex_s2_reachable, by decide,
   (index_coherence ex_K ex_s2 ex_s2_reachable 0
     (mod_timer { l2flow_entry_zeroed (ex_key 1 2) with idev_ifi := 3 } 2000)
     (by decide)).1.2⟩

theorem abm_ebt_hook_trackable (K : Kernel) (hooknum : Nat) (skb : sk_buff) (k : l2flow)
    (in_ifindex out_ifindex : Nat) (alloc : Option Ptr) (env : NlOutcome) (s : State)
    (ht : trackable skb k) :
    abm_ebt_hook K hooknum skb in_ifindex out_ifindex alloc env s
      = if hooknum = NF_BR_FORWARD then
          (NF_ACCEPT, abm_ebt_hook_forward K in_ifindex alloc k s)
        else if hooknum = NF_BR_POST_ROUTING then
          match abm_l2flow_find K s k with
          | none => (NF_ACCEPT, s)
          | some p => (NF_ACCEPT, abm_ebt_hook_post_routing env out_ifindex skb.mark p s)
        else (NF_ACCEPT, s) := by
  obtain ⟨h1, h2, h3⟩ := ht
  unfold skb_ethertype at h2
  unfold abm_ebt_hook
  simp only [h1, h3]
  have h4 : ¬ ((if skb.vlan_tag_present = true then htons ETH_P_8021Q else skb.h_proto)
        ≠ htons ETH_P_IP
      ∧ (if skb.vlan_tag_present = true then htons ETH_P_8021Q else skb.h_proto)
        ≠ htons ETH_P_IPV6
      ∧ (if skb.vlan_tag_present = true then htons ETH_P_8021Q else skb.h_proto)
        ≠ htons ETH_P_PPP_SES
      ∧ (if skb.vlan_tag_present = true then htons ETH_P_8021Q else skb.h_proto)
        ≠ htons ETH_P_8021Q) := by
    rintro ⟨a, b, c, d⟩
    rcases h2 with h | h | h | h
    · exact a h
    · exact b h
    · exact c h
    · exact d h
  simp only [h4, if_false]
  simp

theorem Shrinks.count_mono {s s' : State} (h : Shrinks s s') :
    resident_count s' ≤ resident_count s := by
  unfold resident_count
  apply Finset.sum_le_sum
  intro i _
  exact (h.prim i).length_le

theorem resident_count_of_empty {K : Kernel} {s : State} (hi : IndexInv K s)
    (he : ∀ p, s.heap p = none) : resident_count s = 0 := by
  unfold resident_count
  apply Finset.sum_eq_zero
  intro i _
  cases hl : s.l2flow_table i with
  | nil => rfl
  | cons p rest =>
    have hmem : p ∈ s.l2flow_table i := by rw [hl]; exact List.mem_cons_self _ _
    obtain ⟨e, hpe, _⟩ := hi.prim.1 i p hmem
    rw [he p] at hpe
    cases hpe

theorem Op.apply_count_le (K : Kernel) (op : Op) (s : State) (hi : IndexInv K s)
    (hv : op.valid s) (hc : resident_count s ≤ s.abm_max_entries)
    (hm : s.abm_max_entries ≤ (op.apply K s).abm_max_entries) :
    resident_count (op.apply K s) ≤ (op.apply K s).abm_max_entries := by
  rcases Op.apply_step K op s hv with h | ⟨p, k, e0, h⟩ | ⟨v, h⟩
  · have := h.shr.count_mono
    omega
  · have h1 := h.count_succ
    have h2 := h.room
    have h3 := hi.nb_eq
    have h4 := h.max
    omega
  · subst h
    have : resident_count (Op.apply K (Op.sysctl_max_entries v) s) = resident_count s := rfl
    omega

theorem ReachableCap.reachable {K : Kernel} {s : State} (h : ReachableCap K s) :
    Reachable K s := by
  induction h with
  | start s hr _ => exact hr
  | step op s _ hv _ ih => exact Reachable.step op s ih hv

theorem ReachableCap.count_bound {K : Kernel} {s : State} (h : ReachableCap K s) :
    resident_count s ≤ s.abm_max_entries := by
  induction h with
  | start s hr he => rw [resident_count_of_empty hr.indexInv he]; exact Nat.zero_le _
  | step op s hs hv hm ih => exact Op.apply_count_le K op s hs.reachable.indexInv hv ih hm

theorem abm_ebt_hook_forward_full (K : Kernel) (in_ifindex : Nat) (alloc : Option Ptr)
    (k : l2flow) (s : State) (hf : abm_l2flow_find K s k = none)
    (hfull : s.abm_max_entries ≤ s.abm_nb_entries) :
    abm_ebt_hook_forward K in_ifindex alloc k s = s := by
  unfold abm_ebt_hook_forward
  rw [hf]
  rcases abm_l2flow_add_cases K alloc k s with ⟨h, _⟩ | ⟨q, _, hroom, _⟩
  · rw [h]
  · omega

theorem forward_obs_spec (K : Kernel) (x : fwd_obs) (s : State)
    (ht : trackable x.skb x.key) (habs : ∀ q e, s.heap q = some e → e.l2flow ≠ x.key)
    (hfree : s.heap x.alloc = none) :
    (s.abm_nb_entries < s.abm_max_entries
      ∧ ∃ e0, AddsOne K s
          (abm_ebt_hook K NF_BR_FORWARD x.skb x.in_ifindex 0 (some x.alloc)
            NlOutcome.no_listener s).2 x.alloc x.key e0)
    ∨ (s.abm_max_entries ≤ s.abm_nb_entries
      ∧ abm_ebt_hook K NF_BR_FORWARD x.skb x.in_ifindex 0 (some x.alloc)
          NlOutcome.no_listener s = (NF_ACCEPT, s)) := by
  have hf : abm_l2flow_find K s x.key = none := find_none_of_absent habs
  rw [abm_ebt_hook_trackable K NF_BR_FORWARD x.skb x.key x.in_ifindex 0 (some x.alloc)
    NlOutcome.no_listener s ht, if_pos rfl]
  by_cases hroom : s.abm_nb_entries < s.abm_max_entries
  · left
    refine ⟨hroom, ?_⟩
    show ∃ e0, AddsOne K s (abm_ebt_hook_forward K x.in_ifindex (some x.alloc) x.key s) _ _ e0
    rw [abm_ebt_hook_forward_add K x.in_ifindex x.alloc x.key s hf hroom]
    refine ⟨mod_timer
        { l2flow_entry_zeroed x.key with state := L2FLOW_STATE_SEEN, idev_ifi := x.in_ifindex }
        (s.jiffies + s.l2flow_timeouts L2FLOW_STATE_SEEN),
      hfree, hroom, hf, rfl, ?_, rfl, rfl, rfl, rfl, rfl⟩
    funext q
    by_cases hq : q = x.alloc <;> simp [State.put, abm_l2flow_add_link, hq]
  · right
    have hfull : s.abm_max_entries ≤ s.abm_nb_entries := by omega
    exact ⟨hfull, by rw [abm_ebt_hook_forward_full K x.in_ifindex _ x.key s hf hfull]⟩

theorem forward_all_cons (K : Kernel) (x : fwd_obs) (rest : List fwd_obs) (s : State) :
    forward_all K (x :: rest) s
      = forward_all K rest
          (abm_ebt_hook K NF_BR_FORWARD x.skb x.in_ifindex 0 (some x.alloc)
            NlOutcome.no_listener s).2 := rfl

theorem forward_all_spec (K : Kernel) :
    ∀ (obs : List fwd_obs) (s : State), IndexInv K s →
      resident_count s ≤ s.abm_max_entries →
      (∀ x ∈ obs, trackable x.skb x.key) →
      (obs.map fwd_obs.key).Nodup → (obs.map fwd_obs.alloc).Nodup →
      (∀ x ∈ obs, ∀ q e, s.heap q = some e → e.l2flow ≠ x.key) →
      (∀ x ∈ obs, s.heap x.alloc = none) →
      IndexInv K (forward_all K obs s)
      ∧ (forward_all K obs s).abm_max_entries = s.abm_max_entries
      ∧ resident_count (forward_all K obs s)
          = min (resident_count s + obs.length) s.abm_max_entries
      ∧ ∀ q e, (forward_all K obs s).heap q = some e →
          (∃ e0, s.heap q = some e0 ∧ e0.l2flow = e.l2flow) ∨ e.l2flow ∈ obs.map fwd_obs.key := by
  intro obs
  induction obs with
  | nil =>
    intro s hi hc _ _ _ _ _
    refine ⟨hi, rfl, ?_, ?_⟩
    · show resident_count s = min (resident_count s + 0) s.abm_max_entries
      omega
    · intro q e he
      exact Or.inl ⟨e, he, rfl⟩
  | cons x rest ih =>
    intro s hi hc ht hk hp habs hfree
    have hx := forward_obs_spec K x s (ht x (List.mem_cons_self _ _))
      (habs x (List.mem_cons_self _ _)) (hfree x (List.mem_cons_self _ _))
    have hk' := List.nodup_cons.1 hk
    have hp' := List.nodup_cons.1 hp
    have hnb := hi.nb_eq
    rw [forward_all_cons]
    rcases hx with ⟨hroom, e0, ha⟩ | ⟨hfull, hs⟩
    · have hi' := hi.adds ha
      have hcount := ha.count_succ
      have hmax := ha.max
      obtain ⟨r1, r2, r3, r4⟩ := ih _ hi' (by omega)
        (fun y hy => ht y (List.mem_cons_of_mem _ hy)) hk'.2 hp'.2
        (by
          intro y hy q e he
          rw [ha.heap] at he
          by_cases hq : q = x.alloc
          · simp [hq] at he
            rw [← he, ha.key]
            intro hxy
            exact hk'.1 (by rw [hxy]; exact List.mem_map_of_mem _ hy)
          · simp [hq] at he
            exact habs y (List.mem_cons_of_mem _ hy) q e he)
        (by
          intro y hy
          rw [ha.heap]
          have hne : y.alloc ≠ x.alloc := by
            intro hxy
            exact hp'.1 (by rw [← hxy]; exact List.mem_map_of_mem _ hy)
          simp [hne]
          exact hfree y (List.mem_cons_of_mem _ hy))
      refine ⟨r1, r2.trans hmax, ?_, ?_⟩
      · rw [r3, hcount, hmax]
        simp only [List.length_cons]
        omega
      · intro q e he
        rcases r4 q e he with ⟨e1, he1, hk1⟩ | hmem
        · rw [ha.heap] at he1
          by_cases hq : q = x.alloc
          · simp [hq] at he1
            right
            rw [← hk1, ← he1, ha.key]
            exact List.mem_cons_self _ _
          · simp [hq] at he1
            exact Or.inl ⟨e1, he1, hk1⟩
        · exact Or.inr (List.mem_cons_of_mem _ hmem)
    · rw [hs]
      obtain ⟨r1, r2, r3, r4⟩ := ih s hi hc
        (fun y hy => ht y (List.mem_cons_of_mem _ hy)) hk'.2 hp'.2
        (fun y hy => habs y (List.mem_cons_of_mem _ hy))
        (fun y hy => hfree y (List.mem_cons_of_mem _ hy))
      refine ⟨r1, r2, ?_, ?_⟩
      · rw [r3]
        simp only [List.length_cons]
        omega
      · intro q e he
        rcases r4 q e he with h | hmem
        · exact Or.inl h
        · exact Or.inr (List.mem_cons_of_mem _ hmem)

theorem split_at_index {α : Type} {l : List α} {j : Nat} {x : α} (h : l[j]? = some x) :
    l = l.take j ++ x :: l.drop (j + 1) := by
  obtain ⟨hj, hx⟩ := List.getElem?_eq_some.1 h
  have h1 := List.take_append_drop j l
  rw [List.drop_eq_getElem_cons hj, hx] at h1
  exact h1.symm

theorem forward_all_take_spec (K : Kernel) (s0 : State) (obs : List fwd_obs)
    (h0 : Reachable K s0) (hempty : ∀ p, s0.heap p = none)
    (ht : ∀ x ∈ obs, trackable x.skb x.key)
    (hkeys : (obs.map fwd_obs.key).Nodup) (halloc : (obs.map fwd_obs.alloc).Nodup) (j : Nat) :
    IndexInv K (forward_all K (obs.take j) s0)
    ∧ (forward_all K (obs.take j) s0).abm_max_entries = s0.abm_max_entries
    ∧ resident_count (forward_all K (obs.take j) s0)
        = min (min j obs.length) s0.abm_max_entries
    ∧ ∀ q e, (forward_all K (obs.take j) s0).heap q = some e →
        e.l2flow ∈ (obs.take j).map fwd_obs.key := by
  have hi := h0.indexInv
  have hz := resident_count_of_empty hi hempty
  obtain ⟨r1, r2, r3, r4⟩ := forward_all_spec K (obs.take j) s0 hi (by omega)
    (fun x hx => ht x (List.mem_of_mem_take hx))
    (hkeys.sublist ((List.take_sublist j obs).map _))
    (halloc.sublist ((List.take_sublist j obs).map _))
    (by intro x _ q e he; rw [hempty q] at he; cases he)
    (fun x _ => hempty _)
  refine ⟨r1, r2, ?_, ?_⟩
  · rw [r3, hz, List.length_take]; simp
  · intro q e he
    rcases r4 q e he with ⟨e0, he0, _⟩ | hm
    · rw [hempty q] at he0; cases he0
    · exact hm

/-- C2. Capacity bound, fail-open: from an empty table with capacity `C`, forward
observations of `C + 1` packets with pairwise distinct keys (the slab handing out distinct
addresses) leave `min j C` records linked, and the counter at `min j C`, after the first `j`
of them, so `C` in the end; each of
the first `C` inserts succeeds; the last one is rejected, `abm_l2flow_add` returning nothing
and the state unchanged, and the hook still returns `NF_ACCEPT`. And in every state reached
from an empty table by operations that do not lower the capacity, the number of resident
records is at most the capacity. -/
theorem capacity_bound (K : Kernel) (C : Nat) (s0 : State) (obs : List fwd_obs)
    (h0 : Reachable K s0) (hempty : ∀ p, s0.heap p = none) (hcap : s0.abm_max_entries = C)
    (hlen : obs.length = C + 1) (ht : ∀ x ∈ obs, trackable x.skb x.key)
    (hkeys : (obs.map fwd_obs.key).Nodup) (halloc : (obs.map fwd_obs.alloc).Nodup) :
    (∀ j, j ≤ C + 1 →
        resident_count (forward_all K (obs.take j) s0) = min j C
        ∧ (forward_all K (obs.take j) s0).abm_nb_entries = min j C)
    ∧ (∀ j x, j < C → obs[j]? = some x →
        (abm_l2flow_add K (some x.alloc) x.key (forward_all K (obs.take j) s0)).1
          = some x.alloc)
    ∧ (∀ x, obs[C]? = some x →
        abm_l2flow_add K (some x.alloc) x.key (forward_all K (obs.take C) s0)
          = (none, forward_all K (obs.take C) s0)
        ∧ abm_ebt_hook K NF_BR_FORWARD x.skb x.in_ifindex 0 (some x.alloc)
            NlOutcome.no_listener (forward_all K (obs.take C) s0)
          = (NF_ACCEPT, forward_all K (obs.take C) s0)
        ∧ forward_all K obs s0 = forward_all K (obs.take C) s0)
    ∧ ∀ s, ReachableCap K s → resident_count s ≤ s.abm_max_entries := by
  have hspec := forward_all_take_spec K s0 obs h0 hempty ht hkeys halloc
  refine ⟨?_, ?_, ?_, fun s hs => hs.count_bound⟩
  · intro j hj
    have hcount : resident_count (forward_all K (obs.take j) s0) = min j C := by
      rw [(hspec j).2.2.1, hcap, hlen]
      omega
    exact ⟨hcount, by rw [(hspec j).1.nb_eq, hcount]⟩
  · intro j x hj hx
    obtain ⟨r1, r2, r3, _⟩ := hspec j
    have hnb := r1.nb_eq
    rcases abm_l2flow_add_cases K (some x.alloc) x.key (forward_all K (obs.take j) s0) with
      ⟨_, h | h⟩ | ⟨q, hq, _, h⟩
    · rw [r2, hcap, hnb, r3, hcap, hlen] at h
      omega
    · cases h
    · rw [h]
      exact hq.symm
  · intro x hx
    obtain ⟨r1, r2, r3, r4⟩ := hspec C
    have hnb := r1.nb_eq
    have hfull : (forward_all K (obs.take C) s0).abm_max_entries
        ≤ (forward_all K (obs.take C) s0).abm_nb_entries := by
      rw [r2, hcap, hnb, r3, hcap, hlen]
      omega
    have hsplit := split_at_index hx
    have habsent : x.key ∉ (obs.take C).map fwd_obs.key := by
      rw [hsplit, List.map_append, List.map_cons] at hkeys
      have := (List.nodup_append.1 hkeys).2.2
      intro hmem
      exact this hmem (List.mem_cons_self _ _)
    have hf : abm_l2flow_find K (forward_all K (obs.take C) s0) x.key = none := by
      apply find_none_of_absent
      intro q e he hk
      exact habsent (hk ▸ r4 q e he)
    have hadd : abm_l2flow_add K (some x.alloc) x.key (forward_all K (obs.take C) s0)
        = (none, forward_all K (obs.take C) s0) := by
      rcases abm_l2flow_add_cases K (some x.alloc) x.key (forward_all K (obs.take C) s0) with
        ⟨h, _⟩ | ⟨q, _, hroom, _⟩
      · exact h
      · omega
    have hhook : abm_ebt_hook K NF_BR_FORWARD x.skb x.in_ifindex 0 (some x.alloc)
        NlOutcome.no_listener (forward_all K (obs.take C) s0)
        = (NF_ACCEPT, forward_all K (obs.take C) s0) := by
      rw [abm_ebt_hook_trackable K NF_BR_FORWARD x.skb x.key x.in_ifindex 0 (some x.alloc)
        NlOutcome.no_listener _ (ht x (List.getElem?_mem hx)), if_pos rfl,
        abm_ebt_hook_forward_full K x.in_ifindex _ x.key _ hf hfull]
    refine ⟨hadd, hhook, ?_⟩
    have hdrop : obs.drop (C + 1) = [] := by
      apply List.drop_eq_nil_of_le
      omega
    have hall : forward_all K obs s0
        = forward_all K (x :: obs.drop (C + 1)) (forward_all K (obs.take C) s0) := by
      conv_lhs => rw [hsplit]
      unfold forward_all
      rw [List.foldl_append]
    rw [hall, hdrop, forward_all_cons, hhook]
    rfl

/-- C2, worked example: with capacity 2, three distinct flows leave two records; the third
insert is rejected and its packet accepted. -/
theorem capacity_bound_witness :
    Reachable ex_K ex_s0_cap2 ∧ (∀ p, ex_s0_cap2.heap p = none)
    ∧ ex_s0_cap2.abm_max_entries = 2 ∧ ex_obs.length = 2 + 1
    ∧ resident_count (forward_all ex_K (ex_obs.take 3) ex_s0_cap2) = min 3 2 :=
  ⟨Reachable.step (Op.sysctl_max_entries 2) ex_s0 (Reachable.init 1000) trivial,
   fun _ => rfl, by decide, by decide,
   ((capacity_bound ex_K 2 ex_s0_cap2 ex_obs
     (Reachable.step (Op.sysctl_max_entries 2) ex_s0 (Reachable.init 1000) trivial)
     (fun _ => rfl) (by decide) (by decide)
     (by decide) (by decide) (by decide)).1 3 (by decide)).1⟩

/-! ## Flag arithmetic -/

theorem and_or_same (f m : Nat) : (f ||| m) &&& m = m := by
  apply Nat.eq_of_testBit_eq
  intro i
  simp only [Nat.testBit_and, Nat.testBit_or]
  cases f.testBit i <;> cases m.testBit i <;> rfl

theorem and_or_other (f m n : Nat) (h : m &&& n = 0) : (f ||| m) &&& n = f &&& n := by
  apply Nat.eq_of_testBit_eq
  intro i
  have := congrArg (fun x => x.testBit i) h
  simp only [Nat.testBit_and, Nat.zero_testBit] at this
  simp only [Nat.testBit_and, Nat.testBit_or]
  cases hf : f.testBit i <;> cases hm : m.testBit i <;> cases hn : n.testBit i <;> simp_all

theorem and_and_other (f m n : Nat) (h : m &&& n = n) : (f &&& m) &&& n = f &&& n := by
  rw [Nat.and_assoc, h]

theorem and_and_zero (f m n : Nat) (h : m &&& n = 0) : (f &&& m) &&& n = 0 := by
  rw [Nat.and_assoc, h]; simp

@[simp] theorem flag_NEEDS_UPDATE_ne_zero : L2FLOW_FL_NEEDS_UPDATE ≠ 0 := by decide

@[simp] theorem flag_set_NEEDS_UPDATE_test (f : Nat) :
    (f ||| L2FLOW_FL_NEEDS_UPDATE) &&& L2FLOW_FL_NEEDS_UPDATE = L2FLOW_FL_NEEDS_UPDATE := and_or_same f _

@[simp] theorem flag_clear_NEEDS_UPDATE_test (f : Nat) :
    (f &&& bit_not32 L2FLOW_FL_NEEDS_UPDATE) &&& L2FLOW_FL_NEEDS_UPDATE = 0 := and_and_zero f _ _ (by decide)

@[simp] theorem flag_set_NEEDS_UPDATE_test_DEAD (f : Nat) :
    (f ||| L2FLOW_FL_NEEDS_UPDATE) &&& L2FLOW_FL_DEAD = f &&& L2FLOW_FL_DEAD :=
  and_or_other f _ _ (by decide)

@[simp] theorem flag_clear_NEEDS_UPDATE_test_DEAD (f : Nat) :
    (f &&& bit_not32 L2FLOW_FL_NEEDS_UPDATE) &&& L2FLOW_FL_DEAD = f &&& L2FLOW_FL_DEAD :=
  and_and_other f _ _ (by decide)

@[simp] theorem flag_set_NEEDS_UPDATE_test_WAIT_ACK (f : Nat) :
    (f ||| L2FLOW_FL_NEEDS_UPDATE) &&& L2FLOW_FL_WAIT_ACK = f &&& L2FLOW_FL_WAIT_ACK :=
  and_or_other f _ _ (by decide)

@[simp] theorem flag_clear_NEEDS_UPDATE_test_WAIT_ACK (f : Nat) :
    (f &&& bit_not32 L2FLOW_FL_NEEDS_UPDATE) &&& L2FLOW_FL_WAIT_ACK = f &&& L2FLOW_FL_WAIT_ACK :=
  and_and_other f _ _ (by decide)

@[simp] theorem flag_set_NEEDS_UPDATE_test_PENDING_MSG (f : Nat) :
    (f ||| L2FLOW_FL_NEEDS_UPDATE) &&& L2FLOW_FL_PENDING_MSG = f &&& L2FLOW_FL_PENDING_MSG :=
  and_or_other f _ _ (by decide)

@[simp] theorem flag_clear_NEEDS_UPDATE_test_PENDING_MSG (f : Nat) :
    (f &&& bit_not32 L2FLOW_FL_NEEDS_UPDATE) &&& L2FLOW_FL_PENDING_MSG = f &&& L2FLOW_FL_PENDING_MSG :=
  and_and_other f _ _ (by decide)

@[simp] theorem flag_DEAD_ne_zero : L2FLOW_FL_DEAD ≠ 0 := by decide

@[simp] theorem flag_set_DEAD_test (f : Nat) :
    (f ||| L2FLOW_FL_DEAD) &&& L2FLOW_FL_DEAD = L2FLOW_FL_DEAD := and_or_same f _

@[simp] theorem flag_clear_DEAD_test (f : Nat) :
    (f &&& bit_not32 L2FLOW_FL_DEAD) &&& L2FLOW_FL_DEAD = 0 := and_and_zero f _ _ (by decide)

@[simp] theorem flag_set_DEAD_test_NEEDS_UPDATE (f : Nat) :
    (f ||| L2FLOW_FL_DEAD) &&& L2FLOW_FL_NEEDS_UPDATE = f &&& L2FLOW_FL_NEEDS_UPDATE :=
  and_or_other f _ _ (by decide)

@[simp] theorem flag_clear_DEAD_test_NEEDS_UPDATE (f : Nat) :
    (f &&& bit_not32 L2FLOW_FL_DEAD) &&& L2FLOW_FL_NEEDS_UPDATE = f &&& L2FLOW_FL_NEEDS_UPDATE :=
  and_and_other f _ _ (by decide)

@[simp] theorem flag_set_DEAD_test_WAIT_ACK (f : Nat) :
    (f ||| L2FLOW_FL_DEAD) &&& L2FLOW_FL_WAIT_ACK = f &&& L2FLOW_FL_WAIT_ACK :=
  and_or_other f _ _ (by decide)

@[simp] theorem flag_clear_DEAD_test_WAIT_ACK (f : Nat) :
    (f &&& bit_not32 L2FLOW_FL_DEAD) &&& L2FLOW_FL_WAIT_ACK = f &&& L2FLOW_FL_WAIT_ACK :=
  and_and_other f _ _ (by decide)

@[simp] theorem flag_set_DEAD_test_PENDING_MSG (f : Nat) :
    (f ||| L2FLOW_FL_DEAD) &&& L2FLOW_FL_PENDING_MSG = f &&& L2FLOW_FL_PENDING_MSG :=
  and_or_other f _ _ (by decide)

@[simp] theorem flag_clear_DEAD_test_PENDING_MSG (f : Nat) :
    (f &&& bit_not32 L2FLOW_FL_DEAD) &&& L2FLOW_FL_PENDING_MSG = f &&& L2FLOW_FL_PENDING_MSG :=
  and_and_other f _ _ (by decide)

@[simp] theorem flag_WAIT_ACK_ne_zero : L2FLOW_FL_WAIT_ACK ≠ 0 := by decide

@[simp] theorem flag_set_WAIT_ACK_test (f : Nat) :
    (f ||| L2FLOW_FL_WAIT_ACK) &&& L2FLOW_FL_WAIT_ACK = L2FLOW_FL_WAIT_ACK := and_or_same f _

@[simp] theorem flag_clear_WAIT_ACK_test (f : Nat) :
    (f &&& bit_not32 L2FLOW_FL_WAIT_ACK) &&& L2FLOW_FL_WAIT_ACK = 0 := and_and_zero f _ _ (by decide)

@[simp] theorem flag_set_WAIT_ACK_test_NEEDS_UPDATE (f : Nat) :
    (f ||| L2FLOW_FL_WAIT_ACK) &&& L2FLOW_FL_NEEDS_UPDATE = f &&& L2FLOW_FL_NEEDS_UPDATE :=
  and_or_other f _ _ (by decide)

@[simp] theorem flag_clear_WAIT_ACK_test_NEEDS_UPDATE (f : Nat) :
    (f &&& bit_not32 L2FLOW_FL_WAIT_ACK) &&& L2FLOW_FL_NEEDS_UPDATE = f &&& L2FLOW_FL_NEEDS_UPDATE :=
  and_and_other f _ _ (by decide)

@[simp] theorem flag_set_WAIT_ACK_test_DEAD (f : Nat) :
    (f ||| L2FLOW_FL_WAIT_ACK) &&& L2FLOW_FL_DEAD = f &&& L2FLOW_FL_DEAD :=
  and_or_other f _ _ (by decide)

@[simp] theorem flag_clear_WAIT_ACK_test_DEAD (f : Nat) :
    (f &&& bit_not32 L2FLOW_FL_WAIT_ACK) &&& L2FLOW_FL_DEAD = f &&& L2FLOW_FL_DEAD :=
  and_and_other f _ _ (by decide)

@[simp] theorem flag_set_WAIT_ACK_test_PENDING_MSG (f : Nat) :
    (f ||| L2FLOW_FL_WAIT_ACK) &&& L2FLOW_FL_PENDING_MSG = f &&& L2FLOW_FL_PENDING_MSG :=
  and_or_other f _ _ (by decide)

@[simp] theorem flag_clear_WAIT_ACK_test_PENDING_MSG (f : Nat) :
    (f &&& bit_not32 L2FLOW_FL_WAIT_ACK) &&& L2FLOW_FL_PENDING_MSG = f &&& L2FLOW_FL_PENDING_MSG :=
  and_and_other f _ _ (by decide)

@[simp] theorem flag_PENDING_MSG_ne_zero : L2FLOW_FL_PENDING_MSG ≠ 0 := by decide

@[simp] theorem flag_set_PENDING_MSG_test (f : Nat) :
    (f ||| L2FLOW_FL_PENDING_MSG) &&& L2FLOW_FL_PENDING_MSG = L2FLOW_FL_PENDING_MSG := and_or_same f _

@[simp] theorem flag_clear_PENDING_MSG_test (f : Nat) :
    (f &&& bit_not32 L2FLOW_FL_PENDING_MSG) &&& L2FLOW_FL_PENDING_MSG = 0 := and_and_zero f _ _ (by decide)

@[simp] theorem flag_set_PENDING_MSG_test_NEEDS_UPDATE (f : Nat) :
    (f ||| L2FLOW_FL_PENDING_MSG) &&& L2FLOW_FL_NEEDS_UPDATE = f &&& L2FLOW_FL_NEEDS_UPDATE :=
  and_or_other f _ _ (by decide)

@[simp] theorem flag_clear_PENDING_MSG_test_NEEDS_UPDATE (f : Nat) :
    (f &&& bit_not32 L2FLOW_FL_PENDING_MSG) &&& L2FLOW_FL_NEEDS_UPDATE = f &&& L2FLOW_FL_NEEDS_UPDATE :=
  and_and_other f _ _ (by decide)

@[simp] theorem flag_set_PENDING_MSG_test_DEAD (f : Nat) :
    (f ||| L2FLOW_FL_PENDING_MSG) &&& L2FLOW_FL_DEAD = f &&& L2FLOW_FL_DEAD :=
  and_or_other f _ _ (by decide)

@[simp] theorem flag_clear_PENDING_MSG_test_DEAD (f : Nat) :
    (f &&& bit_not32 L2FLOW_FL_PENDING_MSG) &&& L2FLOW_FL_DEAD = f &&& L2FLOW_FL_DEAD :=
  and_and_other f _ _ (by decide)

@[simp] theorem flag_set_PENDING_MSG_test_WAIT_ACK (f : Nat) :
    (f ||| L2FLOW_FL_PENDING_MSG) &&& L2FLOW_FL_WAIT_ACK = f &&& L2FLOW_FL_WAIT_ACK :=
  and_or_other f _ _ (by decide)

@[simp] theorem flag_clear_PENDING_MSG_test_WAIT_ACK (f : Nat) :
    (f &&& bit_not32 L2FLOW_FL_PENDING_MSG) &&& L2FLOW_FL_WAIT_ACK = f &&& L2FLOW_FL_WAIT_ACK :=
  and_and_other f _ _ (by decide)

/-! ## The timer discipline and the DEAD flag -/

theorem RecEv.ev_refl (e : l2flowTable) : RecEv e e :=
  ⟨id, fun _ h => ⟨h, rfl⟩, fun _ h h' => absurd h h'⟩

theorem RecEv.ev_trans {e e' e'' : l2flowTable} (h : RecEv e e') (h' : RecEv e' e'') :
    RecEv e e'' := by
  refine ⟨fun hk => h'.1 (h.1 hk), ?_, ?_⟩
  · intro hk hd
    obtain ⟨hd', hs'⟩ := h.2.1 hk hd
    obtain ⟨hd'', hs''⟩ := h'.2.1 (h.1 hk) hd'
    exact ⟨hd'', hs''.trans hs'⟩
  · intro hk hd hd''
    by_cases hd' : e'.flags &&& L2FLOW_FL_DEAD = 0
    · exact h'.2.2 (h.1 hk) hd' hd''
    · rw [(h'.2.1 (h.1 hk) hd').2]
      exact h.2.2 hk hd hd'

theorem RecEv.of_not_armed {e X : l2flowTable}
    (h : ¬ (e.timeout_pending = true ∨ e.state = L2FLOW_STATE_FF)) : RecEv e X :=
  ⟨fun hk => absurd hk.1 h, fun hk => absurd hk.1 h, fun hk => absurd hk.1 h⟩

theorem Evolves.evolves_refl (s : State) : Evolves s s :=
  fun _ e' he' => ⟨e', he', RecEv.ev_refl e'⟩

theorem Evolves.evolves_trans {s s' s'' : State} (h : Evolves s s') (h' : Evolves s' s'') :
    Evolves s s'' := by
  intro p e'' he''
  obtain ⟨e', he', hr'⟩ := h' p e'' he''
  obtain ⟨e, he, hr⟩ := h p e' he'
  exact ⟨e, he, hr.ev_trans hr'⟩

theorem Evolves.of_heap_eq {s s' : State} (h : s'.heap = s.heap) : Evolves s s' := by
  intro p e' he'
  rw [h] at he'
  exact ⟨e', he', RecEv.ev_refl e'⟩

theorem Evolves.of_heapAt {s s' : State} {p : Ptr} {e : l2flowTable}
    {r : Option l2flowTable} (he : s.heap p = some e) (h : HeapAt s s' p r)
    (hr : ∀ Y, r = some Y → RecEv e Y) : Evolves s s' := by
  intro q e' he'
  rw [h] at he'
  by_cases hq : q = p
  · subst hq
    simp at he'
    exact ⟨e, he, hr e' he'⟩
  · simp [hq] at he'
    exact ⟨e', he', RecEv.ev_refl e'⟩

theorem Evolves.keeps_timerInv {s s' : State} (h : Evolves s s') (hi : TimerInv s) : TimerInv s' := by
  intro p e' he'
  obtain ⟨e, he, hr⟩ := h p e' he'
  exact hr.1 (hi p e he)

theorem foldl_evolves {α : Type} (f : State → α → State) (h : ∀ s a, Evolves s (f s a)) :
    ∀ (l : List α) (s : State), Evolves s (l.foldl f s) := by
  intro l
  induction l with
  | nil => intro s; exact Evolves.evolves_refl s
  | cons a rest ih => intro s; exact (h s a).evolves_trans (ih (f s a))

theorem HeapAt.comp {s s1 s2 : State} {p : Ptr} {r1 r2 : Option l2flowTable}
    (h1 : HeapAt s s1 p r1) (h2 : HeapAt s1 s2 p r2) : HeapAt s s2 p r2 := by
  unfold HeapAt at *
  rw [h2, h1]
  funext q
  by_cases hq : q = p <;> simp [hq]

theorem __abm_go_dying_heapAt (env : NlOutcome) (p : Ptr) (s : State) (e : l2flowTable)
    (he : s.heap p = some e) :
    (e.flags &&& L2FLOW_FL_DEAD ≠ 0 ∧ HeapAt s (__abm_go_dying env p s) p none)
    ∨ (e.flags &&& L2FLOW_FL_DEAD = 0
        ∧ ∃ Y, HeapAt s (__abm_go_dying env p s) p (some Y) ∧ Y.state = L2FLOW_STATE_DYING
            ∧ Y.timeout_pending = true ∧ Y.flags &&& L2FLOW_FL_DEAD ≠ 0) := by
  unfold __abm_go_dying
  simp only [he]
  by_cases hd : e.flags &&& L2FLOW_FL_DEAD = 0
  · right
    refine ⟨hd, ?_⟩
    simp only [hd, if_true]
    repeat' split
    all_goals exact ⟨_, rfl, rfl, rfl, by simp [add_timer]⟩
  · left
    refine ⟨hd, ?_⟩
    simp only [hd, if_false]
    unfold abm_l2flow_del
    simp only [he]
    rfl

theorem __abm_go_dying_after (env : NlOutcome) {s s1 : State} {p : Ptr} {e X1 : l2flowTable}
    (h1 : HeapAt s s1 p (some X1))
    (hdead : e.flags &&& L2FLOW_FL_DEAD ≠ 0 → X1.flags &&& L2FLOW_FL_DEAD ≠ 0) :
    ∃ r, HeapAt s (__abm_go_dying env p s1) p r ∧ ∀ Y, r = some Y → RecEv e Y := by
  have hX : s1.heap p = some X1 := by rw [h1]; simp
  rcases __abm_go_dying_heapAt env p s1 X1 hX with ⟨_, h2⟩ | ⟨hd, Y, h2, hst, hpend, hdY⟩
  · exact ⟨none, h1.comp h2, fun Y hY => by cases hY⟩
  · refine ⟨some Y, h1.comp h2, ?_⟩
    intro Y' hY'
    cases hY'
    have hnd : ¬ e.flags &&& L2FLOW_FL_DEAD ≠ 0 := fun h => hdead h hd
    exact ⟨fun _ => ⟨Or.inl hpend, fun _ => Or.inl hst⟩, fun _ h => absurd h hnd,
      fun _ _ _ => hst⟩

theorem __abm_go_dying_evolves (env : NlOutcome) (p : Ptr) (s : State) :
    Evolves s (__abm_go_dying env p s) := by
  cases he : s.heap p with
  | none =>
    unfold __abm_go_dying
    simp only [he]
    exact Evolves.evolves_refl s
  | some e =>
    have h1 : HeapAt s s p (some e) := by
      unfold HeapAt
      funext q
      by_cases hq : q = p <;> simp [hq, he]
    obtain ⟨r, hr, hY⟩ := __abm_go_dying_after env (e := e) h1 id
    exact Evolves.of_heapAt he hr hY

theorem abm_death_by_timeout_evolves (env : NlOutcome) (p : Ptr) (s : State) :
    Evolves s (abm_death_by_timeout env p s) := by
  unfold abm_death_by_timeout
  cases he : s.heap p with
  | none => exact Evolves.evolves_refl s
  | some e =>
    simp only []
    have h1 : HeapAt s (s.put p (del_timer e)) p (some (del_timer e)) := rfl
    obtain ⟨r, hr, hY⟩ := __abm_go_dying_after env (e := e) h1 id
    exact Evolves.of_heapAt he hr hY

theorem abm_ebt_hook_post_routing_evolves (env : NlOutcome) (out_ifindex mark : Nat) (p : Ptr)
    (s : State) : Evolves s (abm_ebt_hook_post_routing env out_ifindex mark p s) := by
  cases he : s.heap p with
  | none =>
    unfold abm_ebt_hook_post_routing
    simp only [he]
    exact Evolves.evolves_refl s
  | some e =>
    have : ∃ Y, HeapAt s (abm_ebt_hook_post_routing env out_ifindex mark p s) p (some Y)
        ∧ RecEv e Y := by
      unfold abm_ebt_hook_post_routing
      simp only [he]
      repeat' split
      all_goals refine ⟨_, rfl, ?_⟩
      all_goals (unfold RecEv RecOK; simp_all [mod_timer_pending])
    obtain ⟨Y, h1, h2⟩ := this
    exact Evolves.of_heapAt he h1 (fun Y' hY' => by cases hY'; exact h2)

theorem abm_br_event_port_down_entry_evolves (env : NlOutcome) (ifindex : Nat) (p : Ptr)
    (s : State) : Evolves s (abm_br_event_port_down_entry env ifindex p s) := by
  unfold abm_br_event_port_down_entry
  cases he : s.heap p with
  | none => exact Evolves.evolves_refl s
  | some e =>
    simp only []
    split
    · have key : ∀ (s1 : State) (X1 : l2flowTable), HeapAt s s1 p (some X1) →
          (e.flags &&& L2FLOW_FL_DEAD ≠ 0 → X1.flags &&& L2FLOW_FL_DEAD ≠ 0) →
          Evolves s (if e.timeout_pending = true ∨ e.state = L2FLOW_STATE_FF then
            __abm_go_dying env p s1 else s1) := by
        intro s1 X1 h1 hd
        split
        · obtain ⟨r, hr, hY⟩ := __abm_go_dying_after env (e := e) h1 hd
          exact Evolves.of_heapAt he hr hY
        · rename_i hc
          exact Evolves.of_heapAt he h1 (fun Y _ => RecEv.of_not_armed hc)
      have hs1 : ∃ X1, HeapAt s
          (if e.flags &&& L2FLOW_FL_PENDING_MSG = 0 then
            { s.put p
                (del_timer
                  { e with
                    state := L2FLOW_STATE_DYING
                    flags := e.flags ||| L2FLOW_FL_PENDING_MSG }) with
              l2flow_list_msg_to_send := list_add p s.l2flow_list_msg_to_send
              work_send_msg_queued := true }
          else
            s.put p (del_timer { e with state := L2FLOW_STATE_DYING })) p (some X1)
          ∧ (e.flags &&& L2FLOW_FL_DEAD ≠ 0 → X1.flags &&& L2FLOW_FL_DEAD ≠ 0) := by
        split
        · exact ⟨_, rfl, by simp [del_timer]⟩
        · exact ⟨_, rfl, by simp [del_timer]⟩
      obtain ⟨X1, h1, hd⟩ := hs1
      exact key _ X1 h1 hd
    · exact Evolves.evolves_refl s

theorem abm_l2flow_table_flush_entry_evolves (env : NlOutcome) (p : Ptr) (s : State) :
    Evolves s (abm_l2flow_table_flush_entry env p s) := by
  unfold abm_l2flow_table_flush_entry
  cases he : s.heap p with
  | none => exact Evolves.evolves_refl s
  | some e =>
    simp only []
    have h1 : HeapAt s (s.put p (del_timer { e with flags := e.flags ||| L2FLOW_FL_DEAD })) p
        (some (del_timer { e with flags := e.flags ||| L2FLOW_FL_DEAD })) := rfl
    split
    · obtain ⟨r, hr, hY⟩ := __abm_go_dying_after env (e := e) h1 (by simp [del_timer])
      exact Evolves.of_heapAt he hr hY
    · rename_i hc
      exact Evolves.of_heapAt he h1 (fun Y _ => RecEv.of_not_armed hc)

theorem abm_l2flow_table_flush_evolves (env : Ptr → NlOutcome) (s : State) :
    Evolves s (abm_l2flow_table_flush env s) := by
  unfold abm_l2flow_table_flush
  apply foldl_evolves
  intro s i
  apply foldl_evolves
  intro s p
  exact abm_l2flow_table_flush_entry_evolves (env p) p s

theorem abm_br_event_fdb_update_entry_evolves (mac_addr : eth_addr) (ifindex : Nat) (p : Ptr)
    (s : State) : Evolves s (abm_br_event_fdb_update_entry mac_addr ifindex p s) := by
  unfold abm_br_event_fdb_update_entry
  cases he : s.heap p with
  | none => exact Evolves.evolves_refl s
  | some e =>
    simp only []
    repeat' split
    all_goals
      first
      | exact Evolves.evolves_refl s
      | exact Evolves.of_heapAt he rfl
          (fun Y hY => by cases hY; unfold RecEv RecOK; simp_all)

theorem abm_br_event_port_down_step_evolves (env : NlOutcome) (ifindex : Nat) (p : Ptr)
    (s : State) : Evolves s (abm_br_event_port_down_step env ifindex p s) := by
  rcases abm_br_event_port_down_step_cases env ifindex p s with h | h | h
  · rw [h]; exact Evolves.evolves_refl s
  · rw [h]; exact abm_br_event_port_down_entry_evolves env ifindex p s
  · rw [h]
    exact (abm_br_event_port_down_entry_evolves env ifindex p s).evolves_trans
      (Evolves.of_heap_eq rfl)

theorem abm_br_event_evolves (K : Kernel) (env : Ptr → NlOutcome) (alloc_ok : Bool)
    (event : brevent) (s : State) : Evolves s (abm_br_event K env alloc_ok event s) := by
  unfold abm_br_event
  cases event with
  | BREVENT_PORT_DOWN ifindex =>
    simp only []
    apply foldl_evolves
    intro s i
    apply foldl_evolves
    intro s p
    exact abm_br_event_port_down_step_evolves (env p) ifindex p s
  | BREVENT_FDB_UPDATE mac_addr ifindex brdev =>
    simp only []
    have h1 : Evolves s
        ((s.l2flow_table_by_dst_mac (abm_l2flow_hash_mac K mac_addr)).foldl
          (fun s p => abm_br_event_fdb_update_entry mac_addr ifindex p s) s) := by
      apply foldl_evolves
      intro s p
      exact abm_br_event_fdb_update_entry_evolves mac_addr ifindex p s
    split
    · refine h1.evolves_trans (Evolves.of_heap_eq ?_)
      unfold add_brevent
      split <;> rfl
    · exact h1
  | BREVENT_OTHER => exact Evolves.evolves_refl s

theorem abm_do_work_send_msg_entry_evolves (env : NlOutcome) (p : Ptr) (s : State) :
    Evolves s (abm_do_work_send_msg_entry env p s) := by
  unfold abm_do_work_send_msg_entry
  cases he : s.heap p with
  | none => exact Evolves.evolves_refl s
  | some e =>
    simp only []
    repeat' split
    all_goals
      first
      | exact Evolves.of_heap_eq rfl
      | exact Evolves.of_heapAt he rfl
          (fun Y hY => by cases hY; unfold RecEv RecOK; simp_all)

theorem abm_do_work_send_msg_loop_evolves (l : List Ptr) :
    ∀ (env : Nat → NlOutcome) (s : State), Evolves s (abm_do_work_send_msg_loop env l s) := by
  induction l with
  | nil => intro env s; exact Evolves.evolves_refl s
  | cons p rest ih =>
    intro env s
    unfold abm_do_work_send_msg_loop
    exact (abm_do_work_send_msg_entry_evolves (env 0) p s).evolves_trans (ih _ _)

theorem abm_do_work_send_msg_evolves (has_listeners : Bool) (env : Nat → NlOutcome)
    (s : State) : Evolves s (abm_do_work_send_msg has_listeners env s) := by
  unfold abm_do_work_send_msg
  simp only []
  split
  · exact Evolves.of_heap_eq rfl
  · have h0 : Evolves s { s with work_send_msg_queued := false } := Evolves.of_heap_eq rfl
    have h1 := abm_do_work_send_msg_loop_evolves s.l2flow_list_msg_to_send env
      { s with work_send_msg_queued := false }
    exact (h0.evolves_trans h1).evolves_trans (Evolves.of_heap_eq rfl)

theorem abm_do_work_retransmit_loop_evolves (l : List Ptr) :
    ∀ (env : Nat → NlOutcome) (s : State),
      Evolves s (abm_do_work_retransmit_loop env l s) := by
  induction l with
  | nil => intro env s; exact Evolves.evolves_refl s
  | cons p rest ih =>
    intro env s
    unfold abm_do_work_retransmit_loop
    cases he : s.heap p with
    | none => exact ih _ _
    | some e =>
      simp only []
      split
      · split
        · refine Evolves.evolves_trans ?_ (ih _ _)
          exact Evolves.of_heapAt he rfl
            (fun Y hY => by cases hY; unfold RecEv RecOK; simp_all)
        · exact Evolves.of_heap_eq rfl
      · exact ih _ _

theorem abm_do_work_retransmit_evolves (has_listeners : Bool) (env : Nat → NlOutcome)
    (s : State) : Evolves s (abm_do_work_retransmit has_listeners env s) := by
  have key : ∀ s1 : State, Evolves s s1 →
      Evolves s { s1 with work_retransmit_delay := some s1.abm_retransmit_time } :=
    fun s1 h => h.evolves_trans (Evolves.of_heap_eq rfl)
  unfold abm_do_work_retransmit
  split
  · exact Evolves.of_heap_eq rfl
  · apply key
    split
    · exact Evolves.evolves_refl s
    · split
      · exact Evolves.evolves_refl s
      · exact abm_do_work_retransmit_loop_evolves _ env s

theorem emit_evolves (s : State) (o : Option (nlmsg × Int)) : Evolves s (s.emit o) :=
  Evolves.of_heap_eq rfl

theorem abm_sysctl_l3_filtering_evolves (write : Bool) (val : Nat)
    (env : Ptr → NlOutcome) (env_rst : NlOutcome) (s : State) :
    Evolves s (abm_sysctl_l3_filtering write val env env_rst s) := by
  have key : ∀ s1 : State, Evolves s s1 →
      Evolves s { s1 with abm_l3_filtering := if val ≠ 0 then 1 else 0 } :=
    fun s1 h => h.evolves_trans (Evolves.of_heap_eq rfl)
  unfold abm_sysctl_l3_filtering
  split
  · apply key
    split
    · exact (abm_l2flow_table_flush_evolves env s).evolves_trans (emit_evolves _ _)
    · exact Evolves.evolves_refl s
  · exact Evolves.evolves_refl s

theorem abm_l2flow_update_heapAt (flags : Nat) (p : Ptr) (s : State) (e : l2flowTable)
    (he : s.heap p = some e) :
    ∃ Y, HeapAt s (abm_l2flow_update flags p s) p (some Y)
      ∧ (RecOK e → RecOK Y)
      ∧ (e.flags &&& L2FLOW_FL_DEAD ≠ 0 ↔ Y.flags &&& L2FLOW_FL_DEAD ≠ 0)
      ∧ (Y.state = e.state ∨ UpdatesTo flags Y.state) := by
  unfold abm_l2flow_update
  by_cases h1 : flags &&& L2FLOW_OFFLOADED ≠ 0
  · simp only [he, if_pos h1]
    split
    all_goals refine ⟨_, rfl, ?_, ?_, Or.inr (Or.inl ⟨h1, rfl⟩)⟩
    all_goals simp_all [RecOK, del_timer]
  · by_cases h2 : flags &&& L2FLOW_DENIED ≠ 0
    · simp only [he, if_neg h1, if_pos h2]
      split
      all_goals refine ⟨_, rfl, ?_, ?_, Or.inr (Or.inr ⟨not_not.1 h1, h2, rfl⟩)⟩
      all_goals simp_all [RecOK, mod_timer]
    · simp only [he, if_neg h1, if_neg h2]
      split
      all_goals refine ⟨_, rfl, ?_, ?_, Or.inl rfl⟩
      all_goals simp_all [RecOK]

theorem abm_l2flow_msg_handle_evolves (K : Kernel) (env : NlOutcome) (action flags : Nat)
    (k : l2flow) (s : State) :
    Evolves s (abm_l2flow_msg_handle K env action flags k s).2
    ∨ ∃ p e Y, action = L2FLOW_ENTRY_UPDATE ∧ s.heap p = some e ∧ e.l2flow = k
        ∧ HeapAt s (abm_l2flow_msg_handle K env action flags k s).2 p (some Y)
        ∧ (RecOK e → RecOK Y)
        ∧ (e.flags &&& L2FLOW_FL_DEAD ≠ 0 ↔ Y.flags &&& L2FLOW_FL_DEAD ≠ 0)
        ∧ (Y.state = e.state ∨ UpdatesTo flags Y.state) := by
  unfold abm_l2flow_msg_handle
  cases hf : abm_l2flow_find K s k with
  | none => exact Or.inl (Evolves.evolves_refl s)
  | some p =>
    obtain ⟨e, he, hk⟩ := find_some hf
    simp only [he]
    split
    · rename_i ha
      right
      obtain ⟨Y, h1, h2, h3, h4⟩ := abm_l2flow_update_heapAt flags p s e he
      exact ⟨p, e, Y, ha, he, hk, h1, h2, h3, h4⟩
    · left
      split
      · have key : ∀ (s1 : State) (X1 : l2flowTable), HeapAt s s1 p (some X1) →
            (e.flags &&& L2FLOW_FL_DEAD ≠ 0 → X1.flags &&& L2FLOW_FL_DEAD ≠ 0) →
            Evolves s (if e.timeout_pending = true ∨ e.state = L2FLOW_STATE_FF then
              (0, __abm_go_dying env p s1) else ((0 : Int), s1)).2 := by
          intro s1 X1 h1 hd
          split
          · obtain ⟨r, hr, hY⟩ := __abm_go_dying_after env (e := e) h1 hd
            exact Evolves.of_heapAt he hr hY
          · rename_i hc
            exact Evolves.of_heapAt he h1 (fun Y _ => RecEv.of_not_armed hc)
        have hs1 : ∃ X1, HeapAt s
            (if (e.flags ||| L2FLOW_FL_DEAD) &&& L2FLOW_FL_WAIT_ACK ≠ 0 then
              { s.put p
                  (del_timer
                    { e with
                      flags :=
                        (e.flags ||| L2FLOW_FL_DEAD) &&& bit_not32 L2FLOW_FL_WAIT_ACK }) with
                l2flow_list_wait_for_ack := list_del p s.l2flow_list_wait_for_ack }
            else
              s.put p (del_timer { e with flags := e.flags ||| L2FLOW_FL_DEAD })) p (some X1)
            ∧ (e.flags &&& L2FLOW_FL_DEAD ≠ 0 → X1.flags &&& L2FLOW_FL_DEAD ≠ 0) := by
          split
          · exact ⟨_, rfl, by simp [del_timer]⟩
          · exact ⟨_, rfl, by simp [del_timer]⟩
        obtain ⟨X1, h1, hd⟩ := hs1
        exact key _ X1 h1 hd
      · exact Evolves.evolves_refl s

theorem abm_ebt_hook_forward_evolves (K : Kernel) (in_ifindex : Nat) (alloc : Option Ptr)
    (k : l2flow) (s : State) (hv : ∀ p, alloc = some p → s.heap p = none) :
    Evolves s (abm_ebt_hook_forward K in_ifindex alloc k s)
    ∨ ∃ p e0, s.heap p = none
        ∧ HeapAt s (abm_ebt_hook_forward K in_ifindex alloc k s) p (some e0) ∧ RecOK e0 := by
  cases hf : abm_l2flow_find K s k with
  | none =>
    rcases abm_l2flow_add_cases K alloc k s with ⟨h, _⟩ | ⟨p, hp, hroom, _⟩
    · left
      unfold abm_ebt_hook_forward
      rw [hf, h]
      exact Evolves.evolves_refl s
    · right
      subst hp
      rw [abm_ebt_hook_forward_add K in_ifindex p k s hf hroom]
      refine ⟨p, mod_timer
          { l2flow_entry_zeroed k with state := L2FLOW_STATE_SEEN, idev_ifi := in_ifindex }
          (s.jiffies + s.l2flow_timeouts L2FLOW_STATE_SEEN), hv p rfl, ?_, ?_⟩
      · unfold HeapAt
        funext q
        by_cases hq : q = p <;> simp [State.put, abm_l2flow_add_link, hq]
      · unfold RecOK
        simp [mod_timer, l2flow_entry_zeroed]
  | some p =>
    left
    unfold abm_ebt_hook_forward
    rw [hf]
    simp only []
    cases he : s.heap p with
    | none => exact Evolves.evolves_refl s
    | some e =>
      simp only []
      split
      · exact Evolves.of_heapAt he rfl
          (fun Y hY => by cases hY; unfold RecEv RecOK; simp_all)
      · exact Evolves.evolves_refl s

theorem Op.apply_evolves (K : Kernel) (op : Op) (s : State) (hv : op.valid s) :
    Evolves s (op.apply K s)
    ∨ (∃ p e0, s.heap p = none ∧ HeapAt s (op.apply K s) p (some e0) ∧ RecOK e0)
    ∨ ∃ env flags p e Y, op = Op.msg_handle env L2FLOW_ENTRY_UPDATE flags e.l2flow
        ∧ s.heap p = some e ∧ HeapAt s (op.apply K s) p (some Y)
        ∧ (RecOK e → RecOK Y)
        ∧ (e.flags &&& L2FLOW_FL_DEAD ≠ 0 ↔ Y.flags &&& L2FLOW_FL_DEAD ≠ 0)
        ∧ (Y.state = e.state ∨ UpdatesTo flags Y.state) := by
  cases op with
  | ebt_hook hooknum skb in_ifindex out_ifindex alloc env =>
    show Evolves s (abm_ebt_hook K hooknum skb in_ifindex out_ifindex alloc env s).2 ∨
      (∃ p e0, s.heap p = none
        ∧ HeapAt s (abm_ebt_hook K hooknum skb in_ifindex out_ifindex alloc env s).2 p (some e0)
        ∧ RecOK e0) ∨ _
    rcases abm_ebt_hook_cases K hooknum skb in_ifindex out_ifindex alloc env s with
      h | ⟨k, _, _, h⟩ | ⟨k, p, _, _, _, h⟩
    · rw [h]; exact Or.inl (Evolves.evolves_refl s)
    · rw [h]
      have hv' : ∀ p, alloc = some p → s.heap p = none := by
        intro p hp; subst hp; exact hv
      rcases abm_ebt_hook_forward_evolves K in_ifindex alloc k s hv' with hg | hg
      · exact Or.inl hg
      · exact Or.inr (Or.inl hg)
    · rw [h]
      exact Or.inl (abm_ebt_hook_post_routing_evolves env out_ifindex _ p s)
  | msg_handle env action flags k =>
    rcases abm_l2flow_msg_handle_evolves K env action flags k s with
      h | ⟨p, e, Y, ha, he, hk, h1, h2, h3, h4⟩
    · exact Or.inl h
    · subst ha
      subst hk
      exact Or.inr (Or.inr ⟨env, flags, p, e, Y, rfl, he, h1, h2, h3, h4⟩)
  | death_by_timeout env p => exact Or.inl (abm_death_by_timeout_evolves env p s)
  | br_event env alloc_ok event => exact Or.inl (abm_br_event_evolves K env alloc_ok event s)
  | do_work_send_msg has_listeners env =>
    exact Or.inl (abm_do_work_send_msg_evolves has_listeners env s)
  | do_work_retransmit has_listeners env =>
    exact Or.inl (abm_do_work_retransmit_evolves has_listeners env s)
  | table_flush env => exact Or.inl (abm_l2flow_table_flush_evolves env s)
  | sysctl_l3_filtering write val env env_rst =>
    exact Or.inl (abm_sysctl_l3_filtering_evolves write val env env_rst s)
  | sysctl_max_entries val => exact Or.inl (Evolves.of_heap_eq rfl)
  | sysctl_timeout st val =>
    left
    show Evolves s (if st = L2FLOW_STATE_FF then s else _)
    split
    · exact Evolves.evolves_refl s
    · exact Evolves.of_heap_eq rfl
  | sysctl_retransmit_delay val => exact Or.inl (Evolves.of_heap_eq rfl)
  | tick n => exact Or.inl (Evolves.of_heap_eq rfl)

theorem TimerInv.timer_step {K : Kernel} {s : State} (hi : TimerInv s) (op : Op) (hv : op.valid s) :
    TimerInv (op.apply K s) := by
  rcases Op.apply_evolves K op s hv with h | ⟨p, e0, _, h, hok⟩
    | ⟨env, flags, p, e, Y, _, he, h, hk, _, _⟩
  · exact h.keeps_timerInv hi
  · intro q e' he'
    rw [h] at he'
    by_cases hq : q = p
    · simp [hq] at he'
      rw [← he']
      exact hok
    · simp [hq] at he'
      exact hi q e' he'
  · intro q e' he'
    rw [h] at he'
    by_cases hq : q = p
    · simp [hq] at he'
      rw [← he']
      exact hk (hi p e he)
    · simp [hq] at he'
      exact hi q e' he'

theorem Reachable.timerInv {K : Kernel} {s : State} (h : Reachable K s) : TimerInv s := by
  induction h with
  | init j => intro p e he; cases he
  | step op s _ hv ih => exact ih.timer_step op hv

theorem ex_s_confirmed_reachable : Reachable ex_K ex_s_confirmed :=
  Reachable.step ex_op_post ex_s1 ex_s1_reachable trivial

theorem ex_s_confirmed_dying_reachable : Reachable ex_K ex_s_confirmed_dying :=
  Reachable.step (Op.death_by_timeout ex_sent 0) _
    (Reachable.step (Op.tick 200000) _ ex_s_confirmed_reachable trivial)
    ⟨_, rfl, rfl, by decide⟩

theorem ex_s_seen_dying_reachable : Reachable ex_K ex_s_seen_dying :=
  Reachable.step (Op.death_by_timeout ex_sent 0) _
    (Reachable.step (Op.tick 200000) _ ex_s1_reachable trivial)
    ⟨_, rfl, rfl, by decide⟩

/-- C5, the code at the failing input. Forward hook, post-routing hook with a listener,
timer expiry with a listener, then a control UPDATE: `__abm_go_dying` links the record on
the pending-acknowledgement list a second time although WAIT_ACK is already set, the UPDATE
unlinks it once, and the resident record is left on the list with WAIT_ACK clear. -/
theorem wait_ack_list_divergence :
    Reachable ex_K ex_s_acked
    ∧ ex_s_confirmed.l2flow_list_wait_for_ack = [0]
    ∧ ex_s_confirmed_dying.l2flow_list_wait_for_ack = [0, 0]
    ∧ (ex_s_acked.heap 0).map (fun e => e.flags &&& L2FLOW_FL_WAIT_ACK) = some 0
    ∧ 0 ∈ ex_s_acked.l2flow_list_wait_for_ack :=
  ⟨Reachable.step _ _ ex_s_confirmed_dying_reachable trivial,
   by decide, by decide, by decide, by decide⟩

/-- C6, the code at the failing input. Forward hook, post-routing hook with a listener,
timer expiry with a listener, timer expiry again: the record was linked twice on the
pending-acknowledgement list by `__abm_go_dying`, `abm_l2flow_del` unlinks it once, and the
deleted record is still on that list. -/
theorem deleted_record_on_list_divergence :
    Reachable ex_K ex_s_deleted
    ∧ ex_s_deleted.heap 0 = none
    ∧ (∀ i, 0 ∉ ex_s_deleted.l2flow_table i)
    ∧ 0 ∈ ex_s_deleted.l2flow_list_wait_for_ack := by
  have hr : Reachable ex_K ex_s_deleted :=
    Reachable.step (Op.death_by_timeout ex_sent 0) _
      (Reachable.step (Op.tick 200000) _ ex_s_confirmed_dying_reachable trivial)
      ⟨_, rfl, rfl, by decide⟩
  have h0 : ex_s_deleted.heap 0 = none := by decide
  refine ⟨hr, h0, ?_, by decide⟩
  intro i hi
  obtain ⟨e, he, _⟩ := hr.indexInv.prim.1 i 0 hi
  rw [h0] at he
  cases he

theorem abm_l2flow_find_put_link (K : Kernel) (p : Ptr) (k : l2flow) (s : State)
    (e : l2flowTable) (hk : e.l2flow = k) :
    abm_l2flow_find K ((abm_l2flow_add_link K p k s).put p e) k = some p := by
  unfold abm_l2flow_find abm_l2flow_add_link State.put
  simp [bucket_add, list_add, abm_l2flow_find_in, abm_l2flow_cmp, hk]

theorem abm_ebt_hook_forward_first (K : Kernel) (in_ifindex : Nat) (p : Ptr) (k : l2flow)
    (s : State) (habs : ∀ q e, s.heap q = some e → e.l2flow ≠ k)
    (hroom : s.abm_nb_entries < s.abm_max_entries) :
    abm_ebt_hook_forward K in_ifindex (some p) k s
      = (abm_l2flow_add_link K p k s).put p
          (l2flow_entry_seen k in_ifindex s.jiffies (s.l2flow_timeouts L2FLOW_STATE_SEEN)) := by
  rw [abm_ebt_hook_forward_add K in_ifindex p k s (find_none_of_absent habs) hroom]
  rfl

/-- C10. First observation: for a trackable key that no resident record has, below
capacity, a forward observation creates one record, at the address the slab hands out: it
has that key, state SEEN, the packet's input interface as ingress, no flag, and its timer
armed to expire after the SEEN timeout; it is linked at the front of its three buckets and
no other record changes. A post-routing observation of such a key changes nothing. -/
theorem first_observation (K : Kernel) (s : State) (k : l2flow) (skb : sk_buff)
    (in_ifindex out_ifindex : Nat) (p : Ptr) (env : NlOutcome) (ht : trackable skb k)
    (habs : ∀ q e, s.heap q = some e → e.l2flow ≠ k)
    (hroom : s.abm_nb_entries < s.abm_max_entries) :
    (abm_ebt_hook K NF_BR_FORWARD skb in_ifindex out_ifindex (some p) env s).1 = NF_ACCEPT
    ∧ (abm_ebt_hook K NF_BR_FORWARD skb in_ifindex out_ifindex (some p) env s).2.heap p
        = some (l2flow_entry_seen k in_ifindex s.jiffies (s.l2flow_timeouts L2FLOW_STATE_SEEN))
    ∧ (∀ q, q ≠ p →
        (abm_ebt_hook K NF_BR_FORWARD skb in_ifindex out_ifindex (some p) env s).2.heap q
          = s.heap q)
    ∧ (abm_ebt_hook K NF_BR_FORWARD skb in_ifindex out_ifindex (some p) env s).2.l2flow_table
        = bucket_add s.l2flow_table (abm_l2flow_hash K k) p
    ∧ (abm_ebt_hook K NF_BR_FORWARD skb in_ifindex out_ifindex (some p)
          env s).2.l2flow_table_by_src_mac
        = bucket_add s.l2flow_table_by_src_mac (abm_l2flow_hash_mac K k.saddr) p
    ∧ (abm_ebt_hook K NF_BR_FORWARD skb in_ifindex out_ifindex (some p)
          env s).2.l2flow_table_by_dst_mac
        = bucket_add s.l2flow_table_by_dst_mac (abm_l2flow_hash_mac K k.daddr) p
    ∧ (abm_ebt_hook K NF_BR_FORWARD skb in_ifindex out_ifindex (some p) env s).2.nl_out
        = s.nl_out
    ∧ ∀ in2 out2 alloc2 env2,
        abm_ebt_hook K NF_BR_POST_ROUTING skb in2 out2 alloc2 env2 s = (NF_ACCEPT, s) := by
  have hfwd := abm_ebt_hook_trackable K NF_BR_FORWARD skb k in_ifindex out_ifindex (some p)
    env s ht
  rw [if_pos rfl, abm_ebt_hook_forward_first K in_ifindex p k s habs hroom] at hfwd
  rw [hfwd]
  refine ⟨rfl, ?_, ?_, rfl, rfl, rfl, rfl, ?_⟩
  · simp [State.put]
  · intro q hq
    simp [State.put, abm_l2flow_add_link, hq]
  · intro in2 out2 alloc2 env2
    rw [abm_ebt_hook_trackable K NF_BR_POST_ROUTING skb k in2 out2 alloc2 env2 s ht,
      if_neg (by decide), if_pos rfl, find_none_of_absent habs]

/-- C10, worked example: the first packet of flow 1 → 2, entering by interface 3 at time
1000, creates a SEEN record at address 0 whose timer expires at 1000 + 10 * HZ. -/
theorem first_observation_witness :
    trackable (ex_skb 1 2) (ex_key 1 2)
    ∧ ex_s0.abm_nb_entries < ex_s0.abm_max_entries
    ∧ (abm_ebt_hook ex_K NF_BR_FORWARD (ex_skb 1 2) 3 0 (some 0) ex_sent ex_s0).2.heap 0
        = some (l2flow_entry_seen (ex_key 1 2) 3 1000 1000) :=
  ⟨by decide, by decide,
   (first_observation ex_K ex_s0 (ex_key 1 2) (ex_skb 1 2) 3 0 0 ex_sent (by decide)
     (fun _ _ he => by cases he) (by decide)).2.1⟩

theorem find_in_congr {heap heap' : Ptr → Option l2flowTable} (k : l2flow)
    (hk : ∀ q, (heap' q).map (fun e => e.l2flow) = (heap q).map (fun e => e.l2flow))
    (l : List Ptr) : abm_l2flow_find_in heap' k l = abm_l2flow_find_in heap k l := by
  induction l with
  | nil => rfl
  | cons a rest ih =>
    unfold abm_l2flow_find_in
    have := hk a
    cases h : heap a with
    | none =>
      cases h' : heap' a with
      | none => simpa using ih
      | some b => rw [h, h'] at this; simp at this
    | some b =>
      cases h' : heap' a with
      | none => rw [h, h'] at this; simp at this
      | some c =>
        rw [h, h'] at this
        simp at this
        simp only [this, ih]

theorem SameIdx.find_eq {K : Kernel} {s s' : State} (h : SameIdx s s') (k : l2flow) :
    abm_l2flow_find K s' k = abm_l2flow_find K s k := by
  unfold abm_l2flow_find
  rw [h.prim]
  exact find_in_congr k h.keys _

theorem abm_ebt_hook_post_routing_seen_sent (out_ifindex mark : Nat) (p : Ptr) (s : State)
    (e : l2flowTable) (he : s.heap p = some e) (hs : e.state = L2FLOW_STATE_SEEN)
    (hfl : e.flags = 0) (rc : Int) (hrc : rc ≠ -ENOTCONN) :
    abm_ebt_hook_post_routing (NlOutcome.broadcast rc) out_ifindex mark p s
      = { (s.emit (some ({ nlmsg_type := L2FLOW_MSG_ENTRY,
                           hdr := some { action := L2FLOW_ENTRY_NEW, flags := 0,
                                         saddr := e.l2flow.saddr, daddr := e.l2flow.daddr,
                                         ethertype := e.l2flow.ethertype },
                           attrs := l2flow_msg_attrs s.abm_l3_filtering
                             { e with
                               odev_ifi := out_ifindex
                               packet_mark := mark &&& 0xFFFF } }, rc))).put p
            { e with
              state := L2FLOW_STATE_CONFIRMED
              time_sent := s.jiffies
              flags := L2FLOW_FL_WAIT_ACK
              timeout_expires :=
                if e.timeout_pending then s.jiffies + s.l2flow_timeouts L2FLOW_STATE_CONFIRMED
                else e.timeout_expires
              odev_ifi := out_ifindex
              packet_mark := mark &&& 0xFFFF } with
          l2flow_list_wait_for_ack := list_add p s.l2flow_list_wait_for_ack } := by
  unfold abm_ebt_hook_post_routing
  simp only [he]
  by_cases ho : out_ifindex ≠ e.odev_ifi
  · simp only [if_pos ho, hs, abm_nl_send_l2flow_msg, if_pos hrc]
    cases hp : e.timeout_pending <;>
      simp [mod_timer_pending, hp, hfl, hs, L2FLOW_FL_NEEDS_UPDATE, L2FLOW_FL_WAIT_ACK,
        bit_not32, l2flow_msg_attrs]
  · simp only [if_neg ho, hs, abm_nl_send_l2flow_msg, if_pos hrc]
    have ho' : e.odev_ifi = out_ifindex := (not_not.1 ho).symm
    cases hp : e.timeout_pending <;>
      simp [mod_timer_pending, hp, hfl, hs, ho', L2FLOW_FL_NEEDS_UPDATE, L2FLOW_FL_WAIT_ACK,
        bit_not32, l2flow_msg_attrs]

/-- C8. Scenario A: for a key that no resident record has (the table below capacity, the
slab handing out the address `p`), a forward observation followed by a post-routing
observation with a listener present, the send succeeding, hands exactly one message to the
netlink layer, an ENTRY message with action NEW for that key, and leaves the record in state
CONFIRMED, with WAIT_ACK as its only flag, last-sent time now, and linked at the front of the
pending-acknowledgement list. -/
theorem scenario_A (K : Kernel) (s : State) (k : l2flow) (skb_fwd skb_post : sk_buff)
    (in_ifindex in2 out1 out_ifindex : Nat) (p : Ptr) (alloc2 : Option Ptr)
    (env_fwd : NlOutcome) (ht : trackable skb_fwd k) (ht2 : trackable skb_post k)
    (habs : ∀ q e, s.heap q = some e → e.l2flow ≠ k)
    (hroom : s.abm_nb_entries < s.abm_max_entries) :
    (abm_ebt_hook K NF_BR_POST_ROUTING skb_post in2 out_ifindex alloc2 (NlOutcome.broadcast 0)
        (abm_ebt_hook K NF_BR_FORWARD skb_fwd in_ifindex out1 (some p) env_fwd s).2).2.nl_out
      = s.nl_out ++
          [({ nlmsg_type := L2FLOW_MSG_ENTRY,
              hdr := some { action := L2FLOW_ENTRY_NEW, flags := 0, saddr := k.saddr,
                            daddr := k.daddr, ethertype := k.ethertype },
              attrs := l2flow_msg_attrs s.abm_l3_filtering
                { l2flow_entry_seen k in_ifindex s.jiffies
                    (s.l2flow_timeouts L2FLOW_STATE_SEEN) with
                  odev_ifi := out_ifindex
                  packet_mark := skb_post.mark &&& 0xFFFF } }, 0)]
    ∧ (abm_ebt_hook K NF_BR_POST_ROUTING skb_post in2 out_ifindex alloc2 (NlOutcome.broadcast 0)
        (abm_ebt_hook K NF_BR_FORWARD skb_fwd in_ifindex out1 (some p) env_fwd s).2).2.heap p
      = some
          { state := L2FLOW_STATE_CONFIRMED, time_sent := s.jiffies,
            flags := L2FLOW_FL_WAIT_ACK, timeout_pending := true,
            timeout_expires := s.jiffies + s.l2flow_timeouts L2FLOW_STATE_CONFIRMED,
            idev_ifi := in_ifindex, odev_ifi := out_ifindex,
            packet_mark := skb_post.mark &&& 0xFFFF, l2flow := k }
    ∧ (abm_ebt_hook K NF_BR_POST_ROUTING skb_post in2 out_ifindex alloc2 (NlOutcome.broadcast 0)
        (abm_ebt_hook K NF_BR_FORWARD skb_fwd in_ifindex out1 (some p)
          env_fwd s).2).2.l2flow_list_wait_for_ack
      = p :: s.l2flow_list_wait_for_ack := by
  have hfwd := abm_ebt_hook_trackable K NF_BR_FORWARD skb_fwd k in_ifindex out1 (some p)
    env_fwd s ht
  rw [if_pos rfl, abm_ebt_hook_forward_first K in_ifindex p k s habs hroom] at hfwd
  rw [hfwd]
  have hpost := abm_ebt_hook_trackable K NF_BR_POST_ROUTING skb_post k in2 out_ifindex alloc2
    (NlOutcome.broadcast 0)
    ((abm_l2flow_add_link K p k s).put p
      (l2flow_entry_seen k in_ifindex s.jiffies (s.l2flow_timeouts L2FLOW_STATE_SEEN))) ht2
  rw [if_neg (by decide), if_pos rfl, abm_l2flow_find_put_link K p k s _ rfl] at hpost
  rw [hpost]
  simp only []
  rw [abm_ebt_hook_post_routing_seen_sent out_ifindex skb_post.mark p _
    (l2flow_entry_seen k in_ifindex s.jiffies (s.l2flow_timeouts L2FLOW_STATE_SEEN))
    (by simp [State.put]) rfl rfl 0 (by decide)]
  refine ⟨rfl, ?_, rfl⟩
  simp [State.put, State.emit, l2flow_entry_seen, abm_l2flow_add_link]

/-- C8, worked example: flow 1 → 2 from the empty table; one NEW goes out and the record is
CONFIRMED and awaits the acknowledgement. -/
theorem scenario_A_witness :
    trackable (ex_skb 1 2) (ex_key 1 2)
    ∧ ex_s0.abm_nb_entries < ex_s0.abm_max_entries
    ∧ (abm_ebt_hook ex_K NF_BR_POST_ROUTING (ex_skb 1 2) 3 4 none (NlOutcome.broadcast 0)
        (abm_ebt_hook ex_K NF_BR_FORWARD (ex_skb 1 2) 3 0 (some 0) ex_sent
          ex_s0).2).2.l2flow_list_wait_for_ack = [0]
    ∧ ((abm_ebt_hook ex_K NF_BR_POST_ROUTING (ex_skb 1 2) 3 4 none (NlOutcome.broadcast 0)
        (abm_ebt_hook ex_K NF_BR_FORWARD (ex_skb 1 2) 3 0 (some 0) ex_sent
          ex_s0).2).2.nl_out.map (fun m => (m.1.hdr.map (fun h => h.action), m.2)))
        = [(some L2FLOW_ENTRY_NEW, 0)] :=
  ⟨by decide, by decide,
   (scenario_A ex_K ex_s0 (ex_key 1 2) (ex_skb 1 2) (ex_skb 1 2) 3 3 0 4 0 none ex_sent
     (by decide) (by decide) (fun _ _ he => by cases he) (by decide)).2.2,
   by decide⟩

theorem emit_none (s : State) : s.emit none = s := by
  cases s
  simp [State.emit]

theorem abm_ebt_hook_post_routing_seen_unheard (out_ifindex mark : Nat) (p : Ptr) (s : State)
    (e : l2flowTable) (he : s.heap p = some e) (hs : e.state = L2FLOW_STATE_SEEN) :
    ∃ e1, abm_ebt_hook_post_routing NlOutcome.no_listener out_ifindex mark p s = s.put p e1
      ∧ e1.state = L2FLOW_STATE_CONFIRMED
      ∧ e1.flags &&& L2FLOW_FL_WAIT_ACK = e.flags &&& L2FLOW_FL_WAIT_ACK
      ∧ e1.l2flow = e.l2flow := by
  unfold abm_ebt_hook_post_routing
  simp only [he]
  by_cases ho : out_ifindex ≠ e.odev_ifi
  · simp only [if_pos ho, hs, abm_nl_send_l2flow_msg, ne_eq, not_true_eq_false, if_false,
      emit_none]
    refine ⟨_, rfl, ?_, ?_, ?_⟩
    · unfold mod_timer_pending; split <;> rfl
    · unfold mod_timer_pending; split <;> simp
    · simp
  · simp only [if_neg ho, hs, abm_nl_send_l2flow_msg, ne_eq, not_true_eq_false, if_false,
      emit_none]
    refine ⟨_, rfl, ?_, ?_, ?_⟩
    · unfold mod_timer_pending; split <;> rfl
    · unfold mod_timer_pending; split <;> simp
    · simp

theorem abm_ebt_hook_post_routing_confirmed (env : NlOutcome) (out_ifindex mark : Nat)
    (p : Ptr) (s : State) (e : l2flowTable) (he : s.heap p = some e)
    (hs : e.state = L2FLOW_STATE_CONFIRMED) :
    ∃ e1, abm_ebt_hook_post_routing env out_ifindex mark p s = s.put p e1
      ∧ e1.state = L2FLOW_STATE_CONFIRMED := by
  unfold abm_ebt_hook_post_routing
  simp only [he]
  by_cases ho : out_ifindex ≠ e.odev_ifi
  · simp only [if_pos ho, hs]
    refine ⟨_, rfl, ?_⟩
    unfold mod_timer_pending; split <;> simp [hs]
  · simp only [if_neg ho, hs]
    refine ⟨_, rfl, ?_⟩
    unfold mod_timer_pending; split <;> simp [hs]

/-- C9, evaluation of the code. The SEEN record of flow 1 → 2 is observed on the post-routing
path with no listener: no message goes out, but the record is CONFIRMED afterwards, not SEEN,
with NEEDS_UPDATE left set, a last-sent time of 0 and on neither notification list. A further
post-routing observation with a listener present sends nothing, and neither do the drain of
the pending-send list and the retransmit sweep: the NEW of this flow is never sent. The
sibling case of the same `switch`, a LINUX record whose UPDATE meets no listener, keeps
NEEDS_UPDATE too, and there the next post-routing observation sends the UPDATE. -/
theorem scenario_B_divergence :
    Reachable ex_K ex_s_unheard
    ∧ (ex_s1.heap 0).map (fun e => e.state) = some L2FLOW_STATE_SEEN
    ∧ ex_s_unheard.nl_out = []
    ∧ ex_s_unheard.heap 0 = some (ex_rec L2FLOW_STATE_CONFIRMED 0 1 true 13000 3 4)
    ∧ (1 : Nat) &&& L2FLOW_FL_NEEDS_UPDATE ≠ 0
    ∧ ex_s_unheard.l2flow_list_wait_for_ack = []
    ∧ ex_s_unheard.l2flow_list_msg_to_send = []
    ∧ ex_s_unheard_again.nl_out = []
    ∧ ex_s_unheard_again.heap 0 = some (ex_rec L2FLOW_STATE_CONFIRMED 0 1 true 13000 3 4)
    ∧ (abm_do_work_send_msg true (fun _ => ex_sent) ex_s_unheard).nl_out = []
    ∧ (abm_do_work_retransmit true (fun _ => ex_sent)
        ((Op.tick 5000).apply ex_K ex_s_unheard)).nl_out = []
    ∧ ex_s_linux.heap 0 = some (ex_rec L2FLOW_STATE_LINUX 1000 0 true 2000 3 4)
    ∧ sent_actions ex_s_linux = [(some L2FLOW_ENTRY_NEW, 0)]
    ∧ ((Op.ebt_hook NF_BR_POST_ROUTING (ex_skb 1 2) 3 9 none NlOutcome.no_listener).apply ex_K
        ex_s_linux).heap 0 = some (ex_rec L2FLOW_STATE_LINUX 1000 1 true 2000 3 9)
    ∧ sent_actions ((Op.ebt_hook NF_BR_POST_ROUTING (ex_skb 1 2) 3 9 none ex_sent).apply ex_K
        ((Op.ebt_hook NF_BR_POST_ROUTING (ex_skb 1 2) 3 9 none NlOutcome.no_listener).apply ex_K
          ex_s_linux)) = [(some L2FLOW_ENTRY_NEW, 0), (some L2FLOW_ENTRY_UPDATE, 0)] :=
  ⟨Reachable.step ex_op_post_unheard _ ex_s1_reachable trivial,
   by decide, by decide, by decide, by decide, by decide, by decide, by decide, by decide,
   by decide, by decide, by decide, by decide, by decide, by decide⟩

/-- What the code does with every resident record in state SEEN of a reachable state: a
post-routing observation of its key while there is no listener hands no message to the
netlink layer, leaves WAIT_ACK and the pending-acknowledgement list as they were, and moves
the record to state CONFIRMED; a subsequent post-routing observation of the same key,
whatever the netlink layer would do, sends no message and leaves the record CONFIRMED and the
list unchanged. -/
theorem abm_ebt_hook_post_routing_unheard_lost (K : Kernel) (s : State) (h : Reachable K s) (p : Ptr)
    (e : l2flowTable) (skb : sk_buff) (in_ifindex out_ifindex : Nat) (alloc : Option Ptr)
    (he : s.heap p = some e) (hs : e.state = L2FLOW_STATE_SEEN)
    (ht : trackable skb e.l2flow) :
    (abm_ebt_hook K NF_BR_POST_ROUTING skb in_ifindex out_ifindex alloc
        NlOutcome.no_listener s).2.nl_out = s.nl_out
    ∧ (abm_ebt_hook K NF_BR_POST_ROUTING skb in_ifindex out_ifindex alloc
        NlOutcome.no_listener s).2.l2flow_list_wait_for_ack = s.l2flow_list_wait_for_ack
    ∧ (∃ e1, (abm_ebt_hook K NF_BR_POST_ROUTING skb in_ifindex out_ifindex alloc
          NlOutcome.no_listener s).2.heap p = some e1
        ∧ e1.state = L2FLOW_STATE_CONFIRMED
        ∧ e1.flags &&& L2FLOW_FL_WAIT_ACK = e.flags &&& L2FLOW_FL_WAIT_ACK)
    ∧ ∀ (skb2 : sk_buff) (in2 out2 : Nat) (alloc2 : Option Ptr) (env2 : NlOutcome),
        trackable skb2 e.l2flow →
        (abm_ebt_hook K NF_BR_POST_ROUTING skb2 in2 out2 alloc2 env2
          (abm_ebt_hook K NF_BR_POST_ROUTING skb in_ifindex out_ifindex alloc
            NlOutcome.no_listener s).2).2.nl_out = s.nl_out
        ∧ (abm_ebt_hook K NF_BR_POST_ROUTING skb2 in2 out2 alloc2 env2
          (abm_ebt_hook K NF_BR_POST_ROUTING skb in_ifindex out_ifindex alloc
            NlOutcome.no_listener s).2).2.l2flow_list_wait_for_ack
            = s.l2flow_list_wait_for_ack
        ∧ ∃ e2, (abm_ebt_hook K NF_BR_POST_ROUTING skb2 in2 out2 alloc2 env2
            (abm_ebt_hook K NF_BR_POST_ROUTING skb in_ifindex out_ifindex alloc
              NlOutcome.no_listener s).2).2.heap p = some e2
          ∧ e2.state = L2FLOW_STATE_CONFIRMED := by
  have hfind := h.indexInv.find_of_resident he
  have h1 := abm_ebt_hook_trackable K NF_BR_POST_ROUTING skb e.l2flow in_ifindex out_ifindex
    alloc NlOutcome.no_listener s ht
  rw [if_neg (by decide), if_pos rfl, hfind] at h1
  obtain ⟨e1, hpost, hst1, hfl1, hk1⟩ :=
    abm_ebt_hook_post_routing_seen_unheard out_ifindex skb.mark p s e he hs
  simp only [hpost] at h1
  rw [h1]
  have hheap1 : (s.put p e1).heap p = some e1 := by simp [State.put]
  refine ⟨rfl, rfl, ⟨e1, hheap1, hst1, hfl1⟩, ?_⟩
  intro skb2 in2 out2 alloc2 env2 ht2
  have hsame : SameIdx s (s.put p e1) := put_sameIdx he hk1
  have h2 := abm_ebt_hook_trackable K NF_BR_POST_ROUTING skb2 e.l2flow in2 out2 alloc2 env2
    (s.put p e1) ht2
  rw [if_neg (by decide), if_pos rfl, hsame.find_eq, hfind] at h2
  obtain ⟨e2, hpost2, hst2⟩ :=
    abm_ebt_hook_post_routing_confirmed env2 out2 skb2.mark p (s.put p e1) e1 hheap1 hst1
  simp only [hpost2] at h2
  rw [h2]
  exact ⟨rfl, rfl, e2, by simp [State.put], hst2⟩

/-! ## Control messages: rejected input, OFFLOADED -/

theorem abm_l2flow_msg_handle_update {K : Kernel} {s : State} {k : l2flow} {p : Ptr}
    (hf : abm_l2flow_find K s k = some p) (env : NlOutcome) (flags : Nat) :
    abm_l2flow_msg_handle K env L2FLOW_ENTRY_UPDATE flags k s
      = (0, abm_l2flow_update flags p s) := by
  unfold abm_l2flow_msg_handle
  simp only [hf, if_true]

/-- C16. A control message is rejected without any change of the engine state:
`abm_l2flow_msg_handle` returns `-ENOENT` and the state it was given when no resident record
has the key, and `-ENOMSG`, a different code, and the state it was given when a resident record
has the key but the action is neither UPDATE nor DEL. -/
theorem rejected_control_input_atomic (K : Kernel) (s : State) (h : Reachable K s)
    (env : NlOutcome) (action flags : Nat) (k : l2flow) :
    ((∀ p e, s.heap p = some e → e.l2flow ≠ k) →
        abm_l2flow_msg_handle K env action flags k s = (-ENOENT, s))
    ∧ ((∃ p e, s.heap p = some e ∧ e.l2flow = k) →
        action ≠ L2FLOW_ENTRY_UPDATE → action ≠ L2FLOW_ENTRY_DEL →
        abm_l2flow_msg_handle K env action flags k s = (-ENOMSG, s))
    ∧ -ENOENT ≠ -ENOMSG := by
  refine ⟨?_, ?_, by decide⟩
  · intro hno
    unfold abm_l2flow_msg_handle
    rw [find_none_of_absent hno]
  · rintro ⟨p, e, he, hk⟩ hu hd
    subst hk
    unfold abm_l2flow_msg_handle
    rw [h.indexInv.find_of_resident he]
    simp only [if_neg hu, if_neg hd]

/-- C16, worked example: with only flow 1 → 2 tracked, a control UPDATE for the unknown flow
5 → 6 returns `-ENOENT` and a control message with action NEW for flow 1 → 2 returns
`-ENOMSG`, both leaving the state as it was. -/
theorem rejected_control_input_atomic_witness :
    Reachable ex_K ex_s1
    ∧ (∃ p e, ex_s1.heap p = some e ∧ e.l2flow = ex_key 1 2)
    ∧ abm_l2flow_msg_handle ex_K ex_sent L2FLOW_ENTRY_NEW 0 (ex_key 1 2) ex_s1
        = (-ENOMSG, ex_s1)
    ∧ abm_l2flow_msg_handle ex_K ex_sent L2FLOW_ENTRY_UPDATE 0 (ex_key 5 6) ex_s0
        = (-ENOENT, ex_s0)
    ∧ -ENOENT ≠ -ENOMSG :=
  ⟨ex_s1_reachable, ⟨0, _, rfl, rfl⟩,
   (rejected_control_input_atomic ex_K ex_s1 ex_s1_reachable ex_sent L2FLOW_ENTRY_NEW 0
      (ex_key 1 2)).2.1 ⟨0, _, rfl, rfl⟩ (by decide) (by decide),
   (rejected_control_input_atomic ex_K ex_s0 (Reachable.init 1000) ex_sent L2FLOW_ENTRY_UPDATE 0
      (ex_key 5 6)).1 (fun _ _ he => by cases he),
   (rejected_control_input_atomic ex_K ex_s1 ex_s1_reachable ex_sent L2FLOW_ENTRY_NEW 0
      (ex_key 1 2)).2.2⟩

/-- C13. For a resident record of a reachable state, a control UPDATE for its key whose
feedback flags contain OFFLOADED, whatever the DENIED bit, returns 0, puts the record in state
FF and cancels its timer; the key, both interfaces, the mark and the flags NEEDS_UPDATE, DEAD
and PENDING_MSG are as before (WAIT_ACK is cleared), and no other record changes. -/
theorem offloaded_update (K : Kernel) (s : State) (h : Reachable K s) (p : Ptr)
    (e : l2flowTable) (hp : s.heap p = some e) (env : NlOutcome) (flags : Nat)
    (hf : flags &&& L2FLOW_OFFLOADED ≠ 0) :
    (abm_l2flow_msg_handle K env L2FLOW_ENTRY_UPDATE flags e.l2flow s).1 = 0
    ∧ (∃ e', (abm_l2flow_msg_handle K env L2FLOW_ENTRY_UPDATE flags e.l2flow s).2.heap p = some e'
        ∧ e' = { e with
            state := L2FLOW_STATE_FF, timeout_pending := false,
            flags := if e.flags &&& L2FLOW_FL_WAIT_ACK ≠ 0
              then e.flags &&& bit_not32 L2FLOW_FL_WAIT_ACK else e.flags }
        ∧ e'.state = L2FLOW_STATE_FF ∧ e'.timeout_pending = false
        ∧ e'.l2flow = e.l2flow ∧ e'.idev_ifi = e.idev_ifi ∧ e'.odev_ifi = e.odev_ifi
        ∧ e'.packet_mark = e.packet_mark
        ∧ e'.flags &&& L2FLOW_FL_NEEDS_UPDATE = e.flags &&& L2FLOW_FL_NEEDS_UPDATE
        ∧ e'.flags &&& L2FLOW_FL_DEAD = e.flags &&& L2FLOW_FL_DEAD
        ∧ e'.flags &&& L2FLOW_FL_PENDING_MSG = e.flags &&& L2FLOW_FL_PENDING_MSG)
    ∧ ∀ q, q ≠ p →
        (abm_l2flow_msg_handle K env L2FLOW_ENTRY_UPDATE flags e.l2flow s).2.heap q
          = s.heap q := by
  rw [abm_l2flow_msg_handle_update (h.indexInv.find_of_resident hp)]
  unfold abm_l2flow_update
  simp only [hp, if_pos hf]
  by_cases hw : e.flags &&& L2FLOW_FL_WAIT_ACK ≠ 0
  · simp [hw, del_timer, State.put]
    intro q hq
    simp [hq]
  · simp [hw, del_timer, State.put]
    intro q hq
    simp [hq]

/-- C13, worked example: the CONFIRMED record of flow 1 → 2, waiting for its acknowledgement
with its timer armed, gets a control UPDATE with OFFLOADED and DENIED both set: it is in state
FF afterwards with no timer pending, WAIT_ACK cleared and everything else as before. -/
theorem offloaded_update_witness :
    Reachable ex_K ex_s_confirmed
    ∧ ex_s_confirmed.heap 0 = some (ex_rec L2FLOW_STATE_CONFIRMED 1000 4 true 13000 3 4)
    ∧ (L2FLOW_OFFLOADED ||| L2FLOW_DENIED) &&& L2FLOW_OFFLOADED ≠ 0
    ∧ (abm_l2flow_msg_handle ex_K ex_sent L2FLOW_ENTRY_UPDATE (L2FLOW_OFFLOADED ||| L2FLOW_DENIED)
        (ex_key 1 2) ex_s_confirmed).2.heap 0
        = some (ex_rec L2FLOW_STATE_FF 1000 0 false 13000 3 4) := by
  refine ⟨ex_s_confirmed_reachable, by decide, by decide, ?_⟩
  obtain ⟨e', he', heq, _⟩ :=
    (offloaded_update ex_K ex_s_confirmed ex_s_confirmed_reachable 0
      (ex_rec L2FLOW_STATE_CONFIRMED 1000 4 true 13000 3 4) (by decide) ex_sent
      (L2FLOW_OFFLOADED ||| L2FLOW_DENIED) (by decide)).2.1
  exact he'.trans (congrArg some (heq.trans (by decide)))

/-! ## Interface changes seen by the hook -/

theorem abm_ebt_hook_forward_of_resident {K : Kernel} {s : State} (hi : IndexInv K s) {p : Ptr}
    {e : l2flowTable} (he : s.heap p = some e) (skb : sk_buff) (ht : trackable skb e.l2flow)
    (in_ifindex out_ifindex : Nat) (alloc : Option Ptr) (env : NlOutcome) :
    (abm_ebt_hook K NF_BR_FORWARD skb in_ifindex out_ifindex alloc env s).2
      = if in_ifindex ≠ e.idev_ifi then
          s.put p { e with flags := e.flags ||| L2FLOW_FL_NEEDS_UPDATE, idev_ifi := in_ifindex }
        else s := by
  rw [abm_ebt_hook_trackable K _ skb e.l2flow _ _ _ _ s ht]
  simp only [if_true]
  unfold abm_ebt_hook_forward
  simp only [hi.find_of_resident he, he]

theorem abm_ebt_hook_post_of_resident {K : Kernel} {s : State} (hi : IndexInv K s) {p : Ptr}
    {e : l2flowTable} (he : s.heap p = some e) (skb : sk_buff) (ht : trackable skb e.l2flow)
    (in_ifindex out_ifindex : Nat) (alloc : Option Ptr) (env : NlOutcome) :
    (abm_ebt_hook K NF_BR_POST_ROUTING skb in_ifindex out_ifindex alloc env s).2
      = abm_ebt_hook_post_routing env out_ifindex skb.mark p s := by
  rw [abm_ebt_hook_trackable K _ skb e.l2flow _ _ _ _ s ht]
  have hne : ¬ NF_BR_POST_ROUTING = NF_BR_FORWARD := by decide
  simp only [if_neg hne, if_true, hi.find_of_resident he]

/-- The record the post-routing hook works on once it has stored the output interface and the
mark of the packet. -/
theorem post_routing_entry_eq (e : l2flowTable) (out_ifindex mark : Nat) :
    { (if out_ifindex ≠ e.odev_ifi then
        { e with flags := e.flags ||| L2FLOW_FL_NEEDS_UPDATE, odev_ifi := out_ifindex }
       else e) with packet_mark := mark &&& 0xFFFF }
      = { e with
          flags := if out_ifindex ≠ e.odev_ifi then e.flags ||| L2FLOW_FL_NEEDS_UPDATE
            else e.flags
          odev_ifi := out_ifindex
          packet_mark := mark &&& 0xFFFF } := by
  by_cases ho : out_ifindex ≠ e.odev_ifi
  · simp only [if_pos ho]
  · simp only [if_neg ho]
    have : out_ifindex = e.odev_ifi := not_not.mp ho
    rw [this]

theorem abm_ebt_hook_post_routing_confirmed_eq (env : NlOutcome) (out_ifindex mark : Nat)
    (p : Ptr) (s : State) (e : l2flowTable) (he : s.heap p = some e)
    (hs : e.state = L2FLOW_STATE_CONFIRMED) :
    abm_ebt_hook_post_routing env out_ifindex mark p s
      = s.put p (mod_timer_pending (post_routing_entry e out_ifindex mark)
          (s.jiffies + s.l2flow_timeouts L2FLOW_STATE_CONFIRMED)) := by
  unfold abm_ebt_hook_post_routing post_routing_entry
  simp only [he]
  by_cases ho : out_ifindex ≠ e.odev_ifi
  · simp only [if_pos ho, hs]
  · have : out_ifindex = e.odev_ifi := not_not.mp ho
    subst this
    simp only [if_neg ho, hs]

/-! ### Fields that the timer helpers and the store helpers keep -/

@[simp] theorem mod_timer_pending_state (e : l2flowTable) (x : Nat) :
    (mod_timer_pending e x).state = e.state := by
  unfold mod_timer_pending; split <;> rfl

@[simp] theorem mod_timer_pending_flags (e : l2flowTable) (x : Nat) :
    (mod_timer_pending e x).flags = e.flags := by
  unfold mod_timer_pending; split <;> rfl

@[simp] theorem mod_timer_pending_idev_ifi (e : l2flowTable) (x : Nat) :
    (mod_timer_pending e x).idev_ifi = e.idev_ifi := by
  unfold mod_timer_pending; split <;> rfl

@[simp] theorem mod_timer_pending_odev_ifi (e : l2flowTable) (x : Nat) :
    (mod_timer_pending e x).odev_ifi = e.odev_ifi := by
  unfold mod_timer_pending; split <;> rfl

@[simp] theorem mod_timer_pending_time_sent (e : l2flowTable) (x : Nat) :
    (mod_timer_pending e x).time_sent = e.time_sent := by
  unfold mod_timer_pending; split <;> rfl

@[simp] theorem mod_timer_pending_packet_mark (e : l2flowTable) (x : Nat) :
    (mod_timer_pending e x).packet_mark = e.packet_mark := by
  unfold mod_timer_pending; split <;> rfl

@[simp] theorem mod_timer_pending_timeout_pending (e : l2flowTable) (x : Nat) :
    (mod_timer_pending e x).timeout_pending = e.timeout_pending := by
  unfold mod_timer_pending; split <;> rfl

@[simp] theorem put_heap_self (s : State) (p : Ptr) (e : l2flowTable) :
    (s.put p e).heap p = some e := by
  simp [State.put]

theorem put_heap_other (s : State) (p : Ptr) (e : l2flowTable) {q : Ptr} (h : q ≠ p) :
    (s.put p e).heap q = s.heap q := by
  simp [State.put, h]

@[simp] theorem put_nl_out (s : State) (p : Ptr) (e : l2flowTable) :
    (s.put p e).nl_out = s.nl_out := rfl

@[simp] theorem put_l2flow_list_wait_for_ack (s : State) (p : Ptr) (e : l2flowTable) :
    (s.put p e).l2flow_list_wait_for_ack = s.l2flow_list_wait_for_ack := rfl

@[simp] theorem put_l2flow_list_msg_to_send (s : State) (p : Ptr) (e : l2flowTable) :
    (s.put p e).l2flow_list_msg_to_send = s.l2flow_list_msg_to_send := rfl

@[simp] theorem emit_nl_out (s : State) (o : Option (nlmsg × Int)) :
    (s.emit o).nl_out = s.nl_out ++ o.toList := rfl

@[simp] theorem emit_heap (s : State) (o : Option (nlmsg × Int)) :
    (s.emit o).heap = s.heap := rfl

@[simp] theorem emit_l2flow_list_wait_for_ack (s : State) (o : Option (nlmsg × Int)) :
    (s.emit o).l2flow_list_wait_for_ack = s.l2flow_list_wait_for_ack := rfl

@[simp] theorem emit_l2flow_list_msg_to_send (s : State) (o : Option (nlmsg × Int)) :
    (s.emit o).l2flow_list_msg_to_send = s.l2flow_list_msg_to_send := rfl

theorem abm_ebt_hook_post_routing_update (env : NlOutcome) (out_ifindex mark : Nat)
    (p : Ptr) (s : State) (e : l2flowTable) (he : s.heap p = some e)
    (hs : e.state = L2FLOW_STATE_LINUX ∨ e.state = L2FLOW_STATE_FF)
    (hpm : e.flags &&& L2FLOW_FL_PENDING_MSG = 0)
    (hn : out_ifindex ≠ e.odev_ifi ∨ e.flags &&& L2FLOW_FL_NEEDS_UPDATE ≠ 0) :
    (abm_ebt_hook_post_routing env out_ifindex mark p s).nl_out
      = s.nl_out ++ (abm_nl_send_l2flow_msg env s.abm_l3_filtering L2FLOW_ENTRY_UPDATE 0
          (post_routing_entry e out_ifindex mark)).2.toList
    ∧ ∃ e', (abm_ebt_hook_post_routing env out_ifindex mark p s).heap p = some e'
        ∧ e'.state = e.state ∧ e'.odev_ifi = out_ifindex ∧ e'.idev_ifi = e.idev_ifi
        ∧ e'.l2flow = e.l2flow
        ∧ ((abm_nl_send_l2flow_msg env s.abm_l3_filtering L2FLOW_ENTRY_UPDATE 0
              (post_routing_entry e out_ifindex mark)).1 ≠ -ENOTCONN →
            e'.flags &&& L2FLOW_FL_NEEDS_UPDATE = 0 ∧ e'.flags &&& L2FLOW_FL_WAIT_ACK ≠ 0
            ∧ e'.time_sent = s.jiffies)
        ∧ ((abm_nl_send_l2flow_msg env s.abm_l3_filtering L2FLOW_ENTRY_UPDATE 0
              (post_routing_entry e out_ifindex mark)).1 = -ENOTCONN →
            e'.flags &&& L2FLOW_FL_NEEDS_UPDATE ≠ 0) := by
  unfold abm_ebt_hook_post_routing post_routing_entry
  simp only [he]
  by_cases ho : out_ifindex ≠ e.odev_ifi
  · simp only [if_pos ho]
    have hc : (e.flags ||| L2FLOW_FL_NEEDS_UPDATE) &&& L2FLOW_FL_PENDING_MSG = 0 := by
      simp [hpm]
    rcases hs with hs | hs
    all_goals
      simp only [hs, hc, flag_set_NEEDS_UPDATE_test, flag_NEEDS_UPDATE_ne_zero, ne_eq,
        not_false_eq_true, and_self, if_true]
      repeat' split
      all_goals
        refine ⟨rfl, _, put_heap_self _ _ _, ?_⟩
        simp_all [list_add]
  · have hout : out_ifindex = e.odev_ifi := not_not.mp ho
    subst hout
    have hn1 : e.flags &&& L2FLOW_FL_NEEDS_UPDATE ≠ 0 := by
      rcases hn with h | h
      · exact absurd rfl h
      · exact h
    simp only [if_neg ho]
    rcases hs with hs | hs
    all_goals
      simp only [hs, hpm, hn1, ne_eq, not_false_eq_true, and_self, if_true]
      repeat' split
      all_goals
        refine ⟨rfl, _, put_heap_self _ _ _, ?_⟩
        simp_all [list_add]

theorem abm_ebt_hook_post_routing_pending (env : NlOutcome) (out_ifindex mark : Nat)
    (p : Ptr) (s : State) (e : l2flowTable) (he : s.heap p = some e)
    (hs : e.state = L2FLOW_STATE_LINUX ∨ e.state = L2FLOW_STATE_FF)
    (hpm : e.flags &&& L2FLOW_FL_PENDING_MSG ≠ 0) :
    (abm_ebt_hook_post_routing env out_ifindex mark p s).nl_out = s.nl_out
    ∧ ∃ e', (abm_ebt_hook_post_routing env out_ifindex mark p s).heap p = some e'
        ∧ e'.state = e.state ∧ e'.odev_ifi = out_ifindex
        ∧ (out_ifindex ≠ e.odev_ifi ∨ e.flags &&& L2FLOW_FL_NEEDS_UPDATE ≠ 0 →
            e'.flags &&& L2FLOW_FL_NEEDS_UPDATE ≠ 0) := by
  unfold abm_ebt_hook_post_routing
  simp only [he]
  by_cases ho : out_ifindex ≠ e.odev_ifi
  · simp only [if_pos ho]
    have hc : (e.flags ||| L2FLOW_FL_NEEDS_UPDATE) &&& L2FLOW_FL_PENDING_MSG ≠ 0 := by
      simp [hpm]
    rcases hs with hs | hs
    all_goals
      simp only [hs, hc, false_and, if_false]
      refine ⟨rfl, _, put_heap_self _ _ _, ?_⟩
      simp_all
  · have hout : out_ifindex = e.odev_ifi := not_not.mp ho
    subst hout
    simp only [if_neg ho]
    rcases hs with hs | hs
    all_goals
      simp only [hs, hpm, false_and, if_false]
      refine ⟨rfl, _, put_heap_self _ _ _, ?_⟩
      simp_all

/-- C11, counterexample. The CONFIRMED record of flow 1 → 2, with PENDING_MSG clear, is seen
by the forward hook on another input interface: NEEDS_UPDATE is set and the interface stored.
The next post-routing packet for it, a listener being there, sends nothing: the only message
ever sent is the NEW, and NEEDS_UPDATE stays set. For the same flow in state LINUX, a
post-routing packet on another output interface sends the UPDATE in that same call and leaves
NEEDS_UPDATE clear, so that the post-routing packet after it sends nothing. -/
theorem interface_change_counterexample :
    ex_s_confirmed.heap 0 = some (ex_rec L2FLOW_STATE_CONFIRMED 1000 4 true 13000 3 4)
    ∧ ex_s_confirmed_moved.heap 0 = some (ex_rec L2FLOW_STATE_CONFIRMED 1000 5 true 13000 7 4)
    ∧ (5 : Nat) &&& L2FLOW_FL_NEEDS_UPDATE ≠ 0 ∧ (5 : Nat) &&& L2FLOW_FL_PENDING_MSG = 0
    ∧ sent_actions ex_s_confirmed_moved = [(some L2FLOW_ENTRY_NEW, 0)]
    ∧ sent_actions (ex_op_post.apply ex_K ex_s_confirmed_moved) = [(some L2FLOW_ENTRY_NEW, 0)]
    ∧ (ex_op_post.apply ex_K ex_s_confirmed_moved).heap 0
        = some (ex_rec L2FLOW_STATE_CONFIRMED 1000 5 true 13000 7 4)
    ∧ ex_s_linux.heap 0 = some (ex_rec L2FLOW_STATE_LINUX 1000 0 true 2000 3 4)
    ∧ (ex_op_post_moved.apply ex_K ex_s_linux).heap 0
        = some (ex_rec L2FLOW_STATE_LINUX 1000 4 true 2000 3 9)
    ∧ (4 : Nat) &&& L2FLOW_FL_NEEDS_UPDATE = 0
    ∧ sent_actions (ex_op_post_moved.apply ex_K ex_s_linux)
        = [(some L2FLOW_ENTRY_NEW, 0), (some L2FLOW_ENTRY_UPDATE, 0)]
    ∧ sent_actions (ex_op_post_moved.apply ex_K (ex_op_post_moved.apply ex_K ex_s_linux))
        = [(some L2FLOW_ENTRY_NEW, 0), (some L2FLOW_ENTRY_UPDATE, 0)] :=
  ⟨by decide, by decide, by decide, by decide, by decide, by decide, by decide, by decide,
   by decide, by decide, by decide, by decide⟩

/-- C11, amended. For a record in state CONFIRMED, LINUX or FF that is resident in a reachable
state, and a trackable packet with its key: (1) a forward-hook packet whose input interface
differs from the recorded ingress sets NEEDS_UPDATE and stores the new interface; (2) in state
CONFIRMED a post-routing packet hands nothing to netlink, stores the output interface and
leaves NEEDS_UPDATE set when it was set or the output interface changed; (3) in state LINUX or
FF with PENDING_MSG clear, a post-routing packet that finds NEEDS_UPDATE set or a changed output
interface attempts one UPDATE notification in that same call, stores the output interface, and
leaves NEEDS_UPDATE clear and WAIT_ACK set unless the send returns `-ENOTCONN`, in which case
NEEDS_UPDATE stays set; (4) in state LINUX or FF with PENDING_MSG set it hands nothing to
netlink, stores the output interface and leaves NEEDS_UPDATE set when it was set or the output
interface changed. -/
theorem interface_change_amended (K : Kernel) (s : State) (h : Reachable K s) (p : Ptr)
    (e : l2flowTable) (hp : s.heap p = some e) (skb : sk_buff) (ht : trackable skb e.l2flow)
    (in_ifindex out_ifindex : Nat) (alloc : Option Ptr) (env : NlOutcome) :
    (e.state = L2FLOW_STATE_CONFIRMED ∨ e.state = L2FLOW_STATE_LINUX
        ∨ e.state = L2FLOW_STATE_FF →
      in_ifindex ≠ e.idev_ifi →
      (abm_ebt_hook K NF_BR_FORWARD skb in_ifindex out_ifindex alloc env s).2
        = s.put p { e with flags := e.flags ||| L2FLOW_FL_NEEDS_UPDATE, idev_ifi := in_ifindex })
    ∧ (e.state = L2FLOW_STATE_CONFIRMED →
        (abm_ebt_hook K NF_BR_POST_ROUTING skb in_ifindex out_ifindex alloc env s).2.nl_out
          = s.nl_out
        ∧ ∃ e', (abm_ebt_hook K NF_BR_POST_ROUTING skb in_ifindex out_ifindex alloc env s).2.heap p
            = some e'
          ∧ e'.state = L2FLOW_STATE_CONFIRMED ∧ e'.odev_ifi = out_ifindex
          ∧ (out_ifindex ≠ e.odev_ifi ∨ e.flags &&& L2FLOW_FL_NEEDS_UPDATE ≠ 0 →
              e'.flags &&& L2FLOW_FL_NEEDS_UPDATE ≠ 0))
    ∧ (e.state = L2FLOW_STATE_LINUX ∨ e.state = L2FLOW_STATE_FF →
        e.flags &&& L2FLOW_FL_PENDING_MSG = 0 →
        out_ifindex ≠ e.odev_ifi ∨ e.flags &&& L2FLOW_FL_NEEDS_UPDATE ≠ 0 →
        (abm_ebt_hook K NF_BR_POST_ROUTING skb in_ifindex out_ifindex alloc env s).2.nl_out
          = s.nl_out ++ (abm_nl_send_l2flow_msg env s.abm_l3_filtering L2FLOW_ENTRY_UPDATE 0
              (post_routing_entry e out_ifindex skb.mark)).2.toList
        ∧ ∃ e', (abm_ebt_hook K NF_BR_POST_ROUTING skb in_ifindex out_ifindex alloc env s).2.heap p
            = some e'
          ∧ e'.state = e.state ∧ e'.odev_ifi = out_ifindex ∧ e'.idev_ifi = e.idev_ifi
          ∧ e'.l2flow = e.l2flow
          ∧ ((abm_nl_send_l2flow_msg env s.abm_l3_filtering L2FLOW_ENTRY_UPDATE 0
                (post_routing_entry e out_ifindex skb.mark)).1 ≠ -ENOTCONN →
              e'.flags &&& L2FLOW_FL_NEEDS_UPDATE = 0 ∧ e'.flags &&& L2FLOW_FL_WAIT_ACK ≠ 0
              ∧ e'.time_sent = s.jiffies)
          ∧ ((abm_nl_send_l2flow_msg env s.abm_l3_filtering L2FLOW_ENTRY_UPDATE 0
                (post_routing_entry e out_ifindex skb.mark)).1 = -ENOTCONN →
              e'.flags &&& L2FLOW_FL_NEEDS_UPDATE ≠ 0))
    ∧ (e.state = L2FLOW_STATE_LINUX ∨ e.state = L2FLOW_STATE_FF →
        e.flags &&& L2FLOW_FL_PENDING_MSG ≠ 0 →
        (abm_ebt_hook K NF_BR_POST_ROUTING skb in_ifindex out_ifindex alloc env s).2.nl_out
          = s.nl_out
        ∧ ∃ e', (abm_ebt_hook K NF_BR_POST_ROUTING skb in_ifindex out_ifindex alloc env s).2.heap p
            = some e'
          ∧ e'.state = e.state ∧ e'.odev_ifi = out_ifindex
          ∧ (out_ifindex ≠ e.odev_ifi ∨ e.flags &&& L2FLOW_FL_NEEDS_UPDATE ≠ 0 →
              e'.flags &&& L2FLOW_FL_NEEDS_UPDATE ≠ 0)) := by
  have hi := h.indexInv
  refine ⟨?_, ?_, ?_, ?_⟩
  · intro _ hne
    rw [abm_ebt_hook_forward_of_resident hi hp skb ht, if_pos hne]
  · intro hs
    rw [abm_ebt_hook_post_of_resident hi hp skb ht,
      abm_ebt_hook_post_routing_confirmed_eq env _ _ p s e hp hs]
    refine ⟨rfl, _, put_heap_self _ _ _, ?_⟩
    unfold post_routing_entry
    by_cases ho : out_ifindex ≠ e.odev_ifi
    · simp [ho, hs]
    · simp [ho, hs]
  · intro hs hpm hn
    rw [abm_ebt_hook_post_of_resident hi hp skb ht]
    exact abm_ebt_hook_post_routing_update env _ _ p s e hp hs hpm hn
  · intro hs hpm
    rw [abm_ebt_hook_post_of_resident hi hp skb ht]
    exact abm_ebt_hook_post_routing_pending env _ _ p s e hp hs hpm

theorem ex_s_linux_reachable : Reachable ex_K ex_s_linux :=
  Reachable.step ex_op_denied ex_s_confirmed ex_s_confirmed_reachable trivial

/-- C11, worked example: flow 1 → 2 is in state LINUX with no flag set and egress 4; a
post-routing packet leaving by interface 9, a listener being there, hands one message with
action UPDATE to netlink in that same call; and the CONFIRMED record of the flow, seen by the
forward hook on interface 7 instead of 3, gets NEEDS_UPDATE and the new interface. -/
theorem interface_change_amended_witness :
    Reachable ex_K ex_s_linux
    ∧ ex_s_linux.heap 0 = some (ex_rec L2FLOW_STATE_LINUX 1000 0 true 2000 3 4)
    ∧ trackable (ex_skb 1 2) (ex_key 1 2)
    ∧ (abm_ebt_hook ex_K NF_BR_POST_ROUTING (ex_skb 1 2) 3 9 none ex_sent ex_s_linux).2.nl_out
        = ex_s_linux.nl_out
          ++ (abm_nl_send_l2flow_msg ex_sent ex_s_linux.abm_l3_filtering L2FLOW_ENTRY_UPDATE 0
              (post_routing_entry (ex_rec L2FLOW_STATE_LINUX 1000 0 true 2000 3 4) 9
                (ex_skb 1 2).mark)).2.toList
    ∧ sent_actions (abm_ebt_hook ex_K NF_BR_POST_ROUTING (ex_skb 1 2) 3 9 none ex_sent
        ex_s_linux).2 = [(some L2FLOW_ENTRY_NEW, 0), (some L2FLOW_ENTRY_UPDATE, 0)]
    ∧ (abm_ebt_hook ex_K NF_BR_FORWARD (ex_skb 1 2) 7 0 none ex_sent ex_s_confirmed).2
        = ex_s_confirmed.put 0 (ex_rec L2FLOW_STATE_CONFIRMED 1000 5 true 13000 7 4) :=
  ⟨ex_s_linux_reachable, by decide, by decide,
   ((interface_change_amended ex_K ex_s_linux ex_s_linux_reachable 0
      (ex_rec L2FLOW_STATE_LINUX 1000 0 true 2000 3 4) (by decide) (ex_skb 1 2) (by decide)
      3 9 none ex_sent).2.2.1 (Or.inl rfl) (by decide) (Or.inl (by decide))).1,
   by decide,
   (interface_change_amended ex_K ex_s_confirmed ex_s_confirmed_reachable 0
      (ex_rec L2FLOW_STATE_CONFIRMED 1000 4 true 13000 3 4) (by decide) (ex_skb 1 2) (by decide)
      7 0 none ex_sent).1 (Or.inl rfl) (by decide)⟩

/-! ## Control UPDATE with DENIED -/

theorem list_del_not_mem {p : Ptr} {l : List Ptr} (h : l.count p ≤ 1) : p ∉ list_del p l := by
  unfold list_del
  intro hm
  have h1 : (l.erase p).count p = l.count p - 1 := by
    rw [List.count_erase_self]
  have h2 : 0 < (l.erase p).count p := List.count_pos_iff.mpr hm
  omega

/-- What a control UPDATE with DENIED and without OFFLOADED does to a resident record of a
reachable state: it returns 0, the record is in state LINUX with its timer armed for the LINUX
timeout and WAIT_ACK clear, and when WAIT_ACK was set one linkage of the record is removed from
the pending-acknowledgement list; the record is off that list afterwards when it was linked
there no more than once. -/
theorem abm_l2flow_msg_handle_denied (K : Kernel) (s : State) (h : Reachable K s) (p : Ptr)
    (e : l2flowTable) (hp : s.heap p = some e) (env : NlOutcome) (flags : Nat)
    (hoff : flags &&& L2FLOW_OFFLOADED = 0) (hden : flags &&& L2FLOW_DENIED ≠ 0) :
    (abm_l2flow_msg_handle K env L2FLOW_ENTRY_UPDATE flags e.l2flow s).1 = 0
    ∧ (abm_l2flow_msg_handle K env L2FLOW_ENTRY_UPDATE flags e.l2flow s).2.heap p
        = some { e with
            state := L2FLOW_STATE_LINUX, timeout_pending := true
            timeout_expires := s.jiffies + s.l2flow_timeouts L2FLOW_STATE_LINUX
            flags := if e.flags &&& L2FLOW_FL_WAIT_ACK ≠ 0
              then e.flags &&& bit_not32 L2FLOW_FL_WAIT_ACK else e.flags }
    ∧ (abm_l2flow_msg_handle K env L2FLOW_ENTRY_UPDATE flags e.l2flow
        s).2.l2flow_list_wait_for_ack
        = (if e.flags &&& L2FLOW_FL_WAIT_ACK ≠ 0 then list_del p s.l2flow_list_wait_for_ack
            else s.l2flow_list_wait_for_ack)
    ∧ (e.flags &&& L2FLOW_FL_WAIT_ACK ≠ 0 → s.l2flow_list_wait_for_ack.count p ≤ 1 →
        p ∉ (abm_l2flow_msg_handle K env L2FLOW_ENTRY_UPDATE flags e.l2flow
          s).2.l2flow_list_wait_for_ack) := by
  rw [abm_l2flow_msg_handle_update (h.indexInv.find_of_resident hp)]
  unfold abm_l2flow_update
  have hoff' : ¬ (flags &&& L2FLOW_OFFLOADED ≠ 0) := not_not.mpr hoff
  simp only [hp, if_neg hoff', if_pos hden]
  by_cases hw : e.flags &&& L2FLOW_FL_WAIT_ACK ≠ 0
  · simp [hw, mod_timer, State.put]
    intro hc
    exact list_del_not_mem hc
  · simp [hw, mod_timer, State.put]

theorem ex_s_confirmed_twice_reachable : Reachable ex_K ex_s_confirmed_twice :=
  Reachable.step ex_op_post _
    (Reachable.step ex_op_drain _
      (Reachable.step ex_op_fdb _ ex_s1_reachable trivial) trivial) trivial

/-- C12, evaluation of the code. Flow 1 → 2 is seen on the forward path, a forwarding-database
update and the worker send its pending message (WAIT_ACK set, the record linked on the
pending-acknowledgement list), and the post-routing hook, finding the record still SEEN, sends
NEW and links the record again without testing WAIT_ACK: the record is CONFIRMED and linked
twice. The control UPDATE with DENIED then returns 0, puts the record in state LINUX with the
timer armed for the LINUX timeout and clears WAIT_ACK, but unlinks the record once only: it is
still on the pending-acknowledgement list. -/
theorem scenario_C_divergence :
    Reachable ex_K ex_s_confirmed_twice
    ∧ ex_s_seen_sent.heap 0 = some (ex_rec L2FLOW_STATE_SEEN 1000 4 true 2000 3 5)
    ∧ ex_s_seen_sent.l2flow_list_wait_for_ack = [0]
    ∧ ex_s_confirmed_twice.heap 0 = some (ex_rec L2FLOW_STATE_CONFIRMED 1000 4 true 13000 3 4)
    ∧ ex_s_confirmed_twice.l2flow_list_wait_for_ack = [0, 0]
    ∧ (abm_l2flow_msg_handle ex_K ex_sent L2FLOW_ENTRY_UPDATE L2FLOW_DENIED (ex_key 1 2)
        ex_s_confirmed_twice).1 = 0
    ∧ (abm_l2flow_msg_handle ex_K ex_sent L2FLOW_ENTRY_UPDATE L2FLOW_DENIED (ex_key 1 2)
        ex_s_confirmed_twice).2.heap 0 = some (ex_rec L2FLOW_STATE_LINUX 1000 0 true 2000 3 4)
    ∧ (abm_l2flow_msg_handle ex_K ex_sent L2FLOW_ENTRY_UPDATE L2FLOW_DENIED (ex_key 1 2)
        ex_s_confirmed_twice).2.l2flow_list_wait_for_ack = [0] :=
  ⟨ex_s_confirmed_twice_reachable, by decide, by decide, by decide, by decide, by decide, by decide, by decide⟩

/-! ## Deleting a record -/

theorem IndexInv.nb_pos {K : Kernel} {s : State} (hi : IndexInv K s) {p : Ptr}
    {e : l2flowTable} (he : s.heap p = some e) : 0 < s.abm_nb_entries := by
  rw [hi.nb_eq]
  unfold resident_count
  have hmem : p ∈ s.l2flow_table (abm_l2flow_hash K e.l2flow) := hi.prim.2.1 p e he
  have hle := Finset.single_le_sum (f := fun i => (s.l2flow_table i).length)
    (fun _ _ => Nat.zero_le _) (Finset.mem_range.mpr (abm_l2flow_hash_lt K e.l2flow))
  have := List.length_pos_of_mem hmem
  simp only at hle
  omega

/-- What `abm_l2flow_del` does to a resident record when the indices are coherent: the
record is gone from the heap and from every bucket of the three tables, the counter is one
less, one linkage is removed from each notification list whose flag the record carries, and
no other record changes. -/
theorem abm_l2flow_del_spec {K : Kernel} {s : State} (hi : IndexInv K s) {p : Ptr}
    {e : l2flowTable} (he : s.heap p = some e) :
    (abm_l2flow_del p s).heap p = none
    ∧ (∀ i, p ∉ (abm_l2flow_del p s).l2flow_table i)
    ∧ (∀ i, p ∉ (abm_l2flow_del p s).l2flow_table_by_src_mac i)
    ∧ (∀ i, p ∉ (abm_l2flow_del p s).l2flow_table_by_dst_mac i)
    ∧ (abm_l2flow_del p s).abm_nb_entries + 1 = s.abm_nb_entries
    ∧ (∀ q, q ≠ p → (abm_l2flow_del p s).heap q = s.heap q)
    ∧ (abm_l2flow_del p s).l2flow_list_wait_for_ack
        = (if e.flags &&& L2FLOW_FL_WAIT_ACK ≠ 0 then list_del p s.l2flow_list_wait_for_ack
            else s.l2flow_list_wait_for_ack)
    ∧ (abm_l2flow_del p s).l2flow_list_msg_to_send
        = (if e.flags &&& L2FLOW_FL_PENDING_MSG ≠ 0 then list_del p s.l2flow_list_msg_to_send
            else s.l2flow_list_msg_to_send)
    ∧ (abm_l2flow_del p s).nl_out = s.nl_out := by
  have hi' := hi.inv_unlink p
  have hnone : (abm_l2flow_del p s).heap p = none := by
    unfold abm_l2flow_del; simp [he]
  have hpos := hi.nb_pos he
  have hlt := hi.nb_lt
  refine ⟨hnone, ?_, ?_, ?_, ?_, ?_, ?_, ?_, ?_⟩
  · intro i hm
    obtain ⟨e', he', _⟩ := hi'.prim.1 i p hm
    rw [hnone] at he'; cases he'
  · intro i hm
    obtain ⟨e', he', _⟩ := hi'.src.1 i p hm
    rw [hnone] at he'; cases he'
  · intro i hm
    obtain ⟨e', he', _⟩ := hi'.dst.1 i p hm
    rw [hnone] at he'; cases he'
  · unfold abm_l2flow_del
    simp only [he]
    omega
  · intro q hq
    unfold abm_l2flow_del
    simp [he, hq]
  · unfold abm_l2flow_del; simp only [he]
  · unfold abm_l2flow_del; simp only [he]
  · unfold abm_l2flow_del; simp only [he]

theorem __abm_go_dying_dead {s : State} {p : Ptr} {e : l2flowTable} (he : s.heap p = some e)
    (hd : e.flags &&& L2FLOW_FL_DEAD ≠ 0) (env : NlOutcome) :
    __abm_go_dying env p s = abm_l2flow_del p s := by
  unfold __abm_go_dying
  simp only [he, if_neg hd]

/-- The state in which `abm_l2flow_msg_handle` reaches its test of `del_timer` for a DEL: the
record is marked DEAD, its timer is cancelled, and WAIT_ACK is cleared with one `list_del`
when it was set. -/
theorem abm_l2flow_msg_handle_del_eq {K : Kernel} {s : State} (hi : IndexInv K s) {p : Ptr}
    {e : l2flowTable} (hp : s.heap p = some e) (env : NlOutcome) (flags : Nat) :
    abm_l2flow_msg_handle K env L2FLOW_ENTRY_DEL flags e.l2flow s
      = (0,
          if e.timeout_pending = true ∨ e.state = L2FLOW_STATE_FF then
            abm_l2flow_del p
              { s.put p
                  (del_timer
                    { e with
                      flags := if e.flags &&& L2FLOW_FL_WAIT_ACK ≠ 0
                        then (e.flags ||| L2FLOW_FL_DEAD) &&& bit_not32 L2FLOW_FL_WAIT_ACK
                        else e.flags ||| L2FLOW_FL_DEAD }) with
                l2flow_list_wait_for_ack :=
                  if e.flags &&& L2FLOW_FL_WAIT_ACK ≠ 0
                    then list_del p s.l2flow_list_wait_for_ack
                    else s.l2flow_list_wait_for_ack }
          else
            { s.put p
                (del_timer
                  { e with
                    flags := if e.flags &&& L2FLOW_FL_WAIT_ACK ≠ 0
                      then (e.flags ||| L2FLOW_FL_DEAD) &&& bit_not32 L2FLOW_FL_WAIT_ACK
                      else e.flags ||| L2FLOW_FL_DEAD }) with
              l2flow_list_wait_for_ack :=
                if e.flags &&& L2FLOW_FL_WAIT_ACK ≠ 0
                  then list_del p s.l2flow_list_wait_for_ack
                  else s.l2flow_list_wait_for_ack }) := by
  unfold abm_l2flow_msg_handle
  have hne : ¬ L2FLOW_ENTRY_DEL = L2FLOW_ENTRY_UPDATE := by decide
  simp only [hi.find_of_resident hp, if_neg hne, if_true, hp]
  have hw' : (e.flags ||| L2FLOW_FL_DEAD) &&& L2FLOW_FL_WAIT_ACK = e.flags &&& L2FLOW_FL_WAIT_ACK :=
    flag_set_DEAD_test_WAIT_ACK e.flags
  rw [hw']
  by_cases hw : e.flags &&& L2FLOW_FL_WAIT_ACK ≠ 0
  · simp only [if_pos hw]
    by_cases hgo : e.timeout_pending = true ∨ e.state = L2FLOW_STATE_FF
    · simp only [if_pos hgo]
      rw [__abm_go_dying_dead (e := del_timer
        { e with flags := (e.flags ||| L2FLOW_FL_DEAD) &&& bit_not32 L2FLOW_FL_WAIT_ACK })
        (by simp [State.put]) (by simp [del_timer])]
    · simp only [if_neg hgo]
  · simp only [if_neg hw]
    by_cases hgo : e.timeout_pending = true ∨ e.state = L2FLOW_STATE_FF
    · simp only [if_pos hgo]
      rw [__abm_go_dying_dead (e := del_timer { e with flags := e.flags ||| L2FLOW_FL_DEAD })
        (by simp [State.put]) (by simp [del_timer])]
      rfl
    · simp only [if_neg hgo]
      rfl

/-- What a control DEL does to a resident record of a reachable state. It returns 0. When the
timer of the record is pending or the record is in state FF, the record is deleted: it is gone
from the heap and from the three tables, the counter is one less, nothing is handed to
netlink, one linkage is removed from the pending-acknowledgement list when WAIT_ACK was set and
one from the pending-send list when PENDING_MSG was set. Otherwise the record stays, DEAD,
with WAIT_ACK clear. -/
theorem abm_l2flow_msg_handle_del_spec (K : Kernel) (s : State) (h : Reachable K s) (p : Ptr)
    (e : l2flowTable) (hp : s.heap p = some e) (env : NlOutcome) (flags : Nat) :
    (abm_l2flow_msg_handle K env L2FLOW_ENTRY_DEL flags e.l2flow s).1 = 0
    ∧ (e.timeout_pending = true ∨ e.state = L2FLOW_STATE_FF →
        (abm_l2flow_msg_handle K env L2FLOW_ENTRY_DEL flags e.l2flow s).2.heap p = none
        ∧ (∀ i, p ∉ (abm_l2flow_msg_handle K env L2FLOW_ENTRY_DEL flags e.l2flow
              s).2.l2flow_table i)
        ∧ (∀ i, p ∉ (abm_l2flow_msg_handle K env L2FLOW_ENTRY_DEL flags e.l2flow
              s).2.l2flow_table_by_src_mac i)
        ∧ (∀ i, p ∉ (abm_l2flow_msg_handle K env L2FLOW_ENTRY_DEL flags e.l2flow
              s).2.l2flow_table_by_dst_mac i)
        ∧ (abm_l2flow_msg_handle K env L2FLOW_ENTRY_DEL flags e.l2flow s).2.abm_nb_entries + 1
            = s.abm_nb_entries
        ∧ (abm_l2flow_msg_handle K env L2FLOW_ENTRY_DEL flags e.l2flow
            s).2.l2flow_list_wait_for_ack
            = (if e.flags &&& L2FLOW_FL_WAIT_ACK ≠ 0 then list_del p s.l2flow_list_wait_for_ack
                else s.l2flow_list_wait_for_ack)
        ∧ (abm_l2flow_msg_handle K env L2FLOW_ENTRY_DEL flags e.l2flow
            s).2.l2flow_list_msg_to_send
            = (if e.flags &&& L2FLOW_FL_PENDING_MSG ≠ 0
                then list_del p s.l2flow_list_msg_to_send else s.l2flow_list_msg_to_send)
        ∧ (abm_l2flow_msg_handle K env L2FLOW_ENTRY_DEL flags e.l2flow s).2.nl_out = s.nl_out)
    ∧ (¬ (e.timeout_pending = true ∨ e.state = L2FLOW_STATE_FF) →
        ∃ e', (abm_l2flow_msg_handle K env L2FLOW_ENTRY_DEL flags e.l2flow s).2.heap p = some e'
          ∧ e'.flags &&& L2FLOW_FL_DEAD ≠ 0 ∧ e'.flags &&& L2FLOW_FL_WAIT_ACK = 0
          ∧ e'.state = e.state ∧ e'.l2flow = e.l2flow) := by
  have hi := h.indexInv
  rw [abm_l2flow_msg_handle_del_eq hi hp]
  refine ⟨rfl, ?_, ?_⟩
  · intro hgo
    simp only [if_pos hgo]
    have hp1 : ({ s.put p
          (del_timer
            { e with
              flags := if e.flags &&& L2FLOW_FL_WAIT_ACK ≠ 0
                then (e.flags ||| L2FLOW_FL_DEAD) &&& bit_not32 L2FLOW_FL_WAIT_ACK
                else e.flags ||| L2FLOW_FL_DEAD }) with
        l2flow_list_wait_for_ack :=
          if e.flags &&& L2FLOW_FL_WAIT_ACK ≠ 0
            then list_del p s.l2flow_list_wait_for_ack
            else s.l2flow_list_wait_for_ack } : State).heap p
        = some (del_timer
            { e with
              flags := if e.flags &&& L2FLOW_FL_WAIT_ACK ≠ 0
                then (e.flags ||| L2FLOW_FL_DEAD) &&& bit_not32 L2FLOW_FL_WAIT_ACK
                else e.flags ||| L2FLOW_FL_DEAD }) := put_heap_self _ _ _
    have hi1 : IndexInv K ({ s.put p
          (del_timer
            { e with
              flags := if e.flags &&& L2FLOW_FL_WAIT_ACK ≠ 0
                then (e.flags ||| L2FLOW_FL_DEAD) &&& bit_not32 L2FLOW_FL_WAIT_ACK
                else e.flags ||| L2FLOW_FL_DEAD }) with
        l2flow_list_wait_for_ack :=
          if e.flags &&& L2FLOW_FL_WAIT_ACK ≠ 0
            then list_del p s.l2flow_list_wait_for_ack
            else s.l2flow_list_wait_for_ack } : State) :=
      hi.of_sameIdx ⟨rfl, rfl, rfl, keys_put hp rfl, rfl, rfl⟩
    obtain ⟨a1, a2, a3, a4, a5, _, a7, a8, a9⟩ := abm_l2flow_del_spec hi1 hp1
    refine ⟨a1, a2, a3, a4, a5, ?_, ?_, a9⟩
    · rw [a7]
      by_cases hw : e.flags &&& L2FLOW_FL_WAIT_ACK ≠ 0
      · simp [hw, del_timer]
      · simp [hw, del_timer]
    · rw [a8]
      by_cases hw : e.flags &&& L2FLOW_FL_WAIT_ACK ≠ 0
      · simp [hw, del_timer]
      · simp [hw, del_timer]
  · intro hgo
    simp only [if_neg hgo]
    refine ⟨_, put_heap_self _ _ _, ?_⟩
    by_cases hw : e.flags &&& L2FLOW_FL_WAIT_ACK ≠ 0
    · simp [hw, del_timer]
    · simp [hw, del_timer]
      exact not_not.mp hw

/-- C14, evaluation of the code. The CONFIRMED record of flow 1 → 2 is linked twice on the
pending-acknowledgement list (the post-routing hook linked it without testing WAIT_ACK). The
control DEL for its key returns 0 and deletes the record, its timer being pending: the record
is gone from the heap and the counter is 0, but it was unlinked from the
pending-acknowledgement list once only and is still on it. -/
theorem control_delete_divergence :
    Reachable ex_K ex_s_confirmed_twice
    ∧ ex_s_confirmed_twice.heap 0 = some (ex_rec L2FLOW_STATE_CONFIRMED 1000 4 true 13000 3 4)
    ∧ ex_s_confirmed_twice.l2flow_list_wait_for_ack = [0, 0]
    ∧ ex_s_confirmed_twice.abm_nb_entries = 1
    ∧ (abm_l2flow_msg_handle ex_K ex_sent L2FLOW_ENTRY_DEL 0 (ex_key 1 2)
        ex_s_confirmed_twice).1 = 0
    ∧ (abm_l2flow_msg_handle ex_K ex_sent L2FLOW_ENTRY_DEL 0 (ex_key 1 2)
        ex_s_confirmed_twice).2.heap 0 = none
    ∧ (abm_l2flow_msg_handle ex_K ex_sent L2FLOW_ENTRY_DEL 0 (ex_key 1 2)
        ex_s_confirmed_twice).2.abm_nb_entries = 0
    ∧ (abm_l2flow_msg_handle ex_K ex_sent L2FLOW_ENTRY_DEL 0 (ex_key 1 2)
        ex_s_confirmed_twice).2.l2flow_list_wait_for_ack = [0] :=
  ⟨ex_s_confirmed_twice_reachable, by decide, by decide, by decide, by decide, by decide,
   by decide, by decide⟩

/-- C15, evaluation of the code. The record of flow 1 → 2 went dying while it was waiting for
the acknowledgement of its NEW, so that `__abm_go_dying` linked it a second time on the
pending-acknowledgement list. The control UPDATE with OFFLOADED for its key leaves the record
resident, in state FF with WAIT_ACK clear, and unlinks it once: the record still occurs on the
pending-acknowledgement list. -/
theorem any_reply_divergence :
    Reachable ex_K ex_s_confirmed_dying
    ∧ ex_s_confirmed_dying.heap 0 = some (ex_rec L2FLOW_STATE_DYING 1000 6 true 213000 3 4)
    ∧ ex_s_confirmed_dying.l2flow_list_wait_for_ack = [0, 0]
    ∧ (abm_l2flow_msg_handle ex_K ex_sent L2FLOW_ENTRY_UPDATE L2FLOW_OFFLOADED (ex_key 1 2)
        ex_s_confirmed_dying).2.heap 0 = some (ex_rec L2FLOW_STATE_FF 1000 2 false 213000 3 4)
    ∧ (2 : Nat) &&& L2FLOW_FL_WAIT_ACK = 0
    ∧ 0 ∈ (abm_l2flow_msg_handle ex_K ex_sent L2FLOW_ENTRY_UPDATE L2FLOW_OFFLOADED (ex_key 1 2)
        ex_s_confirmed_dying).2.l2flow_list_wait_for_ack :=
  ⟨ex_s_confirmed_dying_reachable, by decide, by decide, by decide, by decide, by decide⟩

/-! ## The two passes through `__abm_go_dying` -/

/-- The first pass of `__abm_go_dying` over a record that is not DEAD: the record stays, in
state DYING with DEAD set and its timer armed for the DYING timeout; a DEL send is attempted
unless PENDING_MSG is set and the state was DYING already; the tables, the counter and the
pending-send list are untouched and no other record changes. -/
theorem __abm_go_dying_first (env : NlOutcome) (p : Ptr) (s : State) (e : l2flowTable)
    (he : s.heap p = some e) (hd : e.flags &&& L2FLOW_FL_DEAD = 0) :
    (∃ Y, (__abm_go_dying env p s).heap p = some Y
      ∧ Y.state = L2FLOW_STATE_DYING ∧ Y.flags &&& L2FLOW_FL_DEAD ≠ 0
      ∧ Y.timeout_pending = true
      ∧ Y.timeout_expires = s.jiffies + s.l2flow_timeouts L2FLOW_STATE_DYING
      ∧ Y.l2flow = e.l2flow
      ∧ Y.flags &&& L2FLOW_FL_PENDING_MSG = e.flags &&& L2FLOW_FL_PENDING_MSG)
    ∧ (__abm_go_dying env p s).nl_out
        = s.nl_out ++
          (if e.flags &&& L2FLOW_FL_PENDING_MSG = 0 ∨ e.state ≠ L2FLOW_STATE_DYING then
            (abm_nl_send_l2flow_msg env s.abm_l3_filtering L2FLOW_ENTRY_DEL 0 e).2.toList
           else [])
    ∧ (__abm_go_dying env p s).l2flow_table = s.l2flow_table
    ∧ (__abm_go_dying env p s).l2flow_table_by_src_mac = s.l2flow_table_by_src_mac
    ∧ (__abm_go_dying env p s).l2flow_table_by_dst_mac = s.l2flow_table_by_dst_mac
    ∧ (__abm_go_dying env p s).abm_nb_entries = s.abm_nb_entries
    ∧ (__abm_go_dying env p s).l2flow_list_msg_to_send = s.l2flow_list_msg_to_send
    ∧ ∀ q, q ≠ p → (__abm_go_dying env p s).heap q = s.heap q := by
  unfold __abm_go_dying
  simp only [he, hd, if_true]
  by_cases hc : e.flags &&& L2FLOW_FL_PENDING_MSG = 0 ∨ e.state ≠ L2FLOW_STATE_DYING
  · simp only [if_pos hc]
    split
    all_goals
      refine ⟨⟨_, put_heap_self _ _ _, ?_⟩, rfl, rfl, rfl, rfl, rfl, rfl, ?_⟩
      · simp [add_timer]
      · intro q hq
        simp [State.put, hq]
  · simp only [if_neg hc]
    refine ⟨⟨_, put_heap_self _ _ _, ?_⟩, by simp, rfl, rfl, rfl, rfl, rfl, ?_⟩
    · simp [add_timer]
    · intro q hq
      simp [State.put, hq]

/-- C17, evaluation of the code. The SEEN record of flow 1 → 2 waits for an acknowledgement
(WAIT_ACK set, linked once on the pending-acknowledgement list) when its timer fires. The
first pass through `__abm_go_dying` keeps it resident, DYING and DEAD, with the timer armed for
the DYING timeout, and sends its DEL; it also links the record on the pending-acknowledgement
list a second time. The second pass frees the record and takes the counter from 1 to 0, but
unlinks it once only: the freed record is still on the pending-acknowledgement list. -/
theorem two_phase_go_dying_divergence :
    Reachable ex_K ex_s_seen_sent_deleted
    ∧ ex_s_seen_sent_late.heap 0 = some (ex_rec L2FLOW_STATE_SEEN 1000 4 true 2000 3 5)
    ∧ ex_s_seen_sent_late.l2flow_list_wait_for_ack = [0]
    ∧ ex_s_seen_sent_dying.heap 0 = some (ex_rec L2FLOW_STATE_DYING 1000 6 true 213000 3 5)
    ∧ sent_actions ex_s_seen_sent_dying
        = [(some L2FLOW_ENTRY_NEW, 0), (some L2FLOW_ENTRY_DEL, 0)]
    ∧ ex_s_seen_sent_dying.l2flow_list_wait_for_ack = [0, 0]
    ∧ ex_s_seen_sent_dying.abm_nb_entries = 1
    ∧ ex_s_seen_sent_deleted.heap 0 = none
    ∧ ex_s_seen_sent_deleted.abm_nb_entries = 0
    ∧ ex_s_seen_sent_deleted.l2flow_list_wait_for_ack = [0] :=
  ⟨Reachable.step (Op.death_by_timeout ex_sent 0) _
     (Reachable.step (Op.tick 200000) _
       (Reachable.step (Op.death_by_timeout ex_sent 0) _
         (Reachable.step (Op.tick 200000) _
           (Reachable.step ex_op_drain _
             (Reachable.step ex_op_fdb _ ex_s1_reachable trivial) trivial) trivial)
         ⟨_, rfl, rfl, by decide⟩) trivial)
     ⟨_, rfl, rfl, by decide⟩,
   by decide, by decide, by decide, by decide, by decide, by decide, by decide, by decide,
   by decide⟩

/-! ## One record under a loop over a bucket, and under the loops over the whole table -/

/-- A loop over a list that does not name `p` keeps what the steps for other addresses
keep. -/
theorem foldl_miss {f : Ptr → State → State} {p : Ptr} {Ψ : State → Prop}
    (hΨ : ∀ q s, q ≠ p → Ψ s → Ψ (f q s)) :
    ∀ (l : List Ptr) (s : State), p ∉ l → Ψ s → Ψ (l.foldl (fun s q => f q s) s) := by
  intro l
  induction l with
  | nil => intro s _ h; exact h
  | cons a l ih =>
    intro s hp h
    rw [List.foldl_cons]
    have ha : a ≠ p := fun hh => hp (hh ▸ List.mem_cons_self _ _)
    exact ih _ (fun hh => hp (List.mem_cons_of_mem _ hh)) (hΨ a s ha h)

/-- A loop over a list that names `p` once takes `Ψ` to `Φ` when the step for `p` does, the
steps for other addresses keeping `Ψ` and `Φ`. -/
theorem foldl_hit {f : Ptr → State → State} {p : Ptr} {Ψ Φ : State → Prop}
    (hΨ : ∀ q s, q ≠ p → Ψ s → Ψ (f q s))
    (hΦ : ∀ q s, q ≠ p → Φ s → Φ (f q s))
    (hp : ∀ s, Ψ s → Φ (f p s)) :
    ∀ (l : List Ptr) (s : State), l.Nodup → p ∈ l → Ψ s →
      Φ (l.foldl (fun s q => f q s) s) := by
  intro l
  induction l with
  | nil => intro s _ hm; cases hm
  | cons a l ih =>
    intro s hnd hm h
    rw [List.foldl_cons]
    obtain ⟨hal, hl⟩ := List.nodup_cons.mp hnd
    by_cases hap : a = p
    · subst hap
      exact foldl_miss hΦ l _ hal (hp s h)
    · have hpl : p ∈ l := by
        rcases List.mem_cons.mp hm with hh | hh
        · exact absurd hh.symm hap
        · exact hh
      exact ih _ hl hpl (hΨ a s hap h)

/-- The loops over the whole primary table take `Ψ` to `Φ` for a record that `Ψ` keeps
resident and unchanged and whose key `Φ` keeps, under the invariant of the indices: the record
is met once, in the bucket of its key. -/
theorem nested_hit {K : Kernel} {f : Ptr → State → State} {p : Ptr} {e : l2flowTable}
    {Ψ Φ : State → Prop}
    (hΨi : ∀ s, Ψ s → IndexInv K s ∧ s.heap p = some e)
    (hΦi : ∀ s, Φ s → IndexInv K s ∧ ∀ e', s.heap p = some e' → e'.l2flow = e.l2flow)
    (hΨ : ∀ q s, q ≠ p → Ψ s → Ψ (f q s))
    (hΦ : ∀ q s, q ≠ p → Φ s → Φ (f q s))
    (hp : ∀ s, Ψ s → Φ (f p s)) (s : State) (h : Ψ s) :
    Φ ((List.range L2FLOW_HASH_TABLE_SIZE).foldl
      (fun s i => (s.l2flow_table i).foldl (fun s q => f q s) s) s) := by
  have hmissΨ : ∀ (l : List Nat) (s : State), abm_l2flow_hash K e.l2flow ∉ l → Ψ s →
      Ψ (l.foldl (fun s i => (s.l2flow_table i).foldl (fun s q => f q s) s) s) := by
    intro l
    induction l with
    | nil => intro s _ h; exact h
    | cons a l ih =>
      intro s hn h
      rw [List.foldl_cons]
      apply ih _ (fun hh => hn (List.mem_cons_of_mem _ hh))
      apply foldl_miss hΨ _ _ _ h
      intro hm
      obtain ⟨hi, he⟩ := hΨi s h
      obtain ⟨e', he', hh⟩ := hi.prim.1 a p hm
      rw [he] at he'
      cases he'
      exact hn (hh ▸ List.mem_cons_self _ _)
  have hmissΦ : ∀ (l : List Nat) (s : State), abm_l2flow_hash K e.l2flow ∉ l → Φ s →
      Φ (l.foldl (fun s i => (s.l2flow_table i).foldl (fun s q => f q s) s) s) := by
    intro l
    induction l with
    | nil => intro s _ h; exact h
    | cons a l ih =>
      intro s hn h
      rw [List.foldl_cons]
      apply ih _ (fun hh => hn (List.mem_cons_of_mem _ hh))
      apply foldl_miss hΦ _ _ _ h
      intro hm
      obtain ⟨hi, hk⟩ := hΦi s h
      obtain ⟨e', he', hh⟩ := hi.prim.1 a p hm
      rw [hk e' he'] at hh
      exact hn (hh ▸ List.mem_cons_self _ _)
  have hmem : abm_l2flow_hash K e.l2flow ∈ List.range L2FLOW_HASH_TABLE_SIZE :=
    List.mem_range.mpr (abm_l2flow_hash_lt K e.l2flow)
  obtain ⟨a, b, hab⟩ := List.append_of_mem hmem
  have hnd : (a ++ abm_l2flow_hash K e.l2flow :: b).Nodup := hab ▸ List.nodup_range _
  rw [List.nodup_middle, List.nodup_cons] at hnd
  have hna : abm_l2flow_hash K e.l2flow ∉ a := fun hh => hnd.1 (List.mem_append_left _ hh)
  have hnb : abm_l2flow_hash K e.l2flow ∉ b := fun hh => hnd.1 (List.mem_append_right _ hh)
  rw [hab, List.foldl_append, List.foldl_cons]
  apply hmissΦ b _ hnb
  have h1 := hmissΨ a s hna h
  obtain ⟨hi, he⟩ := hΨi _ h1
  exact foldl_hit hΨ hΦ hp _ _ (hi.prim.2.2 _) (hi.prim.2.1 p e he) h1

/-! ## Forwarding-database update -/

theorem ether_addr_equal_self (a : eth_addr) : ether_addr_equal a a = true := by
  simp [ether_addr_equal]

/-- Setting PENDING_MSG on flags that carry it changes nothing. -/
theorem flag_PENDING_MSG_or_of_set {f : Nat} (h : f &&& L2FLOW_FL_PENDING_MSG ≠ 0) :
    f ||| L2FLOW_FL_PENDING_MSG = f := by
  have h8 : L2FLOW_FL_PENDING_MSG = 2 ^ 3 := by decide
  rw [h8] at h ⊢
  have h3 : f.testBit 3 = true := by
    by_contra hc
    apply h
    apply Nat.eq_of_testBit_eq
    intro j
    rw [Nat.testBit_and, Nat.testBit_two_pow]
    by_cases hj : 3 = j
    · subst hj; simp [hc]
    · simp [hj]
  apply Nat.eq_of_testBit_eq
  intro i
  rw [Nat.testBit_or, Nat.testBit_two_pow]
  by_cases hi : 3 = i
  · subst hi; simp [h3]
  · simp [hi]

theorem abm_br_event_fdb_update_entry_other (mac_addr : eth_addr) (ifindex : Nat) (q : Ptr)
    (s : State) {p : Ptr} (hq : q ≠ p) :
    (abm_br_event_fdb_update_entry mac_addr ifindex q s).heap p = s.heap p
    ∧ (p ∈ s.l2flow_list_msg_to_send →
        p ∈ (abm_br_event_fdb_update_entry mac_addr ifindex q s).l2flow_list_msg_to_send)
    ∧ (abm_br_event_fdb_update_entry mac_addr ifindex q s).nl_out = s.nl_out := by
  have hpq : p ≠ q := fun h => hq h.symm
  unfold abm_br_event_fdb_update_entry
  cases he : s.heap q with
  | none => exact ⟨rfl, id, rfl⟩
  | some e =>
    simp only []
    repeat' split
    all_goals simp [State.put, hpq, list_add]

theorem abm_br_event_fdb_update_entry_self (mac_addr : eth_addr) (ifindex : Nat) (p : Ptr)
    (s : State) (e : l2flowTable) (he : s.heap p = some e) (hm : e.l2flow.daddr = mac_addr)
    (hx : ifindex ≠ e.odev_ifi) (hs : e.state ≠ L2FLOW_STATE_DYING) :
    (abm_br_event_fdb_update_entry mac_addr ifindex p s).heap p
      = some { e with odev_ifi := ifindex, flags := e.flags ||| L2FLOW_FL_PENDING_MSG }
    ∧ (e.flags &&& L2FLOW_FL_PENDING_MSG = 0 →
        p ∈ (abm_br_event_fdb_update_entry mac_addr ifindex p s).l2flow_list_msg_to_send)
    ∧ (abm_br_event_fdb_update_entry mac_addr ifindex p s).nl_out = s.nl_out := by
  unfold abm_br_event_fdb_update_entry
  subst hm
  have hc : ether_addr_equal e.l2flow.daddr e.l2flow.daddr = true ∧ ifindex ≠ e.odev_ifi
      ∧ e.state ≠ L2FLOW_STATE_DYING := ⟨ether_addr_equal_self _, hx, hs⟩
  simp only [he, if_pos hc]
  by_cases hpm : e.flags &&& L2FLOW_FL_PENDING_MSG = 0
  · simp only [if_pos hpm]
    exact ⟨put_heap_self _ _ _, fun _ => List.mem_cons_self _ _, rfl⟩
  · simp only [if_neg hpm]
    refine ⟨?_, fun h => absurd h hpm, rfl⟩
    rw [put_heap_self, flag_PENDING_MSG_or_of_set hpm]

/-- What a forwarding-database update does to one resident record whose destination MAC is
the reported one, whose egress interface is another one and which is not DYING: the egress
interface becomes the reported one and PENDING_MSG is set, everything else of the record,
NEEDS_UPDATE and the state included, staying as it was; the record is on the pending-send list
when PENDING_MSG was clear; nothing is handed to netlink. -/
theorem abm_br_event_fdb_update_record {K : Kernel} {s : State} (hi : IndexInv K s) {p : Ptr}
    {e : l2flowTable} (he : s.heap p = some e) {mac_addr : eth_addr} {ifindex : Nat}
    (hm : e.l2flow.daddr = mac_addr) (hx : ifindex ≠ e.odev_ifi)
    (hs : e.state ≠ L2FLOW_STATE_DYING) (env : Ptr → NlOutcome) (alloc_ok : Bool) (brdev : Nat) :
    (abm_br_event K env alloc_ok (brevent.BREVENT_FDB_UPDATE mac_addr ifindex brdev) s).heap p
      = some { e with odev_ifi := ifindex, flags := e.flags ||| L2FLOW_FL_PENDING_MSG }
    ∧ (e.flags &&& L2FLOW_FL_PENDING_MSG = 0 →
        p ∈ (abm_br_event K env alloc_ok (brevent.BREVENT_FDB_UPDATE mac_addr ifindex brdev)
          s).l2flow_list_msg_to_send)
    ∧ (abm_br_event K env alloc_ok (brevent.BREVENT_FDB_UPDATE mac_addr ifindex brdev)
        s).nl_out = s.nl_out := by
  have key :
      ((s.l2flow_table_by_dst_mac (abm_l2flow_hash_mac K mac_addr)).foldl
          (fun s q => abm_br_event_fdb_update_entry mac_addr ifindex q s) s).heap p
        = some { e with odev_ifi := ifindex, flags := e.flags ||| L2FLOW_FL_PENDING_MSG }
      ∧ (e.flags &&& L2FLOW_FL_PENDING_MSG = 0 →
          p ∈ ((s.l2flow_table_by_dst_mac (abm_l2flow_hash_mac K mac_addr)).foldl
            (fun s q => abm_br_event_fdb_update_entry mac_addr ifindex q s)
            s).l2flow_list_msg_to_send)
      ∧ ((s.l2flow_table_by_dst_mac (abm_l2flow_hash_mac K mac_addr)).foldl
          (fun s q => abm_br_event_fdb_update_entry mac_addr ifindex q s) s).nl_out
          = s.nl_out := by
    apply foldl_hit (f := fun q s => abm_br_event_fdb_update_entry mac_addr ifindex q s)
      (Ψ := fun t => t.heap p = some e ∧ t.nl_out = s.nl_out)
      (Φ := fun t => t.heap p
          = some { e with odev_ifi := ifindex, flags := e.flags ||| L2FLOW_FL_PENDING_MSG }
        ∧ (e.flags &&& L2FLOW_FL_PENDING_MSG = 0 → p ∈ t.l2flow_list_msg_to_send)
        ∧ t.nl_out = s.nl_out)
    · intro q t hq ht
      obtain ⟨a, _, c⟩ := abm_br_event_fdb_update_entry_other mac_addr ifindex q t hq
      exact ⟨a.trans ht.1, c.trans ht.2⟩
    · intro q t hq ht
      obtain ⟨a, b, c⟩ := abm_br_event_fdb_update_entry_other mac_addr ifindex q t hq
      exact ⟨a.trans ht.1, fun h => b (ht.2.1 h), c.trans ht.2.2⟩
    · intro t ht
      obtain ⟨a, b, c⟩ := abm_br_event_fdb_update_entry_self mac_addr ifindex p t e ht.1 hm hx hs
      exact ⟨a, b, c.trans ht.2⟩
    · exact hi.dst.2.2 _
    · have hmem : p ∈ s.l2flow_table_by_dst_mac (abm_l2flow_hash_mac K e.l2flow.daddr) :=
        hi.dst.2.1 p e he
      rw [hm] at hmem
      exact hmem
    · exact ⟨he, rfl⟩
  unfold abm_br_event
  simp only []
  unfold add_brevent
  repeat' split
  all_goals exact key

theorem ex_s_two_reachable : Reachable ex_K ex_s_two :=
  Reachable.step ex_op_post_b _
    (Reachable.step ex_op_forward_b _ ex_s_confirmed_reachable rfl) trivial

/-- C19, counterexample. Flows 1 → 2 and 3 → 2 are CONFIRMED with egress interfaces 4 and 6
and flags WAIT_ACK only. A forwarding-database update reports MAC 2 behind interface 5: both
records get egress interface 5 and keep their state, but their flags become WAIT_ACK and
PENDING_MSG: NEEDS_UPDATE is not set on either; both are on the pending-send list. -/
theorem scenario_E_counterexample :
    Reachable ex_K ex_s_two
    ∧ egress_view ex_s_two 0 = some (ex_mac 2, L2FLOW_STATE_CONFIRMED, 4, 4)
    ∧ egress_view ex_s_two 1 = some (ex_mac 2, L2FLOW_STATE_CONFIRMED, 4, 6)
    ∧ egress_view (ex_op_fdb.apply ex_K ex_s_two) 0
        = some (ex_mac 2, L2FLOW_STATE_CONFIRMED, 12, 5)
    ∧ egress_view (ex_op_fdb.apply ex_K ex_s_two) 1
        = some (ex_mac 2, L2FLOW_STATE_CONFIRMED, 12, 5)
    ∧ (12 : Nat) &&& L2FLOW_FL_NEEDS_UPDATE = 0
    ∧ (12 : Nat) &&& L2FLOW_FL_PENDING_MSG ≠ 0
    ∧ (ex_op_fdb.apply ex_K ex_s_two).l2flow_list_msg_to_send = [0, 1] :=
  ⟨ex_s_two_reachable, by decide, by decide, by decide, by decide, by decide, by decide,
   by decide⟩

/-- C19, amended. In a reachable state, for two resident records that are not DYING, have
destination MAC `M` and an egress interface other than `X`, a forwarding-database update
reporting `M` behind `X` sets the egress interface of both to `X` and PENDING_MSG on both,
every other field, the state included, staying as it was and NEEDS_UPDATE being as before;
each record that did not carry PENDING_MSG is on the pending-send list afterwards; the event
hands nothing to netlink. (The two records need not have different egress interfaces.) -/
theorem scenario_E_amended (K : Kernel) (s : State) (h : Reachable K s) (p1 p2 : Ptr)
    (e1 e2 : l2flowTable) (h1 : s.heap p1 = some e1) (h2 : s.heap p2 = some e2)
    (M : eth_addr) (X : Nat) (hm1 : e1.l2flow.daddr = M) (hm2 : e2.l2flow.daddr = M)
    (hs1 : e1.state ≠ L2FLOW_STATE_DYING) (hs2 : e2.state ≠ L2FLOW_STATE_DYING)
    (hx1 : X ≠ e1.odev_ifi) (hx2 : X ≠ e2.odev_ifi)
    (env : Ptr → NlOutcome) (alloc_ok : Bool) (brdev : Nat) :
    (abm_br_event K env alloc_ok (brevent.BREVENT_FDB_UPDATE M X brdev) s).heap p1
      = some { e1 with odev_ifi := X, flags := e1.flags ||| L2FLOW_FL_PENDING_MSG }
    ∧ (abm_br_event K env alloc_ok (brevent.BREVENT_FDB_UPDATE M X brdev) s).heap p2
      = some { e2 with odev_ifi := X, flags := e2.flags ||| L2FLOW_FL_PENDING_MSG }
    ∧ (e1.flags ||| L2FLOW_FL_PENDING_MSG) &&& L2FLOW_FL_NEEDS_UPDATE
        = e1.flags &&& L2FLOW_FL_NEEDS_UPDATE
    ∧ (e2.flags ||| L2FLOW_FL_PENDING_MSG) &&& L2FLOW_FL_NEEDS_UPDATE
        = e2.flags &&& L2FLOW_FL_NEEDS_UPDATE
    ∧ (e1.flags &&& L2FLOW_FL_PENDING_MSG = 0 →
        p1 ∈ (abm_br_event K env alloc_ok (brevent.BREVENT_FDB_UPDATE M X brdev)
          s).l2flow_list_msg_to_send)
    ∧ (e2.flags &&& L2FLOW_FL_PENDING_MSG = 0 →
        p2 ∈ (abm_br_event K env alloc_ok (brevent.BREVENT_FDB_UPDATE M X brdev)
          s).l2flow_list_msg_to_send)
    ∧ (abm_br_event K env alloc_ok (brevent.BREVENT_FDB_UPDATE M X brdev) s).nl_out
        = s.nl_out := by
  obtain ⟨a1, b1, c1⟩ := abm_br_event_fdb_update_record h.indexInv h1 hm1 hx1 hs1 env alloc_ok brdev
  obtain ⟨a2, b2, _⟩ := abm_br_event_fdb_update_record h.indexInv h2 hm2 hx2 hs2 env alloc_ok brdev
  exact ⟨a1, a2, flag_set_PENDING_MSG_test_NEEDS_UPDATE _, flag_set_PENDING_MSG_test_NEEDS_UPDATE _,
    b1, b2, c1⟩

/-- C19, worked example: flows 1 → 2 and 3 → 2, CONFIRMED with egress interfaces 4 and 6, and
a forwarding-database update reporting MAC 2 behind interface 5. -/
theorem scenario_E_amended_witness :
    Reachable ex_K ex_s_two
    ∧ ex_s_two.heap 0 = some (ex_rec L2FLOW_STATE_CONFIRMED 1000 4 true 13000 3 4)
    ∧ ex_s_two.heap 1
        = some { ex_rec L2FLOW_STATE_CONFIRMED 1000 4 true 13000 3 6 with l2flow := ex_key 3 2 }
    ∧ (abm_br_event ex_K (fun _ => ex_sent) true (brevent.BREVENT_FDB_UPDATE (ex_mac 2) 5 0)
        ex_s_two).heap 0
        = some { ex_rec L2FLOW_STATE_CONFIRMED 1000 4 true 13000 3 4 with
            odev_ifi := 5, flags := 4 ||| L2FLOW_FL_PENDING_MSG }
    ∧ (abm_br_event ex_K (fun _ => ex_sent) true (brevent.BREVENT_FDB_UPDATE (ex_mac 2) 5 0)
        ex_s_two).heap 1
        = some { ex_rec L2FLOW_STATE_CONFIRMED 1000 4 true 13000 3 6 with
            l2flow := ex_key 3 2, odev_ifi := 5, flags := 4 ||| L2FLOW_FL_PENDING_MSG } :=
  ⟨ex_s_two_reachable, by decide, by decide,
   (scenario_E_amended ex_K ex_s_two ex_s_two_reachable 0 1
      (ex_rec L2FLOW_STATE_CONFIRMED 1000 4 true 13000 3 4)
      { ex_rec L2FLOW_STATE_CONFIRMED 1000 4 true 13000 3 6 with l2flow := ex_key 3 2 }
      (by decide) (by decide) (ex_mac 2) 5 rfl rfl (by decide) (by decide) (by decide)
      (by decide) (fun _ => ex_sent) true 0).1,
   (scenario_E_amended ex_K ex_s_two ex_s_two_reachable 0 1
      (ex_rec L2FLOW_STATE_CONFIRMED 1000 4 true 13000 3 4)
      { ex_rec L2FLOW_STATE_CONFIRMED 1000 4 true 13000 3 6 with l2flow := ex_key 3 2 }
      (by decide) (by decide) (ex_mac 2) 5 rfl rfl (by decide) (by decide) (by decide)
      (by decide) (fun _ => ex_sent) true 0).2.1⟩

/-! ## Port down -/

/-- `__abm_go_dying` on a record that is DYING with PENDING_MSG set sends nothing: it arms
the DYING timer and marks the record DEAD, or deletes it when it is DEAD already. -/
theorem __abm_go_dying_quiet {s : State} {p : Ptr} {e : l2flowTable} (he : s.heap p = some e)
    (hpm : e.flags &&& L2FLOW_FL_PENDING_MSG ≠ 0) (hs : e.state = L2FLOW_STATE_DYING)
    (env : NlOutcome) :
    __abm_go_dying env p s
      = if e.flags &&& L2FLOW_FL_DEAD = 0 then
          s.put p
            (add_timer
              { e with
                flags := e.flags ||| L2FLOW_FL_DEAD
                state := L2FLOW_STATE_DYING
                timeout_expires := s.jiffies + s.l2flow_timeouts L2FLOW_STATE_DYING })
        else abm_l2flow_del p s := by
  unfold __abm_go_dying
  have hc : ¬ (e.flags &&& L2FLOW_FL_PENDING_MSG = 0 ∨ e.state ≠ L2FLOW_STATE_DYING) := by
    rintro (h | h)
    · exact hpm h
    · exact h hs
  simp only [he, if_neg hc]

theorem LeftAlone.alone_refl (p : Ptr) (s : State) : LeftAlone p s s :=
  ⟨rfl, id, rfl, rfl, rfl⟩

theorem LeftAlone.alone_trans {p : Ptr} {s s' s'' : State} (h : LeftAlone p s s')
    (h' : LeftAlone p s' s'') : LeftAlone p s s'' :=
  ⟨h'.1.trans h.1, fun hm => h'.2.1 (h.2.1 hm), h'.2.2.1.trans h.2.2.1,
   h'.2.2.2.1.trans h.2.2.2.1, h'.2.2.2.2.trans h.2.2.2.2⟩

theorem abm_l2flow_del_leftAlone (q : Ptr) (s : State) {p : Ptr} (hq : q ≠ p) :
    LeftAlone p s (abm_l2flow_del q s) := by
  have hpq : p ≠ q := fun h => hq h.symm
  unfold abm_l2flow_del
  cases he : s.heap q with
  | none => exact LeftAlone.alone_refl p s
  | some e =>
    simp only []
    refine ⟨by simp [hpq], ?_, rfl, rfl, rfl⟩
    intro hm
    show p ∈ (if e.flags &&& L2FLOW_FL_PENDING_MSG ≠ 0 then list_del q s.l2flow_list_msg_to_send
      else s.l2flow_list_msg_to_send)
    split
    · exact (List.mem_erase_of_ne hpq).mpr hm
    · exact hm

theorem __abm_go_dying_quiet_leftAlone {s : State} {q : Ptr} {e : l2flowTable}
    (he : s.heap q = some e) (hpm : e.flags &&& L2FLOW_FL_PENDING_MSG ≠ 0)
    (hs : e.state = L2FLOW_STATE_DYING) (env : NlOutcome) {p : Ptr} (hq : q ≠ p) :
    LeftAlone p s (__abm_go_dying env q s) := by
  have hpq : p ≠ q := fun h => hq h.symm
  rw [__abm_go_dying_quiet he hpm hs]
  split
  · exact ⟨by simp [State.put, hpq], id, rfl, rfl, rfl⟩
  · exact abm_l2flow_del_leftAlone q s hq

theorem abm_br_event_port_down_entry_leftAlone (env : NlOutcome) (ifindex : Nat) (q : Ptr)
    (s : State) {p : Ptr} (hq : q ≠ p) :
    LeftAlone p s (abm_br_event_port_down_entry env ifindex q s) := by
  have hpq : p ≠ q := fun h => hq h.symm
  unfold abm_br_event_port_down_entry
  cases he : s.heap q with
  | none => exact LeftAlone.alone_refl p s
  | some e =>
    simp only []
    by_cases hc : e.state ≠ L2FLOW_STATE_DYING ∧ (e.idev_ifi = ifindex ∨ e.odev_ifi = ifindex)
    · simp only [if_pos hc]
      by_cases hpm : e.flags &&& L2FLOW_FL_PENDING_MSG = 0
      · simp only [if_pos hpm]
        have h1 : LeftAlone p s
            ({ s.put q
                (del_timer
                  { e with
                    state := L2FLOW_STATE_DYING
                    flags := e.flags ||| L2FLOW_FL_PENDING_MSG }) with
              l2flow_list_msg_to_send := list_add q s.l2flow_list_msg_to_send
              work_send_msg_queued := true } : State) :=
          ⟨by simp [State.put, hpq], fun hm => List.mem_cons_of_mem _ hm, rfl, rfl, rfl⟩
        split
        · refine h1.alone_trans (__abm_go_dying_quiet_leftAlone
            (e := del_timer
              { e with state := L2FLOW_STATE_DYING, flags := e.flags ||| L2FLOW_FL_PENDING_MSG })
            (by simp [State.put]) (by simp [del_timer]) rfl env hq)
        · exact h1
      · simp only [if_neg hpm]
        have h1 : LeftAlone p s (s.put q (del_timer { e with state := L2FLOW_STATE_DYING })) :=
          ⟨by simp [State.put, hpq], id, rfl, rfl, rfl⟩
        split
        · refine h1.alone_trans (__abm_go_dying_quiet_leftAlone
            (e := del_timer { e with state := L2FLOW_STATE_DYING })
            (by simp [State.put]) (by simpa [del_timer] using hpm) rfl env hq)
        · exact h1
    · simp only [if_neg hc]
      exact LeftAlone.alone_refl p s

theorem abm_br_event_port_down_entry_ff (env : NlOutcome) (ifindex : Nat) (p : Ptr) (s : State)
    (e : l2flowTable) (he : s.heap p = some e) (hs : e.state = L2FLOW_STATE_FF)
    (hd : e.flags &&& L2FLOW_FL_DEAD = 0) (ho : e.odev_ifi = ifindex) :
    (abm_br_event_port_down_entry env ifindex p s).heap p
      = some (port_down_entry e (s.jiffies + s.l2flow_timeouts L2FLOW_STATE_DYING))
    ∧ (e.flags &&& L2FLOW_FL_PENDING_MSG = 0 →
        p ∈ (abm_br_event_port_down_entry env ifindex p s).l2flow_list_msg_to_send
        ∧ (abm_br_event_port_down_entry env ifindex p s).work_send_msg_queued = true)
    ∧ (abm_br_event_port_down_entry env ifindex p s).nl_out = s.nl_out
    ∧ (abm_br_event_port_down_entry env ifindex p s).jiffies = s.jiffies
    ∧ (abm_br_event_port_down_entry env ifindex p s).l2flow_timeouts = s.l2flow_timeouts := by
  unfold abm_br_event_port_down_entry port_down_entry
  have hc : e.state ≠ L2FLOW_STATE_DYING ∧ (e.idev_ifi = ifindex ∨ e.odev_ifi = ifindex) :=
    ⟨by rw [hs]; decide, Or.inr ho⟩
  have hgo : e.timeout_pending = true ∨ e.state = L2FLOW_STATE_FF := Or.inr hs
  simp only [he, if_pos hc, if_pos hgo]
  by_cases hpm : e.flags &&& L2FLOW_FL_PENDING_MSG = 0
  · simp only [if_pos hpm]
    rw [__abm_go_dying_quiet
      (e := del_timer
        { e with state := L2FLOW_STATE_DYING, flags := e.flags ||| L2FLOW_FL_PENDING_MSG })
      (by simp [State.put]) (by simp [del_timer]) rfl]
    have hd1 : (del_timer
        { e with state := L2FLOW_STATE_DYING, flags := e.flags ||| L2FLOW_FL_PENDING_MSG }).flags
        &&& L2FLOW_FL_DEAD = 0 := by simp [del_timer, hd]
    simp only [if_pos hd1]
    refine ⟨by simp [State.put, add_timer, del_timer], fun _ => ⟨?_, rfl⟩, rfl, rfl, rfl⟩
    exact List.mem_cons_self _ _
  · simp only [if_neg hpm]
    rw [__abm_go_dying_quiet (e := del_timer { e with state := L2FLOW_STATE_DYING })
      (by simp [State.put]) (by simpa [del_timer] using hpm) rfl]
    have hd1 : (del_timer { e with state := L2FLOW_STATE_DYING }).flags
        &&& L2FLOW_FL_DEAD = 0 := by simp [del_timer, hd]
    simp only [if_pos hd1]
    refine ⟨?_, fun h => absurd h hpm, rfl, rfl, rfl⟩
    simp [State.put, add_timer, del_timer, flag_PENDING_MSG_or_of_set hpm]

theorem __abm_go_dying_oops (env : NlOutcome) (p : Ptr) (s : State) :
    (__abm_go_dying env p s).oops = s.oops := by
  unfold __abm_go_dying
  cases he : s.heap p with
  | none => rfl
  | some e =>
    simp only []
    repeat' split
    all_goals first | rfl | (unfold abm_l2flow_del; simp only [he])

theorem abm_br_event_port_down_entry_oops (env : NlOutcome) (ifindex : Nat) (p : Ptr)
    (s : State) : (abm_br_event_port_down_entry env ifindex p s).oops = s.oops := by
  unfold abm_br_event_port_down_entry
  cases he : s.heap p with
  | none => rfl
  | some e =>
    simp only []
    repeat' split
    all_goals first | rfl | (rw [__abm_go_dying_oops]; rfl)

/-- The body of the port-down loop frees no record that does not carry DEAD on the interface
without being DYING: the record it stands on is there afterwards, as it was or DYING. -/
theorem abm_br_event_port_down_entry_kept (env : NlOutcome) (ifindex : Nat) (q : Ptr)
    (s : State) (e : l2flowTable) (he : s.heap q = some e)
    (hsafe : e.idev_ifi = ifindex ∨ e.odev_ifi = ifindex → e.flags &&& L2FLOW_FL_DEAD ≠ 0 →
      e.state = L2FLOW_STATE_DYING) :
    ∃ e', (abm_br_event_port_down_entry env ifindex q s).heap q = some e'
      ∧ e'.idev_ifi = e.idev_ifi ∧ e'.odev_ifi = e.odev_ifi
      ∧ (e' = e ∨ e'.state = L2FLOW_STATE_DYING) := by
  unfold abm_br_event_port_down_entry
  simp only [he]
  by_cases hc : e.state ≠ L2FLOW_STATE_DYING ∧ (e.idev_ifi = ifindex ∨ e.odev_ifi = ifindex)
  · have hd : e.flags &&& L2FLOW_FL_DEAD = 0 := by
      by_contra hd
      exact hc.1 (hsafe hc.2 hd)
    simp only [if_pos hc]
    by_cases hpm : e.flags &&& L2FLOW_FL_PENDING_MSG = 0
    · simp only [if_pos hpm]
      split
      · rw [__abm_go_dying_quiet
          (e := del_timer
            { e with state := L2FLOW_STATE_DYING, flags := e.flags ||| L2FLOW_FL_PENDING_MSG })
          (by simp [State.put]) (by simp [del_timer]) rfl]
        have hd1 : (del_timer
            { e with state := L2FLOW_STATE_DYING,
                     flags := e.flags ||| L2FLOW_FL_PENDING_MSG }).flags
            &&& L2FLOW_FL_DEAD = 0 := by simp [del_timer, hd]
        simp only [if_pos hd1]
        exact ⟨_, put_heap_self _ _ _, rfl, rfl, Or.inr rfl⟩
      · exact ⟨_, put_heap_self _ _ _, rfl, rfl, Or.inr rfl⟩
    · simp only [if_neg hpm]
      split
      · rw [__abm_go_dying_quiet (e := del_timer { e with state := L2FLOW_STATE_DYING })
          (by simp [State.put]) (by simpa [del_timer] using hpm) rfl]
        have hd1 : (del_timer { e with state := L2FLOW_STATE_DYING }).flags
            &&& L2FLOW_FL_DEAD = 0 := by simp [del_timer, hd]
        simp only [if_pos hd1]
        exact ⟨_, put_heap_self _ _ _, rfl, rfl, Or.inr rfl⟩
      · exact ⟨_, put_heap_self _ _ _, rfl, rfl, Or.inr rfl⟩
  · simp only [if_neg hc]
    exact ⟨e, he, rfl, rfl, Or.inl rfl⟩

/-- In a state that has not faulted and where no record carries DEAD on the interface without
being DYING, one turn of the port-down walk is the body of the loop: nothing is freed, the
walk goes on, and the next state is again such a state. -/
theorem abm_br_event_port_down_step_safe (env : NlOutcome) (ifindex : Nat) (q : Ptr)
    (s : State) (hoops : s.oops = false) (hsafe : NoDeadOn ifindex s) :
    abm_br_event_port_down_step env ifindex q s
      = abm_br_event_port_down_entry env ifindex q s
    ∧ (abm_br_event_port_down_step env ifindex q s).oops = false
    ∧ NoDeadOn ifindex (abm_br_event_port_down_step env ifindex q s) := by
  have hstep : abm_br_event_port_down_step env ifindex q s
      = abm_br_event_port_down_entry env ifindex q s := by
    unfold abm_br_event_port_down_step
    rw [if_neg (by rw [hoops]; decide)]
    cases he : s.heap q with
    | none => simp
    | some e =>
      obtain ⟨e', he', _⟩ :=
        abm_br_event_port_down_entry_kept env ifindex q s e he (hsafe q e he)
      simp [he']
  rw [hstep]
  refine ⟨rfl, (abm_br_event_port_down_entry_oops env ifindex q s).trans hoops, ?_⟩
  intro r er her hon hdead
  by_cases hrq : r = q
  · subst hrq
    cases he : s.heap r with
    | none =>
      have : abm_br_event_port_down_entry env ifindex r s = s := by
        unfold abm_br_event_port_down_entry; simp only [he]
      rw [this, he] at her
      cases her
    | some e =>
      obtain ⟨e', he', hi', ho', hcase⟩ :=
        abm_br_event_port_down_entry_kept env ifindex r s e he (hsafe r e he)
      rw [he'] at her
      cases her
      rcases hcase with rfl | hst
      · exact hsafe r _ he hon hdead
      · exact hst
  · have hla := abm_br_event_port_down_entry_leftAlone env ifindex q s (p := r)
      (fun h => hrq h.symm)
    rw [hla.1] at her
    exact hsafe r er her hon hdead

theorem abm_br_event_port_down_walk {K : Kernel} {s : State} (hi : IndexInv K s) {p : Ptr}
    {e : l2flowTable} (he : s.heap p = some e) (hs : e.state = L2FLOW_STATE_FF)
    (hd : e.flags &&& L2FLOW_FL_DEAD = 0) {ifindex : Nat} (ho : e.odev_ifi = ifindex)
    (hoops : s.oops = false) (hsafe : NoDeadOn ifindex s)
    (env : Ptr → NlOutcome) (alloc_ok : Bool) :
    (IndexInv K (abm_br_event K env alloc_ok (brevent.BREVENT_PORT_DOWN ifindex) s)
      ∧ (abm_br_event K env alloc_ok (brevent.BREVENT_PORT_DOWN ifindex) s).heap p
          = some (port_down_entry e (s.jiffies + s.l2flow_timeouts L2FLOW_STATE_DYING))
      ∧ (e.flags &&& L2FLOW_FL_PENDING_MSG = 0 →
          p ∈ (abm_br_event K env alloc_ok (brevent.BREVENT_PORT_DOWN ifindex)
            s).l2flow_list_msg_to_send)
      ∧ (abm_br_event K env alloc_ok (brevent.BREVENT_PORT_DOWN ifindex) s).nl_out = s.nl_out
      ∧ (abm_br_event K env alloc_ok (brevent.BREVENT_PORT_DOWN ifindex) s).jiffies
          = s.jiffies)
    ∧ (abm_br_event K env alloc_ok (brevent.BREVENT_PORT_DOWN ifindex) s).oops = false
    ∧ NoDeadOn ifindex (abm_br_event K env alloc_ok (brevent.BREVENT_PORT_DOWN ifindex) s) := by
  unfold abm_br_event
  simp only []
  apply nested_hit (K := K) (e := e)
    (f := fun q t => abm_br_event_port_down_step (env q) ifindex q t)
    (Ψ := fun t => IndexInv K t ∧ t.heap p = some e ∧ t.nl_out = s.nl_out
      ∧ t.jiffies = s.jiffies ∧ t.l2flow_timeouts = s.l2flow_timeouts
      ∧ t.oops = false ∧ NoDeadOn ifindex t)
    (Φ := fun t => (IndexInv K t
      ∧ t.heap p = some (port_down_entry e (s.jiffies + s.l2flow_timeouts L2FLOW_STATE_DYING))
      ∧ (e.flags &&& L2FLOW_FL_PENDING_MSG = 0 → p ∈ t.l2flow_list_msg_to_send)
      ∧ t.nl_out = s.nl_out ∧ t.jiffies = s.jiffies)
      ∧ t.oops = false ∧ NoDeadOn ifindex t)
  · intro t ht
    exact ⟨ht.1, ht.2.1⟩
  · intro t ht
    refine ⟨ht.1.1, ?_⟩
    intro e' he'
    rw [ht.1.2.1] at he'
    cases he'
    rfl
  · intro q t hq ht
    obtain ⟨hstep, ho', hs'⟩ :=
      abm_br_event_port_down_step_safe (env q) ifindex q t ht.2.2.2.2.2.1 ht.2.2.2.2.2.2
    obtain ⟨a, _, c, d, f⟩ := abm_br_event_port_down_entry_leftAlone (env q) ifindex q t hq
    refine ⟨?_, ?_, ?_, ?_, ?_, ho', hs'⟩
    all_goals simp only [hstep]
    · exact (abm_br_event_port_down_entry_good K (env q) ifindex q t).inv ht.1
    · exact a.trans ht.2.1
    · exact c.trans ht.2.2.1
    · exact d.trans ht.2.2.2.1
    · exact f.trans ht.2.2.2.2.1
  · intro q t hq ht
    obtain ⟨hstep, ho', hs'⟩ :=
      abm_br_event_port_down_step_safe (env q) ifindex q t ht.2.1 ht.2.2
    refine ⟨?_, ho', hs'⟩
    simp only [hstep]
    obtain ⟨a, b, c, d, _⟩ := abm_br_event_port_down_entry_leftAlone (env q) ifindex q t hq
    exact ⟨(abm_br_event_port_down_entry_good K (env q) ifindex q t).inv ht.1.1,
      a.trans ht.1.2.1, fun h => b (ht.1.2.2.1 h), c.trans ht.1.2.2.2.1,
      d.trans ht.1.2.2.2.2⟩
  · intro t ht
    obtain ⟨hstep, ho', hs'⟩ :=
      abm_br_event_port_down_step_safe (env p) ifindex p t ht.2.2.2.2.2.1 ht.2.2.2.2.2.2
    refine ⟨?_, ho', hs'⟩
    simp only [hstep]
    obtain ⟨a, b, c, d, _⟩ :=
      abm_br_event_port_down_entry_ff (env p) ifindex p t e ht.2.1 hs hd ho
    refine ⟨(abm_br_event_port_down_entry_good K (env p) ifindex p t).inv ht.1, ?_,
      fun h => (b h).1, c.trans ht.2.2.1, d.trans ht.2.2.2.1⟩
    rw [a, ht.2.2.2.1, ht.2.2.2.2.1]
  · exact ⟨hi, he, rfl, rfl, rfl, hoops, hsafe⟩

/-- What a port-down event does, in a state that has not faulted and where no record carries
DEAD on the interface without being DYING, to one resident FF record that is not DEAD and
leaves by the interface that went down: the walk frees no record and comes to its end; the
record is DYING with PENDING_MSG and DEAD set and its timer armed for the DYING timeout; it is
on the pending-send list when PENDING_MSG was clear; the event hands nothing to netlink; the
indices stay coherent. -/
theorem abm_br_event_port_down_record {K : Kernel} {s : State} (hi : IndexInv K s) {p : Ptr}
    {e : l2flowTable} (he : s.heap p = some e) (hs : e.state = L2FLOW_STATE_FF)
    (hd : e.flags &&& L2FLOW_FL_DEAD = 0) {ifindex : Nat} (ho : e.odev_ifi = ifindex)
    (hoops : s.oops = false) (hsafe : NoDeadOn ifindex s)
    (env : Ptr → NlOutcome) (alloc_ok : Bool) :
    IndexInv K (abm_br_event K env alloc_ok (brevent.BREVENT_PORT_DOWN ifindex) s)
    ∧ (abm_br_event K env alloc_ok (brevent.BREVENT_PORT_DOWN ifindex) s).heap p
        = some (port_down_entry e (s.jiffies + s.l2flow_timeouts L2FLOW_STATE_DYING))
    ∧ (e.flags &&& L2FLOW_FL_PENDING_MSG = 0 →
        p ∈ (abm_br_event K env alloc_ok (brevent.BREVENT_PORT_DOWN ifindex)
          s).l2flow_list_msg_to_send)
    ∧ (abm_br_event K env alloc_ok (brevent.BREVENT_PORT_DOWN ifindex) s).nl_out = s.nl_out
    ∧ (abm_br_event K env alloc_ok (brevent.BREVENT_PORT_DOWN ifindex) s).jiffies
        = s.jiffies
    ∧ (abm_br_event K env alloc_ok (brevent.BREVENT_PORT_DOWN ifindex) s).oops = false := by
  obtain ⟨⟨a, b, c, d, f⟩, g, _⟩ :=
    abm_br_event_port_down_walk hi he hs hd ho hoops hsafe env alloc_ok
  exact ⟨a, b, c, d, f, g⟩

/-- The timer callback on a resident record that is DEAD deletes it. -/
theorem abm_death_by_timeout_dead {K : Kernel} {s : State} (hi : IndexInv K s) {p : Ptr}
    {e : l2flowTable} (he : s.heap p = some e) (hd : e.flags &&& L2FLOW_FL_DEAD ≠ 0)
    (env : NlOutcome) :
    (abm_death_by_timeout env p s).heap p = none
    ∧ (∀ i, p ∉ (abm_death_by_timeout env p s).l2flow_table i)
    ∧ (∀ i, p ∉ (abm_death_by_timeout env p s).l2flow_table_by_src_mac i)
    ∧ (∀ i, p ∉ (abm_death_by_timeout env p s).l2flow_table_by_dst_mac i)
    ∧ (abm_death_by_timeout env p s).abm_nb_entries + 1 = s.abm_nb_entries
    ∧ (abm_death_by_timeout env p s).nl_out = s.nl_out := by
  unfold abm_death_by_timeout
  simp only [he]
  rw [__abm_go_dying_dead (e := del_timer e) (put_heap_self _ _ _) (by simpa [del_timer] using hd)]
  have hi1 : IndexInv K (s.put p (del_timer e)) := hi.of_sameIdx (put_sameIdx he rfl)
  obtain ⟨a1, a2, a3, a4, a5, _, _, _, a9⟩ :=
    abm_l2flow_del_spec hi1 (put_heap_self s p (del_timer e))
  exact ⟨a1, a2, a3, a4, a5, a9⟩

theorem abm_do_work_send_msg_entry_dying (env : NlOutcome) (p : Ptr) (s : State)
    (e : l2flowTable) (he : s.heap p = some e) (hs : e.state = L2FLOW_STATE_DYING) :
    (abm_do_work_send_msg_entry env p s).nl_out
      = s.nl_out
        ++ (abm_nl_send_l2flow_msg env s.abm_l3_filtering L2FLOW_ENTRY_DEL 0 e).2.toList := by
  unfold abm_do_work_send_msg_entry
  simp only [he, hs, action_of_state]
  repeat' split
  all_goals rfl

theorem IndexInv.tick {K : Kernel} {s : State} (hi : IndexInv K s) (n : Nat) :
    IndexInv K ((Op.tick n).apply K s) :=
  hi.of_sameIdx ⟨rfl, rfl, rfl, fun _ => rfl, rfl, rfl⟩

theorem tick_heap (K : Kernel) (n : Nat) (s : State) (p : Ptr) :
    ((Op.tick n).apply K s).heap p = s.heap p := rfl

theorem tick_nl_out (K : Kernel) (n : Nat) (s : State) :
    ((Op.tick n).apply K s).nl_out = s.nl_out := rfl

theorem ex_s_ff_reachable : Reachable ex_K ex_s_ff :=
  Reachable.step ex_op_offloaded ex_s_confirmed ex_s_confirmed_reachable trivial

theorem sent_actions_congr {s s' : State} (h : s'.nl_out = s.nl_out) :
    sent_actions s' = sent_actions s := by
  unfold sent_actions; rw [h]

/-- C18, amended. In a reachable state where the module has not faulted and no record on the
interface `X` carries DEAD without being DYING, for a resident record in state FF that is not
DEAD and whose egress interface is `X`, a port-down event for `X` (0) runs to its end without
reading a freed node, (1) puts the record at once in state DYING with DEAD and PENDING_MSG set
and its timer armed for the DYING timeout, (2) hands no message to netlink, and (3) links the
record on the pending-send list when it did not carry PENDING_MSG; (4) the step of the
deferred worker for that record then attempts one message with action DEL; (5) a following
expiry of the timer of the record, at any later time, removes it from the heap and from the
primary, source-MAC and destination-MAC indices, makes the counter one less than it was after
the event and hands nothing to netlink. -/
theorem scenario_D_amended (K : Kernel) (s : State) (h : Reachable K s) (p : Ptr)
    (e : l2flowTable) (hp : s.heap p = some e) (hs : e.state = L2FLOW_STATE_FF)
    (hd : e.flags &&& L2FLOW_FL_DEAD = 0) (X : Nat) (ho : e.odev_ifi = X)
    (hoops : s.oops = false) (hsafe : NoDeadOn X s)
    (env : Ptr → NlOutcome) (alloc_ok : Bool) :
    (abm_br_event K env alloc_ok (brevent.BREVENT_PORT_DOWN X) s).oops = false
    ∧ (abm_br_event K env alloc_ok (brevent.BREVENT_PORT_DOWN X) s).heap p
      = some (port_down_entry e (s.jiffies + s.l2flow_timeouts L2FLOW_STATE_DYING))
    ∧ (abm_br_event K env alloc_ok (brevent.BREVENT_PORT_DOWN X) s).nl_out = s.nl_out
    ∧ (e.flags &&& L2FLOW_FL_PENDING_MSG = 0 →
        p ∈ (abm_br_event K env alloc_ok (brevent.BREVENT_PORT_DOWN X)
          s).l2flow_list_msg_to_send)
    ∧ (∀ env2,
        (abm_do_work_send_msg_entry env2 p
          (abm_br_event K env alloc_ok (brevent.BREVENT_PORT_DOWN X) s)).nl_out
          = s.nl_out
            ++ (abm_nl_send_l2flow_msg env2
                (abm_br_event K env alloc_ok (brevent.BREVENT_PORT_DOWN X) s).abm_l3_filtering
                L2FLOW_ENTRY_DEL 0
                (port_down_entry e
                  (s.jiffies + s.l2flow_timeouts L2FLOW_STATE_DYING))).2.toList)
    ∧ (∀ env3 n,
        (abm_death_by_timeout env3 p
          ((Op.tick n).apply K
            (abm_br_event K env alloc_ok (brevent.BREVENT_PORT_DOWN X) s))).heap p = none
        ∧ (∀ i, p ∉ (abm_death_by_timeout env3 p
            ((Op.tick n).apply K
              (abm_br_event K env alloc_ok (brevent.BREVENT_PORT_DOWN X) s))).l2flow_table i)
        ∧ (∀ i, p ∉ (abm_death_by_timeout env3 p
            ((Op.tick n).apply K
              (abm_br_event K env alloc_ok (brevent.BREVENT_PORT_DOWN X)
                s))).l2flow_table_by_src_mac i)
        ∧ (∀ i, p ∉ (abm_death_by_timeout env3 p
            ((Op.tick n).apply K
              (abm_br_event K env alloc_ok (brevent.BREVENT_PORT_DOWN X)
                s))).l2flow_table_by_dst_mac i)
        ∧ (abm_death_by_timeout env3 p
            ((Op.tick n).apply K
              (abm_br_event K env alloc_ok (brevent.BREVENT_PORT_DOWN X)
                s))).abm_nb_entries + 1
            = (abm_br_event K env alloc_ok (brevent.BREVENT_PORT_DOWN X) s).abm_nb_entries
        ∧ (abm_death_by_timeout env3 p
            ((Op.tick n).apply K
              (abm_br_event K env alloc_ok (brevent.BREVENT_PORT_DOWN X) s))).nl_out
            = s.nl_out) := by
  obtain ⟨hi', a, b, c, _, g⟩ :=
    abm_br_event_port_down_record h.indexInv hp hs hd ho hoops hsafe env alloc_ok
  generalize abm_br_event K env alloc_ok (brevent.BREVENT_PORT_DOWN X) s = s' at hi' a b c g ⊢
  refine ⟨g, a, c, b, ?_, ?_⟩
  · intro env2
    rw [abm_do_work_send_msg_entry_dying env2 p _ _ a rfl, c]
  · intro env3 n
    have hi2 : IndexInv K ((Op.tick n).apply K s') := hi'.tick n
    have he2 : ((Op.tick n).apply K s').heap p
        = some (port_down_entry e (s.jiffies + s.l2flow_timeouts L2FLOW_STATE_DYING)) := a
    obtain ⟨b1, b2, b3, b4, b5, b6⟩ :=
      abm_death_by_timeout_dead hi2 he2 (by simp [port_down_entry]) env3
    exact ⟨b1, b2, b3, b4, b5, b6.trans c⟩

theorem ex_s_port_down_eq :
    ex_s_port_down
      = abm_br_event ex_K (fun _ => ex_sent) true (brevent.BREVENT_PORT_DOWN 4) ex_s_ff := rfl

/-- The offloaded flow 1 → 2 is the only record of `ex_s_ff`, and it does not carry DEAD. -/
theorem ex_s_ff_noDeadOn (X : Nat) : NoDeadOn X ex_s_ff := by
  intro q e he _ hdead
  by_cases hq : q = 0
  · subst hq
    have h0 : ex_s_ff.heap 0 = some (ex_rec L2FLOW_STATE_FF 1000 0 false 13000 3 4) := by
      decide
    rw [h0] at he
    cases he
    exact absurd (by decide) hdead
  · have h : ex_s_ff.heap q = none := by
      cases q with
      | zero => exact absurd rfl hq
      | succ n => rfl
    rw [h] at he
    cases he

/-- C18, counterexample. Flow 1 → 2 is offloaded (state FF, egress interface 4), it is the
only record and the only message sent so far is its NEW. Interface 4 goes down, a listener
being there: the event runs to its end, the record is DYING with DEAD set and the timer armed,
but no DEL has been handed to netlink; and when the timer of the record then fires, the record
is deleted and still no DEL was ever attempted. -/
theorem scenario_D_counterexample :
    Reachable ex_K ex_s_port_down
    ∧ ex_s_ff.heap 0 = some (ex_rec L2FLOW_STATE_FF 1000 0 false 13000 3 4)
    ∧ sent_actions ex_s_ff = [(some L2FLOW_ENTRY_NEW, 0)]
    ∧ ex_s_port_down.oops = false
    ∧ ex_s_port_down.heap 0 = some (ex_rec L2FLOW_STATE_DYING 1000 10 true 13000 3 4)
    ∧ (10 : Nat) &&& L2FLOW_FL_DEAD ≠ 0
    ∧ sent_actions ex_s_port_down = [(some L2FLOW_ENTRY_NEW, 0)]
    ∧ (abm_death_by_timeout ex_sent 0
        ((Op.tick 200000).apply ex_K ex_s_port_down)).heap 0 = none
    ∧ sent_actions (abm_death_by_timeout ex_sent 0
        ((Op.tick 200000).apply ex_K ex_s_port_down)) = [(some L2FLOW_ENTRY_NEW, 0)] := by
  have hr : Reachable ex_K ex_s_port_down :=
    Reachable.step ex_op_port_down ex_s_ff ex_s_ff_reachable trivial
  have h0 : ex_s_ff.heap 0 = some (ex_rec L2FLOW_STATE_FF 1000 0 false 13000 3 4) := by decide
  have hs0 : sent_actions ex_s_ff = [(some L2FLOW_ENTRY_NEW, 0)] := by decide
  obtain ⟨hi', a, _, c, _, g⟩ :=
    @abm_br_event_port_down_record ex_K ex_s_ff ex_s_ff_reachable.indexInv 0
      (ex_rec L2FLOW_STATE_FF 1000 0 false 13000 3 4) h0 rfl (by decide) 4 rfl
      (by decide) (ex_s_ff_noDeadOn 4) (fun _ => ex_sent) true
  rw [← ex_s_port_down_eq] at hi' a c g
  have a' : ex_s_port_down.heap 0 = some (ex_rec L2FLOW_STATE_DYING 1000 10 true 13000 3 4) :=
    a.trans (by decide)
  obtain ⟨b1, _, _, _, _, b6⟩ :=
    abm_death_by_timeout_dead (hi'.tick 200000)
      ((tick_heap ex_K 200000 ex_s_port_down 0).trans a') (by decide) ex_sent
  exact ⟨hr, h0, hs0, g, a', by decide, (sent_actions_congr c).trans hs0, b1,
    (sent_actions_congr ((b6.trans (tick_nl_out ex_K 200000 ex_s_port_down)).trans c)).trans
      hs0⟩

/-- C18, worked example: the offloaded flow 1 → 2, the only record, leaves by interface 4,
which goes down. -/
theorem scenario_D_amended_witness :
    Reachable ex_K ex_s_ff
    ∧ ex_s_ff.heap 0 = some (ex_rec L2FLOW_STATE_FF 1000 0 false 13000 3 4)
    ∧ ex_s_ff.oops = false
    ∧ NoDeadOn 4 ex_s_ff
    ∧ (abm_br_event ex_K (fun _ => ex_sent) true (brevent.BREVENT_PORT_DOWN 4) ex_s_ff).oops
        = false
    ∧ (abm_br_event ex_K (fun _ => ex_sent) true (brevent.BREVENT_PORT_DOWN 4) ex_s_ff).heap 0
        = some (port_down_entry (ex_rec L2FLOW_STATE_FF 1000 0 false 13000 3 4)
            (ex_s_ff.jiffies + ex_s_ff.l2flow_timeouts L2FLOW_STATE_DYING))
    ∧ port_down_entry (ex_rec L2FLOW_STATE_FF 1000 0 false 13000 3 4)
        (ex_s_ff.jiffies + ex_s_ff.l2flow_timeouts L2FLOW_STATE_DYING)
        = ex_rec L2FLOW_STATE_DYING 1000 10 true 13000 3 4
    ∧ (abm_br_event ex_K (fun _ => ex_sent) true (brevent.BREVENT_PORT_DOWN 4) ex_s_ff).nl_out
        = ex_s_ff.nl_out :=
  ⟨ex_s_ff_reachable, by decide, by decide, ex_s_ff_noDeadOn 4,
   (scenario_D_amended ex_K ex_s_ff ex_s_ff_reachable 0
      (ex_rec L2FLOW_STATE_FF 1000 0 false 13000 3 4) (by decide) rfl (by decide) 4 rfl
      (by decide) (ex_s_ff_noDeadOn 4) (fun _ => ex_sent) true).1,
   (scenario_D_amended ex_K ex_s_ff ex_s_ff_reachable 0
      (ex_rec L2FLOW_STATE_FF 1000 0 false 13000 3 4) (by decide) rfl (by decide) 4 rfl
      (by decide) (ex_s_ff_noDeadOn 4) (fun _ => ex_sent) true).2.1,
   by decide,
   (scenario_D_amended ex_K ex_s_ff ex_s_ff_reachable 0
      (ex_rec L2FLOW_STATE_FF 1000 0 false 13000 3 4) (by decide) rfl (by decide) 4 rfl
      (by decide) (ex_s_ff_noDeadOn 4) (fun _ => ex_sent) true).2.2.1⟩

/-! ## Flush -/

theorem foldl_keeps {α : Type} (f : State → α → State) (P : State → Prop)
    (h : ∀ s a, P s → P (f s a)) : ∀ (l : List α) (s : State), P s → P (l.foldl f s) := by
  intro l
  induction l with
  | nil => intro s hs; exact hs
  | cons a l ih => intro s hs; exact ih _ (h s a hs)

/-- The step of the flush for a resident record whose timer is pending or that is in state
FF is its deletion from the state with the record marked DEAD and its timer cancelled. -/
theorem abm_l2flow_table_flush_entry_eq (env : NlOutcome) (p : Ptr) (s : State)
    (e : l2flowTable) (he : s.heap p = some e)
    (hgo : e.timeout_pending = true ∨ e.state = L2FLOW_STATE_FF) :
    abm_l2flow_table_flush_entry env p s
      = abm_l2flow_del p (s.put p (del_timer { e with flags := e.flags ||| L2FLOW_FL_DEAD })) := by
  unfold abm_l2flow_table_flush_entry
  simp only [he, if_pos hgo]
  exact __abm_go_dying_dead (e := del_timer { e with flags := e.flags ||| L2FLOW_FL_DEAD })
    (put_heap_self _ _ _) (by simp [del_timer]) env

theorem abm_l2flow_table_flush_entry_leftAlone (env : NlOutcome) (q : Ptr) (s : State)
    {p : Ptr} (hq : q ≠ p) : LeftAlone p s (abm_l2flow_table_flush_entry env q s) := by
  have hpq : p ≠ q := fun h => hq h.symm
  cases he : s.heap q with
  | none =>
    unfold abm_l2flow_table_flush_entry
    simp only [he]
    exact LeftAlone.alone_refl p s
  | some e =>
    have h1 : LeftAlone p s (s.put q (del_timer { e with flags := e.flags ||| L2FLOW_FL_DEAD })) :=
      ⟨by simp [State.put, hpq], id, rfl, rfl, rfl⟩
    by_cases hgo : e.timeout_pending = true ∨ e.state = L2FLOW_STATE_FF
    · rw [abm_l2flow_table_flush_entry_eq env q s e he hgo]
      exact h1.alone_trans (abm_l2flow_del_leftAlone q _ hq)
    · unfold abm_l2flow_table_flush_entry
      simp only [he, if_neg hgo]
      exact h1

theorem abm_l2flow_table_flush_entry_nl_out (env : NlOutcome) (q : Ptr) (s : State) :
    (abm_l2flow_table_flush_entry env q s).nl_out = s.nl_out := by
  cases he : s.heap q with
  | none =>
    unfold abm_l2flow_table_flush_entry
    simp only [he]
  | some e =>
    by_cases hgo : e.timeout_pending = true ∨ e.state = L2FLOW_STATE_FF
    · rw [abm_l2flow_table_flush_entry_eq env q s e he hgo]
      unfold abm_l2flow_del
      simp only [put_heap_self]
      rfl
    · unfold abm_l2flow_table_flush_entry
      simp only [he, if_neg hgo]
      rfl

theorem abm_l2flow_table_flush_nl_out (env : Ptr → NlOutcome) (s : State) :
    (abm_l2flow_table_flush env s).nl_out = s.nl_out := by
  unfold abm_l2flow_table_flush
  apply foldl_keeps _ (fun t => t.nl_out = s.nl_out) _ _ _ rfl
  intro t i ht
  apply foldl_keeps _ (fun t => t.nl_out = s.nl_out) _ _ _ ht
  intro t q ht
  exact (abm_l2flow_table_flush_entry_nl_out (env q) q t).trans ht

/-- The flush deletes a resident record whose timer is pending or that is in state FF. -/
theorem abm_l2flow_table_flush_record {K : Kernel} {s : State} (hi : IndexInv K s) {p : Ptr}
    {e : l2flowTable} (he : s.heap p = some e)
    (hgo : e.timeout_pending = true ∨ e.state = L2FLOW_STATE_FF) (env : Ptr → NlOutcome) :
    IndexInv K (abm_l2flow_table_flush env s)
    ∧ (abm_l2flow_table_flush env s).heap p = none := by
  unfold abm_l2flow_table_flush
  apply nested_hit (K := K) (e := e)
    (f := fun q t => abm_l2flow_table_flush_entry (env q) q t)
    (Ψ := fun t => IndexInv K t ∧ t.heap p = some e)
    (Φ := fun t => IndexInv K t ∧ t.heap p = none)
  · intro t ht
    exact ht
  · intro t ht
    refine ⟨ht.1, ?_⟩
    intro e' he'
    rw [ht.2] at he'
    cases he'
  · intro q t hq ht
    exact ⟨(abm_l2flow_table_flush_entry_good K (env q) q t).inv ht.1,
      (abm_l2flow_table_flush_entry_leftAlone (env q) q t hq).1.trans ht.2⟩
  · intro q t hq ht
    exact ⟨(abm_l2flow_table_flush_entry_good K (env q) q t).inv ht.1,
      (abm_l2flow_table_flush_entry_leftAlone (env q) q t hq).1.trans ht.2⟩
  · intro t ht
    refine ⟨(abm_l2flow_table_flush_entry_good K (env p) p t).inv ht.1, ?_⟩
    show (abm_l2flow_table_flush_entry (env p) p t).heap p = none
    rw [abm_l2flow_table_flush_entry_eq (env p) p t e ht.2 hgo]
    exact (abm_l2flow_del_spec
      (ht.1.of_sameIdx
        (@put_sameIdx t p e (del_timer { e with flags := e.flags ||| L2FLOW_FL_DEAD }) ht.2 rfl))
      (put_heap_self t p (del_timer { e with flags := e.flags ||| L2FLOW_FL_DEAD }))).1
  · exact ⟨hi, he⟩

/-- In a state whose indices are coherent and where every resident record has its timer
pending or is in state FF, the flush empties the table: no record is left, the counter is 0
and nothing was handed to netlink. -/
theorem abm_l2flow_table_flush_empties {K : Kernel} {s : State} (hi : IndexInv K s)
    (ht : ∀ p e, s.heap p = some e → e.timeout_pending = true ∨ e.state = L2FLOW_STATE_FF)
    (env : Ptr → NlOutcome) :
    (∀ p, (abm_l2flow_table_flush env s).heap p = none)
    ∧ (abm_l2flow_table_flush env s).abm_nb_entries = 0
    ∧ (abm_l2flow_table_flush env s).nl_out = s.nl_out := by
  have hg := abm_l2flow_table_flush_good K env s
  have hi' := hg.inv hi
  have hempty : ∀ p, (abm_l2flow_table_flush env s).heap p = none := by
    intro p
    cases hp : s.heap p with
    | none =>
      cases hp' : (abm_l2flow_table_flush env s).heap p with
      | none => rfl
      | some e' =>
        obtain ⟨e, he, _⟩ := hg.shr.keys p e' hp'
        rw [hp] at he
        cases he
    | some e => exact (abm_l2flow_table_flush_record hi hp (ht p e hp) env).2
  refine ⟨hempty, ?_, abm_l2flow_table_flush_nl_out env s⟩
  rw [hi'.nb_eq]
  exact resident_count_of_empty hi' hempty

/-! ## Toggling Layer-3 filtering -/

/-- What `abm_sysctl_l3_filtering` does, in a state whose indices are coherent and where
every resident record has its timer pending or is in state FF, when the switch is off and a
non-zero value is written: the flush leaves no record and a counter of 0 and hands nothing to
netlink, one RESET send is attempted, and the switch is 1. -/
theorem abm_sysctl_l3_filtering_on {K : Kernel} {s : State} (hi : IndexInv K s)
    (ht : ∀ p e, s.heap p = some e → e.timeout_pending = true ∨ e.state = L2FLOW_STATE_FF)
    (hoff : s.abm_l3_filtering = 0) {val : Nat} (hval : val ≠ 0) (env : Ptr → NlOutcome)
    (env_rst : NlOutcome) :
    (∀ p, (abm_sysctl_l3_filtering true val env env_rst s).heap p = none)
    ∧ (abm_sysctl_l3_filtering true val env env_rst s).abm_nb_entries = 0
    ∧ (abm_sysctl_l3_filtering true val env env_rst s).nl_out
        = s.nl_out ++ (abm_nl_send_rst_msg env_rst).2.toList
    ∧ (abm_sysctl_l3_filtering true val env env_rst s).abm_l3_filtering = 1 := by
  obtain ⟨a, b, c⟩ := abm_l2flow_table_flush_empties hi ht env
  unfold abm_sysctl_l3_filtering
  have h1 : (true = true) ∧ val ≠ s.abm_l3_filtering := ⟨rfl, by rw [hoff]; exact hval⟩
  have h2 : (s.abm_l3_filtering = 0 ∧ val ≠ 0) ∨ (s.abm_l3_filtering ≠ 0 ∧ val = 0) :=
    Or.inl ⟨hoff, hval⟩
  rw [if_pos h1, if_pos h2, if_pos hval]
  generalize abm_l2flow_table_flush env s = s1 at a b c ⊢
  exact ⟨a, b, by rw [← c]; rfl, rfl⟩

/-- C20, counterexample. Flow 1 → 2 is tracked (state SEEN, timer armed) and nothing was sent
so far. The Layer-3-filtering switch is written from 0 to 1, a listener being there: the
record is gone at once, not DYING, and the only message handed to netlink is the RESET: no DEL
was attempted. -/
theorem scenario_F_counterexample :
    Reachable ex_K ex_s1
    ∧ ex_s1.heap 0 = some (l2flow_entry_seen (ex_key 1 2) 3 1000 1000)
    ∧ ex_s1.abm_l3_filtering = 0
    ∧ ex_s1.nl_out = []
    ∧ (ex_op_l3_on.apply ex_K ex_s1).heap 0 = none
    ∧ (ex_op_l3_on.apply ex_K ex_s1).nl_out = [(nlmsg_reset, 0)] := by
  obtain ⟨a, _, c, _⟩ :=
    abm_sysctl_l3_filtering_on ex_s1_reachable.indexInv
      (fun p e hp => (ex_s1_reachable.timerInv p e hp).1) (by decide)
      (by decide : (1 : Nat) ≠ 0)
      (fun _ => ex_sent) ex_sent
  exact ⟨ex_s1_reachable, by decide, by decide, by decide, a 0, c.trans (by decide)⟩

/-- C20, amended. In a state whose indices are coherent (every reachable state is) and that
satisfies the timer invariant (every tracked record has its timer pending or is in state FF),
with the Layer-3-filtering switch off, a write of a non-zero value flushes the whole table by
deleting every tracked record at once: no record is left, in state DYING or any other, the
record count is 0, and the flush hands no DEL (nor any other message) to netlink; the handler
then makes exactly one attempt to send RESET, which is one RESET broadcast when there is a
listener; the switch is on afterwards. -/
theorem scenario_F_amended (K : Kernel) (s : State) (hi : IndexInv K s)
    (ht : ∀ p e, s.heap p = some e → e.timeout_pending = true ∨ e.state = L2FLOW_STATE_FF)
    (hoff : s.abm_l3_filtering = 0) (val : Nat) (hval : val ≠ 0) (env : Ptr → NlOutcome)
    (env_rst : NlOutcome) :
    (∀ p, (abm_sysctl_l3_filtering true val env env_rst s).heap p = none)
    ∧ (abm_sysctl_l3_filtering true val env env_rst s).abm_nb_entries = 0
    ∧ (abm_sysctl_l3_filtering true val env env_rst s).nl_out
        = s.nl_out ++ (abm_nl_send_rst_msg env_rst).2.toList
    ∧ (∀ rc, env_rst = NlOutcome.broadcast rc →
        (abm_sysctl_l3_filtering true val env env_rst s).nl_out
          = s.nl_out ++ [(nlmsg_reset, rc)])
    ∧ (abm_sysctl_l3_filtering true val env env_rst s).abm_l3_filtering = 1 := by
  obtain ⟨a, b, c, d⟩ := abm_sysctl_l3_filtering_on hi ht hoff hval env env_rst
  refine ⟨a, b, c, ?_, d⟩
  intro rc hrc
  rw [c, hrc]
  rfl

/-- C20, worked example: with flow 1 → 2 tracked, its timer pending, and the switch off,
writing 1 with a listener present leaves no record and hands exactly the RESET to netlink. -/
theorem scenario_F_amended_witness :
    IndexInv ex_K ex_s1
    ∧ (∀ p e, ex_s1.heap p = some e → e.timeout_pending = true ∨ e.state = L2FLOW_STATE_FF)
    ∧ ex_s1.abm_l3_filtering = 0
    ∧ ex_s1.heap 0 = some (l2flow_entry_seen (ex_key 1 2) 3 1000 1000)
    ∧ (abm_sysctl_l3_filtering true 1 (fun _ => ex_sent) ex_sent ex_s1).heap 0 = none
    ∧ (abm_sysctl_l3_filtering true 1 (fun _ => ex_sent) ex_sent ex_s1).nl_out
        = ex_s1.nl_out ++ [(nlmsg_reset, 0)] :=
  ⟨ex_s1_reachable.indexInv, fun p e hp => (ex_s1_reachable.timerInv p e hp).1,
   by decide, by decide,
   (scenario_F_amended ex_K ex_s1 ex_s1_reachable.indexInv
      (fun p e hp => (ex_s1_reachable.timerInv p e hp).1) (by decide) 1 (by decide)
      (fun _ => ex_sent) ex_sent).1 0,
   (scenario_F_amended ex_K ex_s1 ex_s1_reachable.indexInv
      (fun p e hp => (ex_s1_reachable.timerInv p e hp).1) (by decide) 1 (by decide)
      (fun _ => ex_sent) ex_sent).2.2.2.1 0 rfl⟩

/-! ## The record counter -/

theorem abm_l2flow_add_count {K : Kernel} {s : State} (hi : IndexInv K s)
    (alloc : Option Ptr) (k : l2flow) :
    ((abm_l2flow_add K alloc k s).1 = none → (abm_l2flow_add K alloc k s).2 = s)
    ∧ ∀ p, (abm_l2flow_add K alloc k s).1 = some p →
        (abm_l2flow_add K alloc k s).2.abm_nb_entries = s.abm_nb_entries + 1
        ∧ resident_count (abm_l2flow_add K alloc k s).2 = resident_count s + 1 := by
  rcases abm_l2flow_add_cases K alloc k s with ⟨h, _⟩ | ⟨q, _, hroom, h⟩
  · rw [h]
    exact ⟨fun _ => rfl, fun p hp => by cases hp⟩
  · rw [h]
    refine ⟨fun hn => (by cases hn), ?_⟩
    intro p _
    have hmax := hi.max_lt
    constructor
    · show (s.abm_nb_entries + 1) % 2 ^ 32 = s.abm_nb_entries + 1
      apply Nat.mod_eq_of_lt
      omega
    · unfold resident_count
      apply sum_length_step _ _ _ (abm_l2flow_hash K k) (abm_l2flow_hash_lt K k)
      · simp [abm_l2flow_add_link, bucket_add, list_add]
      · intro i hne
        simp [abm_l2flow_add_link, bucket_add, hne]

/-- C29. In every reachable state `abm_nb_entries` is the number of records linked in the
primary table. `abm_l2flow_add` leaves the whole state as it is when it rejects and raises the
counter (and the number of linked records) by exactly one when it succeeds; `abm_l2flow_del`
of a resident record lowers both by exactly one, without wrapping. After any operation the
counter is again the number of linked records, it is at most one more than before, and it is
what it was whenever the operation left the primary table as it was: nothing but a link or an
unlink changes it. -/
theorem count_invariant (K : Kernel) (s : State) (h : Reachable K s) :
    s.abm_nb_entries = resident_count s
    ∧ (∀ alloc k,
        ((abm_l2flow_add K alloc k s).1 = none → (abm_l2flow_add K alloc k s).2 = s)
        ∧ ∀ p, (abm_l2flow_add K alloc k s).1 = some p →
            (abm_l2flow_add K alloc k s).2.abm_nb_entries = s.abm_nb_entries + 1
            ∧ resident_count (abm_l2flow_add K alloc k s).2 = resident_count s + 1)
    ∧ (∀ p e, s.heap p = some e →
        (abm_l2flow_del p s).abm_nb_entries + 1 = s.abm_nb_entries
        ∧ resident_count (abm_l2flow_del p s) + 1 = resident_count s)
    ∧ ∀ op : Op, op.valid s →
        (op.apply K s).abm_nb_entries = resident_count (op.apply K s)
        ∧ (op.apply K s).abm_nb_entries ≤ s.abm_nb_entries + 1
        ∧ ((op.apply K s).l2flow_table = s.l2flow_table →
            (op.apply K s).abm_nb_entries = s.abm_nb_entries) := by
  have hi := h.indexInv
  refine ⟨hi.nb_eq, fun alloc k => abm_l2flow_add_count hi alloc k, ?_, ?_⟩
  · intro p e he
    have h1 := (abm_l2flow_del_spec hi he).2.2.2.2.1
    have h2 := (hi.inv_unlink p).nb_eq
    have h3 := hi.nb_eq
    exact ⟨h1, by omega⟩
  · intro op hv
    have hi' := hi.step op hv
    refine ⟨hi'.nb_eq, ?_, ?_⟩
    · rcases Op.apply_step K op s hv with hg | ⟨p, k, e0, ha⟩ | ⟨v, hv'⟩
      · have h1 := hg.shr.count_mono
        have h2 := hi'.nb_eq
        have h3 := hi.nb_eq
        omega
      · have h1 := ha.count_succ
        have h2 := hi'.nb_eq
        have h3 := hi.nb_eq
        omega
      · subst hv'
        exact Nat.le_succ _
    · intro ht
      rw [hi'.nb_eq, hi.nb_eq]
      exact resident_count_congr ht

/-- C29, worked example: with flows 1 → 2 and 5 → 6 tracked the counter is 2, the number of
linked records; deleting the first record makes it 1, and a further insertion makes it 3. -/
theorem count_invariant_witness :
    Reachable ex_K ex_s2
    ∧ ex_s2.abm_nb_entries = 2
    ∧ ex_s2.abm_nb_entries = resident_count ex_s2
    ∧ (abm_l2flow_del 0 ex_s2).abm_nb_entries + 1 = ex_s2.abm_nb_entries
    ∧ (abm_l2flow_add ex_K (some 2) (ex_key 8 9) ex_s2).2.abm_nb_entries
        = ex_s2.abm_nb_entries + 1 :=
  ⟨ex_s2_reachable, by decide,
   (count_invariant ex_K ex_s2 ex_s2_reachable).1,
   ((count_invariant ex_K ex_s2 ex_s2_reachable).2.2.1 0
      (mod_timer { l2flow_entry_zeroed (ex_key 1 2) with idev_ifi := 3 } 2000) (by decide)).1,
   (((count_invariant ex_K ex_s2 ex_s2_reachable).2.1 (some 2) (ex_key 8 9)).2 2
      (by decide)).1⟩

/-! ## The forwarding-database expiry query -/

/-- C21. In every reachable state and for every MAC address `m` and interface index `i`,
`abm_fdb_can_expire` returns 0 exactly when some resident record has source MAC `m`, ingress
interface `i` and state FF, and returns 1 otherwise. (The query is a function of the state
alone: it has no state to return.) -/
theorem fdb_can_expire_query (K : Kernel) (s : State) (h : Reachable K s) (m : eth_addr)
    (i : Nat) :
    (abm_fdb_can_expire K s m i = 0 ↔
      ∃ p e, s.heap p = some e ∧ e.l2flow.saddr = m ∧ e.idev_ifi = i
        ∧ e.state = L2FLOW_STATE_FF)
    ∧ ((¬ ∃ p e, s.heap p = some e ∧ e.l2flow.saddr = m ∧ e.idev_ifi = i
        ∧ e.state = L2FLOW_STATE_FF) → abm_fdb_can_expire K s m i = 1) := by
  have hi := h.indexInv
  have key : (s.l2flow_table_by_src_mac (abm_l2flow_hash_mac K m)).any
      (fun p =>
        match s.heap p with
        | none => false
        | some e =>
          ether_addr_equal m e.l2flow.saddr && decide (i = e.idev_ifi)
            && decide (e.state = L2FLOW_STATE_FF)) = true
      ↔ ∃ p e, s.heap p = some e ∧ e.l2flow.saddr = m ∧ e.idev_ifi = i
        ∧ e.state = L2FLOW_STATE_FF := by
    rw [List.any_eq_true]
    constructor
    · rintro ⟨p, _, hp⟩
      cases he : s.heap p with
      | none => simp [he] at hp
      | some e =>
        simp [he, ether_addr_equal] at hp
        exact ⟨p, e, he, hp.1.1.symm, hp.1.2.symm, hp.2⟩
    · rintro ⟨p, e, he, hm, hif, hs⟩
      refine ⟨p, ?_, ?_⟩
      · have hmem : p ∈ s.l2flow_table_by_src_mac (abm_l2flow_hash_mac K e.l2flow.saddr) :=
          hi.src.2.1 p e he
        rw [hm] at hmem
        exact hmem
      · simp [he, ether_addr_equal, hm, hif, hs]
  unfold abm_fdb_can_expire
  constructor
  · rw [← key]
    constructor
    · intro h0
      by_contra hc
      rw [if_neg hc] at h0
      cases h0
    · intro h1
      rw [if_pos h1]
  · intro hno
    rw [← key] at hno
    rw [if_neg hno]

/-- C21, worked example: while flow 1 → 2 is offloaded (state FF, ingress interface 3) the
address MAC 1 behind interface 3 may not expire; behind interface 4 it may. -/
theorem fdb_can_expire_query_witness :
    Reachable ex_K ex_s_ff
    ∧ ex_s_ff.heap 0 = some (ex_rec L2FLOW_STATE_FF 1000 0 false 13000 3 4)
    ∧ abm_fdb_can_expire ex_K ex_s_ff (ex_mac 1) 3 = 0
    ∧ abm_fdb_can_expire ex_K ex_s_ff (ex_mac 1) 4 = 1 :=
  ⟨ex_s_ff_reachable, by decide,
   (fdb_can_expire_query ex_K ex_s_ff ex_s_ff_reachable (ex_mac 1) 3).1.mpr
     ⟨0, ex_rec L2FLOW_STATE_FF 1000 0 false 13000 3 4, by decide, rfl, rfl, rfl⟩,
   by decide⟩

/-! ## Effect of a flush -/

/-- The flush leaves a resident record whose timer is not pending and that is not in state
FF where it is, with DEAD set. -/
theorem abm_l2flow_table_flush_survivor {K : Kernel} {s : State} (hi : IndexInv K s) {p : Ptr}
    {e : l2flowTable} (he : s.heap p = some e)
    (hgo : ¬ (e.timeout_pending = true ∨ e.state = L2FLOW_STATE_FF)) (env : Ptr → NlOutcome) :
    IndexInv K (abm_l2flow_table_flush env s)
    ∧ (abm_l2flow_table_flush env s).heap p
        = some { e with flags := e.flags ||| L2FLOW_FL_DEAD } := by
  unfold abm_l2flow_table_flush
  apply nested_hit (K := K) (e := e)
    (f := fun q t => abm_l2flow_table_flush_entry (env q) q t)
    (Ψ := fun t => IndexInv K t ∧ t.heap p = some e)
    (Φ := fun t => IndexInv K t
      ∧ t.heap p = some { e with flags := e.flags ||| L2FLOW_FL_DEAD })
  · intro t ht
    exact ht
  · intro t ht
    refine ⟨ht.1, ?_⟩
    intro e' he'
    rw [ht.2] at he'
    cases he'
    rfl
  · intro q t hq ht
    exact ⟨(abm_l2flow_table_flush_entry_good K (env q) q t).inv ht.1,
      (abm_l2flow_table_flush_entry_leftAlone (env q) q t hq).1.trans ht.2⟩
  · intro q t hq ht
    exact ⟨(abm_l2flow_table_flush_entry_good K (env q) q t).inv ht.1,
      (abm_l2flow_table_flush_entry_leftAlone (env q) q t hq).1.trans ht.2⟩
  · intro t ht
    refine ⟨(abm_l2flow_table_flush_entry_good K (env p) p t).inv ht.1, ?_⟩
    show (abm_l2flow_table_flush_entry (env p) p t).heap p = _
    unfold abm_l2flow_table_flush_entry
    simp only [ht.2, if_neg hgo, put_heap_self]
    have hnp : e.timeout_pending = false := by
      cases hpend : e.timeout_pending with
      | false => rfl
      | true => exact absurd (Or.inl hpend) hgo
    simp [del_timer, hnp]
  · exact ⟨hi, he⟩

/-- C30. In a state whose indices are coherent (every reachable state is), the flush (1)
removes at once every resident record whose timer is pending or whose state is FF, (2) leaves
every other resident record where it is, with DEAD set and its state and every other field as
before, (3) creates nothing, and (4) hands no message to netlink. Hence (5) when every resident
record has its timer pending or is in state FF, no record is left after the flush, every
bucket of the primary table is empty and the counter is 0. -/
theorem flush_effect (K : Kernel) (s : State) (hi : IndexInv K s) (env : Ptr → NlOutcome) :
    (∀ p e, s.heap p = some e → (e.timeout_pending = true ∨ e.state = L2FLOW_STATE_FF) →
      (abm_l2flow_table_flush env s).heap p = none)
    ∧ (∀ p e, s.heap p = some e → ¬ (e.timeout_pending = true ∨ e.state = L2FLOW_STATE_FF) →
        (abm_l2flow_table_flush env s).heap p
          = some { e with flags := e.flags ||| L2FLOW_FL_DEAD })
    ∧ (∀ p, s.heap p = none → (abm_l2flow_table_flush env s).heap p = none)
    ∧ (abm_l2flow_table_flush env s).nl_out = s.nl_out
    ∧ ((∀ p e, s.heap p = some e → e.timeout_pending = true ∨ e.state = L2FLOW_STATE_FF) →
        (∀ p, (abm_l2flow_table_flush env s).heap p = none)
        ∧ (∀ i, (abm_l2flow_table_flush env s).l2flow_table i = [])
        ∧ (abm_l2flow_table_flush env s).abm_nb_entries = 0) := by
  have hg := abm_l2flow_table_flush_good K env s
  have hi' := hg.inv hi
  have h1 : ∀ p e, s.heap p = some e →
      (e.timeout_pending = true ∨ e.state = L2FLOW_STATE_FF) →
      (abm_l2flow_table_flush env s).heap p = none :=
    fun p e he hgo => (abm_l2flow_table_flush_record hi he hgo env).2
  have h3 : ∀ p, s.heap p = none → (abm_l2flow_table_flush env s).heap p = none := by
    intro p hp
    cases hp' : (abm_l2flow_table_flush env s).heap p with
    | none => rfl
    | some e' =>
      obtain ⟨e, he, _⟩ := hg.shr.keys p e' hp'
      rw [hp] at he
      cases he
  refine ⟨h1, fun p e he hgo => (abm_l2flow_table_flush_survivor hi he hgo env).2, h3,
    abm_l2flow_table_flush_nl_out env s, ?_⟩
  intro hall
  have hempty : ∀ p, (abm_l2flow_table_flush env s).heap p = none := by
    intro p
    cases hp : s.heap p with
    | none => exact h3 p hp
    | some e => exact h1 p e hp (hall p e hp)
  refine ⟨hempty, ?_, ?_⟩
  · intro i
    cases hl : (abm_l2flow_table_flush env s).l2flow_table i with
    | nil => rfl
    | cons q rest =>
      have hmem : q ∈ (abm_l2flow_table_flush env s).l2flow_table i := by
        rw [hl]; exact List.mem_cons_self _ _
      obtain ⟨e, hqe, _⟩ := hi'.prim.1 i q hmem
      rw [hempty q] at hqe
      cases hqe
  · rw [hi'.nb_eq]
    exact resident_count_of_empty hi' hempty

/-- C30, worked example: flows 1 → 2 and 5 → 6 are tracked, both with their timer pending; the
flush leaves no record, a counter of 0, and hands nothing to netlink. -/
theorem flush_effect_witness :
    IndexInv ex_K ex_s2
    ∧ ex_s2.abm_nb_entries = 2
    ∧ (∀ p e, ex_s2.heap p = some e →
        e.timeout_pending = true ∨ e.state = L2FLOW_STATE_FF)
    ∧ (abm_l2flow_table_flush (fun _ => ex_sent) ex_s2).heap 0 = none
    ∧ (abm_l2flow_table_flush (fun _ => ex_sent) ex_s2).heap 1 = none
    ∧ (abm_l2flow_table_flush (fun _ => ex_sent) ex_s2).abm_nb_entries = 0
    ∧ (abm_l2flow_table_flush (fun _ => ex_sent) ex_s2).nl_out = ex_s2.nl_out :=
  ⟨ex_s2_reachable.indexInv, by decide,
   fun p e he => (ex_s2_reachable.timerInv p e he).1,
   ((flush_effect ex_K ex_s2 ex_s2_reachable.indexInv (fun _ => ex_sent)).2.2.2.2
      (fun p e he => (ex_s2_reachable.timerInv p e he).1)).1 0,
   ((flush_effect ex_K ex_s2 ex_s2_reachable.indexInv (fun _ => ex_sent)).2.2.2.2
      (fun p e he => (ex_s2_reachable.timerInv p e he).1)).1 1,
   ((flush_effect ex_K ex_s2 ex_s2_reachable.indexInv (fun _ => ex_sent)).2.2.2.2
      (fun p e he => (ex_s2_reachable.timerInv p e he).1)).2.2,
   (flush_effect ex_K ex_s2 ex_s2_reachable.indexInv (fun _ => ex_sent)).2.2.2.1⟩

/-! ## The timer invariant: no timer is pending in state FF -/

theorem QuietInv.quiet_heap_eq {s s' : State} (hi : QuietInv s) (h : s'.heap = s.heap) :
    QuietInv s' := by
  intro p e he
  rw [h] at he
  exact hi p e he

theorem QuietInv.quiet_heapAt {s s' : State} {p : Ptr} {r : Option l2flowTable}
    (hi : QuietInv s) (h : HeapAt s s' p r) (hr : ∀ Y, r = some Y → RecQuiet Y) :
    QuietInv s' := by
  intro q e' he'
  rw [h] at he'
  by_cases hq : q = p
  · subst hq
    simp at he'
    exact hr e' he'
  · simp [hq] at he'
    exact hi q e' he'

theorem QuietInv.put {s : State} (hi : QuietInv s) (p : Ptr) {Y : l2flowTable}
    (hY : RecQuiet Y) : QuietInv (s.put p Y) :=
  hi.quiet_heapAt (p := p) (r := some Y) rfl (fun Y' hY' => by cases hY'; exact hY)

theorem abm_l2flow_del_quiet (p : Ptr) (s : State) (hi : QuietInv s) :
    QuietInv (abm_l2flow_del p s) := by
  unfold abm_l2flow_del
  cases he : s.heap p with
  | none => exact hi
  | some e =>
    simp only []
    exact hi.quiet_heapAt (p := p) (r := none) rfl (fun Y hY => by cases hY)

theorem __abm_go_dying_quietInv (env : NlOutcome) (p : Ptr) (s : State) (hi : QuietInv s) :
    QuietInv (__abm_go_dying env p s) := by
  cases he : s.heap p with
  | none =>
    unfold __abm_go_dying
    simp only [he]
    exact hi
  | some e =>
    rcases __abm_go_dying_heapAt env p s e he with ⟨_, h⟩ | ⟨_, Y, h, hst, _, _⟩
    · exact hi.quiet_heapAt h (fun Y hY => by cases hY)
    · refine hi.quiet_heapAt h ?_
      intro Y' hY' hff
      cases hY'
      rw [hst] at hff
      cases hff

theorem abm_death_by_timeout_quiet (env : NlOutcome) (p : Ptr) (s : State) (hi : QuietInv s) :
    QuietInv (abm_death_by_timeout env p s) := by
  unfold abm_death_by_timeout
  cases he : s.heap p with
  | none => exact hi
  | some e =>
    simp only []
    exact __abm_go_dying_quietInv env p _ (hi.put p (fun _ => rfl))

theorem abm_l2flow_update_quiet (flags : Nat) (p : Ptr) (s : State) (hi : QuietInv s) :
    QuietInv (abm_l2flow_update flags p s) := by
  unfold abm_l2flow_update
  cases he : s.heap p with
  | none => exact hi
  | some e =>
    have hq := hi p e he
    simp only []
    repeat' split
    all_goals
      refine hi.quiet_heapAt (p := p) rfl ?_
      intro Y hY
      cases hY
      unfold RecQuiet at *
      simp_all [del_timer, mod_timer]

theorem abm_l2flow_msg_handle_quiet (K : Kernel) (env : NlOutcome) (action flags : Nat)
    (k : l2flow) (s : State) (hi : QuietInv s) :
    QuietInv (abm_l2flow_msg_handle K env action flags k s).2 := by
  unfold abm_l2flow_msg_handle
  cases hf : abm_l2flow_find K s k with
  | none => exact hi
  | some p =>
    simp only []
    split
    · exact abm_l2flow_update_quiet flags p s hi
    · split
      · cases he : s.heap p with
        | none => exact hi
        | some e =>
          simp only []
          have key : ∀ s1 : State, QuietInv s1 →
              QuietInv (if e.timeout_pending = true ∨ e.state = L2FLOW_STATE_FF then
                (0, __abm_go_dying env p s1) else ((0 : Int), s1)).2 := by
            intro s1 h1
            split
            · exact __abm_go_dying_quietInv env p s1 h1
            · exact h1
          apply key
          split
          · exact hi.quiet_heapAt (p := p) rfl (fun Y hY => by cases hY; exact fun _ => rfl)
          · exact hi.put p (fun _ => rfl)
      · exact hi

theorem abm_ebt_hook_post_routing_quiet (env : NlOutcome) (out_ifindex mark : Nat) (p : Ptr)
    (s : State) (hi : QuietInv s) :
    QuietInv (abm_ebt_hook_post_routing env out_ifindex mark p s) := by
  cases he : s.heap p with
  | none =>
    unfold abm_ebt_hook_post_routing
    simp only [he]
    exact hi
  | some e =>
    have hq := hi p e he
    have : ∃ Y, HeapAt s (abm_ebt_hook_post_routing env out_ifindex mark p s) p (some Y)
        ∧ RecQuiet Y := by
      unfold abm_ebt_hook_post_routing
      simp only [he]
      repeat' split
      all_goals refine ⟨_, rfl, ?_⟩
      all_goals (unfold RecQuiet at *; simp_all)
    obtain ⟨Y, h1, h2⟩ := this
    exact hi.quiet_heapAt h1 (fun Y' hY' => by cases hY'; exact h2)

theorem abm_ebt_hook_forward_quiet (K : Kernel) (in_ifindex : Nat) (alloc : Option Ptr)
    (k : l2flow) (s : State) (hi : QuietInv s) :
    QuietInv (abm_ebt_hook_forward K in_ifindex alloc k s) := by
  cases hf : abm_l2flow_find K s k with
  | none =>
    rcases abm_l2flow_add_cases K alloc k s with ⟨h, _⟩ | ⟨p, hp, hroom, _⟩
    · unfold abm_ebt_hook_forward
      rw [hf, h]
      exact hi
    · subst hp
      rw [abm_ebt_hook_forward_add K in_ifindex p k s hf hroom]
      refine QuietInv.quiet_heapAt (s := s) (p := p)
        (r := some (mod_timer
          { l2flow_entry_zeroed k with state := L2FLOW_STATE_SEEN, idev_ifi := in_ifindex }
          (s.jiffies + s.l2flow_timeouts L2FLOW_STATE_SEEN))) hi ?_ ?_
      · unfold HeapAt
        funext q
        by_cases hq : q = p <;> simp [State.put, abm_l2flow_add_link, hq]
      · intro Y hY hff
        cases hY
        simp [mod_timer] at hff
  | some p =>
    unfold abm_ebt_hook_forward
    rw [hf]
    simp only []
    cases he : s.heap p with
    | none => exact hi
    | some e =>
      have hq := hi p e he
      simp only []
      split
      · exact hi.put p hq
      · exact hi

theorem abm_br_event_port_down_entry_quiet (env : NlOutcome) (ifindex : Nat) (p : Ptr)
    (s : State) (hi : QuietInv s) :
    QuietInv (abm_br_event_port_down_entry env ifindex p s) := by
  unfold abm_br_event_port_down_entry
  cases he : s.heap p with
  | none => exact hi
  | some e =>
    simp only []
    split
    · have key : ∀ s1 : State, QuietInv s1 →
          QuietInv (if e.timeout_pending = true ∨ e.state = L2FLOW_STATE_FF then
            __abm_go_dying env p s1 else s1) := by
        intro s1 h1
        split
        · exact __abm_go_dying_quietInv env p s1 h1
        · exact h1
      apply key
      split
      · exact hi.quiet_heapAt (p := p) rfl (fun Y hY => by cases hY; exact fun _ => rfl)
      · exact hi.put p (fun _ => rfl)
    · exact hi

theorem abm_br_event_fdb_update_entry_quiet (mac_addr : eth_addr) (ifindex : Nat) (p : Ptr)
    (s : State) (hi : QuietInv s) :
    QuietInv (abm_br_event_fdb_update_entry mac_addr ifindex p s) := by
  unfold abm_br_event_fdb_update_entry
  cases he : s.heap p with
  | none => exact hi
  | some e =>
    have hq := hi p e he
    simp only []
    repeat' split
    all_goals
      first
      | exact hi
      | exact hi.quiet_heapAt (p := p) rfl (fun Y hY => by cases hY; exact hq)

theorem abm_br_event_port_down_step_quiet (env : NlOutcome) (ifindex : Nat) (p : Ptr)
    (s : State) (hi : QuietInv s) : QuietInv (abm_br_event_port_down_step env ifindex p s) := by
  rcases abm_br_event_port_down_step_cases env ifindex p s with h | h | h
  · rw [h]; exact hi
  · rw [h]; exact abm_br_event_port_down_entry_quiet env ifindex p s hi
  · rw [h]
    exact (abm_br_event_port_down_entry_quiet env ifindex p s hi).quiet_heap_eq rfl

theorem abm_br_event_quiet (K : Kernel) (env : Ptr → NlOutcome) (alloc_ok : Bool)
    (event : brevent) (s : State) (hi : QuietInv s) :
    QuietInv (abm_br_event K env alloc_ok event s) := by
  unfold abm_br_event
  cases event with
  | BREVENT_PORT_DOWN ifindex =>
    simp only []
    apply foldl_keeps _ QuietInv _ _ _ hi
    intro t i ht
    apply foldl_keeps _ QuietInv _ _ _ ht
    intro t q ht
    exact abm_br_event_port_down_step_quiet (env q) ifindex q t ht
  | BREVENT_FDB_UPDATE mac_addr ifindex brdev =>
    simp only []
    have h1 : QuietInv
        ((s.l2flow_table_by_dst_mac (abm_l2flow_hash_mac K mac_addr)).foldl
          (fun s p => abm_br_event_fdb_update_entry mac_addr ifindex p s) s) := by
      apply foldl_keeps _ QuietInv _ _ _ hi
      intro t q ht
      exact abm_br_event_fdb_update_entry_quiet mac_addr ifindex q t ht
    split
    · refine h1.quiet_heap_eq ?_
      unfold add_brevent
      split <;> rfl
    · exact h1
  | BREVENT_OTHER => exact hi

theorem abm_do_work_send_msg_entry_quiet (env : NlOutcome) (p : Ptr) (s : State)
    (hi : QuietInv s) : QuietInv (abm_do_work_send_msg_entry env p s) := by
  unfold abm_do_work_send_msg_entry
  cases he : s.heap p with
  | none => exact hi
  | some e =>
    have hq := hi p e he
    simp only []
    repeat' split
    all_goals
      first
      | exact hi.quiet_heap_eq rfl
      | exact hi.quiet_heapAt (p := p) rfl (fun Y hY => by cases hY; exact hq)

theorem abm_do_work_send_msg_loop_quiet (l : List Ptr) :
    ∀ (env : Nat → NlOutcome) (s : State), QuietInv s →
      QuietInv (abm_do_work_send_msg_loop env l s) := by
  induction l with
  | nil => intro env s hi; exact hi
  | cons p rest ih =>
    intro env s hi
    unfold abm_do_work_send_msg_loop
    exact ih _ _ (abm_do_work_send_msg_entry_quiet (env 0) p s hi)

theorem abm_do_work_send_msg_quiet (has_listeners : Bool) (env : Nat → NlOutcome)
    (s : State) (hi : QuietInv s) : QuietInv (abm_do_work_send_msg has_listeners env s) := by
  unfold abm_do_work_send_msg
  simp only []
  split
  · exact hi.quiet_heap_eq rfl
  · have h0 : QuietInv { s with work_send_msg_queued := false } := hi.quiet_heap_eq rfl
    have h1 := abm_do_work_send_msg_loop_quiet s.l2flow_list_msg_to_send env
      { s with work_send_msg_queued := false } h0
    exact h1.quiet_heap_eq rfl

theorem abm_do_work_retransmit_loop_quiet (l : List Ptr) :
    ∀ (env : Nat → NlOutcome) (s : State), QuietInv s →
      QuietInv (abm_do_work_retransmit_loop env l s) := by
  induction l with
  | nil => intro env s hi; exact hi
  | cons p rest ih =>
    intro env s hi
    unfold abm_do_work_retransmit_loop
    cases he : s.heap p with
    | none => exact ih _ _ hi
    | some e =>
      have hq := hi p e he
      simp only []
      split
      · split
        · apply ih
          exact QuietInv.quiet_heapAt (p := p) (s := s) hi rfl
            (fun Y hY => by cases hY; exact hq)
        · exact hi.quiet_heap_eq rfl
      · exact ih _ _ hi

theorem abm_do_work_retransmit_quiet (has_listeners : Bool) (env : Nat → NlOutcome)
    (s : State) (hi : QuietInv s) : QuietInv (abm_do_work_retransmit has_listeners env s) := by
  have key : ∀ s1 : State, QuietInv s1 →
      QuietInv { s1 with work_retransmit_delay := some s1.abm_retransmit_time } :=
    fun s1 h => h.quiet_heap_eq rfl
  unfold abm_do_work_retransmit
  split
  · exact hi.quiet_heap_eq rfl
  · apply key
    split
    · exact hi
    · split
      · exact hi
      · exact abm_do_work_retransmit_loop_quiet _ env s hi

theorem abm_l2flow_table_flush_entry_quiet (env : NlOutcome) (p : Ptr) (s : State)
    (hi : QuietInv s) : QuietInv (abm_l2flow_table_flush_entry env p s) := by
  unfold abm_l2flow_table_flush_entry
  cases he : s.heap p with
  | none => exact hi
  | some e =>
    simp only []
    have h1 : QuietInv (s.put p (del_timer { e with flags := e.flags ||| L2FLOW_FL_DEAD })) :=
      hi.put p (fun _ => rfl)
    split
    · exact __abm_go_dying_quietInv env p _ h1
    · exact h1

theorem abm_l2flow_table_flush_quiet (env : Ptr → NlOutcome) (s : State) (hi : QuietInv s) :
    QuietInv (abm_l2flow_table_flush env s) := by
  unfold abm_l2flow_table_flush
  apply foldl_keeps _ QuietInv _ _ _ hi
  intro t i ht
  apply foldl_keeps _ QuietInv _ _ _ ht
  intro t q ht
  exact abm_l2flow_table_flush_entry_quiet (env q) q t ht

theorem abm_sysctl_l3_filtering_quiet (write : Bool) (val : Nat) (env : Ptr → NlOutcome)
    (env_rst : NlOutcome) (s : State) (hi : QuietInv s) :
    QuietInv (abm_sysctl_l3_filtering write val env env_rst s) := by
  have key : ∀ s1 : State, QuietInv s1 →
      QuietInv { s1 with abm_l3_filtering := if val ≠ 0 then 1 else 0 } :=
    fun s1 h => h.quiet_heap_eq rfl
  unfold abm_sysctl_l3_filtering
  split
  · apply key
    split
    · exact (abm_l2flow_table_flush_quiet env s hi).quiet_heap_eq (emit_heap _ _)
    · exact hi
  · exact hi

theorem Op.apply_quiet (K : Kernel) (op : Op) (s : State) (hi : QuietInv s) :
    QuietInv (op.apply K s) := by
  cases op with
  | ebt_hook hooknum skb in_ifindex out_ifindex alloc env =>
    show QuietInv (abm_ebt_hook K hooknum skb in_ifindex out_ifindex alloc env s).2
    rcases abm_ebt_hook_cases K hooknum skb in_ifindex out_ifindex alloc env s with
      h | ⟨k, _, _, h⟩ | ⟨k, p, _, _, _, h⟩
    · rw [h]; exact hi
    · rw [h]; exact abm_ebt_hook_forward_quiet K in_ifindex alloc k s hi
    · rw [h]; exact abm_ebt_hook_post_routing_quiet env out_ifindex _ p s hi
  | msg_handle env action flags k => exact abm_l2flow_msg_handle_quiet K env action flags k s hi
  | death_by_timeout env p => exact abm_death_by_timeout_quiet env p s hi
  | br_event env alloc_ok event => exact abm_br_event_quiet K env alloc_ok event s hi
  | do_work_send_msg has_listeners env => exact abm_do_work_send_msg_quiet has_listeners env s hi
  | do_work_retransmit has_listeners env =>
    exact abm_do_work_retransmit_quiet has_listeners env s hi
  | table_flush env => exact abm_l2flow_table_flush_quiet env s hi
  | sysctl_l3_filtering write val env env_rst =>
    exact abm_sysctl_l3_filtering_quiet write val env env_rst s hi
  | sysctl_max_entries val => exact hi.quiet_heap_eq rfl
  | sysctl_timeout st val =>
    show QuietInv (if st = L2FLOW_STATE_FF then s else _)
    split
    · exact hi
    · exact hi.quiet_heap_eq rfl
  | sysctl_retransmit_delay val => exact hi.quiet_heap_eq rfl
  | tick n => exact hi.quiet_heap_eq rfl

theorem Reachable.quietInv {K : Kernel} {s : State} (h : Reachable K s) : QuietInv s := by
  induction h with
  | init j => intro p e he; cases he
  | step op s _ _ ih => exact Op.apply_quiet K op s ih

/-- C28. In every reachable state (operations taken one after the other, a timer expiry being
one step on a record whose timer is pending), a resident record has its timer pending if and
only if its state is not FF. -/
theorem timer_invariant (K : Kernel) (s : State) (h : Reachable K s) (p : Ptr)
    (e : l2flowTable) (hp : s.heap p = some e) :
    e.timeout_pending = true ↔ e.state ≠ L2FLOW_STATE_FF := by
  have h1 := (h.timerInv p e hp).1
  have h2 := h.quietInv p e hp
  constructor
  · intro hpend hff
    rw [h2 hff] at hpend
    cases hpend
  · intro hnf
    rcases h1 with h | h
    · exact h
    · exact absurd h hnf

/-- C28, worked example: the CONFIRMED record of flow 1 → 2 has its timer pending, and once
the flow is offloaded (state FF) it has not. -/
theorem timer_invariant_witness :
    Reachable ex_K ex_s_confirmed ∧ Reachable ex_K ex_s_ff
    ∧ ex_s_confirmed.heap 0 = some (ex_rec L2FLOW_STATE_CONFIRMED 1000 4 true 13000 3 4)
    ∧ ex_s_ff.heap 0 = some (ex_rec L2FLOW_STATE_FF 1000 0 false 13000 3 4)
    ∧ ((ex_rec L2FLOW_STATE_CONFIRMED 1000 4 true 13000 3 4).timeout_pending = true
        ↔ (ex_rec L2FLOW_STATE_CONFIRMED 1000 4 true 13000 3 4).state ≠ L2FLOW_STATE_FF)
    ∧ ((ex_rec L2FLOW_STATE_FF 1000 0 false 13000 3 4).timeout_pending = true
        ↔ (ex_rec L2FLOW_STATE_FF 1000 0 false 13000 3 4).state ≠ L2FLOW_STATE_FF) :=
  ⟨ex_s_confirmed_reachable, ex_s_ff_reachable, by decide, by decide,
   timer_invariant ex_K ex_s_confirmed ex_s_confirmed_reachable 0 _ (by decide),
   timer_invariant ex_K ex_s_ff ex_s_ff_reachable 0 _ (by decide)⟩

/-! ## Bookkeeping at the send sites -/

/-- C22, evaluation of the code. The CONFIRMED record of flow 1 → 2 waits for the
acknowledgement of its NEW, sent at time 1000 (WAIT_ACK set, linked once on the
pending-acknowledgement list). At time 201000 its timer fires and `__abm_go_dying` sends the
DEL with success: the record is linked on the list a second time, and its last-sent time is
still 1000. The SEEN case of the post-routing hook too links a record that is already on the
list a second time. -/
theorem send_bookkeeping_divergence :
    Reachable ex_K ex_s_confirmed_dying
    ∧ ex_s_confirmed.heap 0 = some (ex_rec L2FLOW_STATE_CONFIRMED 1000 4 true 13000 3 4)
    ∧ ex_s_confirmed.l2flow_list_wait_for_ack = [0]
    ∧ sent_actions ex_s_confirmed_dying
        = [(some L2FLOW_ENTRY_NEW, 0), (some L2FLOW_ENTRY_DEL, 0)]
    ∧ ex_s_confirmed_dying.jiffies = 201000
    ∧ ex_s_confirmed_dying.heap 0 = some (ex_rec L2FLOW_STATE_DYING 1000 6 true 213000 3 4)
    ∧ ex_s_confirmed_dying.l2flow_list_wait_for_ack.count 0 = 2
    ∧ Reachable ex_K ex_s_confirmed_twice
    ∧ ex_s_seen_sent.l2flow_list_wait_for_ack = [0]
    ∧ sent_actions ex_s_confirmed_twice
        = [(some L2FLOW_ENTRY_NEW, 0), (some L2FLOW_ENTRY_NEW, 0)]
    ∧ ex_s_confirmed_twice.l2flow_list_wait_for_ack.count 0 = 2 :=
  ⟨ex_s_confirmed_dying_reachable, by decide, by decide, by decide, by decide, by decide,
   by decide, ex_s_confirmed_twice_reachable, by decide, by decide, by decide⟩

theorem abm_nl_send_l2flow_msg_rc {env : NlOutcome} (h1 : env ≠ NlOutcome.no_listener)
    (h2 : env ≠ NlOutcome.broadcast (-ENOTCONN)) (l3 action flags : Nat) (e : l2flowTable) :
    (abm_nl_send_l2flow_msg env l3 action flags e).1 ≠ -ENOTCONN := by
  cases env with
  | skb_oom => simp [abm_nl_send_l2flow_msg]; decide
  | hdr_oom => simp [abm_nl_send_l2flow_msg]; decide
  | attr_overflow => simp [abm_nl_send_l2flow_msg]; decide
  | no_listener => exact absurd rfl h1
  | broadcast rc =>
    simp only [abm_nl_send_l2flow_msg]
    intro h
    exact h2 (by rw [h])

theorem abm_ebt_hook_post_routing_engine {env env' : NlOutcome}
    (h1 : env ≠ NlOutcome.no_listener) (h2 : env ≠ NlOutcome.broadcast (-ENOTCONN))
    (h1' : env' ≠ NlOutcome.no_listener) (h2' : env' ≠ NlOutcome.broadcast (-ENOTCONN))
    (out_ifindex mark : Nat) (p : Ptr) (s : State) :
    (abm_ebt_hook_post_routing env out_ifindex mark p s).engine
      = (abm_ebt_hook_post_routing env' out_ifindex mark p s).engine := by
  have hr := fun l3 a f e => abm_nl_send_l2flow_msg_rc h1 h2 l3 a f e
  have hr' := fun l3 a f e => abm_nl_send_l2flow_msg_rc h1' h2' l3 a f e
  unfold abm_ebt_hook_post_routing
  cases he : s.heap p with
  | none => rfl
  | some e =>
    simp only [hr, hr', ne_eq, not_false_eq_true, if_true]
    repeat' split
    all_goals rfl

theorem __abm_go_dying_engine {env env' : NlOutcome}
    (h1 : env ≠ NlOutcome.no_listener) (h2 : env ≠ NlOutcome.broadcast (-ENOTCONN))
    (h1' : env' ≠ NlOutcome.no_listener) (h2' : env' ≠ NlOutcome.broadcast (-ENOTCONN))
    (p : Ptr) (s : State) :
    (__abm_go_dying env p s).engine = (__abm_go_dying env' p s).engine := by
  have hr := fun l3 a f e => abm_nl_send_l2flow_msg_rc h1 h2 l3 a f e
  have hr' := fun l3 a f e => abm_nl_send_l2flow_msg_rc h1' h2' l3 a f e
  unfold __abm_go_dying
  cases he : s.heap p with
  | none => rfl
  | some e =>
    simp only [hr, hr', ne_eq, not_false_eq_true, if_true]
    repeat' split
    all_goals rfl

theorem abm_do_work_send_msg_entry_engine {env env' : NlOutcome}
    (h1 : env ≠ NlOutcome.no_listener) (h2 : env ≠ NlOutcome.broadcast (-ENOTCONN))
    (h1' : env' ≠ NlOutcome.no_listener) (h2' : env' ≠ NlOutcome.broadcast (-ENOTCONN))
    (p : Ptr) (s : State) :
    (abm_do_work_send_msg_entry env p s).engine
      = (abm_do_work_send_msg_entry env' p s).engine := by
  have hr := fun l3 a f e => abm_nl_send_l2flow_msg_rc h1 h2 l3 a f e
  have hr' := fun l3 a f e => abm_nl_send_l2flow_msg_rc h1' h2' l3 a f e
  unfold abm_do_work_send_msg_entry
  cases he : s.heap p with
  | none => rfl
  | some e =>
    simp only [hr, hr', ne_eq, not_false_eq_true, if_true]
    repeat' split
    all_goals rfl

/-- C23, counterexample. The SEEN record of flow 1 → 2 is observed on the post-routing path.
When the send fails for lack of memory (`-ENOMEM`, nothing handed to netlink), the record gets
WAIT_ACK, its last-sent time is stamped and it is linked on the pending-acknowledgement list;
when the send fails for lack of a listener (`-ENOTCONN`), the record keeps NEEDS_UPDATE, has
no WAIT_ACK, its last-sent time stays 0 and it is on no list. -/
theorem transport_failure_counterexample :
    ex_s1.heap 0 = some (l2flow_entry_seen (ex_key 1 2) 3 1000 1000)
    ∧ (abm_nl_send_l2flow_msg NlOutcome.skb_oom 0 L2FLOW_ENTRY_NEW 0
        (l2flow_entry_seen (ex_key 1 2) 3 1000 1000)).1 = -ENOMEM
    ∧ (ex_op_post_oom.apply ex_K ex_s1).nl_out = []
    ∧ (ex_op_post_oom.apply ex_K ex_s1).heap 0
        = some (ex_rec L2FLOW_STATE_CONFIRMED 1000 4 true 13000 3 4)
    ∧ (ex_op_post_oom.apply ex_K ex_s1).l2flow_list_wait_for_ack = [0]
    ∧ (ex_op_post_unheard.apply ex_K ex_s1).nl_out = []
    ∧ (ex_op_post_unheard.apply ex_K ex_s1).heap 0
        = some (ex_rec L2FLOW_STATE_CONFIRMED 0 1 true 13000 3 4)
    ∧ (ex_op_post_unheard.apply ex_K ex_s1).l2flow_list_wait_for_ack = [] :=
  ⟨by decide, by decide, by decide, by decide, by decide, by decide, by decide, by decide⟩

/-- C23, amended. At every send site that updates a record (the post-routing hook with its
NEW and its UPDATE, the DEL of `__abm_go_dying`, the step of the pending-send drain), a send
that ends in any way other than `-ENOTCONN` (out of memory, message too large, an error of the
broadcast) leaves the whole state of the module, every record's state, flags and last-sent
time and every list included, exactly as a successful send does: only "no listener" is taken
as "not sent". -/
theorem transport_failure_amended (env : NlOutcome) (h1 : env ≠ NlOutcome.no_listener)
    (h2 : env ≠ NlOutcome.broadcast (-ENOTCONN)) (out_ifindex mark : Nat) (p : Ptr)
    (s : State) :
    (abm_ebt_hook_post_routing env out_ifindex mark p s).engine
      = (abm_ebt_hook_post_routing (NlOutcome.broadcast 0) out_ifindex mark p s).engine
    ∧ (__abm_go_dying env p s).engine = (__abm_go_dying (NlOutcome.broadcast 0) p s).engine
    ∧ (abm_do_work_send_msg_entry env p s).engine
        = (abm_do_work_send_msg_entry (NlOutcome.broadcast 0) p s).engine :=
  ⟨abm_ebt_hook_post_routing_engine h1 h2 (by decide) (by decide) out_ifindex mark p s,
   __abm_go_dying_engine h1 h2 (by decide) (by decide) p s,
   abm_do_work_send_msg_entry_engine h1 h2 (by decide) (by decide) p s⟩

/-- C23, worked example: for the SEEN record of flow 1 → 2 seen on the post-routing path, a
send that fails for lack of memory leaves the module in the state a successful send leaves. -/
theorem transport_failure_amended_witness :
    NlOutcome.skb_oom ≠ NlOutcome.no_listener
    ∧ NlOutcome.skb_oom ≠ NlOutcome.broadcast (-ENOTCONN)
    ∧ (abm_ebt_hook_post_routing NlOutcome.skb_oom 4 0 0 ex_s1).engine
        = (abm_ebt_hook_post_routing (NlOutcome.broadcast 0) 4 0 0 ex_s1).engine
    ∧ (abm_ebt_hook_post_routing NlOutcome.skb_oom 4 0 0 ex_s1).heap 0
        = some (ex_rec L2FLOW_STATE_CONFIRMED 1000 4 true 13000 3 4) :=
  ⟨by decide, by decide,
   (transport_failure_amended NlOutcome.skb_oom (by decide) (by decide) 4 0 0 ex_s1).1,
   by decide⟩

/-! ## The retransmit sweep -/

/-- A sweep with a listener over a list that stands for a kernel list is the loop over the
list, and the work queued again. -/
theorem abm_do_work_retransmit_eq (env : Nat → NlOutcome) (s : State)
    (hl : list_linked L2FLOW_FL_WAIT_ACK s.heap s.l2flow_list_wait_for_ack = true) :
    abm_do_work_retransmit true env s
      = { abm_do_work_retransmit_loop env s.l2flow_list_wait_for_ack s with
          work_retransmit_delay :=
            some (abm_do_work_retransmit_loop env s.l2flow_list_wait_for_ack s).abm_retransmit_time } := by
  unfold abm_do_work_retransmit
  by_cases h : s.l2flow_list_wait_for_ack = []
  · simp [h, abm_do_work_retransmit_loop]
  · simp [h, hl]

/-- A sweep with a listener over a list that no longer stands for a kernel list: the module
leaves the model, and the work is not queued again. -/
theorem abm_do_work_retransmit_oops (env : Nat → NlOutcome) (s : State)
    (hne : s.l2flow_list_wait_for_ack ≠ [])
    (hl : list_linked L2FLOW_FL_WAIT_ACK s.heap s.l2flow_list_wait_for_ack = false) :
    abm_do_work_retransmit true env s = { s with oops := true } := by
  unfold abm_do_work_retransmit
  rw [if_pos ⟨hne, rfl, hl⟩]

theorem list_linked_iff (flag : Nat) (heap : Ptr → Option l2flowTable) (l : List Ptr) :
    list_linked flag heap l = true
      ↔ l.Nodup ∧ ∀ q ∈ l, ∃ e, heap q = some e ∧ e.flags &&& flag ≠ 0 := by
  unfold list_linked
  simp only [Bool.and_eq_true, decide_eq_true_eq, List.all_eq_true]
  constructor
  · rintro ⟨hn, ha⟩
    refine ⟨hn, fun q hq => ?_⟩
    have h := ha q hq
    cases he : heap q with
    | none => rw [he] at h; cases h
    | some e =>
      rw [he] at h
      exact ⟨e, rfl, by simpa using h⟩
  · rintro ⟨hn, ha⟩
    refine ⟨hn, fun q hq => ?_⟩
    obtain ⟨e, he, hf⟩ := ha q hq
    rw [he]
    simpa using hf

theorem Resends.shift {env : Nat → NlOutcome} {rest : List Ptr} {s s' : State} (p : Ptr)
    (h : Resends (fun n => env (n + 1)) rest s s') : Resends env (p :: rest) s s' := by
  refine ⟨h.clock, h.period, h.filtering, h.wait, fun q => ?_, ?_⟩
  · rcases h.heap q with hq | ⟨e, he, hm, ho, hq⟩
    · exact Or.inl hq
    · exact Or.inr ⟨e, he, List.mem_cons_of_mem _ hm, ho, hq⟩
  · obtain ⟨new, hn, hall⟩ := h.out
    refine ⟨new, hn, fun m hm => ?_⟩
    obtain ⟨i, q, e, hi, he, ho, hs⟩ := hall m hm
    exact ⟨i + 1, q, e, by simpa using hi, he, ho, hs⟩

theorem abm_do_work_retransmit_loop_resends (l : List Ptr) :
    ∀ (env : Nat → NlOutcome) (s : State),
      Resends env l s (abm_do_work_retransmit_loop env l s) := by
  induction l with
  | nil =>
    intro env s
    exact ⟨rfl, rfl, rfl, rfl, fun _ => Or.inl rfl, [], by simp [abm_do_work_retransmit_loop],
      fun m hm => by cases hm⟩
  | cons p rest ih =>
    intro env s
    unfold abm_do_work_retransmit_loop
    cases he : s.heap p with
    | none => exact (ih _ s).shift p
    | some e =>
      simp only
      split
      next hover =>
        split
        next hr =>
          have h := ih (fun n => env (n + 1))
            ((s.emit (abm_nl_send_l2flow_msg (env 0) s.abm_l3_filtering
              (action_of_state e.state) 0 e).2).put p { e with time_sent := s.jiffies })
          have hp1 : ((s.emit (abm_nl_send_l2flow_msg (env 0) s.abm_l3_filtering
              (action_of_state e.state) 0 e).2).put p { e with time_sent := s.jiffies }).heap p
              = some { e with time_sent := s.jiffies } := put_heap_self _ _ _
          refine ⟨h.clock, h.period, h.filtering, h.wait, fun q => ?_, ?_⟩
          · by_cases hqp : q = p
            · subst hqp
              rcases h.heap q with hq | ⟨e1, he1, _, ho1, _⟩
              · exact Or.inr ⟨e, he, List.mem_cons_self _ _, hover, hq.trans hp1⟩
              · rw [hp1] at he1
                cases he1
                exact absurd ho1 (by
                  show ¬ (s.jiffies + s.abm_retransmit_time < s.jiffies)
                  omega)
            · have hq1 : ((s.emit (abm_nl_send_l2flow_msg (env 0) s.abm_l3_filtering
                  (action_of_state e.state) 0 e).2).put p
                  { e with time_sent := s.jiffies }).heap q = s.heap q := by
                rw [put_heap_other _ _ _ hqp]; rfl
              rcases h.heap q with hq | ⟨e1, he1, hm, ho1, hq⟩
              · exact Or.inl (hq.trans hq1)
              · exact Or.inr ⟨e1, hq1 ▸ he1, List.mem_cons_of_mem _ hm, ho1, hq⟩
          · obtain ⟨new, hn, hall⟩ := h.out
            refine ⟨(abm_nl_send_l2flow_msg (env 0) s.abm_l3_filtering
              (action_of_state e.state) 0 e).2.toList ++ new, ?_, fun m hm => ?_⟩
            · rw [hn]
              show (s.nl_out ++ _) ++ new = _
              rw [List.append_assoc]
            · rcases List.mem_append.1 hm with hm | hm
              · refine ⟨0, p, e, by simp, he, hover, ?_⟩
                cases hx : (abm_nl_send_l2flow_msg (env 0) s.abm_l3_filtering
                  (action_of_state e.state) 0 e).2 with
                | none => rw [hx] at hm; cases hm
                | some m0 =>
                  rw [hx] at hm
                  simp at hm
                  rw [hm]
              · obtain ⟨i, q, e1, hi, he1, ho1, hs⟩ := hall m hm
                by_cases hqp : q = p
                · subst hqp
                  rw [hp1] at he1
                  cases he1
                  exact absurd ho1 (by
                    show ¬ (s.jiffies + s.abm_retransmit_time < s.jiffies)
                    omega)
                · have hq1 : ((s.emit (abm_nl_send_l2flow_msg (env 0) s.abm_l3_filtering
                      (action_of_state e.state) 0 e).2).put p
                      { e with time_sent := s.jiffies }).heap q = s.heap q := by
                    rw [put_heap_other _ _ _ hqp]; rfl
                  exact ⟨i + 1, q, e1, by simpa using hi, hq1 ▸ he1, ho1, hs⟩
        next hr =>
          refine ⟨rfl, rfl, rfl, rfl, fun _ => Or.inl rfl,
            (abm_nl_send_l2flow_msg (env 0) s.abm_l3_filtering
              (action_of_state e.state) 0 e).2.toList, rfl, fun m hm => ?_⟩
          refine ⟨0, p, e, by simp, he, hover, ?_⟩
          cases hx : (abm_nl_send_l2flow_msg (env 0) s.abm_l3_filtering
            (action_of_state e.state) 0 e).2 with
          | none => rw [hx] at hm; cases hm
          | some m0 =>
            rw [hx] at hm
            simp at hm
            rw [hm]
      next hover => exact (ih _ s).shift p

theorem Resends.keep {env : Nat → NlOutcome} {l : List Ptr} {s s' : State}
    (h : Resends env l s s') {q : Ptr} {e : l2flowTable} (he : s.heap q = some e)
    (hn : ¬ e.time_sent + s.abm_retransmit_time < s.jiffies) : s'.heap q = some e := by
  rcases h.heap q with hq | ⟨e1, he1, _, ho1, _⟩
  · exact hq.trans he
  · rw [he] at he1
    cases he1
    exact absurd ho1 hn

theorem Resends.skip {env : Nat → NlOutcome} {l : List Ptr} {s s' : State}
    (h : Resends env l s s') {q : Ptr} (hq : q ∉ l) : s'.heap q = s.heap q := by
  rcases h.heap q with hq1 | ⟨_, _, hm, _, _⟩
  · exact hq1
  · exact absurd hm hq

/-- One step of the retransmit sweep at an overdue record. -/
theorem abm_do_work_retransmit_loop_cons (env : Nat → NlOutcome) (p : Ptr) (rest : List Ptr)
    (s : State) (e : l2flowTable) (he : s.heap p = some e)
    (hover : e.time_sent + s.abm_retransmit_time < s.jiffies) :
    abm_do_work_retransmit_loop env (p :: rest) s
      = if (abm_nl_send_l2flow_msg (env 0) s.abm_l3_filtering
            (action_of_state e.state) 0 e).1 = 0 then
          abm_do_work_retransmit_loop (fun n => env (n + 1)) rest
            ((s.emit (abm_nl_send_l2flow_msg (env 0) s.abm_l3_filtering
              (action_of_state e.state) 0 e).2).put p { e with time_sent := s.jiffies })
        else s.emit (abm_nl_send_l2flow_msg (env 0) s.abm_l3_filtering
              (action_of_state e.state) 0 e).2 := by
  conv_lhs => unfold abm_do_work_retransmit_loop
  simp only [he, if_pos hover]

theorem abm_do_work_retransmit_loop_none (env : Nat → NlOutcome) (p : Ptr) (rest : List Ptr)
    (s : State) (he : s.heap p = none) :
    abm_do_work_retransmit_loop env (p :: rest) s
      = abm_do_work_retransmit_loop (fun n => env (n + 1)) rest s := by
  conv_lhs => unfold abm_do_work_retransmit_loop
  simp only [he]

theorem abm_do_work_retransmit_loop_fresh (env : Nat → NlOutcome) (p : Ptr) (rest : List Ptr)
    (s : State) (e : l2flowTable) (he : s.heap p = some e)
    (hover : ¬ e.time_sent + s.abm_retransmit_time < s.jiffies) :
    abm_do_work_retransmit_loop env (p :: rest) s
      = abm_do_work_retransmit_loop (fun n => env (n + 1)) rest s := by
  conv_lhs => unfold abm_do_work_retransmit_loop
  simp only [he, if_neg hover]

theorem abm_do_work_retransmit_loop_append (l1 l2 : List Ptr) :
    ∀ (env : Nat → NlOutcome) (s : State), (∀ i < l1.length, env i = NlOutcome.broadcast 0) →
      abm_do_work_retransmit_loop env (l1 ++ l2) s
        = abm_do_work_retransmit_loop (fun n => env (n + l1.length)) l2
            (abm_do_work_retransmit_loop env l1 s) := by
  induction l1 with
  | nil => intro env s _; rfl
  | cons p rest ih =>
    intro env s henv
    have h0 : env 0 = NlOutcome.broadcast 0 := henv 0 (by simp)
    have hrest : ∀ i < rest.length, (fun n => env (n + 1)) i = NlOutcome.broadcast 0 :=
      fun i hi => henv (i + 1) (by simpa using hi)
    show abm_do_work_retransmit_loop env (p :: (rest ++ l2)) s = _
    cases he : s.heap p with
    | none =>
      rw [abm_do_work_retransmit_loop_none _ _ _ _ he,
        abm_do_work_retransmit_loop_none _ _ _ _ he]
      exact ih _ s hrest
    | some e =>
      by_cases hover : e.time_sent + s.abm_retransmit_time < s.jiffies
      · have hz : (abm_nl_send_l2flow_msg (env 0) s.abm_l3_filtering
            (action_of_state e.state) 0 e).1 = 0 := by rw [h0]; rfl
        rw [abm_do_work_retransmit_loop_cons _ _ _ _ _ he hover,
          abm_do_work_retransmit_loop_cons _ _ _ _ _ he hover, if_pos hz, if_pos hz]
        exact ih _ _ hrest
      · rw [abm_do_work_retransmit_loop_fresh _ _ _ _ _ he hover,
          abm_do_work_retransmit_loop_fresh _ _ _ _ _ he hover]
        exact ih _ s hrest

/-- The sweep at the first position `j` of a record `q`, every earlier resend having
succeeded: the sweep over the whole list is the sweep over the first `j` places, then the
resend of `q`, then (when that resend succeeds) the sweep over the rest. -/
theorem abm_do_work_retransmit_loop_reach (env : Nat → NlOutcome) (l : List Ptr) (s : State)
    (j : Nat) (q : Ptr) (e : l2flowTable) (hq : l[j]? = some q) (hfirst : q ∉ l.take j)
    (he : s.heap q = some e) (hover : e.time_sent + s.abm_retransmit_time < s.jiffies)
    (hpre : ∀ i < j, env i = NlOutcome.broadcast 0) :
    (abm_do_work_retransmit_loop env (l.take j) s).heap q = some e
    ∧ abm_do_work_retransmit_loop env l s
      = if (abm_nl_send_l2flow_msg (env j) s.abm_l3_filtering
            (action_of_state e.state) 0 e).1 = 0 then
          abm_do_work_retransmit_loop (fun n => env (n + (j + 1))) (l.drop (j + 1))
            (((abm_do_work_retransmit_loop env (l.take j) s).emit
              (abm_nl_send_l2flow_msg (env j) s.abm_l3_filtering
                (action_of_state e.state) 0 e).2).put q { e with time_sent := s.jiffies })
        else (abm_do_work_retransmit_loop env (l.take j) s).emit
              (abm_nl_send_l2flow_msg (env j) s.abm_l3_filtering
                (action_of_state e.state) 0 e).2 := by
  have hj : j < l.length := by
    rcases Nat.lt_or_ge j l.length with h | h
    · exact h
    · rw [List.getElem?_eq_none h] at hq; cases hq
  have hlen : (l.take j).length = j := by simp; omega
  have hsplit : l = l.take j ++ q :: l.drop (j + 1) := by
    have h1 : l.drop j = q :: l.drop (j + 1) := by
      rw [List.drop_eq_getElem_cons hj]
      rw [List.getElem?_eq_getElem hj] at hq
      cases hq
      rfl
    rw [← h1, List.take_append_drop]
  have hres := abm_do_work_retransmit_loop_resends (l.take j) env s
  have he1 : (abm_do_work_retransmit_loop env (l.take j) s).heap q = some e :=
    (hres.skip hfirst).trans he
  refine ⟨he1, ?_⟩
  have hover1 : e.time_sent + (abm_do_work_retransmit_loop env (l.take j) s).abm_retransmit_time
      < (abm_do_work_retransmit_loop env (l.take j) s).jiffies := by
    rw [hres.period, hres.clock]; exact hover
  conv_lhs => rw [hsplit]
  rw [abm_do_work_retransmit_loop_append _ _ env s (by rw [hlen]; exact hpre), hlen,
    abm_do_work_retransmit_loop_cons _ _ _ _ _ he1 hover1, hres.filtering, hres.clock]
  simp only [Nat.zero_add]
  have hf : (fun n => (fun n => env (n + j)) (n + 1)) = fun n => env (n + (j + 1)) := by
    funext n
    show env (n + 1 + j) = env (n + (j + 1))
    congr 1
    omega
  rw [hf]

/-- What the sweep does with the record `q` at its first position `j`, every earlier resend
having succeeded: the message of its resend is handed to netlink, and when the resend
succeeds the record ends the sweep with its last-sent time set to now. -/
theorem abm_do_work_retransmit_loop_resent (env : Nat → NlOutcome) (l : List Ptr) (s : State)
    (j : Nat) (q : Ptr) (e : l2flowTable) (hq : l[j]? = some q) (hfirst : q ∉ l.take j)
    (he : s.heap q = some e) (hover : e.time_sent + s.abm_retransmit_time < s.jiffies)
    (hpre : ∀ i < j, env i = NlOutcome.broadcast 0) :
    (∃ new1 new2, (abm_do_work_retransmit_loop env l s).nl_out
        = s.nl_out ++ (new1 ++ (abm_nl_send_l2flow_msg (env j) s.abm_l3_filtering
            (action_of_state e.state) 0 e).2.toList ++ new2))
    ∧ ((abm_nl_send_l2flow_msg (env j) s.abm_l3_filtering (action_of_state e.state) 0 e).1 = 0 →
        (abm_do_work_retransmit_loop env l s).heap q = some { e with time_sent := s.jiffies }) := by
  obtain ⟨_, hrun⟩ := abm_do_work_retransmit_loop_reach env l s j q e hq hfirst he hover hpre
  have hres := abm_do_work_retransmit_loop_resends (l.take j) env s
  obtain ⟨new1, hn1, _⟩ := hres.out
  by_cases hz : (abm_nl_send_l2flow_msg (env j) s.abm_l3_filtering
      (action_of_state e.state) 0 e).1 = 0
  · rw [if_pos hz] at hrun
    have hres2 := abm_do_work_retransmit_loop_resends (l.drop (j + 1))
      (fun n => env (n + (j + 1)))
      (((abm_do_work_retransmit_loop env (l.take j) s).emit
        (abm_nl_send_l2flow_msg (env j) s.abm_l3_filtering
          (action_of_state e.state) 0 e).2).put q { e with time_sent := s.jiffies })
    rw [← hrun] at hres2
    obtain ⟨new2, hn2, _⟩ := hres2.out
    refine ⟨⟨new1, new2, ?_⟩, fun _ => ?_⟩
    · rw [hn2]
      show ((abm_do_work_retransmit_loop env (l.take j) s).nl_out ++ _) ++ new2 = _
      rw [hn1]
      simp only [List.append_assoc]
    · refine hres2.keep (put_heap_self _ _ _) ?_
      show ¬ (s.jiffies + (abm_do_work_retransmit_loop env (l.take j) s).abm_retransmit_time
        < (abm_do_work_retransmit_loop env (l.take j) s).jiffies)
      rw [hres.clock]
      omega
  · rw [if_neg hz] at hrun
    refine ⟨⟨new1, [], ?_⟩, fun h => absurd h hz⟩
    rw [hrun]
    show (abm_do_work_retransmit_loop env (l.take j) s).nl_out ++ _ = _
    rw [hn1]
    simp only [List.append_assoc, List.append_nil]

theorem nodup_not_mem_take {l : List Ptr} (hn : l.Nodup) {j : Nat} {q : Ptr}
    (hq : l[j]? = some q) : q ∉ l.take j := by
  intro hm
  obtain ⟨i, hi⟩ := List.mem_iff_getElem?.mp hm
  rw [List.getElem?_take] at hi
  by_cases hij : i < j
  · rw [if_pos hij] at hi
    have hj : j < l.length := by
      by_contra hc
      rw [List.getElem?_eq_none (Nat.le_of_not_lt hc)] at hq
      cases hq
    exact (List.nodup_iff_getElem?_ne_getElem?.mp hn i j hij hj) (hi.trans hq.symm)
  · rw [if_neg hij] at hi
    cases hi

/-- The retransmit sweep over a pending-acknowledgement list that stands for a kernel list,
with a listener present: every record on the list whose last-sent time plus the retransmit
period lies strictly before now is resent, when the sweep reaches it (a failed resend ends the
sweep), with the action of its current state (NEW for SEEN or CONFIRMED, UPDATE for LINUX or
FF, DEL for DYING), and when that resend succeeds the record ends the sweep with its last-sent
time set to now and nothing else changed. A record that is not overdue is not modified, and
every message of the sweep is the resend of an overdue record of the list: a record that is
not overdue is not resent. No record is modified otherwise than by that time stamp. -/
theorem abm_do_work_retransmit_linked (env : Nat → NlOutcome) (s : State)
    (hl : list_linked L2FLOW_FL_WAIT_ACK s.heap s.l2flow_list_wait_for_ack = true) :
    action_of_state L2FLOW_STATE_SEEN = L2FLOW_ENTRY_NEW
    ∧ action_of_state L2FLOW_STATE_CONFIRMED = L2FLOW_ENTRY_NEW
    ∧ action_of_state L2FLOW_STATE_LINUX = L2FLOW_ENTRY_UPDATE
    ∧ action_of_state L2FLOW_STATE_FF = L2FLOW_ENTRY_UPDATE
    ∧ action_of_state L2FLOW_STATE_DYING = L2FLOW_ENTRY_DEL
    ∧ ∃ new, (abm_do_work_retransmit true env s).nl_out = s.nl_out ++ new
      ∧ (∀ j q e, s.l2flow_list_wait_for_ack[j]? = some q → s.heap q = some e →
          e.time_sent + s.abm_retransmit_time < s.jiffies →
          (∀ i < j, env i = NlOutcome.broadcast 0) →
          (∀ m, (abm_nl_send_l2flow_msg (env j) s.abm_l3_filtering
              (action_of_state e.state) 0 e).2 = some m → m ∈ new)
          ∧ ((abm_nl_send_l2flow_msg (env j) s.abm_l3_filtering
                (action_of_state e.state) 0 e).1 = 0 →
              (abm_do_work_retransmit true env s).heap q
                = some { e with time_sent := s.jiffies }))
      ∧ (∀ q e, s.heap q = some e → ¬ e.time_sent + s.abm_retransmit_time < s.jiffies →
          (abm_do_work_retransmit true env s).heap q = some e)
      ∧ (∀ m ∈ new, ∃ i q e, s.l2flow_list_wait_for_ack[i]? = some q ∧ s.heap q = some e
          ∧ e.time_sent + s.abm_retransmit_time < s.jiffies
          ∧ (abm_nl_send_l2flow_msg (env i) s.abm_l3_filtering
              (action_of_state e.state) 0 e).2 = some m)
      ∧ ∀ q, (abm_do_work_retransmit true env s).heap q = s.heap q ∨
          ∃ e, s.heap q = some e ∧ q ∈ s.l2flow_list_wait_for_ack
            ∧ e.time_sent + s.abm_retransmit_time < s.jiffies
            ∧ (abm_do_work_retransmit true env s).heap q
                = some { e with time_sent := s.jiffies } := by
  have hnd := ((list_linked_iff _ _ _).mp hl).1
  have hres := abm_do_work_retransmit_loop_resends s.l2flow_list_wait_for_ack env s
  obtain ⟨new, hn, hall⟩ := hres.out
  rw [abm_do_work_retransmit_eq env s hl]
  refine ⟨rfl, rfl, rfl, rfl, rfl, new, hn, ?_, fun q e he ho => hres.keep he ho, hall,
    hres.heap⟩
  intro j q e hq he hover hpre
  obtain ⟨⟨new1, new2, hout⟩, hstamp⟩ :=
    abm_do_work_retransmit_loop_resent env _ s j q e hq (nodup_not_mem_take hnd hq) he hover hpre
  refine ⟨fun m hm => ?_, hstamp⟩
  have hnew : new = new1 ++ (abm_nl_send_l2flow_msg (env j) s.abm_l3_filtering
      (action_of_state e.state) 0 e).2.toList ++ new2 :=
    List.append_cancel_left (hn.symm.trans hout)
  rw [hnew, hm]
  simp

/-- Worked example of a sweep over a list that stands for a kernel list: the CONFIRMED record
of flow 1 → 2 was notified at time 1000 and waits for its acknowledgement; at time 201000, the
retransmit period being 200, the sweep resends it as NEW and stamps it with 201000. -/
theorem abm_do_work_retransmit_linked_example :
    ((Op.tick 200000).apply ex_K ex_s_confirmed).heap 0
      = some (ex_rec L2FLOW_STATE_CONFIRMED 1000 4 true 13000 3 4)
    ∧ ((Op.tick 200000).apply ex_K ex_s_confirmed).l2flow_list_wait_for_ack = [0]
    ∧ ((Op.tick 200000).apply ex_K ex_s_confirmed).abm_retransmit_time = 200
    ∧ ((Op.tick 200000).apply ex_K ex_s_confirmed).jiffies = 201000
    ∧ (abm_do_work_retransmit true (fun _ => ex_sent)
        ((Op.tick 200000).apply ex_K ex_s_confirmed)).heap 0
      = some (ex_rec L2FLOW_STATE_CONFIRMED 201000 4 true 13000 3 4)
    ∧ sent_actions (abm_do_work_retransmit true (fun _ => ex_sent)
        ((Op.tick 200000).apply ex_K ex_s_confirmed))
      = [(some L2FLOW_ENTRY_NEW, 0), (some L2FLOW_ENTRY_NEW, 0)]
    ∧ (abm_do_work_retransmit true (fun _ => ex_sent)
        ((Op.tick 200000).apply ex_K ex_s_confirmed)).heap 0
      = some { ex_rec L2FLOW_STATE_CONFIRMED 1000 4 true 13000 3 4 with time_sent := 201000 } := by
  refine ⟨by decide, by decide, by decide, by decide, by decide, by decide, ?_⟩
  obtain ⟨_, _, h, _⟩ := (abm_do_work_retransmit_linked (fun _ => ex_sent)
    ((Op.tick 200000).apply ex_K ex_s_confirmed) (by decide)).2.2.2.2.2
  exact (h 0 0 (ex_rec L2FLOW_STATE_CONFIRMED 1000 4 true 13000 3 4) (by decide)
    (by decide) (by decide) (fun i hi => absurd hi (Nat.not_lt_zero i))).2
    (by decide)

/-- The retransmit sweep over a pending-acknowledgement list that stands for a kernel list,
with a listener present: let the resend of the overdue record `q`, at its place `j` of the
list, be the first resend that returns a non-zero result. Then the sweep ends there: the state
after the sweep is the state after the sweep over the first `j` places of the list plus what
that last send handed to netlink. The failing record is unchanged (its last-sent time
included), no record outside the first `j` places is changed, every message but the failing one
is the resend of a record of the first `j` places, and the sweep is queued again after the
retransmit period, as it is from that state with or without a listener, whatever the sends
return. -/
theorem abm_do_work_retransmit_stops (env : Nat → NlOutcome) (s : State)
    (hl : list_linked L2FLOW_FL_WAIT_ACK s.heap s.l2flow_list_wait_for_ack = true)
    (j : Nat) (q : Ptr)
    (e : l2flowTable) (hq : s.l2flow_list_wait_for_ack[j]? = some q) (he : s.heap q = some e)
    (hover : e.time_sent + s.abm_retransmit_time < s.jiffies)
    (hpre : ∀ i < j, env i = NlOutcome.broadcast 0)
    (hfail : (abm_nl_send_l2flow_msg (env j) s.abm_l3_filtering
      (action_of_state e.state) 0 e).1 ≠ 0) :
    abm_do_work_retransmit true env s
      = { (abm_do_work_retransmit_loop env (s.l2flow_list_wait_for_ack.take j) s).emit
            (abm_nl_send_l2flow_msg (env j) s.abm_l3_filtering
              (action_of_state e.state) 0 e).2 with
          work_retransmit_delay := some s.abm_retransmit_time }
    ∧ (abm_do_work_retransmit true env s).heap q = some e
    ∧ (∀ q', q' ∉ s.l2flow_list_wait_for_ack.take j →
        (abm_do_work_retransmit true env s).heap q' = s.heap q')
    ∧ (∃ new, (abm_do_work_retransmit true env s).nl_out
          = s.nl_out ++ new ++ (abm_nl_send_l2flow_msg (env j) s.abm_l3_filtering
              (action_of_state e.state) 0 e).2.toList
        ∧ ∀ m ∈ new, ∃ i q' e', i < j ∧ s.l2flow_list_wait_for_ack[i]? = some q'
            ∧ s.heap q' = some e' ∧ e'.time_sent + s.abm_retransmit_time < s.jiffies
            ∧ (abm_nl_send_l2flow_msg (env i) s.abm_l3_filtering
                (action_of_state e'.state) 0 e').2 = some m)
    ∧ ∀ (has_listeners : Bool) (env' : Nat → NlOutcome),
        (abm_do_work_retransmit has_listeners env' s).work_retransmit_delay
          = some s.abm_retransmit_time := by
  have hfirst := nodup_not_mem_take ((list_linked_iff _ _ _).mp hl).1 hq
  obtain ⟨he1, hrun⟩ := abm_do_work_retransmit_loop_reach env _ s j q e hq hfirst he hover hpre
  rw [if_neg hfail] at hrun
  have hres := abm_do_work_retransmit_loop_resends (s.l2flow_list_wait_for_ack.take j) env s
  obtain ⟨new, hn, hall⟩ := hres.out
  have hmain : abm_do_work_retransmit true env s
      = { (abm_do_work_retransmit_loop env (s.l2flow_list_wait_for_ack.take j) s).emit
            (abm_nl_send_l2flow_msg (env j) s.abm_l3_filtering
              (action_of_state e.state) 0 e).2 with
          work_retransmit_delay := some s.abm_retransmit_time } := by
    rw [abm_do_work_retransmit_eq env s hl, hrun]
    show _ = { (abm_do_work_retransmit_loop env (s.l2flow_list_wait_for_ack.take j) s).emit
            (abm_nl_send_l2flow_msg (env j) s.abm_l3_filtering
              (action_of_state e.state) 0 e).2 with
          work_retransmit_delay := some s.abm_retransmit_time }
    have hp : ((abm_do_work_retransmit_loop env (s.l2flow_list_wait_for_ack.take j) s).emit
        (abm_nl_send_l2flow_msg (env j) s.abm_l3_filtering
          (action_of_state e.state) 0 e).2).abm_retransmit_time = s.abm_retransmit_time :=
      hres.period
    rw [hp]
  refine ⟨hmain, ?_, ?_, ?_, ?_⟩
  · rw [hmain]; exact he1
  · intro q' hq'
    rw [hmain]
    exact hres.skip hq'
  · refine ⟨new, ?_, fun m hm => ?_⟩
    · rw [hmain]
      show (abm_do_work_retransmit_loop env (s.l2flow_list_wait_for_ack.take j) s).nl_out
        ++ _ = _
      rw [hn]
    · obtain ⟨i, q', e', hi, he', ho', hs⟩ := hall m hm
      rw [List.getElem?_take] at hi
      by_cases hij : i < j
      · rw [if_pos hij] at hi
        exact ⟨i, q', e', hij, hi, he', ho', hs⟩
      · rw [if_neg hij] at hi
        cases hi
  · intro has_listeners env'
    unfold abm_do_work_retransmit
    rw [if_neg (fun h => by rw [hl] at h; exact absurd h.2.2 (by decide))]
    simp only
    split
    · rfl
    · split
      · rfl
      · exact congrArg some
          (abm_do_work_retransmit_loop_resends s.l2flow_list_wait_for_ack env' s).period

/-- Worked example of a sweep that stops: two CONFIRMED records wait for their
acknowledgement, the record of flow 3 → 2 at the head of the list; at time 201000 both are
overdue. The first resend fails for lack of memory: nothing is handed to netlink, neither
record is modified, the second is never resent, and the sweep is queued again after 200
ticks. -/
theorem abm_do_work_retransmit_stops_example :
    ((Op.tick 200000).apply ex_K ex_s_two).l2flow_list_wait_for_ack = [1, 0]
    ∧ ((Op.tick 200000).apply ex_K ex_s_two).heap 0
        = some (ex_rec L2FLOW_STATE_CONFIRMED 1000 4 true 13000 3 4)
    ∧ (abm_do_work_retransmit true (fun _ => NlOutcome.skb_oom)
        ((Op.tick 200000).apply ex_K ex_s_two))
      = { (Op.tick 200000).apply ex_K ex_s_two with work_retransmit_delay := some 200 }
    ∧ (abm_do_work_retransmit true (fun _ => NlOutcome.skb_oom)
        ((Op.tick 200000).apply ex_K ex_s_two)).heap 0
      = some (ex_rec L2FLOW_STATE_CONFIRMED 1000 4 true 13000 3 4) := by
  have h := abm_do_work_retransmit_stops (fun _ => NlOutcome.skb_oom)
    ((Op.tick 200000).apply ex_K ex_s_two) (by decide)
    0 1 { ex_rec L2FLOW_STATE_CONFIRMED 1000 4 true 13000 3 6 with
          l2flow := ex_key 3 2 } (by decide) (by decide) (by decide)
    (fun i hi => absurd hi (Nat.not_lt_zero i)) (by decide)
  exact ⟨by decide, by decide, h.1, h.2.2.1 0 (by decide)⟩

/-- One turn of the loop is the body `abm_do_work_retransmit_entry`. -/
theorem abm_do_work_retransmit_loop_entry (env : Nat → NlOutcome) (p : Ptr) (rest : List Ptr)
    (s : State) :
    abm_do_work_retransmit_loop env (p :: rest) s
      = if (abm_do_work_retransmit_entry (env 0) p s).2 = true then
          abm_do_work_retransmit_loop (fun n => env (n + 1)) rest
            (abm_do_work_retransmit_entry (env 0) p s).1
        else (abm_do_work_retransmit_entry (env 0) p s).1 := by
  conv_lhs => unfold abm_do_work_retransmit_loop
  unfold abm_do_work_retransmit_entry
  cases he : s.heap p with
  | none => simp
  | some e =>
    simp only
    split
    · split
      · simp
      · simp
    · simp

/-! ### The kernel list behind the pending-acknowledgement list -/

theorem list_head.list_add_next (l : list_head) (p : Ptr) :
    (l.list_add p).next list_node.head = list_node.entry p
    ∧ (l.list_add p).next (list_node.entry p) = l.next list_node.head
    ∧ ∀ q, q ≠ p → (l.list_add p).next (list_node.entry q) = l.next (list_node.entry q) := by
  refine ⟨?_, ?_, fun q hq => ?_⟩
  · simp [list_head.list_add, __list_add]
  · simp [list_head.list_add, __list_add]
  · have h : list_node.entry q ≠ list_node.entry p := fun h => hq (list_node.entry.inj h)
    simp [list_head.list_add, __list_add, Function.update, h]

/-- A model list without a repeated address, grown by `list_add`, stands for a kernel list
with the same nodes in the same order: `list_for_each` stands on the record at place `n` of
the model list in its turn `n`, and finds the head after the last record. -/
theorem list_head.of_adds_pos (l : List Ptr) (hn : l.Nodup) :
    (∀ n q, l[n]? = some q → (list_head.of_adds l).pos n = list_node.entry q)
    ∧ (list_head.of_adds l).pos l.length = list_node.head := by
  induction l with
  | nil =>
    refine ⟨fun n q h => by simp at h, rfl⟩
  | cons p l ih =>
    obtain ⟨hp, hl⟩ := List.nodup_cons.mp hn
    obtain ⟨ih1, ih2⟩ := ih hl
    obtain ⟨a1, a2, a3⟩ := list_head.list_add_next (list_head.of_adds l) p
    have h0 : (list_head.of_adds (p :: l)).pos 0 = list_node.entry p := a1
    have hs : ∀ n, n ≤ l.length →
        (list_head.of_adds (p :: l)).pos (n + 1) = (list_head.of_adds l).pos n := by
      intro n
      induction n with
      | zero =>
        intro _
        show (list_head.of_adds (p :: l)).next ((list_head.of_adds (p :: l)).pos 0) = _
        rw [h0]
        exact a2
      | succ n ihn =>
        intro hle
        show (list_head.of_adds (p :: l)).next ((list_head.of_adds (p :: l)).pos (n + 1)) = _
        rw [ihn (by omega)]
        have hlt : n < l.length := by omega
        have hq : l[n]? = some (l.get ⟨n, hlt⟩) := by simp
        rw [ih1 n _ hq]
        have hne : l.get ⟨n, hlt⟩ ≠ p := fun h => hp (h ▸ List.get_mem l n hlt)
        show (list_head.list_add (list_head.of_adds l) p).next _ = _
        rw [a3 _ hne]
        show _ = (list_head.of_adds l).next ((list_head.of_adds l).pos n)
        rw [ih1 n _ hq]
    refine ⟨fun n q h => ?_, ?_⟩
    · cases n with
      | zero =>
        simp at h
        rw [← h]
        exact h0
      | succ n =>
        have h1 : l[n]? = some q := by simpa using h
        have hlt : n < l.length := by
          by_contra hc
          rw [List.getElem?_eq_none (Nat.le_of_not_lt hc)] at h1
          cases h1
        rw [hs n (by omega)]
        exact ih1 n q h1
    · show (list_head.of_adds (p :: l)).pos (l.length + 1) = _
      rw [hs _ (Nat.le_refl _)]
      exact ih2

/-- A second `list_add` of the node at the head of a kernel list leaves that node pointing to
itself: `list_for_each` stands on it in every turn and never finds the head. -/
theorem list_head.of_adds_twice (p : Ptr) (l : List Ptr) :
    (list_head.of_adds (p :: p :: l)).next (list_node.entry p) = list_node.entry p
    ∧ ∀ n, (list_head.of_adds (p :: p :: l)).pos n = list_node.entry p := by
  obtain ⟨a1, a2, _⟩ := list_head.list_add_next (list_head.of_adds (p :: l)) p
  obtain ⟨b1, _, _⟩ := list_head.list_add_next (list_head.of_adds l) p
  have hself : (list_head.of_adds (p :: p :: l)).next (list_node.entry p) = list_node.entry p :=
    a2.trans b1
  refine ⟨hself, fun n => ?_⟩
  induction n with
  | zero => exact a1
  | succ n ih =>
    show (list_head.of_adds (p :: p :: l)).next ((list_head.of_adds (p :: p :: l)).pos n) = _
    rw [ih, hself]

theorem ex_s_two_dying_reachable : Reachable ex_K ex_s_two_dying :=
  Reachable.step (Op.death_by_timeout ex_sent 1) _
    (Reachable.step (Op.tick 200000) _ ex_s_two_reachable trivial)
    ⟨_, rfl, rfl, by decide⟩

theorem ex_s_confirmed_dying_late_reachable : Reachable ex_K ex_s_confirmed_dying_late :=
  Reachable.step (Op.tick 300) _ ex_s_confirmed_dying_reachable trivial

/-- C24, evaluation of the code. Flows 1 → 2 (address 0) and 3 → 2 (address 1) are CONFIRMED
and wait for their acknowledgement, the record of flow 3 → 2 at the head of the
pending-acknowledgement list: the kernel list has the two nodes in that order, then the head.
200000 ticks later the timer of the record of flow 3 → 2 expires with a listener:
`__abm_go_dying` sends its DEL and links the record, which carries WAIT_ACK, a second time. The
node of that record now points to itself, and `list_for_each` stands on it in every turn. The
record of flow 1 → 2 is on the list, carries WAIT_ACK and is overdue (last sent at 1000, period
200, now 201000), yet no turn of the sweep reaches it: the first turn on the record of flow
3 → 2 resends the DEL of that record, leaves the record of flow 1 → 2 as it is and goes on to
`pos->next`, and every later turn on it changes nothing and goes on again. The model raises
`oops` for the sweep. -/
theorem retransmit_current_state_divergence :
    Reachable ex_K ex_s_two_dying
    ∧ ex_s_two.l2flow_list_wait_for_ack = [1, 0]
    ∧ (list_head.of_adds [1, 0]).pos 0 = list_node.entry 1
    ∧ (list_head.of_adds [1, 0]).pos 1 = list_node.entry 0
    ∧ (list_head.of_adds [1, 0]).pos 2 = list_node.head
    ∧ ex_s_two_dying.l2flow_list_wait_for_ack = [1, 1, 0]
    ∧ ex_s_two_dying.heap 0 = some (ex_rec L2FLOW_STATE_CONFIRMED 1000 4 true 13000 3 4)
    ∧ (4 : Nat) &&& L2FLOW_FL_WAIT_ACK ≠ 0
    ∧ 1000 + ex_s_two_dying.abm_retransmit_time < ex_s_two_dying.jiffies
    ∧ (list_head.of_adds ex_s_two_dying.l2flow_list_wait_for_ack).next (list_node.entry 1)
        = list_node.entry 1
    ∧ (∀ n, (list_head.of_adds ex_s_two_dying.l2flow_list_wait_for_ack).pos n
        = list_node.entry 1)
    ∧ sent_actions ex_s_two_dying
        = [(some L2FLOW_ENTRY_NEW, 0), (some L2FLOW_ENTRY_NEW, 0), (some L2FLOW_ENTRY_DEL, 0)]
    ∧ (abm_do_work_retransmit_entry ex_sent 1 ex_s_two_dying).2 = true
    ∧ sent_actions (abm_do_work_retransmit_entry ex_sent 1 ex_s_two_dying).1
        = [(some L2FLOW_ENTRY_NEW, 0), (some L2FLOW_ENTRY_NEW, 0), (some L2FLOW_ENTRY_DEL, 0),
           (some L2FLOW_ENTRY_DEL, 0)]
    ∧ (abm_do_work_retransmit_entry ex_sent 1 ex_s_two_dying).1.heap 0
        = some (ex_rec L2FLOW_STATE_CONFIRMED 1000 4 true 13000 3 4)
    ∧ abm_do_work_retransmit_entry ex_sent 1
          (abm_do_work_retransmit_entry ex_sent 1 ex_s_two_dying).1
        = ((abm_do_work_retransmit_entry ex_sent 1 ex_s_two_dying).1, true)
    ∧ (abm_do_work_retransmit true (fun _ => ex_sent) ex_s_two_dying).oops = true := by
  have hl : ex_s_two_dying.l2flow_list_wait_for_ack = [1, 1, 0] := by decide
  refine ⟨ex_s_two_dying_reachable, by decide, by decide, by decide, by decide, hl, by decide,
    by decide, by decide, ?_, ?_, by decide, by decide, by decide, by decide, rfl, by decide⟩
  · rw [hl]
    exact (list_head.of_adds_twice 1 [0]).1
  · rw [hl]
    exact (list_head.of_adds_twice 1 [0]).2

/-- C25, evaluation of the code. The CONFIRMED record of flow 1 → 2 is linked once on the
pending-acknowledgement list. Its timer expires with a listener: `__abm_go_dying` sends the
DEL and links the record, which carries WAIT_ACK, a second time. The node of the record now
points to itself, and `list_for_each` stands on it in every turn and never finds the head. 300
ticks later the sweep runs with a listener, every send succeeding: its first turn resends the
DEL, stamps the record and goes on to `pos->next`; every later turn finds the same record not
overdue, changes nothing and goes on again. No turn leaves the loop: the sweep never comes to
queue itself again. The model raises `oops` for the sweep. -/
theorem retransmit_abort_divergence :
    Reachable ex_K ex_s_confirmed_dying_late
    ∧ ex_s_confirmed.l2flow_list_wait_for_ack = [0]
    ∧ ex_s_confirmed_dying_late.l2flow_list_wait_for_ack = [0, 0]
    ∧ ex_s_confirmed_dying_late.heap 0
        = some (ex_rec L2FLOW_STATE_DYING 1000 6 true 213000 3 4)
    ∧ ex_s_confirmed_dying_late.jiffies = 201300
    ∧ ex_s_confirmed_dying_late.abm_retransmit_time = 200
    ∧ (list_head.of_adds ex_s_confirmed_dying_late.l2flow_list_wait_for_ack).next
        (list_node.entry 0) = list_node.entry 0
    ∧ (∀ n, (list_head.of_adds ex_s_confirmed_dying_late.l2flow_list_wait_for_ack).pos n
        = list_node.entry 0)
    ∧ sent_actions ex_s_confirmed_dying_late
        = [(some L2FLOW_ENTRY_NEW, 0), (some L2FLOW_ENTRY_DEL, 0)]
    ∧ (abm_do_work_retransmit_entry ex_sent 0 ex_s_confirmed_dying_late).2 = true
    ∧ sent_actions (abm_do_work_retransmit_entry ex_sent 0 ex_s_confirmed_dying_late).1
        = [(some L2FLOW_ENTRY_NEW, 0), (some L2FLOW_ENTRY_DEL, 0), (some L2FLOW_ENTRY_DEL, 0)]
    ∧ (abm_do_work_retransmit_entry ex_sent 0 ex_s_confirmed_dying_late).1.heap 0
        = some (ex_rec L2FLOW_STATE_DYING 201300 6 true 213000 3 4)
    ∧ abm_do_work_retransmit_entry ex_sent 0
          (abm_do_work_retransmit_entry ex_sent 0 ex_s_confirmed_dying_late).1
        = ((abm_do_work_retransmit_entry ex_sent 0 ex_s_confirmed_dying_late).1, true)
    ∧ (abm_do_work_retransmit true (fun _ => ex_sent) ex_s_confirmed_dying_late).oops = true := by
  have hl : ex_s_confirmed_dying_late.l2flow_list_wait_for_ack = [0, 0] := by decide
  refine ⟨ex_s_confirmed_dying_late_reachable, by decide, hl, by decide, by decide, by decide,
    ?_, ?_, by decide, by decide, by decide, by decide, rfl, by decide⟩
  · rw [hl]
    exact (list_head.of_adds_twice 0 []).1
  · rw [hl]
    exact (list_head.of_adds_twice 0 []).2

/-! ## The order of the sweeps -/

/-- C26, counterexample. The record of flow 1 → 2 is put on the pending-send list first, the
record of flow 5 → 6 second. The drain sends the message of flow 5 → 6 first. It links the
record of flow 5 → 6 on the pending-acknowledgement list first and the record of flow 1 → 2
second, and the retransmit sweep that follows resends flow 1 → 2 first. -/
theorem sweep_order_counterexample :
    ex_s2.l2flow_list_msg_to_send = []
    ∧ (ex_op_fdb.apply ex_K ex_s2).l2flow_list_msg_to_send = [0]
    ∧ ex_s_queued.l2flow_list_msg_to_send = [1, 0]
    ∧ (ex_s_queued.heap 0).map (fun e => (e.l2flow.saddr, e.l2flow.daddr))
        = some (ex_mac 1, ex_mac 2)
    ∧ (ex_s_queued.heap 1).map (fun e => (e.l2flow.saddr, e.l2flow.daddr))
        = some (ex_mac 5, ex_mac 6)
    ∧ sent_flows ex_s_queued = []
    ∧ sent_flows ex_s_drained = [some (ex_mac 5, ex_mac 6), some (ex_mac 1, ex_mac 2)]
    ∧ ex_s_queued.l2flow_list_wait_for_ack = []
    ∧ (abm_do_work_send_msg_entry ex_sent 1 ex_s_queued).l2flow_list_wait_for_ack = [1]
    ∧ ex_s_drained.l2flow_list_wait_for_ack = [0, 1]
    ∧ sent_flows (abm_do_work_retransmit true (fun _ => ex_sent)
        ((Op.tick 200000).apply ex_K ex_s_drained))
      = [some (ex_mac 5, ex_mac 6), some (ex_mac 1, ex_mac 2),
         some (ex_mac 1, ex_mac 2), some (ex_mac 5, ex_mac 6)] :=
  ⟨by decide, by decide, by decide, by decide, by decide, by decide, by decide, by decide,
   by decide, by decide, by decide⟩

/-- Two records a send cannot tell apart. -/
theorem messages_in_list_order_congr (l : List Ptr) :
    ∀ (env : Nat → NlOutcome) (l3 : Nat) (h h' : Ptr → Option l2flowTable),
      (∀ q, h' q = h q ∨ ∃ e e', h q = some e ∧ h' q = some e' ∧ e'.state = e.state
        ∧ ∀ o a f, abm_nl_send_l2flow_msg o l3 a f e' = abm_nl_send_l2flow_msg o l3 a f e) →
      messages_in_list_order env l3 h' l = messages_in_list_order env l3 h l := by
  induction l with
  | nil => intro env l3 h h' _; rfl
  | cons p rest ih =>
    intro env l3 h h' hh
    unfold messages_in_list_order
    rw [ih _ l3 h h' hh]
    congr 1
    rcases hh p with hp | ⟨e, e', he, he', hs, hm⟩
    · rw [hp]
    · rw [he, he']
      simp only [hs, hm]

theorem abm_do_work_send_msg_entry_out (env : NlOutcome) (p : Ptr) (s : State) :
    (abm_do_work_send_msg_entry env p s).nl_out
      = s.nl_out ++ (match s.heap p with
          | none => []
          | some e =>
            (abm_nl_send_l2flow_msg env s.abm_l3_filtering (action_of_state e.state) 0 e).2.toList)
    ∧ (abm_do_work_send_msg_entry env p s).abm_l3_filtering = s.abm_l3_filtering
    ∧ ∀ q, (abm_do_work_send_msg_entry env p s).heap q = s.heap q ∨
        ∃ e e', s.heap q = some e ∧ (abm_do_work_send_msg_entry env p s).heap q = some e'
          ∧ e'.state = e.state
          ∧ ∀ o a f, abm_nl_send_l2flow_msg o s.abm_l3_filtering a f e'
              = abm_nl_send_l2flow_msg o s.abm_l3_filtering a f e := by
  unfold abm_do_work_send_msg_entry
  cases he : s.heap p with
  | none => exact ⟨by simp, rfl, fun _ => Or.inl rfl⟩
  | some e =>
    simp only
    have hput : ∀ (t : State) (e' : l2flowTable), t.heap = s.heap → e'.state = e.state →
        (∀ o a f, abm_nl_send_l2flow_msg o s.abm_l3_filtering a f e'
              = abm_nl_send_l2flow_msg o s.abm_l3_filtering a f e) →
        ∀ q, (t.put p e').heap q = s.heap q ∨
          ∃ e0 e1, s.heap q = some e0 ∧ (t.put p e').heap q = some e1 ∧ e1.state = e0.state
            ∧ ∀ o a f, abm_nl_send_l2flow_msg o s.abm_l3_filtering a f e1
                = abm_nl_send_l2flow_msg o s.abm_l3_filtering a f e0 := by
      intro t e' ht hs hm q
      by_cases hq : q = p
      · subst hq
        exact Or.inr ⟨e, e', he, put_heap_self _ _ _, hs, hm⟩
      · left
        rw [put_heap_other _ _ _ hq, ht]
    split
    · split
      · exact ⟨rfl, rfl, hput _ _ rfl rfl (fun o a f => by cases o <;> rfl)⟩
      · exact ⟨rfl, rfl, hput _ _ rfl rfl (fun o a f => by cases o <;> rfl)⟩
    · exact ⟨rfl, rfl, fun _ => Or.inl rfl⟩

/-- The drain hands the messages of the records of the list to netlink in the order of the
list, the head first. -/
theorem abm_do_work_send_msg_loop_out (l : List Ptr) :
    ∀ (env : Nat → NlOutcome) (s : State),
      (abm_do_work_send_msg_loop env l s).nl_out
        = s.nl_out ++ messages_in_list_order env s.abm_l3_filtering s.heap l := by
  induction l with
  | nil => intro env s; simp [abm_do_work_send_msg_loop, messages_in_list_order]
  | cons p rest ih =>
    intro env s
    obtain ⟨ho, hl3, hh⟩ := abm_do_work_send_msg_entry_out (env 0) p s
    unfold abm_do_work_send_msg_loop messages_in_list_order
    rw [ih, ho, hl3, messages_in_list_order_congr rest _ _ s.heap _ hh, List.append_assoc]

theorem abm_do_work_send_msg_out (env : Nat → NlOutcome) (s : State) :
    (abm_do_work_send_msg true env s).nl_out
      = s.nl_out ++ messages_in_list_order env s.abm_l3_filtering s.heap
          s.l2flow_list_msg_to_send := by
  unfold abm_do_work_send_msg
  simp only [Bool.true_eq_false, if_false]
  exact abm_do_work_send_msg_loop_out _ env { s with work_send_msg_queued := false }

theorem flag_WAIT_ACK_clear {f : Nat} (h : f &&& L2FLOW_FL_WAIT_ACK = 0) :
    f &&& bit_not32 L2FLOW_FL_PENDING_MSG &&& bit_not32 L2FLOW_FL_NEEDS_UPDATE
      &&& L2FLOW_FL_WAIT_ACK = 0 := by
  rw [Nat.and_assoc f, Nat.and_assoc f, Nat.and_comm _ L2FLOW_FL_WAIT_ACK, ← Nat.and_assoc f,
    h, Nat.zero_and]

/-- The drain links the record it has sent at the head of the pending-acknowledgement list. -/
theorem abm_do_work_send_msg_entry_head (env : NlOutcome) (p : Ptr) (s : State)
    (e : l2flowTable) (he : s.heap p = some e) (hw : e.flags &&& L2FLOW_FL_WAIT_ACK = 0)
    (h1 : env ≠ NlOutcome.no_listener) (h2 : env ≠ NlOutcome.broadcast (-ENOTCONN)) :
    (abm_do_work_send_msg_entry env p s).l2flow_list_wait_for_ack
      = p :: s.l2flow_list_wait_for_ack := by
  unfold abm_do_work_send_msg_entry
  simp only [he, abm_nl_send_l2flow_msg_rc h1 h2, ne_eq, not_false_eq_true, if_true,
    if_pos (flag_WAIT_ACK_clear hw)]
  rfl

/-- A forwarding-database update links the record it marks at the head of the pending-send
list. -/
theorem abm_br_event_fdb_update_entry_head (mac_addr : eth_addr) (ifindex : Nat) (p : Ptr)
    (s : State) (e : l2flowTable) (he : s.heap p = some e) (hm : e.l2flow.daddr = mac_addr)
    (hx : ifindex ≠ e.odev_ifi) (hs : e.state ≠ L2FLOW_STATE_DYING)
    (hpm : e.flags &&& L2FLOW_FL_PENDING_MSG = 0) :
    (abm_br_event_fdb_update_entry mac_addr ifindex p s).l2flow_list_msg_to_send
      = p :: s.l2flow_list_msg_to_send := by
  unfold abm_br_event_fdb_update_entry
  subst hm
  have hc : ether_addr_equal e.l2flow.daddr e.l2flow.daddr = true ∧ ifindex ≠ e.odev_ifi
      ∧ e.state ≠ L2FLOW_STATE_DYING := ⟨ether_addr_equal_self _, hx, hs⟩
  simp only [he, if_pos hc, if_pos hpm]
  rfl

/-- A port-down event links the record it marks at the head of the pending-send list. -/
theorem abm_br_event_port_down_entry_head (env : NlOutcome) (ifindex : Nat) (p : Ptr)
    (s : State) (e : l2flowTable) (he : s.heap p = some e)
    (hs : e.state ≠ L2FLOW_STATE_DYING) (hif : e.idev_ifi = ifindex ∨ e.odev_ifi = ifindex)
    (hpm : e.flags &&& L2FLOW_FL_PENDING_MSG = 0) (hd : e.flags &&& L2FLOW_FL_DEAD = 0) :
    (abm_br_event_port_down_entry env ifindex p s).l2flow_list_msg_to_send
      = p :: s.l2flow_list_msg_to_send := by
  unfold abm_br_event_port_down_entry
  have hc : e.state ≠ L2FLOW_STATE_DYING ∧ (e.idev_ifi = ifindex ∨ e.odev_ifi = ifindex) :=
    ⟨hs, hif⟩
  simp only [he, if_pos hc, if_pos hpm]
  split
  · rw [__abm_go_dying_quiet
      (e := del_timer
        { e with state := L2FLOW_STATE_DYING, flags := e.flags ||| L2FLOW_FL_PENDING_MSG })
      (by simp [State.put]) (by simp [del_timer]) rfl]
    have hd1 : (del_timer
        { e with state := L2FLOW_STATE_DYING, flags := e.flags ||| L2FLOW_FL_PENDING_MSG }).flags
        &&& L2FLOW_FL_DEAD = 0 := by simp [del_timer, hd]
    simp only [if_pos hd1]
    rfl
  · rfl

/-- The retransmit sweep hands the resend of a record to netlink before the resend of a
record further down the list. -/
theorem abm_do_work_retransmit_loop_order (env : Nat → NlOutcome) (l : List Ptr) (s : State)
    (i j : Nat) (qi qj : Ptr) (ei ej : l2flowTable) (hij : i < j)
    (hqi : l[i]? = some qi) (hfi : qi ∉ l.take i) (hei : s.heap qi = some ei)
    (hoi : ei.time_sent + s.abm_retransmit_time < s.jiffies)
    (hqj : l[j]? = some qj) (hfj : qj ∉ l.take j) (hej : s.heap qj = some ej)
    (hoj : ej.time_sent + s.abm_retransmit_time < s.jiffies)
    (hpre : ∀ k < j, env k = NlOutcome.broadcast 0) :
    ∃ a b c, (abm_do_work_retransmit_loop env l s).nl_out
      = s.nl_out ++ a
        ++ (abm_nl_send_l2flow_msg (env i) s.abm_l3_filtering
              (action_of_state ei.state) 0 ei).2.toList ++ b
        ++ (abm_nl_send_l2flow_msg (env j) s.abm_l3_filtering
              (action_of_state ej.state) 0 ej).2.toList ++ c := by
  have hqi' : (l.take j)[i]? = some qi := by rw [List.getElem?_take, if_pos hij]; exact hqi
  have hfi' : qi ∉ (l.take j).take i := by
    rw [List.take_take, Nat.min_eq_left (Nat.le_of_lt hij)]; exact hfi
  have hprei : ∀ k < i, env k = NlOutcome.broadcast 0 := fun k hk => hpre k (by omega)
  obtain ⟨_, hrunj⟩ := abm_do_work_retransmit_loop_reach env l s j qj ej hqj hfj hej hoj hpre
  obtain ⟨_, hruni⟩ :=
    abm_do_work_retransmit_loop_reach env (l.take j) s i qi ei hqi' hfi' hei hoi hprei
  rw [List.take_take, Nat.min_eq_left (Nat.le_of_lt hij)] at hruni
  obtain ⟨a, ha, _⟩ := (abm_do_work_retransmit_loop_resends (l.take i) env s).out
  have hzi : (abm_nl_send_l2flow_msg (env i) s.abm_l3_filtering
      (action_of_state ei.state) 0 ei).1 = 0 := by rw [hpre i hij]; rfl
  rw [if_pos hzi] at hruni
  obtain ⟨b, hb, _⟩ := (abm_do_work_retransmit_loop_resends ((l.take j).drop (i + 1))
    (fun n => env (n + (i + 1)))
    (((abm_do_work_retransmit_loop env (l.take i) s).emit
      (abm_nl_send_l2flow_msg (env i) s.abm_l3_filtering
        (action_of_state ei.state) 0 ei).2).put qi { ei with time_sent := s.jiffies })).out
  rw [← hruni] at hb
  have hpre_j : (abm_do_work_retransmit_loop env (l.take j) s).nl_out
      = s.nl_out ++ a ++ (abm_nl_send_l2flow_msg (env i) s.abm_l3_filtering
          (action_of_state ei.state) 0 ei).2.toList ++ b := by
    rw [hb]
    show ((abm_do_work_retransmit_loop env (l.take i) s).nl_out ++ _) ++ b = _
    rw [ha]
  by_cases hzj : (abm_nl_send_l2flow_msg (env j) s.abm_l3_filtering
      (action_of_state ej.state) 0 ej).1 = 0
  · rw [if_pos hzj] at hrunj
    obtain ⟨c, hc, _⟩ := (abm_do_work_retransmit_loop_resends (l.drop (j + 1))
      (fun n => env (n + (j + 1)))
      (((abm_do_work_retransmit_loop env (l.take j) s).emit
        (abm_nl_send_l2flow_msg (env j) s.abm_l3_filtering
          (action_of_state ej.state) 0 ej).2).put qj { ej with time_sent := s.jiffies })).out
    rw [← hrunj] at hc
    refine ⟨a, b, c, ?_⟩
    rw [hc]
    show ((abm_do_work_retransmit_loop env (l.take j) s).nl_out ++ _) ++ c = _
    rw [hpre_j]
  · rw [if_neg hzj] at hrunj
    refine ⟨a, b, [], ?_⟩
    rw [hrunj]
    show (abm_do_work_retransmit_loop env (l.take j) s).nl_out ++ _ = _
    rw [hpre_j, List.append_nil]

/-- With a send that does not return `-ENOTCONN`, `__abm_go_dying` links the record at the head
of the pending-acknowledgement list. -/
theorem __abm_go_dying_head (env : NlOutcome) (p : Ptr) (s : State) (e : l2flowTable)
    (he : s.heap p = some e) (hd : e.flags &&& L2FLOW_FL_DEAD = 0)
    (hc : e.flags &&& L2FLOW_FL_PENDING_MSG = 0 ∨ e.state ≠ L2FLOW_STATE_DYING)
    (h1 : env ≠ NlOutcome.no_listener) (h2 : env ≠ NlOutcome.broadcast (-ENOTCONN)) :
    (__abm_go_dying env p s).l2flow_list_wait_for_ack = p :: s.l2flow_list_wait_for_ack := by
  unfold __abm_go_dying
  simp only [he, hd, if_true, if_pos hc, abm_nl_send_l2flow_msg_rc h1 h2, ne_eq,
    not_false_eq_true]
  rfl

/-- With a send that does not return `-ENOTCONN`, the post-routing hook links a SEEN record at
the head of the pending-acknowledgement list. -/
theorem abm_ebt_hook_post_routing_seen_head (env : NlOutcome) (out_ifindex mark : Nat)
    (p : Ptr) (s : State) (e : l2flowTable) (he : s.heap p = some e)
    (hs : e.state = L2FLOW_STATE_SEEN)
    (h1 : env ≠ NlOutcome.no_listener) (h2 : env ≠ NlOutcome.broadcast (-ENOTCONN)) :
    (abm_ebt_hook_post_routing env out_ifindex mark p s).l2flow_list_wait_for_ack
      = p :: s.l2flow_list_wait_for_ack := by
  unfold abm_ebt_hook_post_routing
  simp only [he]
  by_cases ho : out_ifindex ≠ e.odev_ifi
  · simp only [if_pos ho, hs, abm_nl_send_l2flow_msg_rc h1 h2, ne_eq, not_false_eq_true, if_true]
    rfl
  · simp only [if_neg ho, hs, abm_nl_send_l2flow_msg_rc h1 h2, ne_eq, not_false_eq_true, if_true]
    rfl

theorem flag_WAIT_ACK_clear_update {f : Nat} (h : f &&& L2FLOW_FL_WAIT_ACK = 0) :
    f &&& bit_not32 L2FLOW_FL_NEEDS_UPDATE &&& L2FLOW_FL_WAIT_ACK = 0
    ∧ (f ||| L2FLOW_FL_NEEDS_UPDATE) &&& bit_not32 L2FLOW_FL_NEEDS_UPDATE
        &&& L2FLOW_FL_WAIT_ACK = 0 := by
  constructor
  · rw [Nat.and_assoc, Nat.and_comm _ L2FLOW_FL_WAIT_ACK, ← Nat.and_assoc, h, Nat.zero_and]
  · rw [Nat.and_assoc, Nat.and_comm _ L2FLOW_FL_WAIT_ACK, ← Nat.and_assoc,
      Nat.and_comm _ L2FLOW_FL_WAIT_ACK, Nat.and_or_distrib_left,
      Nat.and_comm L2FLOW_FL_WAIT_ACK f, h]
    decide

/-- With a send that does not return `-ENOTCONN`, the post-routing hook links a LINUX or FF
record that it notifies, and that does not carry WAIT_ACK, at the head of the
pending-acknowledgement list. -/
theorem abm_ebt_hook_post_routing_update_head (env : NlOutcome) (out_ifindex mark : Nat)
    (p : Ptr) (s : State) (e : l2flowTable) (he : s.heap p = some e)
    (hs : e.state = L2FLOW_STATE_LINUX ∨ e.state = L2FLOW_STATE_FF)
    (hpm : e.flags &&& L2FLOW_FL_PENDING_MSG = 0)
    (hn : out_ifindex ≠ e.odev_ifi ∨ e.flags &&& L2FLOW_FL_NEEDS_UPDATE ≠ 0)
    (hw : e.flags &&& L2FLOW_FL_WAIT_ACK = 0)
    (h1 : env ≠ NlOutcome.no_listener) (h2 : env ≠ NlOutcome.broadcast (-ENOTCONN)) :
    (abm_ebt_hook_post_routing env out_ifindex mark p s).l2flow_list_wait_for_ack
      = p :: s.l2flow_list_wait_for_ack := by
  obtain ⟨hw1, hw2⟩ := flag_WAIT_ACK_clear_update hw
  unfold abm_ebt_hook_post_routing
  simp only [he]
  by_cases ho : out_ifindex ≠ e.odev_ifi
  · simp only [if_pos ho]
    have hc : (e.flags ||| L2FLOW_FL_NEEDS_UPDATE) &&& L2FLOW_FL_PENDING_MSG = 0 := by
      simp [hpm]
    rcases hs with hs | hs
    all_goals
      simp only [hs, hc, flag_set_NEEDS_UPDATE_test, flag_NEEDS_UPDATE_ne_zero, ne_eq,
        not_false_eq_true, and_self, if_true, abm_nl_send_l2flow_msg_rc h1 h2, if_pos hw2]
      rfl
  · have hn1 : e.flags &&& L2FLOW_FL_NEEDS_UPDATE ≠ 0 := by
      rcases hn with h | h
      · exact absurd h ho
      · exact h
    simp only [if_neg ho]
    rcases hs with hs | hs
    all_goals
      simp only [hs, hpm, hn1, ne_eq, not_false_eq_true, and_self, if_true,
        abm_nl_send_l2flow_msg_rc h1 h2, if_pos hw1]
      rfl

/-- C26, amended. Sweep order is list order from the head, and every enqueue of a record that
is not yet on the list links it at the head. One drain of the pending-send list hands the
messages of the records to netlink in the order of the list, the head first. In one
retransmit sweep of a pending-acknowledgement list that links no record twice (and only
resident records that carry WAIT_ACK), the resend of an overdue record comes before the resend
of an overdue record further down the list. A forwarding-database update and a port-down event
put the record they mark, when it does not carry PENDING_MSG yet, at the head of the
pending-send list; the drain, `__abm_go_dying` and the post-routing hook (for a SEEN record,
and for a LINUX or FF record that it notifies) put the record they have sent, when it does not
carry WAIT_ACK yet, at the head of the pending-acknowledgement list. So the record enqueued
last is processed first. -/
theorem sweep_order_amended (env : Nat → NlOutcome) (s : State) (p : Ptr) (e : l2flowTable)
    (he : s.heap p = some e) :
    (abm_do_work_send_msg true env s).nl_out
      = s.nl_out ++ messages_in_list_order env s.abm_l3_filtering s.heap
          s.l2flow_list_msg_to_send
    ∧ (list_linked L2FLOW_FL_WAIT_ACK s.heap s.l2flow_list_wait_for_ack = true →
        ∀ i j qi qj ei ej, i < j →
        s.l2flow_list_wait_for_ack[i]? = some qi →
        s.heap qi = some ei → ei.time_sent + s.abm_retransmit_time < s.jiffies →
        s.l2flow_list_wait_for_ack[j]? = some qj →
        s.heap qj = some ej → ej.time_sent + s.abm_retransmit_time < s.jiffies →
        (∀ k < j, env k = NlOutcome.broadcast 0) →
        ∃ a b c, (abm_do_work_retransmit true env s).nl_out
          = s.nl_out ++ a
            ++ (abm_nl_send_l2flow_msg (env i) s.abm_l3_filtering
                  (action_of_state ei.state) 0 ei).2.toList ++ b
            ++ (abm_nl_send_l2flow_msg (env j) s.abm_l3_filtering
                  (action_of_state ej.state) 0 ej).2.toList ++ c)
    ∧ (∀ ifindex, ifindex ≠ e.odev_ifi → e.state ≠ L2FLOW_STATE_DYING →
        e.flags &&& L2FLOW_FL_PENDING_MSG = 0 →
        (abm_br_event_fdb_update_entry e.l2flow.daddr ifindex p s).l2flow_list_msg_to_send
          = p :: s.l2flow_list_msg_to_send)
    ∧ (∀ o ifindex, e.state ≠ L2FLOW_STATE_DYING →
        e.idev_ifi = ifindex ∨ e.odev_ifi = ifindex →
        e.flags &&& L2FLOW_FL_PENDING_MSG = 0 → e.flags &&& L2FLOW_FL_DEAD = 0 →
        (abm_br_event_port_down_entry o ifindex p s).l2flow_list_msg_to_send
          = p :: s.l2flow_list_msg_to_send)
    ∧ (∀ o, e.flags &&& L2FLOW_FL_WAIT_ACK = 0 → o ≠ NlOutcome.no_listener →
        o ≠ NlOutcome.broadcast (-ENOTCONN) →
        (abm_do_work_send_msg_entry o p s).l2flow_list_wait_for_ack
          = p :: s.l2flow_list_wait_for_ack)
    ∧ (∀ o, e.flags &&& L2FLOW_FL_WAIT_ACK = 0 → e.flags &&& L2FLOW_FL_DEAD = 0 →
        e.flags &&& L2FLOW_FL_PENDING_MSG = 0 ∨ e.state ≠ L2FLOW_STATE_DYING →
        o ≠ NlOutcome.no_listener → o ≠ NlOutcome.broadcast (-ENOTCONN) →
        (__abm_go_dying o p s).l2flow_list_wait_for_ack = p :: s.l2flow_list_wait_for_ack)
    ∧ (∀ o out_ifindex mark, e.flags &&& L2FLOW_FL_WAIT_ACK = 0 →
        e.state = L2FLOW_STATE_SEEN →
        o ≠ NlOutcome.no_listener → o ≠ NlOutcome.broadcast (-ENOTCONN) →
        (abm_ebt_hook_post_routing o out_ifindex mark p s).l2flow_list_wait_for_ack
          = p :: s.l2flow_list_wait_for_ack)
    ∧ (∀ o out_ifindex mark, e.flags &&& L2FLOW_FL_WAIT_ACK = 0 →
        e.state = L2FLOW_STATE_LINUX ∨ e.state = L2FLOW_STATE_FF →
        e.flags &&& L2FLOW_FL_PENDING_MSG = 0 →
        out_ifindex ≠ e.odev_ifi ∨ e.flags &&& L2FLOW_FL_NEEDS_UPDATE ≠ 0 →
        o ≠ NlOutcome.no_listener → o ≠ NlOutcome.broadcast (-ENOTCONN) →
        (abm_ebt_hook_post_routing o out_ifindex mark p s).l2flow_list_wait_for_ack
          = p :: s.l2flow_list_wait_for_ack) := by
  refine ⟨abm_do_work_send_msg_out env s, ?_, ?_, ?_, ?_, ?_, ?_, ?_⟩
  · intro hl i j qi qj ei ej hij hqi hei hoi hqj hej hoj hpre
    have hnd := ((list_linked_iff _ _ _).mp hl).1
    rw [abm_do_work_retransmit_eq env s hl]
    exact abm_do_work_retransmit_loop_order env _ s i j qi qj ei ej hij hqi
      (nodup_not_mem_take hnd hqi) hei hoi hqj (nodup_not_mem_take hnd hqj) hej hoj hpre
  · intro ifindex hx hs hpm
    exact abm_br_event_fdb_update_entry_head _ ifindex p s e he rfl hx hs hpm
  · intro o ifindex hs hif hpm hd
    exact abm_br_event_port_down_entry_head o ifindex p s e he hs hif hpm hd
  · intro o hw h1 h2
    exact abm_do_work_send_msg_entry_head o p s e he hw h1 h2
  · intro o _ hd hc h1 h2
    exact __abm_go_dying_head o p s e he hd hc h1 h2
  · intro o out_ifindex mark _ hs h1 h2
    exact abm_ebt_hook_post_routing_seen_head o out_ifindex mark p s e he hs h1 h2
  · intro o out_ifindex mark hw hs hpm hn h1 h2
    exact abm_ebt_hook_post_routing_update_head o out_ifindex mark p s e he hs hpm hn hw h1 h2

/-- C26, worked example: with the record of flow 5 → 6 (address 1) enqueued after the record
of flow 1 → 2 (address 0), the pending-send list is 1, 0 and the pending-acknowledgement list
is empty; the drain hands the message of flow 5 → 6 to netlink before the message of flow
1 → 2, and links the record of flow 5 → 6, which it sends first, at the head of the
pending-acknowledgement list. After the drain that list is 0, 1, each record linked once, and
200000 ticks later the retransmit sweep resends flow 1 → 2 (place 0) before flow 5 → 6
(place 1). -/
theorem sweep_order_amended_witness :
    ex_s_queued.l2flow_list_msg_to_send = [1, 0]
    ∧ ex_s_queued.l2flow_list_wait_for_ack = []
    ∧ ex_s_queued.heap 1 = some { ex_rec L2FLOW_STATE_SEEN 0 8 true 2000 3 5 with
        l2flow := ex_key 5 6 }
    ∧ (abm_do_work_send_msg true (fun _ => ex_sent) ex_s_queued).nl_out
        = ex_s_queued.nl_out ++ messages_in_list_order (fun _ => ex_sent)
            ex_s_queued.abm_l3_filtering ex_s_queued.heap [1, 0]
    ∧ sent_flows (abm_do_work_send_msg true (fun _ => ex_sent) ex_s_queued)
        = [some (ex_mac 5, ex_mac 6), some (ex_mac 1, ex_mac 2)]
    ∧ (abm_do_work_send_msg_entry ex_sent 1 ex_s_queued).l2flow_list_wait_for_ack
        = 1 :: ex_s_queued.l2flow_list_wait_for_ack
    ∧ ((Op.tick 200000).apply ex_K ex_s_drained).l2flow_list_wait_for_ack = [0, 1]
    ∧ list_linked L2FLOW_FL_WAIT_ACK ((Op.tick 200000).apply ex_K ex_s_drained).heap
        ((Op.tick 200000).apply ex_K ex_s_drained).l2flow_list_wait_for_ack = true
    ∧ ∃ a b c, (abm_do_work_retransmit true (fun _ => ex_sent)
          ((Op.tick 200000).apply ex_K ex_s_drained)).nl_out
        = ((Op.tick 200000).apply ex_K ex_s_drained).nl_out ++ a
          ++ (abm_nl_send_l2flow_msg ex_sent
                ((Op.tick 200000).apply ex_K ex_s_drained).abm_l3_filtering
                (action_of_state L2FLOW_STATE_SEEN) 0
                (ex_rec L2FLOW_STATE_SEEN 1000 4 true 2000 3 5)).2.toList ++ b
          ++ (abm_nl_send_l2flow_msg ex_sent
                ((Op.tick 200000).apply ex_K ex_s_drained).abm_l3_filtering
                (action_of_state L2FLOW_STATE_SEEN) 0
                { ex_rec L2FLOW_STATE_SEEN 1000 4 true 2000 3 5 with
                  l2flow := ex_key 5 6 }).2.toList ++ c :=
  ⟨by decide, by decide, by decide,
   (sweep_order_amended (fun _ => ex_sent) ex_s_queued 1
      { ex_rec L2FLOW_STATE_SEEN 0 8 true 2000 3 5 with l2flow := ex_key 5 6 }
      (by decide)).1,
   by decide,
   (sweep_order_amended (fun _ => ex_sent) ex_s_queued 1
      { ex_rec L2FLOW_STATE_SEEN 0 8 true 2000 3 5 with l2flow := ex_key 5 6 }
      (by decide)).2.2.2.2.1 ex_sent (by decide) (by decide) (by decide),
   by decide, by decide,
   (sweep_order_amended (fun _ => ex_sent) ((Op.tick 200000).apply ex_K ex_s_drained) 0
      (ex_rec L2FLOW_STATE_SEEN 1000 4 true 2000 3 5) (by decide)).2.1 (by decide) 0 1 0 1
      (ex_rec L2FLOW_STATE_SEEN 1000 4 true 2000 3 5)
      { ex_rec L2FLOW_STATE_SEEN 1000 4 true 2000 3 5 with l2flow := ex_key 5 6 }
      (by decide) (by decide) (by decide) (by decide) (by decide) (by decide) (by decide)
      (fun _ _ => rfl)⟩

/-! ## The key through the wire format -/

theorem abm_nl_rcv_msg_l2flow_temp_send (l3_filtering : Nat) (e : l2flowTable)
    (hwf : key_well_formed l3_filtering e.l2flow) (action flags : Nat) :
    abm_nl_rcv_msg_l2flow_temp
      { action := action, flags := flags, saddr := e.l2flow.saddr, daddr := e.l2flow.daddr,
        ethertype := e.l2flow.ethertype } (l2flow_msg_attrs l3_filtering e) = e.l2flow := by
  obtain ⟨st, ts, fl, tp, te, idev, odev, mark, k⟩ := e
  obtain ⟨sa, da, et, sid, sv, cv, l3s, l3d, pr, sp, dp⟩ := k
  obtain ⟨hs, h0, h1⟩ := hwf
  have e_ip : htons ETH_P_IP = 8 := by decide
  have e_ppp : htons ETH_P_PPP_SES = 25736 := by decide
  have e_v6 : htons ETH_P_IPV6 = 56710 := by decide
  simp only [e_ip, e_ppp, e_v6, IPPROTO_TCP, IPPROTO_UDP] at hs h0 h1
  unfold abm_nl_rcv_msg_l2flow_temp l2flow_msg_attrs
  simp only [e_ip, e_ppp, e_v6, IPPROTO_TCP, IPPROTO_UDP]
  by_cases hl : l3_filtering = 0
  · obtain ⟨rfl, rfl, rfl, rfl, rfl⟩ := h0 hl
    by_cases hp : et = 25736
    · simp [nla_tb, hl, hp, nla_get_u16,
        L2FLOWA_SVLAN_TAG, L2FLOWA_CVLAN_TAG, L2FLOWA_PPP_S_ID, L2FLOWA_IIF_IDX,
        L2FLOWA_OIF_IDX, L2FLOWA_IP_SRC, L2FLOWA_IP_DST, L2FLOWA_IP_PROTO, L2FLOWA_SPORT,
        L2FLOWA_DPORT, L2FLOWA_MARK, L2FLOWA_MAX]
    · simp [nla_tb, hl, hp, hs hp, nla_get_u16,
        L2FLOWA_SVLAN_TAG, L2FLOWA_CVLAN_TAG, L2FLOWA_PPP_S_ID, L2FLOWA_IIF_IDX,
        L2FLOWA_OIF_IDX, L2FLOWA_IP_SRC, L2FLOWA_IP_DST, L2FLOWA_IP_PROTO, L2FLOWA_SPORT,
        L2FLOWA_DPORT, L2FLOWA_MARK, L2FLOWA_MAX]
  · obtain ⟨hppp, hzero, hv4, hport⟩ := h1 hl
    have hports : (pr = 17 ∨ pr = 6) ∨ (sp = 0 ∧ dp = 0) := by
      by_cases h6 : pr = 6
      · exact Or.inl (Or.inr h6)
      · by_cases h17 : pr = 17
        · exact Or.inl (Or.inl h17)
        · exact Or.inr (hport h6 h17)
    have hether : (et = 25736 ∧ pr = 0 ∧ l3s = { w0 := 0, w1 := 0, w2 := 0, w3 := 0 }
          ∧ l3d = { w0 := 0, w1 := 0, w2 := 0, w3 := 0 })
        ∨ (et = 8 ∧ sid = 0 ∧ l3s = { w0 := l3s.w0, w1 := 0, w2 := 0, w3 := 0 }
          ∧ l3d = { w0 := l3d.w0, w1 := 0, w2 := 0, w3 := 0 })
        ∨ (et = 56710 ∧ sid = 0)
        ∨ (et ≠ 25736 ∧ et ≠ 8 ∧ et ≠ 56710 ∧ sid = 0
          ∧ l3s = { w0 := 0, w1 := 0, w2 := 0, w3 := 0 }
          ∧ l3d = { w0 := 0, w1 := 0, w2 := 0, w3 := 0 }) := by
      by_cases hp : et = 25736
      · have hz := hzero (by rw [hp]; decide) (by rw [hp]; decide)
        exact Or.inl ⟨hp, hppp hp, hz.1, hz.2⟩
      · by_cases h4 : et = 8
        · exact Or.inr (Or.inl ⟨h4, hs hp, (hv4 h4).1, (hv4 h4).2⟩)
        · by_cases h6 : et = 56710
          · exact Or.inr (Or.inr (Or.inl ⟨h6, hs hp⟩))
          · exact Or.inr (Or.inr (Or.inr ⟨hp, h4, h6, hs hp, (hzero h4 h6).1, (hzero h4 h6).2⟩))
    clear hs h0 h1 hppp hzero hv4 hport
    rcases hether with ⟨rfl, rfl, rfl, rfl⟩ | ⟨rfl, rfl, h4s, h4d⟩ | ⟨rfl, rfl⟩
      | ⟨hp, h4, h6, rfl, rfl, rfl⟩
    · rcases hports with (h | h) | ⟨rfl, rfl⟩
      · cases h
      · cases h
      · simp [nla_tb, hl, nla_get_u16, nla_get_u8, nla_memcpy_all,
          L2FLOWA_SVLAN_TAG, L2FLOWA_CVLAN_TAG, L2FLOWA_PPP_S_ID, L2FLOWA_IIF_IDX,
          L2FLOWA_OIF_IDX, L2FLOWA_IP_SRC, L2FLOWA_IP_DST, L2FLOWA_IP_PROTO, L2FLOWA_SPORT,
          L2FLOWA_DPORT, L2FLOWA_MARK, L2FLOWA_MAX]
    · rw [h4s, h4d]
      rcases hports with (rfl | rfl) | ⟨rfl, rfl⟩
      · simp [nla_tb, hl, nla_get_u16, nla_get_u8, nla_memcpy_all,
          L2FLOWA_SVLAN_TAG, L2FLOWA_CVLAN_TAG, L2FLOWA_PPP_S_ID, L2FLOWA_IIF_IDX,
          L2FLOWA_OIF_IDX, L2FLOWA_IP_SRC, L2FLOWA_IP_DST, L2FLOWA_IP_PROTO, L2FLOWA_SPORT,
          L2FLOWA_DPORT, L2FLOWA_MARK, L2FLOWA_MAX]
      · simp [nla_tb, hl, nla_get_u16, nla_get_u8, nla_memcpy_all,
          L2FLOWA_SVLAN_TAG, L2FLOWA_CVLAN_TAG, L2FLOWA_PPP_S_ID, L2FLOWA_IIF_IDX,
          L2FLOWA_OIF_IDX, L2FLOWA_IP_SRC, L2FLOWA_IP_DST, L2FLOWA_IP_PROTO, L2FLOWA_SPORT,
          L2FLOWA_DPORT, L2FLOWA_MARK, L2FLOWA_MAX]
      · by_cases hpr : pr = 17 ∨ pr = 6
        · rcases hpr with rfl | rfl <;>
          simp [nla_tb, hl, nla_get_u16, nla_get_u8, nla_memcpy_all,
            L2FLOWA_SVLAN_TAG, L2FLOWA_CVLAN_TAG, L2FLOWA_PPP_S_ID, L2FLOWA_IIF_IDX,
            L2FLOWA_OIF_IDX, L2FLOWA_IP_SRC, L2FLOWA_IP_DST, L2FLOWA_IP_PROTO, L2FLOWA_SPORT,
            L2FLOWA_DPORT, L2FLOWA_MARK, L2FLOWA_MAX]
        · simp [nla_tb, hl, hpr, nla_get_u16, nla_get_u8, nla_memcpy_all,
            L2FLOWA_SVLAN_TAG, L2FLOWA_CVLAN_TAG, L2FLOWA_PPP_S_ID, L2FLOWA_IIF_IDX,
            L2FLOWA_OIF_IDX, L2FLOWA_IP_SRC, L2FLOWA_IP_DST, L2FLOWA_IP_PROTO, L2FLOWA_SPORT,
            L2FLOWA_DPORT, L2FLOWA_MARK, L2FLOWA_MAX]
    · by_cases hpr : pr = 17 ∨ pr = 6
      · rcases hpr with rfl | rfl <;>
        simp [nla_tb, hl, nla_get_u16, nla_get_u8, nla_memcpy_all,
          L2FLOWA_SVLAN_TAG, L2FLOWA_CVLAN_TAG, L2FLOWA_PPP_S_ID, L2FLOWA_IIF_IDX,
          L2FLOWA_OIF_IDX, L2FLOWA_IP_SRC, L2FLOWA_IP_DST, L2FLOWA_IP_PROTO, L2FLOWA_SPORT,
          L2FLOWA_DPORT, L2FLOWA_MARK, L2FLOWA_MAX]
      · rcases hports with h | ⟨rfl, rfl⟩
        · exact absurd h hpr
        · simp [nla_tb, hl, hpr, nla_get_u16, nla_get_u8, nla_memcpy_all,
            L2FLOWA_SVLAN_TAG, L2FLOWA_CVLAN_TAG, L2FLOWA_PPP_S_ID, L2FLOWA_IIF_IDX,
            L2FLOWA_OIF_IDX, L2FLOWA_IP_SRC, L2FLOWA_IP_DST, L2FLOWA_IP_PROTO, L2FLOWA_SPORT,
            L2FLOWA_DPORT, L2FLOWA_MARK, L2FLOWA_MAX]
    · by_cases hpr : pr = 17 ∨ pr = 6
      · rcases hpr with rfl | rfl <;>
        simp [nla_tb, hl, hp, h4, h6, nla_get_u16, nla_get_u8, nla_memcpy_all,
          L2FLOWA_SVLAN_TAG, L2FLOWA_CVLAN_TAG, L2FLOWA_PPP_S_ID, L2FLOWA_IIF_IDX,
          L2FLOWA_OIF_IDX, L2FLOWA_IP_SRC, L2FLOWA_IP_DST, L2FLOWA_IP_PROTO, L2FLOWA_SPORT,
          L2FLOWA_DPORT, L2FLOWA_MARK, L2FLOWA_MAX]
      · rcases hports with h | ⟨rfl, rfl⟩
        · exact absurd h hpr
        · simp [nla_tb, hl, hp, h4, h6, hpr, nla_get_u16, nla_get_u8, nla_memcpy_all,
            L2FLOWA_SVLAN_TAG, L2FLOWA_CVLAN_TAG, L2FLOWA_PPP_S_ID, L2FLOWA_IIF_IDX,
            L2FLOWA_OIF_IDX, L2FLOWA_IP_SRC, L2FLOWA_IP_DST, L2FLOWA_IP_PROTO, L2FLOWA_SPORT,
            L2FLOWA_DPORT, L2FLOWA_MARK, L2FLOWA_MAX]

/-- C27. For a Layer-3-filtering mode and a record whose flow key is well formed for that
mode, every message `abm_nl_send_l2flow_msg` hands to netlink for the record is an ENTRY
message from whose fixed part and attributes `abm_nl_rcv_msg` rebuilds exactly the key of the
record; so when the agent echoes the message, with whatever action and flags in the fixed
part, `abm_nl_rcv_msg` calls `abm_l2flow_msg_handle` with the key of the record, and in every
reachable state where the record is resident that lookup finds this very record. -/
theorem key_round_trip (K : Kernel) (l3_filtering : Nat) (e : l2flowTable)
    (hwf : key_well_formed l3_filtering e.l2flow) (env : NlOutcome) (action flags : Nat)
    (m : nlmsg × Int)
    (hm : (abm_nl_send_l2flow_msg env l3_filtering action flags e).2 = some m) :
    ∃ h, m.1.hdr = some h ∧ m.1.nlmsg_type = L2FLOW_MSG_ENTRY
      ∧ abm_nl_rcv_msg_l2flow_temp h m.1.attrs = e.l2flow
      ∧ (∀ env' a f s,
          abm_nl_rcv_msg K env' { m.1 with hdr := some { h with action := a, flags := f } } s
            = abm_l2flow_msg_handle K env' a f e.l2flow s)
      ∧ ∀ s p, Reachable K s → s.heap p = some e →
          abm_l2flow_find K s (abm_nl_rcv_msg_l2flow_temp h m.1.attrs) = some p := by
  have hkey := abm_nl_rcv_msg_l2flow_temp_send l3_filtering e hwf
  cases env with
  | skb_oom => cases hm
  | hdr_oom => cases hm
  | attr_overflow => cases hm
  | no_listener => cases hm
  | broadcast rc =>
    simp only [abm_nl_send_l2flow_msg, Option.some.injEq] at hm
    subst hm
    refine ⟨_, rfl, rfl, hkey action flags, fun env' a f s => ?_, fun s p hr hp => ?_⟩
    · unfold abm_nl_rcv_msg
      have ht : ¬ L2FLOW_MSG_ENTRY ≥ L2FLOW_MSG_MAX := by decide
      simp only [if_neg ht, if_true]
      rw [hkey a f]
    · rw [hkey action flags]
      exact hr.indexInv.find_of_resident hp

/-- C27, worked example: Layer-3 filtering on, a TCP flow over IPv4 with a C-VLAN tag. The
message of the record carries the addresses, the protocol and the ports, and the key rebuilt
from it is the key of the record. -/
theorem key_round_trip_witness :
    key_well_formed 1 ex_key_tcp
    ∧ (abm_nl_send_l2flow_msg (NlOutcome.broadcast 0) 1 L2FLOW_ENTRY_NEW 0
        { ex_rec L2FLOW_STATE_SEEN 0 0 true 2000 3 0 with l2flow := ex_key_tcp }).2.map
          (fun m => m.1.attrs)
      = some [(L2FLOWA_IIF_IDX, nla_data.u32 3), (L2FLOWA_OIF_IDX, nla_data.u32 0),
          (L2FLOWA_MARK, nla_data.u16 0), (L2FLOWA_SVLAN_TAG, nla_data.u16 0),
          (L2FLOWA_CVLAN_TAG, nla_data.u16 7), (L2FLOWA_IP_PROTO, nla_data.u8 6),
          (L2FLOWA_IP_SRC, nla_data.u32 167772161), (L2FLOWA_IP_DST, nla_data.u32 167772162),
          (L2FLOWA_SPORT, nla_data.u16 4660), (L2FLOWA_DPORT, nla_data.u16 80)]
    ∧ ∃ h, (abm_nl_send_l2flow_msg (NlOutcome.broadcast 0) 1 L2FLOW_ENTRY_NEW 0
          { ex_rec L2FLOW_STATE_SEEN 0 0 true 2000 3 0 with l2flow := ex_key_tcp }).2.map
            (fun m => m.1.hdr) = some (some h)
        ∧ abm_nl_rcv_msg_l2flow_temp h (l2flow_msg_attrs 1
            { ex_rec L2FLOW_STATE_SEEN 0 0 true 2000 3 0 with l2flow := ex_key_tcp })
          = ex_key_tcp := by
  refine ⟨by decide, by decide, ?_⟩
  obtain ⟨h, hh, _, hk, _⟩ := key_round_trip ex_K 1
    { ex_rec L2FLOW_STATE_SEEN 0 0 true 2000 3 0 with l2flow := ex_key_tcp } (by decide)
    (NlOutcome.broadcast 0) L2FLOW_ENTRY_NEW 0 _ rfl
  exact ⟨h, congrArg some hh, hk⟩

/-! ## A record that carries DEAD without being DYING -/

/-- The body of the port-down loop frees the record it stands on when that record carries
DEAD, is not DYING, is on the interface and has its timer pending or is in state FF. -/
theorem abm_br_event_port_down_entry_frees {K : Kernel} {s : State} (hi : IndexInv K s)
    (env : NlOutcome) (ifindex : Nat) {p : Ptr} {e : l2flowTable} (he : s.heap p = some e)
    (hs : e.state ≠ L2FLOW_STATE_DYING) (hif : e.idev_ifi = ifindex ∨ e.odev_ifi = ifindex)
    (hgo : e.timeout_pending = true ∨ e.state = L2FLOW_STATE_FF)
    (hd : e.flags &&& L2FLOW_FL_DEAD ≠ 0) :
    (abm_br_event_port_down_entry env ifindex p s).heap p = none := by
  unfold abm_br_event_port_down_entry
  have hc : e.state ≠ L2FLOW_STATE_DYING ∧ (e.idev_ifi = ifindex ∨ e.odev_ifi = ifindex) :=
    ⟨hs, hif⟩
  simp only [he, if_pos hc, if_pos hgo]
  by_cases hpm : e.flags &&& L2FLOW_FL_PENDING_MSG = 0
  · simp only [if_pos hpm]
    have hi1 : IndexInv K
        ({ s.put p
            (del_timer
              { e with
                state := L2FLOW_STATE_DYING
                flags := e.flags ||| L2FLOW_FL_PENDING_MSG }) with
          l2flow_list_msg_to_send := list_add p s.l2flow_list_msg_to_send
          work_send_msg_queued := true } : State) :=
      hi.of_sameIdx ⟨rfl, rfl, rfl, keys_put he rfl, rfl, rfl⟩
    have hd1 : (del_timer
        { e with state := L2FLOW_STATE_DYING,
                 flags := e.flags ||| L2FLOW_FL_PENDING_MSG }).flags
        &&& L2FLOW_FL_DEAD ≠ 0 := by
      simpa [del_timer] using hd
    rw [__abm_go_dying_dead
      (e := del_timer
        { e with state := L2FLOW_STATE_DYING, flags := e.flags ||| L2FLOW_FL_PENDING_MSG })
      (by simp [State.put]) hd1]
    exact (abm_l2flow_del_spec hi1 (put_heap_self _ _ _)).1
  · simp only [if_neg hpm]
    have hi1 : IndexInv K (s.put p (del_timer { e with state := L2FLOW_STATE_DYING })) :=
      hi.of_sameIdx (put_sameIdx he rfl)
    have hd1 : (del_timer { e with state := L2FLOW_STATE_DYING }).flags
        &&& L2FLOW_FL_DEAD ≠ 0 := by
      simpa [del_timer] using hd
    rw [__abm_go_dying_dead (e := del_timer { e with state := L2FLOW_STATE_DYING })
      (by simp [State.put]) hd1]
    exact (abm_l2flow_del_spec hi1 (put_heap_self _ _ _)).1

/-- A port-down event reads a freed node whenever a resident record on the interface carries
DEAD without being DYING and has its timer pending or is in state FF: the body of
`list_for_each` frees that record, or an earlier one, and the walk steps on from it. -/
theorem abm_br_event_port_down_oops {K : Kernel} {s : State} (hi : IndexInv K s) {p : Ptr}
    {e : l2flowTable} (he : s.heap p = some e) (hs : e.state ≠ L2FLOW_STATE_DYING)
    {ifindex : Nat} (hif : e.idev_ifi = ifindex ∨ e.odev_ifi = ifindex)
    (hgo : e.timeout_pending = true ∨ e.state = L2FLOW_STATE_FF)
    (hd : e.flags &&& L2FLOW_FL_DEAD ≠ 0) (env : Ptr → NlOutcome) (alloc_ok : Bool) :
    IndexInv K (abm_br_event K env alloc_ok (brevent.BREVENT_PORT_DOWN ifindex) s)
    ∧ (abm_br_event K env alloc_ok (brevent.BREVENT_PORT_DOWN ifindex) s).oops = true
    ∧ ∀ e', (abm_br_event K env alloc_ok (brevent.BREVENT_PORT_DOWN ifindex) s).heap p
        = some e' → e'.l2flow = e.l2flow := by
  unfold abm_br_event
  simp only []
  apply nested_hit (K := K) (e := e)
    (f := fun q t => abm_br_event_port_down_step (env q) ifindex q t)
    (Ψ := fun t => IndexInv K t ∧ t.heap p = some e)
    (Φ := fun t => IndexInv K t ∧ t.oops = true
      ∧ ∀ e', t.heap p = some e' → e'.l2flow = e.l2flow)
  · intro t ht
    exact ht
  · intro t ht
    exact ⟨ht.1, ht.2.2⟩
  · intro q t hq ht
    refine ⟨(abm_br_event_port_down_step_good K (env q) ifindex q t).inv ht.1, ?_⟩
    rcases abm_br_event_port_down_step_cases (env q) ifindex q t with h | h | h
    · rw [h]; exact ht.2
    · rw [h]
      exact (abm_br_event_port_down_entry_leftAlone (env q) ifindex q t hq).1.trans ht.2
    · rw [h]
      exact (abm_br_event_port_down_entry_leftAlone (env q) ifindex q t hq).1.trans ht.2
  · intro q t _ ht
    have h : abm_br_event_port_down_step (env q) ifindex q t = t := by
      unfold abm_br_event_port_down_step
      rw [if_pos ht.2.1]
    rw [h]
    exact ht
  · intro t ht
    refine ⟨(abm_br_event_port_down_step_good K (env p) ifindex p t).inv ht.1, ?_⟩
    have hfree := abm_br_event_port_down_entry_frees ht.1 (env p) ifindex ht.2 hs hif hgo hd
    unfold abm_br_event_port_down_step
    by_cases ho : t.oops = true
    · rw [if_pos ho]
      refine ⟨ho, fun e' he' => ?_⟩
      rw [ht.2] at he'
      cases he'
      rfl
    · rw [if_neg ho, if_pos (by simp [ht.2, hfree])]
      refine ⟨rfl, fun e' he' => ?_⟩
      have he'' : (abm_br_event_port_down_entry (env p) ifindex p t).heap p = some e' := he'
      rw [hfree] at he''
      cases he''
  · exact ⟨hi, he⟩

/-- C7, evaluation of the code. The record of flow 1 → 2 went dying by timeout: state DYING,
DEAD set, timer armed. A control UPDATE carrying OFFLOADED for its key then moves it to state
FF and cancels its timer, DEAD still set: a resident DEAD record that is not DYING, moved
there by an operation that is not its deletion, and with no timer left to delete it. A
port-down event for its ingress interface 3 then frees the record inside `list_for_each` and
reads the freed node. A control UPDATE carrying DENIED moves the DEAD record to LINUX. -/
theorem dead_terminal_divergence :
    Reachable ex_K ex_s_seen_dying
    ∧ ex_s_seen_dying.heap 0 = some (ex_rec L2FLOW_STATE_DYING 0 6 true 213000 3 0)
    ∧ (6 : Nat) &&& L2FLOW_FL_DEAD ≠ 0
    ∧ ex_op_offloaded.valid ex_s_seen_dying
    ∧ Reachable ex_K ex_s_dead_ff
    ∧ ex_s_dead_ff.heap 0 = some (ex_rec L2FLOW_STATE_FF 0 2 false 213000 3 0)
    ∧ (2 : Nat) &&& L2FLOW_FL_DEAD ≠ 0
    ∧ ex_s_dead_ff.oops = false
    ∧ (abm_br_event ex_K (fun _ => ex_sent) true (brevent.BREVENT_PORT_DOWN 3)
        ex_s_dead_ff).oops = true
    ∧ ((Op.msg_handle ex_sent L2FLOW_ENTRY_UPDATE L2FLOW_DENIED (ex_key 1 2)).apply ex_K
        ex_s_seen_dying).heap 0 = some (ex_rec L2FLOW_STATE_LINUX 0 2 true 202000 3 0) := by
  have hr : Reachable ex_K ex_s_dead_ff :=
    Reachable.step ex_op_offloaded _ ex_s_seen_dying_reachable trivial
  have h0 : ex_s_dead_ff.heap 0 = some (ex_rec L2FLOW_STATE_FF 0 2 false 213000 3 0) := by
    decide
  exact ⟨ex_s_seen_dying_reachable, by decide, by decide, trivial, hr, h0, by decide,
    by decide,
    (abm_br_event_port_down_oops hr.indexInv h0 (by decide) (Or.inl rfl) (Or.inr rfl)
      (by decide) (fun _ => ex_sent) true).2.1,
    by decide⟩

end ABM
